import Mathlib

/-!
Cloth particle system (`ParticleSystem.cpp`, `ParticleSystem.h`)

A shallow embedding of the cloth simulator of the repository: a square grid of
`PRTS_PER_DIM * PRTS_PER_DIM` particles, Verlet integration, sequential
relaxation of distance constraints and a collision pass against a fixed sphere.

Conventions of the embedding.

* `float` values are elements of an arbitrary linearly ordered field `F`
  (exact arithmetic).  The library square root (`sqrt`, used by
  `D3DXVec3Length`) is a parameter `sqrt : F → F`; theorems that need it to be
  an exact square root say so in their hypotheses.
* `int` values stored in the object (`particleA`, `particleB`,
  `m_constraintParticle`) are `Int`; loop counters, which only count upwards
  from a non-negative start, are `Nat` and are cast to `Int` where the source
  computes with them.  `PRTS_PER_DIM` is the parameter `N`.
* The fixed-size C arrays are lists; every subscript is bounds-checked and an
  access outside the array is the fault `Fault.outOfBounds`.
* A floating-point division whose divisor is zero yields a non-finite value,
  which exact arithmetic cannot represent: it is the fault `Fault.divByZero`
  and the run of the model stops there.
* The solver (`Initialise`, `TimeStep`) is embedded a second time in binary32
  arithmetic, the arithmetic of the type `float` (`Binary32`, `Initialise32`,
  `TimeStep32`): every operation rounds to the nearest binary32 number.  That
  model is evaluated on concrete inputs, to show where a statement of exact
  arithmetic does not carry over to the rounded arithmetic of the program.
-/

namespace Cloth

/-- The two ways a run of the model can leave exact arithmetic on in-bounds arrays. -/
inductive Fault where
  | outOfBounds
  | divByZero
  deriving DecidableEq

/-- The type `D3DXVECTOR3`: three `float` components. -/
@[ext]
structure Vec3 (F : Type) where
  x : F
  y : F
  z : F
  deriving DecidableEq

/-- The type `ClothConstraint` of `ParticleSystem.h`. -/
structure ClothConstraint (F : Type) where
  particleA : Int
  particleB : Int
  restLength : F
  deriving DecidableEq

/-- The data members of `class ParticleSystem`. -/
structure ParticleSystem (F : Type) where
  m_pos : List (Vec3 F)
  m_oldPos : List (Vec3 F)
  m_acc : List (Vec3 F)
  m_constraints : List (ClothConstraint F)
  m_constraintParticle : Int
  m_constraintPosition : Vec3 F
  m_gravity : Vec3 F
  m_timeStep : F
  deriving DecidableEq

section Definitions

variable {F : Type} [LinearOrderedField F]

namespace Vec3

/-- The vector `D3DXVECTOR3( 0.0f, 0.0f, 0.0f )`. -/
def zero : Vec3 F := ⟨0, 0, 0⟩

/-- Componentwise sum, `D3DXVECTOR3::operator +`. -/
def add (a b : Vec3 F) : Vec3 F := ⟨a.x + b.x, a.y + b.y, a.z + b.z⟩

/-- Componentwise difference, `D3DXVECTOR3::operator -`. -/
def sub (a b : Vec3 F) : Vec3 F := ⟨a.x - b.x, a.y - b.y, a.z - b.z⟩

/-- Product with a scalar on the right, `D3DXVECTOR3::operator * ( FLOAT )`. -/
def scale (a : Vec3 F) (k : F) : Vec3 F := ⟨a.x * k, a.y * k, a.z * k⟩

/-- The squared Euclidean length, the argument of the square root in `D3DXVec3Length`. -/
def lengthSq (a : Vec3 F) : F := a.x * a.x + a.y * a.y + a.z * a.z

end Vec3

instance : Add (Vec3 F) := ⟨Vec3.add⟩

instance : Sub (Vec3 F) := ⟨Vec3.sub⟩

instance : Zero (Vec3 F) := ⟨Vec3.zero⟩

/-- The D3DX function `D3DXVec3Length`: the square root of the sum of the squared components. -/
def D3DXVec3Length (sqrt : F → F) (v : Vec3 F) : F := sqrt v.lengthSq

/-- Floating-point division; a zero divisor gives a non-finite quotient, the fault `divByZero`. -/
def fdiv (a b : F) : Except Fault F :=
  if b = 0 then .error .divByZero else .ok (a / b)

/-- Reading `xs[ i ]` from a C array with an `int` subscript. -/
def readAt {α : Type} (xs : List α) (i : Int) : Except Fault α :=
  if 0 ≤ i then
    match xs[i.toNat]? with
    | some a => .ok a
    | none => .error .outOfBounds
  else .error .outOfBounds

/-- The assignment `xs[ i ] = a` to a C array with an `int` subscript. -/
def writeAt {α : Type} (xs : List α) (i : Int) (a : α) : Except Fault (List α) :=
  if 0 ≤ i ∧ i.toNat < xs.length then .ok (xs.set i.toNat a) else .error .outOfBounds

/-- The loop `for( int i = lo; i < hi; ++i ) body`, threading the state through the body. -/
def forLoop {σ : Type} (lo hi : Nat) (body : Nat → σ → Except Fault σ) (s : σ) : Except Fault σ :=
  (List.range' lo (hi - lo)).foldlM (fun s i => body i s) s

/-- The constant `NUM_PARTICLES = PRTS_PER_DIM * PRTS_PER_DIM`. -/
def NUM_PARTICLES (N : Nat) : Nat := N * N

/-- The constant `NUM_CONSTRAINTS` of `ParticleSystem.h`, computed in `int`. -/
def NUM_CONSTRAINTS (N : Nat) : Int :=
  (((N : Int) - 1) * (N : Int) * 2) + (((N : Int) - 1) * ((N : Int) - 1)) +
    (((N : Int) - 2) * (N : Int) * 2)

/-- The constant `NUM_ITERATIONS`. -/
def NUM_ITERATIONS : Nat := 1

/-- The constant `SPHERE_RADIUS = 0.3f`. -/
def SPHERE_RADIUS : F := 3 / 10

/-- The constant `EDGE_CORRECTION = 0.3f / PRTS_PER_DIM` (a division by a positive constant). -/
def EDGE_CORRECTION (N : Nat) : F := (3 / 10) / (N : F)

/-- The constant `SPHERE_POSITION = ( 0, - SPHERE_RADIUS - EDGE_CORRECTION, 0 )`. -/
def SPHERE_POSITION (N : Nat) : Vec3 F := ⟨0, -SPHERE_RADIUS - EDGE_CORRECTION N, 0⟩

/-- The array sizes fixed by the declarations in `ParticleSystem.h`. -/
def WellFormed (N : Nat) (s : ParticleSystem F) : Prop :=
  s.m_pos.length = NUM_PARTICLES N ∧ s.m_oldPos.length = NUM_PARTICLES N ∧
    s.m_acc.length = NUM_PARTICLES N ∧ (s.m_constraints.length : Int) = NUM_CONSTRAINTS N

instance (N : Nat) (s : ParticleSystem F) : Decidable (WellFormed N s) :=
  inferInstanceAs (Decidable (_ ∧ _ ∧ _ ∧ _))

/-! ## `ParticleSystem::Initialise` -/

/-- The body of the particle loop of `Initialise` (source lines 65-82). -/
def initParticle (N : Nat) (PARTICLE_SPACE : F) (row column : Nat) (s : ParticleSystem F) :
    Except Fault (ParticleSystem F) := do
  let v0 : Vec3 F := ⟨PARTICLE_SPACE * (column : F), 0, PARTICLE_SPACE * (row : F)⟩
  let vParticlePosition : Vec3 F := ⟨v0.x - 1 / 2, v0.y, v0.z - 1 / 2⟩
  let index : Int := ((row : Int) * (N : Int)) + (column : Int)
  let pos ← writeAt s.m_pos index vParticlePosition
  let oldPos ← writeAt s.m_oldPos index vParticlePosition
  let acc ← writeAt s.m_acc index (0 : Vec3 F)
  let s1 : ParticleSystem F := { s with m_pos := pos, m_oldPos := oldPos, m_acc := acc }
  if s1.m_constraintParticle = index then
    pure { s1 with m_constraintPosition := vParticlePosition }
  else
    pure s1

/-- The particle loops of `Initialise` (source lines 61-84). -/
def initParticles (N : Nat) (PARTICLE_SPACE : F) (s : ParticleSystem F) :
    Except Fault (ParticleSystem F) :=
  forLoop 0 N (fun row s =>
    forLoop 0 N (fun column s => initParticle N PARTICLE_SPACE row column s) s) s

/-- The statement `m_constraints[ constraintIndex++ ] = c`, on the pair of the
constraint array and `constraintIndex`. -/
def pushConstraint (c : ClothConstraint F) (st : List (ClothConstraint F) × Nat) :
    Except Fault (List (ClothConstraint F) × Nat) := do
  let arr ← writeAt st.1 (st.2 : Int) c
  pure (arr, st.2 + 1)

/-- First set, rows: one step along a row (source lines 91-103). -/
def initStructuralRows (N : Nat) (PARTICLE_SPACE : F) (st : List (ClothConstraint F) × Nat) :
    Except Fault (List (ClothConstraint F) × Nat) :=
  forLoop 0 N (fun row st =>
    forLoop 0 (N - 1) (fun column st =>
      let particleNumber : Int := ((row : Int) * (N : Int)) + (column : Int)
      pushConstraint ⟨particleNumber, particleNumber + 1, PARTICLE_SPACE⟩ st) st) st

/-- First set, columns: one step along a column (source lines 106-118). -/
def initStructuralColumns (N : Nat) (PARTICLE_SPACE : F) (st : List (ClothConstraint F) × Nat) :
    Except Fault (List (ClothConstraint F) × Nat) :=
  forLoop 0 (N - 1) (fun row st =>
    forLoop 0 N (fun column st =>
      let particleNumber : Int := ((row : Int) * (N : Int)) + (column : Int)
      pushConstraint ⟨particleNumber, particleNumber + (N : Int), PARTICLE_SPACE⟩ st) st) st

/-- Second set: one step along one diagonal (source lines 125-137). -/
def initShear (N : Nat) (diagonalLength : F) (st : List (ClothConstraint F) × Nat) :
    Except Fault (List (ClothConstraint F) × Nat) :=
  forLoop 0 (N - 1) (fun row st =>
    forLoop 1 N (fun column st =>
      let particleNumber : Int := ((row : Int) * (N : Int)) + (column : Int)
      pushConstraint ⟨particleNumber, (particleNumber + (N : Int)) - 1, diagonalLength⟩ st) st) st

/-- Two steps along a row (source lines 141-153). -/
def initBendRows (N : Nat) (PARTICLE_SPACE : F) (st : List (ClothConstraint F) × Nat) :
    Except Fault (List (ClothConstraint F) × Nat) :=
  forLoop 0 N (fun row st =>
    forLoop 0 (N - 2) (fun column st =>
      let particleNumber : Int := ((row : Int) * (N : Int)) + (column : Int)
      pushConstraint ⟨particleNumber, particleNumber + 2, PARTICLE_SPACE * 2⟩ st) st) st

/-- Two steps along a column (source lines 156-168). -/
def initBendColumns (N : Nat) (PARTICLE_SPACE : F) (st : List (ClothConstraint F) × Nat) :
    Except Fault (List (ClothConstraint F) × Nat) :=
  forLoop 0 (N - 2) (fun row st =>
    forLoop 0 N (fun column st =>
      let particleNumber : Int := ((row : Int) * (N : Int)) + (column : Int)
      pushConstraint ⟨particleNumber, particleNumber + (N : Int) + (N : Int),
        PARTICLE_SPACE * 2⟩ st) st) st

/-- The constraint part of `Initialise` (source lines 86-168): the five loop
nests in source order, starting from `constraintIndex = 0`; the result is the
constraint array together with the final value of `constraintIndex`. -/
def initConstraints (sqrt : F → F) (N : Nat) (PARTICLE_SPACE : F)
    (arr : List (ClothConstraint F)) : Except Fault (List (ClothConstraint F) × Nat) := do
  let st ← initStructuralRows N PARTICLE_SPACE (arr, 0)
  let st ← initStructuralColumns N PARTICLE_SPACE st
  let diagonalLength : F :=
    sqrt (PARTICLE_SPACE * PARTICLE_SPACE + PARTICLE_SPACE * PARTICLE_SPACE)
  let st ← initShear N diagonalLength st
  let st ← initBendRows N PARTICLE_SPACE st
  initBendColumns N PARTICLE_SPACE st

/-- The value `PARTICLE_SPACE = SURFACE_SIZE / ( PRTS_PER_DIM - 1 )` with `SURFACE_SIZE = 1.0f`. -/
def particleSpace (N : Nat) : Except Fault F :=
  fdiv 1 ((((N : Int) - 1 : Int)) : F)

/-- The value `( PRTS_PER_DIM / 2 ) * PRTS_PER_DIM + ( ( PRTS_PER_DIM - 1 ) / 2 )`
given to `m_constraintParticle`, with the truncating division of `int`. -/
def centreParticle (N : Nat) : Int :=
  (Int.tdiv (N : Int) 2) * (N : Int) + Int.tdiv ((N : Int) - 1) 2

/-- The method `ParticleSystem::Initialise`, returning also the final `constraintIndex`. -/
def InitialiseIndexed (sqrt : F → F) (N : Nat) (s : ParticleSystem F) :
    Except Fault (ParticleSystem F × Nat) := do
  let PARTICLE_SPACE ← particleSpace N
  let s1 : ParticleSystem F := { s with m_constraintParticle := centreParticle N }
  let s2 ← initParticles N PARTICLE_SPACE s1
  let st ← initConstraints sqrt N PARTICLE_SPACE s2.m_constraints
  pure ({ s2 with m_constraints := st.1 }, st.2)

/-- The method `ParticleSystem::Initialise`. -/
def Initialise (sqrt : F → F) (N : Nat) (s : ParticleSystem F) :
    Except Fault (ParticleSystem F) := do
  let r ← InitialiseIndexed sqrt N s
  pure r.1

/-! ## The constructor and `SetTimeStep` -/

/-- The inline method `SetTimeStep` of `ParticleSystem.h`. -/
def SetTimeStep (s : ParticleSystem F) (timeStep : F) : ParticleSystem F :=
  { s with m_timeStep := timeStep }

/-- The constructor `ParticleSystem::ParticleSystem()`; `mem` is the content of the
object's storage before construction. -/
def construct (sqrt : F → F) (N : Nat) (mem : ParticleSystem F) :
    Except Fault (ParticleSystem F) :=
  Initialise sqrt N { mem with m_gravity := ⟨0, -2, 0⟩, m_timeStep := 2 / 1000 }

/-! ## `ParticleSystem::TimeStep` -/

/-- The body of the loop of `AccumulateForces` (source line 380). -/
def accumulateParticle (particle : Nat) (s : ParticleSystem F) :
    Except Fault (ParticleSystem F) := do
  let acc ← writeAt s.m_acc (particle : Int) s.m_gravity
  pure { s with m_acc := acc }

/-- The method `ParticleSystem::AccumulateForces`. -/
def AccumulateForces (N : Nat) (s : ParticleSystem F) : Except Fault (ParticleSystem F) :=
  forLoop 0 (NUM_PARTICLES N) accumulateParticle s

/-- The body of the loop of `Verlet` (source lines 302-312). -/
def verletParticle (i : Nat) (s : ParticleSystem F) : Except Fault (ParticleSystem F) := do
  let vPos ← readAt s.m_pos (i : Int)
  let vTemp := vPos
  let vOld ← readAt s.m_oldPos (i : Int)
  let vAcc ← readAt s.m_acc (i : Int)
  let pos ← writeAt s.m_pos (i : Int)
    (vPos + (vPos - vOld + (vAcc.scale s.m_timeStep).scale s.m_timeStep))
  let oldPos ← writeAt s.m_oldPos (i : Int) vTemp
  pure { s with m_pos := pos, m_oldPos := oldPos }

/-- The method `ParticleSystem::Verlet`. -/
def Verlet (N : Nat) (s : ParticleSystem F) : Except Fault (ParticleSystem F) :=
  forLoop 0 (NUM_PARTICLES N) verletParticle s

/-- The body of the distance loop of `SatisfyConstraints` on the position array
(source lines 329-340).  `v1` and `v2` are references into `m_pos`, so the
second update reads the array after the first. -/
def relaxConstraint (sqrt : F → F) (c : ClothConstraint F) (pos : List (Vec3 F)) :
    Except Fault (List (Vec3 F)) := do
  let v1 ← readAt pos c.particleA
  let v2 ← readAt pos c.particleB
  let vDelta := v2 - v1
  let deltaLength := D3DXVec3Length sqrt vDelta
  let difference ← fdiv (deltaLength - c.restLength) deltaLength
  let difference := difference * (1 / 2)
  let pos1 ← writeAt pos c.particleA (v1 + vDelta.scale difference)
  let v2 ← readAt pos1 c.particleB
  writeAt pos1 c.particleB (v2 - vDelta.scale difference)

/-- One iteration of the distance loop of `SatisfyConstraints` (source lines 328-340). -/
def relaxStep (sqrt : F → F) (constraint : Nat) (s : ParticleSystem F) :
    Except Fault (ParticleSystem F) := do
  let c ← readAt s.m_constraints (constraint : Int)
  let pos ← relaxConstraint sqrt c s.m_pos
  pure { s with m_pos := pos }

/-- The distance loop of `SatisfyConstraints` (source lines 325-341). -/
def satisfyDistances (sqrt : F → F) (N : Nat) (s : ParticleSystem F) :
    Except Fault (ParticleSystem F) :=
  forLoop 0 (NUM_CONSTRAINTS N).toNat (relaxStep sqrt) s

/-- The body of the sphere loop of `SatisfyConstraints` on the position array
(source lines 347-362). -/
def sphereParticle (sqrt : F → F) (N : Nat) (particle : Nat) (pos : List (Vec3 F)) :
    Except Fault (List (Vec3 F)) := do
  let v1 ← readAt pos (particle : Int)
  let v2 : Vec3 F := SPHERE_POSITION N
  let minLength : F := SPHERE_RADIUS + EDGE_CORRECTION N
  let vDelta := v2 - v1
  let deltaLength := D3DXVec3Length sqrt vDelta
  if deltaLength < minLength then do
    let difference ← fdiv (deltaLength - minLength) deltaLength
    writeAt pos (particle : Int) (v1 + vDelta.scale difference)
  else
    pure pos

/-- One iteration of the sphere loop of `SatisfyConstraints`. -/
def sphereStep (sqrt : F → F) (N : Nat) (particle : Nat) (s : ParticleSystem F) :
    Except Fault (ParticleSystem F) := do
  let pos ← sphereParticle sqrt N particle s.m_pos
  pure { s with m_pos := pos }

/-- The sphere loop of `SatisfyConstraints` (source lines 344-364). -/
def satisfySphere (sqrt : F → F) (N : Nat) (s : ParticleSystem F) :
    Except Fault (ParticleSystem F) :=
  forLoop 0 (NUM_PARTICLES N) (sphereStep sqrt N) s

/-- One iteration of the outer loop of `SatisfyConstraints` (source lines 324-364). -/
def iterationStep (sqrt : F → F) (N : Nat) (_iteration : Nat) (s : ParticleSystem F) :
    Except Fault (ParticleSystem F) := do
  let s ← satisfyDistances sqrt N s
  satisfySphere sqrt N s

/-- The method `ParticleSystem::SatisfyConstraints`; the assignment that pins
`m_constraintParticle` is commented out in the source and is not executed. -/
def SatisfyConstraints (sqrt : F → F) (N : Nat) (s : ParticleSystem F) :
    Except Fault (ParticleSystem F) :=
  forLoop 0 NUM_ITERATIONS (iterationStep sqrt N) s

/-- The method `ParticleSystem::TimeStep`. -/
def TimeStep (sqrt : F → F) (N : Nat) (s : ParticleSystem F) : Except Fault (ParticleSystem F) := do
  let s ← AccumulateForces N s
  let s ← Verlet N s
  SatisfyConstraints sqrt N s

/-- The result of `k` successive calls of `TimeStep`. -/
def timeSteps (sqrt : F → F) (N : Nat) : Nat → ParticleSystem F → Except Fault (ParticleSystem F)
  | 0, s => pure s
  | k + 1, s => do
    let s ← TimeStep sqrt N s
    timeSteps sqrt N k s

/-! ## Closed forms used to state what `Initialise` produces -/

/-- The values a loop nest `for row in [lo, hi) / for column in [lo', hi')` produces, in loop order. -/
def nest {β : Type} (lo hi lo' hi' : Nat) (mk : Nat → Nat → β) : List β :=
  (List.range' lo (hi - lo)).flatMap (fun row => (List.range' lo' (hi' - lo')).map (mk row))

/-- A sequence of statements `m_constraints[ constraintIndex++ ] = c`, one per element of `cs`. -/
def pushAll (cs : List (ClothConstraint F)) (st : List (ClothConstraint F) × Nat) :
    Except Fault (List (ClothConstraint F) × Nat) :=
  cs.foldlM (fun st c => pushConstraint c st) st

/-- The constraint of the first set, rows, for the grid cell `(row, column)`. -/
def structuralRowConstraint (N : Nat) (ps : F) (row column : Nat) : ClothConstraint F :=
  ⟨(row : Int) * (N : Int) + (column : Int), (row : Int) * (N : Int) + (column : Int) + 1, ps⟩

/-- The constraint of the first set, columns, for the grid cell `(row, column)`. -/
def structuralColumnConstraint (N : Nat) (ps : F) (row column : Nat) : ClothConstraint F :=
  ⟨(row : Int) * (N : Int) + (column : Int), (row : Int) * (N : Int) + (column : Int) + (N : Int), ps⟩

/-- The constraint of the second set for the grid cell `(row, column)`. -/
def shearConstraint (N : Nat) (d : F) (row column : Nat) : ClothConstraint F :=
  ⟨(row : Int) * (N : Int) + (column : Int),
    ((row : Int) * (N : Int) + (column : Int) + (N : Int)) - 1, d⟩

/-- The two-step constraint along a row for the grid cell `(row, column)`. -/
def bendRowConstraint (N : Nat) (ps : F) (row column : Nat) : ClothConstraint F :=
  ⟨(row : Int) * (N : Int) + (column : Int), (row : Int) * (N : Int) + (column : Int) + 2, ps * 2⟩

/-- The two-step constraint along a column for the grid cell `(row, column)`. -/
def bendColumnConstraint (N : Nat) (ps : F) (row column : Nat) : ClothConstraint F :=
  ⟨(row : Int) * (N : Int) + (column : Int),
    (row : Int) * (N : Int) + (column : Int) + (N : Int) + (N : Int), ps * 2⟩

/-- The constraint list of the rest configuration: the five loop nests of `Initialise`
in source order, for particle spacing `ps`. -/
def constraintList (sqrt : F → F) (N : Nat) (ps : F) : List (ClothConstraint F) :=
  nest 0 N 0 (N - 1) (structuralRowConstraint N ps) ++
  (nest 0 (N - 1) 0 N (structuralColumnConstraint N ps) ++
  (nest 0 (N - 1) 1 N (shearConstraint N (sqrt (ps * ps + ps * ps))) ++
  (nest 0 N 0 (N - 2) (bendRowConstraint N ps) ++
  nest 0 (N - 2) 0 N (bendColumnConstraint N ps))))

/-- The exact value of `PARTICLE_SPACE` for grid size `N`. -/
def spacing (N : Nat) : F := 1 / ((((N : Int) - 1 : Int)) : F)

/-- The rest position of the particle with index `i` for particle spacing `ps`:
column `i % N`, row `i / N`. -/
def gridPosition (N : Nat) (ps : F) (i : Nat) : Vec3 F :=
  ⟨ps * ((i % N : Nat) : F) - 1 / 2, 0, ps * ((i / N : Nat) : F) - 1 / 2⟩

/-- The position array of the rest configuration. -/
def restPositions (N : Nat) (ps : F) : List (Vec3 F) :=
  (List.range (N * N)).map (gridPosition N ps)

/-- The rest configuration for particle spacing `ps`, with the given gravity and time step. -/
def restState (sqrt : F → F) (N : Nat) (ps : F) (gravity : Vec3 F) (timeStep : F) :
    ParticleSystem F where
  m_pos := restPositions N ps
  m_oldPos := restPositions N ps
  m_acc := List.replicate (N * N) 0
  m_constraints := constraintList sqrt N ps
  m_constraintParticle := centreParticle N
  m_constraintPosition := gridPosition N ps (centreParticle N).toNat
  m_gravity := gravity
  m_timeStep := timeStep

/-- Loop invariant of the particle loops of `Initialise`, started in `s0`: after `k`
iterations the first `k` slots of the three particle arrays hold the rest values. -/
def InitInv (N : Nat) (ps : F) (s0 : ParticleSystem F) (k : Nat) (s : ParticleSystem F) : Prop :=
  s.m_pos.length = N * N ∧ s.m_oldPos.length = N * N ∧ s.m_acc.length = N * N ∧
  (∀ i, i < k → s.m_pos[i]? = some (gridPosition N ps i) ∧
    s.m_oldPos[i]? = some (gridPosition N ps i) ∧ s.m_acc[i]? = some 0) ∧
  s.m_constraints = s0.m_constraints ∧ s.m_constraintParticle = centreParticle N ∧
  s.m_gravity = s0.m_gravity ∧ s.m_timeStep = s0.m_timeStep ∧
  ((centreParticle N).toNat < k →
    s.m_constraintPosition = gridPosition N ps (centreParticle N).toNat)

/-- An object whose storage holds zeros everywhere: one possible content of the
storage before the constructor runs. -/
def blankState (N : Nat) : ParticleSystem F where
  m_pos := List.replicate (N * N) 0
  m_oldPos := List.replicate (N * N) 0
  m_acc := List.replicate (N * N) 0
  m_constraints := List.replicate (NUM_CONSTRAINTS N).toNat ⟨0, 0, 0⟩
  m_constraintParticle := 0
  m_constraintPosition := 0
  m_gravity := 0
  m_timeStep := 0

/-- The grid relation between the two ends `(r, c)` and `(r', c')` of a constraint of
rest length `len`, for particle spacing `ps`: one of the five loop nests of `Initialise`. -/
def ConstraintKind (sqrt : F → F) (ps : F) (r c r' c' : Nat) (len : F) : Prop :=
  (r' = r ∧ c' = c + 1 ∧ len = ps) ∨ (r' = r + 1 ∧ c' = c ∧ len = ps) ∨
  (r' = r + 1 ∧ c' + 1 = c ∧ len = sqrt (ps * ps + ps * ps)) ∨
  (r' = r ∧ c' = c + 2 ∧ len = ps * 2) ∨ (r' = r + 2 ∧ c' = c ∧ len = ps * 2)

/-- The parameter `sqrt` is an exact square root on the non-negative elements. -/
def ExactSqrt (sqrt : F → F) : Prop :=
  (∀ x, 0 ≤ x → sqrt x * sqrt x = x) ∧ ∀ x, 0 ≤ sqrt x

/-- The value `vPos + ( vPos - vOld + vAcc * m_timeStep * m_timeStep )` that `Verlet`
stores in the position slot of a particle. -/
def verletPosition (dt : F) (pos old acc : Vec3 F) : Vec3 F :=
  pos + (pos - old + (acc.scale dt).scale dt)

/-- The state `s'` differs from `s` in the position array only, which keeps its size. -/
def SameExceptPos (s s' : ParticleSystem F) : Prop :=
  s'.m_pos.length = s.m_pos.length ∧ s'.m_oldPos = s.m_oldPos ∧ s'.m_acc = s.m_acc ∧
  s'.m_constraints = s.m_constraints ∧ s'.m_constraintParticle = s.m_constraintParticle ∧
  s'.m_constraintPosition = s.m_constraintPosition ∧ s'.m_gravity = s.m_gravity ∧
  s'.m_timeStep = s.m_timeStep

/-- Loop invariant of `AccumulateForces` started in `s`, after `k` iterations. -/
def AccInv (N : Nat) (s : ParticleSystem F) (k : Nat) (t : ParticleSystem F) : Prop :=
  t.m_acc.length = NUM_PARTICLES N ∧ (∀ i, i < k → t.m_acc[i]? = some s.m_gravity) ∧
  ({ t with m_acc := s.m_acc } : ParticleSystem F) = s

/-- Loop invariant of `Verlet` started in `s`, after `k` iterations. -/
def VerletInv (N : Nat) (s : ParticleSystem F) (k : Nat) (t : ParticleSystem F) : Prop :=
  t.m_pos.length = NUM_PARTICLES N ∧ t.m_oldPos.length = NUM_PARTICLES N ∧
  (∀ i (_ : i < NUM_PARTICLES N), t.m_pos[i]? = if i < k then
      some (verletPosition s.m_timeStep (s.m_pos[i]?.getD 0) (s.m_oldPos[i]?.getD 0)
        (s.m_acc[i]?.getD 0))
    else s.m_pos[i]?) ∧
  (∀ i, t.m_oldPos[i]? = if i < k then s.m_pos[i]? else s.m_oldPos[i]?) ∧
  ({ t with m_pos := s.m_pos, m_oldPos := s.m_oldPos } : ParticleSystem F) = s

/-- The collision radius `SPHERE_RADIUS + EDGE_CORRECTION`, the value of `minLength`
in the sphere loop. -/
def sphereMinLength (N : Nat) : F := SPHERE_RADIUS + EDGE_CORRECTION N

/-- The position array after the correction of one distance constraint between the slots
`i` and `j`, which hold `a` and `b`, by `difference` (already halved). -/
def relaxedPositions (pos : List (Vec3 F)) (i j : Nat) (a b : Vec3 F) (difference : F) :
    List (Vec3 F) :=
  (pos.set i (a + (b - a).scale difference)).set j
    (((pos.set i (a + (b - a).scale difference))[j]?.getD 0) - (b - a).scale difference)

/-- The rest grid moved by the vector `t`. -/
def translatedRest (N : Nat) (ps : F) (t : Vec3 F) : List (Vec3 F) :=
  (restPositions N ps).map (fun p => p + t)

/-- Loop invariant of the sphere pass started in `s`: the particles already visited are
at least the collision radius away from the centre of the sphere. -/
def SphereInv (sqrt : F → F) (N : Nat) (s : ParticleSystem F) (k : Nat) (t : ParticleSystem F) :
    Prop :=
  SameExceptPos s t ∧ ∀ i, i < k → ∃ q, t.m_pos[i]? = some q ∧
    sphereMinLength N ≤ D3DXVec3Length sqrt (SPHERE_POSITION N - q)

/-- The state one `TimeStep` makes of the freshly constructed object when no particle
enters the collision radius: the grid has moved by `gravity * dt^2 = (0, -2 * 0.002^2, 0)`,
the old positions are the rest positions and the accelerations are the gravity vector. -/
def afterFirstStep (sqrt : F → F) (N : Nat) : ParticleSystem F :=
  { restState sqrt N (spacing N) ⟨0, -2, 0⟩ (2 / 1000) with
    m_pos := translatedRest N (spacing N) ⟨0, -2 * (2 / 1000) * (2 / 1000), 0⟩
    m_acc := List.replicate (NUM_PARTICLES N) ⟨0, -2, 0⟩ }

/-- The states an object can be in: the result of the constructor, and what calls of
`TimeStep`, `SetTimeStep` and `Initialise` that complete make of a reachable state. -/
inductive Reachable (sqrt : F → F) (N : Nat) : ParticleSystem F → Prop where
  | construct (mem s : ParticleSystem F) : WellFormed N mem → construct sqrt N mem = .ok s →
      Reachable sqrt N s
  | timeStep (s s' : ParticleSystem F) : Reachable sqrt N s → TimeStep sqrt N s = .ok s' →
      Reachable sqrt N s'
  | setTimeStep (s : ParticleSystem F) (timeStep : F) : Reachable sqrt N s →
      Reachable sqrt N (SetTimeStep s timeStep)
  | initialise (s s' : ParticleSystem F) : Reachable sqrt N s → Initialise sqrt N s = .ok s' →
      Reachable sqrt N s'

/-! ## `ParticleSystem::FillIndexBuffer` -/

/-- The result type `HRESULT`, restricted to the two values the methods return. -/
inductive HRESULT where
  | S_OK
  | E_FAIL
  deriving DecidableEq

/-- The constant `NUM_INDICES = ( PRTS_PER_DIM - 1 ) * ( PRTS_PER_DIM - 1 ) * 6`, in `int`. -/
def NUM_INDICES (N : Nat) : Int := ((N : Int) - 1) * ((N : Int) - 1) * 6

/-- The statement `pBuffer[ currentIndex++ ] = v`, on the pair of the index buffer and
`currentIndex`. -/
def pushIndex (v : Int) (st : List Int × Nat) : Except Fault (List Int × Nat) := do
  let buf ← writeAt st.1 (st.2 : Int) v
  pure (buf, st.2 + 1)

/-- The body of the loops of `FillIndexBuffer` (source lines 263-273): the six indices of
the two triangles of the cell `(row, column)`. -/
def fillCell (N : Nat) (row column : Nat) (st : List Int × Nat) :
    Except Fault (List Int × Nat) := do
  let firstIndex : Int := ((row : Int) * (N : Int)) + (column : Int)
  let st ← pushIndex firstIndex st
  let st ← pushIndex (firstIndex + 1) st
  let st ← pushIndex (firstIndex + (N : Int)) st
  let st ← pushIndex (firstIndex + (N : Int)) st
  let st ← pushIndex (firstIndex + 1) st
  pushIndex (firstIndex + (N : Int) + 1) st

/-- The loops of `FillIndexBuffer` (source lines 255-275) on the locked buffer, starting
from `currentIndex = 0`; the result is the buffer with the final value of `currentIndex`. -/
def fillIndices (N : Nat) (pBuffer : List Int) : Except Fault (List Int × Nat) :=
  forLoop 0 (N - 1) (fun row st =>
    forLoop 0 (N - 1) (fun column st => fillCell N row column st) st) (pBuffer, 0)

/-- The method `ParticleSystem::FillIndexBuffer`.  The argument is the outcome of
`pIB->Lock`: `none` when locking fails, the content of the buffer otherwise; the result
is the returned `HRESULT` with the content of the buffer after `Unlock`. -/
def FillIndexBuffer (N : Nat) (lock : Option (List Int)) :
    Except Fault (HRESULT × Option (List Int)) :=
  match lock with
  | none => pure (HRESULT.E_FAIL, none)
  | some pBuffer => do
    let st ← fillIndices N pBuffer
    pure (HRESULT.S_OK, some st.1)

/-- The six indices written for the cell `(row, column)`, in the order written. -/
def cellIndices (N : Nat) (row column : Nat) : List Int :=
  [(row : Int) * (N : Int) + (column : Int),
   (row : Int) * (N : Int) + (column : Int) + 1,
   (row : Int) * (N : Int) + (column : Int) + (N : Int),
   (row : Int) * (N : Int) + (column : Int) + (N : Int),
   (row : Int) * (N : Int) + (column : Int) + 1,
   (row : Int) * (N : Int) + (column : Int) + (N : Int) + 1]

/-- A sequence of statements `pBuffer[ currentIndex++ ] = v`, one per element of `vs`. -/
def pushIndices (vs : List Int) (st : List Int × Nat) : Except Fault (List Int × Nat) :=
  vs.foldlM (fun st v => pushIndex v st) st

/-- The content of the index buffer after `FillIndexBuffer`: the six indices of every
cell, in loop order. -/
def indexList (N : Nat) : List Int :=
  (nest 0 (N - 1) 0 (N - 1) (cellIndices N)).flatten

/-- The shear constraints in the constraint array: the `(N-1)^2` entries that follow the
`2*N*(N-1)` entries of the first set. -/
def shearSegment (N : Nat) (cs : List (ClothConstraint F)) : List (ClothConstraint F) :=
  (cs.drop (N * (N - 1) + N * (N - 1))).take ((N - 1) * (N - 1))

/-! ## `ParticleSystem::FillVertexBuffer` and `GetFaceNormal` -/

/-- The type `CLOTH_VERTEX` of `ParticleSystem.h`. -/
structure CLOTH_VERTEX (F : Type) where
  p : Vec3 F
  n : Vec3 F
  tu : F
  tv : F
  deriving DecidableEq

/-- The D3DX function `D3DXVec3Cross`: the cross product of two vectors. -/
def D3DXVec3Cross (a b : Vec3 F) : Vec3 F :=
  ⟨a.y * b.z - a.z * b.y, a.z * b.x - a.x * b.z, a.x * b.y - a.y * b.x⟩

/-- The method `ParticleSystem::GetFaceNormal`; the library function `D3DXVec3Normalize`
is the parameter `normalize`. -/
def GetFaceNormal (normalize : Vec3 F → Vec3 F) (v1 v2 v3 : Vec3 F) : Vec3 F :=
  let e1 := v2 - v1
  let e2 := v3 - v2
  let vNormal := D3DXVec3Cross e1 e2
  normalize vNormal

/-- The body of the loops of `FillVertexBuffer` (source lines 192-231) on the position
array and the locked buffer. -/
def fillVertex (normalize : Vec3 F → Vec3 F) (N : Nat) (TEXTURE_SPACE : F)
    (pos : List (Vec3 F)) (row column : Nat) (pBuffer : List (CLOTH_VERTEX F)) :
    Except Fault (List (CLOTH_VERTEX F)) := do
  let particle : Int := (column : Int) + ((row : Int) * (N : Int))
  let vertexNormal : Vec3 F := ⟨0, 0, 0⟩
  let vertexNormal ←
    (if (column : Int) ≠ 0 ∧ (row : Int) ≠ 0 then do
      let a ← readAt pos particle
      let b ← readAt pos (particle - (N : Int))
      let c ← readAt pos (particle - 1)
      pure (vertexNormal + GetFaceNormal normalize a b c)
    else pure vertexNormal)
  let vertexNormal ←
    (if (column : Int) ≠ (N : Int) - 1 ∧ (row : Int) ≠ 0 then do
      let a ← readAt pos particle
      let b ← readAt pos (particle + 1)
      let c ← readAt pos (particle - (N : Int))
      pure (vertexNormal + GetFaceNormal normalize a b c)
    else pure vertexNormal)
  let vertexNormal ←
    (if (column : Int) ≠ 0 ∧ (row : Int) ≠ (N : Int) - 1 then do
      let a ← readAt pos particle
      let b ← readAt pos (particle - 1)
      let c ← readAt pos (particle + (N : Int))
      pure (vertexNormal + GetFaceNormal normalize a b c)
    else pure vertexNormal)
  let vertexNormal ←
    (if (column : Int) ≠ (N : Int) - 1 ∧ (row : Int) ≠ (N : Int) - 1 then do
      let a ← readAt pos particle
      let b ← readAt pos (particle + (N : Int))
      let c ← readAt pos (particle + 1)
      pure (vertexNormal + GetFaceNormal normalize a b c)
    else pure vertexNormal)
  let vertexNormal := normalize vertexNormal
  let p ← readAt pos particle
  let v : CLOTH_VERTEX F :=
    { p := p, n := vertexNormal, tu := TEXTURE_SPACE * (column : F),
      tv := TEXTURE_SPACE * (row : F) }
  writeAt pBuffer particle v

/-- The value `TEXTURE_SPACE = TEXTURE_SIZE / ( PRTS_PER_DIM - 1 )` with `TEXTURE_SIZE = 1.0f`. -/
def textureSpace (N : Nat) : Except Fault F :=
  fdiv 1 ((((N : Int) - 1 : Int)) : F)

/-- The part of `FillVertexBuffer` between `Lock` and `Unlock` (source lines 183-233). -/
def fillVertices (normalize : Vec3 F → Vec3 F) (N : Nat) (s : ParticleSystem F)
    (pBuffer : List (CLOTH_VERTEX F)) : Except Fault (List (CLOTH_VERTEX F)) := do
  let TEXTURE_SPACE ← textureSpace N
  forLoop 0 N (fun row buf =>
    forLoop 0 N (fun column buf =>
      fillVertex normalize N TEXTURE_SPACE s.m_pos row column buf) buf) pBuffer

/-- The method `ParticleSystem::FillVertexBuffer`.  The argument `lock` is the outcome of
`pVB->Lock`: `none` when locking fails, the content of the buffer otherwise; the result
is the returned `HRESULT` with the content of the buffer after `Unlock`. -/
def FillVertexBuffer (normalize : Vec3 F → Vec3 F) (N : Nat) (s : ParticleSystem F)
    (lock : Option (List (CLOTH_VERTEX F))) :
    Except Fault (HRESULT × Option (List (CLOTH_VERTEX F))) :=
  match lock with
  | none => pure (HRESULT.E_FAIL, none)
  | some pBuffer => do
    let buf ← fillVertices normalize N s pBuffer
    pure (HRESULT.S_OK, some buf)

/-- The triples of particle indices of the faces around the vertex `(row, column)` that
exist in the grid, with `p = row*N+column`: upper-left `(p, p-N, p-1)` when `row > 0` and
`column > 0`, upper-right `(p, p+1, p-N)` when `row > 0` and `column < N-1`, lower-left
`(p, p-1, p+N)` when `row < N-1` and `column > 0`, lower-right `(p, p+N, p+1)` when
`row < N-1` and `column < N-1`. -/
def vertexFaces (N : Nat) (row column : Nat) : List (Nat × Nat × Nat) :=
  (if 0 < row ∧ 0 < column then
    [(row * N + column, row * N + column - N, row * N + column - 1)] else []) ++
  (if 0 < row ∧ column < N - 1 then
    [(row * N + column, row * N + column + 1, row * N + column - N)] else []) ++
  (if row < N - 1 ∧ 0 < column then
    [(row * N + column, row * N + column - 1, row * N + column + N)] else []) ++
  (if row < N - 1 ∧ column < N - 1 then
    [(row * N + column, row * N + column + N, row * N + column + 1)] else [])

/-- The sum, accumulated from the zero vector in list order, of `GetFaceNormal` over a
list of faces given by the indices of their vertices in the position array. -/
def faceNormalSum (normalize : Vec3 F → Vec3 F) (pos : List (Vec3 F))
    (faces : List (Nat × Nat × Nat)) : Vec3 F :=
  faces.foldl (fun acc f =>
    acc + GetFaceNormal normalize (pos[f.1]?.getD 0) (pos[f.2.1]?.getD 0) (pos[f.2.2]?.getD 0))
    ⟨0, 0, 0⟩

/-- The vertex `FillVertexBuffer` writes for the particle `(row, column)`. -/
def clothVertex (normalize : Vec3 F → Vec3 F) (N : Nat) (ts : F) (pos : List (Vec3 F))
    (row column : Nat) : CLOTH_VERTEX F where
  p := pos[row * N + column]?.getD 0
  n := normalize (faceNormalSum normalize pos (vertexFaces N row column))
  tu := ts * (column : F)
  tv := ts * (row : F)

/-- Loop invariant of the loops of `FillVertexBuffer`: after `k` iterations the first `k`
slots of the buffer hold the vertices of the first `k` particles. -/
def VertexInv (normalize : Vec3 F → Vec3 F) (N : Nat) (ts : F) (pos : List (Vec3 F)) (k : Nat)
    (buf : List (CLOTH_VERTEX F)) : Prop :=
  buf.length = N * N ∧
  ∀ i, i < k → buf[i]? = some (clothVertex normalize N ts pos (i / N) (i % N))

/-- What the sphere pass makes of a single position `p`: inside the collision radius the
value `v1 + vDelta * difference` of source lines 360-361, outside it `p` itself. -/
def sphereProject (sqrt : F → F) (N : Nat) (p : Vec3 F) : Vec3 F :=
  if D3DXVec3Length sqrt (SPHERE_POSITION N - p) < sphereMinLength N then
    p + (SPHERE_POSITION N - p).scale
      ((D3DXVec3Length sqrt (SPHERE_POSITION N - p) - sphereMinLength N) /
        D3DXVec3Length sqrt (SPHERE_POSITION N - p))
  else p

/-- Loop invariant of the sphere pass started in `s`: the particles already visited hold
`sphereProject` of their old position, the others are untouched. -/
def SphereSpecInv (sqrt : F → F) (N : Nat) (s : ParticleSystem F) (k : Nat)
    (t : ParticleSystem F) : Prop :=
  SameExceptPos s t ∧
  ∀ i : Nat, t.m_pos[i]? = if i < k then (s.m_pos[i]?).map (sphereProject sqrt N) else s.m_pos[i]?

/-- The object of the single-step scenario: grid size 4, gravity `(0, -9.8, 0)` and time
step `0.01`, before `Initialise`. -/
def scenarioState : ParticleSystem F :=
  { (blankState 4 : ParticleSystem F) with m_gravity := ⟨0, -(98 / 10), 0⟩, m_timeStep := 1 / 100 }


/-- The subscripts of `m_pos` that the body of the loops of `FillVertexBuffer` evaluates
for the vertex `(row, column)`, in program order (source lines 197-227): three for each
face whose guard holds, then the one of `v.p = m_pos[ particle ]`. -/
def vertexReads (N : Nat) (row column : Nat) : List Int :=
  let particle : Int := (column : Int) + ((row : Int) * (N : Int))
  (if (column : Int) ≠ 0 ∧ (row : Int) ≠ 0 then
    [particle, particle - (N : Int), particle - 1] else []) ++
  (if (column : Int) ≠ (N : Int) - 1 ∧ (row : Int) ≠ 0 then
    [particle, particle + 1, particle - (N : Int)] else []) ++
  (if (column : Int) ≠ 0 ∧ (row : Int) ≠ (N : Int) - 1 then
    [particle, particle - 1, particle + (N : Int)] else []) ++
  (if (column : Int) ≠ (N : Int) - 1 ∧ (row : Int) ≠ (N : Int) - 1 then
    [particle, particle + (N : Int), particle + 1] else []) ++
  [particle]


/-- The D3DX function `D3DXVec3Normalize` in exact arithmetic: the vector divided by its
length. -/
def D3DXVec3Normalize (sqrt : F → F) (v : Vec3 F) : Vec3 F :=
  v.scale (1 / D3DXVec3Length sqrt v)

/-- The parameter `normalize` is the exact normalisation on the non-zero vectors. -/
def ExactNormalize (sqrt : F → F) (normalize : Vec3 F → Vec3 F) : Prop :=
  ∀ v : Vec3 F, v ≠ 0 → normalize v = D3DXVec3Normalize sqrt v


/-- The sum of all particle positions: the centre of mass times the number of particles. -/
def sumPositions (pos : List (Vec3 F)) : Vec3 F :=
  pos.foldr (fun p acc => p + acc) 0

/-- A well-formed object for grid size 2 with the constraints of `Initialise`, whose four
particles lie on the x axis at `0`, `4`, `3/2` and `5/2`: no constrained pair has length 0,
but relaxing the first constraint `(0, 1)` moves particle 0 onto particle 2. -/
def collapseState (sqrt : F → F) : ParticleSystem F where
  m_pos := [⟨0, 0, 0⟩, ⟨4, 0, 0⟩, ⟨3 / 2, 0, 0⟩, ⟨5 / 2, 0, 0⟩]
  m_oldPos := [⟨0, 0, 0⟩, ⟨4, 0, 0⟩, ⟨3 / 2, 0, 0⟩, ⟨5 / 2, 0, 0⟩]
  m_acc := [⟨0, 0, 0⟩, ⟨0, 0, 0⟩, ⟨0, 0, 0⟩, ⟨0, 0, 0⟩]
  m_constraints := [⟨0, 1, 1⟩, ⟨2, 3, 1⟩, ⟨0, 2, 1⟩, ⟨1, 3, 1⟩, ⟨1, 2, sqrt (1 * 1 + 1 * 1)⟩]
  m_constraintParticle := 2
  m_constraintPosition := ⟨-(1 / 2), 0, 1 / 2⟩
  m_gravity := ⟨0, -2, 0⟩
  m_timeStep := 2 / 1000


/-- A well-formed object for grid size 2 with the constraints of `Initialise`, whose
particles form a rhombus of side 1 with the diagonals `6/5` (particles 1 and 2) and `8/5`:
the four structural constraints are satisfied, the shear constraint is not. -/
def shearedState (sqrt : F → F) : ParticleSystem F where
  m_pos := [⟨0, 0, 0⟩, ⟨1, 0, 0⟩, ⟨7 / 25, 0, 24 / 25⟩, ⟨32 / 25, 0, 24 / 25⟩]
  m_oldPos := [⟨0, 0, 0⟩, ⟨1, 0, 0⟩, ⟨7 / 25, 0, 24 / 25⟩, ⟨32 / 25, 0, 24 / 25⟩]
  m_acc := [⟨0, 0, 0⟩, ⟨0, 0, 0⟩, ⟨0, 0, 0⟩, ⟨0, 0, 0⟩]
  m_constraints := [⟨0, 1, 1⟩, ⟨2, 3, 1⟩, ⟨0, 2, 1⟩, ⟨1, 3, 1⟩, ⟨1, 2, sqrt (1 * 1 + 1 * 1)⟩]
  m_constraintParticle := 2
  m_constraintPosition := ⟨-(1 / 2), 0, 1 / 2⟩
  m_gravity := ⟨0, -2, 0⟩
  m_timeStep := 2 / 1000

/-! ## binary32 arithmetic

The type `float` of the program is IEEE 754 binary32.  Here a finite binary32 number is
the integer number of units `2^-149` it contains (every finite binary32 number is a
multiple of the smallest positive one), and each operation rounds the exact result to
the nearest representable number, ties to even.  Results of magnitude `2^128` or more
(overflow) are outside the model; a zero divisor is the fault `divByZero`. -/

/-- A finite binary32 number, as its number of units `2^-149`. -/
structure Binary32 where
  units : Int
  deriving DecidableEq

namespace Binary32

/-- Binary search for the position of the leading bit of `n`: starting from `acc`, the
bits `2^(k-1)`, ..., `2`, `1` are added to `acc` as long as `2^acc ≤ n` is kept. -/
def log2Aux : Nat → Nat → Nat → Nat
  | 0, _, acc => acc
  | k + 1, n, acc => log2Aux k n (if 2 ^ (acc + 2 ^ k) ≤ n then acc + 2 ^ k else acc)

/-- The position of the leading bit of `n`, that is `⌊log₂ n⌋` (and 0 for `n = 0`), for
`n < 2^1024`; the numbers `n` that arise from finite binary32 operands are below `2^576`. -/
def log2 (n : Nat) : Nat := log2Aux 10 n 0

/-- Rounding of the non-negative rational number `p / q` (`q > 0`) of units to the nearest
binary32 number, ties to even: below `2^24` units the spacing is one unit, above it the
spacing is `2^sh` with 24 significant bits kept. -/
def roundNat (p q : Nat) : Nat :=
  let sh := log2 (p / q) - 23
  let d := q * 2 ^ sh
  let n := p / d
  let r := p % d
  (if 2 * r < d then n else if d < 2 * r then n + 1 else if n % 2 = 0 then n else n + 1) *
    2 ^ sh

/-- The binary32 number nearest to the rational number `num / den`: the value of a decimal
literal such as `0.3f`, and of the conversion of an `int`. -/
def ofRat (num : Int) (den : Nat) : Binary32 :=
  ⟨num.sign * (roundNat (num.natAbs * 2 ^ 149) den : Nat)⟩

/-- The binary32 number `m * 2^e`, for `|m| < 2^24` and `-149 ≤ e`. -/
def scaled (m : Int) (e : Int) : Binary32 :=
  ⟨m * 2 ^ (e + 149).toNat⟩

/-- The `float` addition. -/
def add (a b : Binary32) : Binary32 :=
  ⟨(a.units + b.units).sign * (roundNat (a.units + b.units).natAbs 1 : Nat)⟩

/-- The `float` negation. -/
def neg (a : Binary32) : Binary32 := ⟨-a.units⟩

/-- The `float` subtraction. -/
def sub (a b : Binary32) : Binary32 :=
  ⟨(a.units - b.units).sign * (roundNat (a.units - b.units).natAbs 1 : Nat)⟩

/-- The `float` multiplication. -/
def mul (a b : Binary32) : Binary32 :=
  ⟨(a.units * b.units).sign * (roundNat (a.units * b.units).natAbs (2 ^ 149) : Nat)⟩

/-- The `float` division; a zero divisor gives a non-finite quotient, the fault
`divByZero`. -/
def div (a b : Binary32) : Except Fault Binary32 :=
  if b.units = 0 then .error .divByZero
  else .ok ⟨(a.units.sign * b.units.sign) *
    (roundNat (a.units.natAbs * 2 ^ 149) b.units.natAbs : Nat)⟩

/-- The first `b` steps of the digit-by-digit integer square root of `X`, from bit `b - 1`
down to bit 0, starting from the partial root `r`. -/
def isqrtLoop : Nat → Nat → Nat → Nat
  | 0, _, r => r
  | b + 1, X, r => isqrtLoop b X (if (r + 2 ^ b) * (r + 2 ^ b) ≤ X then r + 2 ^ b else r)

/-- The integer square root `⌊√X⌋`. -/
def isqrt (X : Nat) : Nat := isqrtLoop (log2 X / 2 + 1) X 0

/-- The correctly rounded square root (`sqrtf`, and `float( sqrt( x ) )` of a `float`
`x`), for a non-negative argument: `√(a * 2^-149)` is `√(a * 2^149)` units, and that is
compared with the midpoint of the two neighbouring binary32 numbers by squaring. -/
def sqrt (a : Binary32) : Binary32 :=
  let X := a.units.toNat * 2 ^ 149
  let sh := log2 (isqrt X) - 23
  let n := isqrt X / 2 ^ sh
  let mid := (2 * n + 1) * (2 * n + 1) * (2 ^ sh * 2 ^ sh)
  ⟨((if 4 * X < mid then n else if mid < 4 * X then n + 1 else if n % 2 = 0 then n
    else n + 1) * 2 ^ sh : Nat)⟩

/-- The comparison `a < b` of two `float`s. -/
def lt (a b : Binary32) : Bool := decide (a.units < b.units)

/-- Componentwise sum, `D3DXVECTOR3::operator +`. -/
def vadd (a b : Vec3 Binary32) : Vec3 Binary32 := ⟨add a.x b.x, add a.y b.y, add a.z b.z⟩

/-- Componentwise difference, `D3DXVECTOR3::operator -`. -/
def vsub (a b : Vec3 Binary32) : Vec3 Binary32 := ⟨sub a.x b.x, sub a.y b.y, sub a.z b.z⟩

/-- Product with a scalar on the right, `D3DXVECTOR3::operator * ( FLOAT )`. -/
def vscale (a : Vec3 Binary32) (k : Binary32) : Vec3 Binary32 :=
  ⟨mul a.x k, mul a.y k, mul a.z k⟩

/-- The D3DX function `D3DXVec3Length`: `sqrtf( x * x + y * y + z * z )`. -/
def length (v : Vec3 Binary32) : Binary32 :=
  sqrt (add (add (mul v.x v.x) (mul v.y v.y)) (mul v.z v.z))

/-- The squared Euclidean distance of two points in exact integer arithmetic, in units
`2^-298`. -/
def distSqUnits (a b : Vec3 Binary32) : Int :=
  (a.x.units - b.x.units) * (a.x.units - b.x.units) +
    (a.y.units - b.y.units) * (a.y.units - b.y.units) +
    (a.z.units - b.z.units) * (a.z.units - b.z.units)

end Binary32

/-! ## The solver in binary32 arithmetic -/

/-- The constant `SPHERE_RADIUS = 0.3f`. -/
def SPHERE_RADIUS32 : Binary32 := Binary32.ofRat 3 10

/-- The constant `EDGE_CORRECTION = 0.3f / PRTS_PER_DIM`. -/
def EDGE_CORRECTION32 (N : Nat) : Except Fault Binary32 :=
  Binary32.div (Binary32.ofRat 3 10) (Binary32.ofRat (N : Int) 1)

/-- The constant `SPHERE_POSITION = ( 0.0f, - SPHERE_RADIUS - EDGE_CORRECTION, 0.0f )`. -/
def SPHERE_POSITION32 (N : Nat) : Except Fault (Vec3 Binary32) := do
  let ec ← EDGE_CORRECTION32 N
  pure ⟨⟨0⟩, Binary32.sub (Binary32.neg SPHERE_RADIUS32) ec, ⟨0⟩⟩

/-- The body of the sphere loop of `SatisfyConstraints` on the position array
(source lines 347-362), in binary32 arithmetic. -/
def sphereParticle32 (N : Nat) (particle : Nat) (pos : List (Vec3 Binary32)) :
    Except Fault (List (Vec3 Binary32)) := do
  let v1 ← readAt pos (particle : Int)
  let v2 ← SPHERE_POSITION32 N
  let ec ← EDGE_CORRECTION32 N
  let minLength := Binary32.add SPHERE_RADIUS32 ec
  let vDelta := Binary32.vsub v2 v1
  let deltaLength := Binary32.length vDelta
  if Binary32.lt deltaLength minLength then do
    let difference ← Binary32.div (Binary32.sub deltaLength minLength) deltaLength
    writeAt pos (particle : Int) (Binary32.vadd v1 (Binary32.vscale vDelta difference))
  else
    pure pos

/-- One iteration of the sphere loop of `SatisfyConstraints`, in binary32 arithmetic. -/
def sphereStep32 (N : Nat) (particle : Nat) (s : ParticleSystem Binary32) :
    Except Fault (ParticleSystem Binary32) := do
  let pos ← sphereParticle32 N particle s.m_pos
  pure { s with m_pos := pos }

/-- The sphere loop of `SatisfyConstraints` (source lines 344-364), in binary32
arithmetic. -/
def satisfySphere32 (N : Nat) (s : ParticleSystem Binary32) :
    Except Fault (ParticleSystem Binary32) :=
  forLoop 0 (NUM_PARTICLES N) (sphereStep32 N) s

/-- The body of the distance loop of `SatisfyConstraints` on the position array
(source lines 329-340), in binary32 arithmetic. -/
def relaxConstraint32 (c : ClothConstraint Binary32) (pos : List (Vec3 Binary32)) :
    Except Fault (List (Vec3 Binary32)) := do
  let v1 ← readAt pos c.particleA
  let v2 ← readAt pos c.particleB
  let vDelta := Binary32.vsub v2 v1
  let deltaLength := Binary32.length vDelta
  let difference ← Binary32.div (Binary32.sub deltaLength c.restLength) deltaLength
  let difference := Binary32.mul difference (Binary32.scaled 1 (-1))
  let pos1 ← writeAt pos c.particleA (Binary32.vadd v1 (Binary32.vscale vDelta difference))
  let v2 ← readAt pos1 c.particleB
  writeAt pos1 c.particleB (Binary32.vsub v2 (Binary32.vscale vDelta difference))

/-- One iteration of the distance loop of `SatisfyConstraints`, in binary32 arithmetic. -/
def relaxStep32 (constraint : Nat) (s : ParticleSystem Binary32) :
    Except Fault (ParticleSystem Binary32) := do
  let c ← readAt s.m_constraints (constraint : Int)
  let pos ← relaxConstraint32 c s.m_pos
  pure { s with m_pos := pos }

/-- The distance loop of `SatisfyConstraints` (source lines 325-341), in binary32
arithmetic. -/
def satisfyDistances32 (N : Nat) (s : ParticleSystem Binary32) :
    Except Fault (ParticleSystem Binary32) :=
  forLoop 0 (NUM_CONSTRAINTS N).toNat relaxStep32 s

/-- The method `ParticleSystem::SatisfyConstraints` in binary32 arithmetic. -/
def SatisfyConstraints32 (N : Nat) (s : ParticleSystem Binary32) :
    Except Fault (ParticleSystem Binary32) :=
  forLoop 0 NUM_ITERATIONS (fun _iteration s => do
    let s ← satisfyDistances32 N s
    satisfySphere32 N s) s

/-- The body of the loop of `Verlet` (source lines 301-312) in binary32 arithmetic. -/
def verletParticle32 (i : Nat) (s : ParticleSystem Binary32) :
    Except Fault (ParticleSystem Binary32) := do
  let vPos ← readAt s.m_pos (i : Int)
  let vTemp := vPos
  let vOld ← readAt s.m_oldPos (i : Int)
  let vAcc ← readAt s.m_acc (i : Int)
  let pos ← writeAt s.m_pos (i : Int)
    (Binary32.vadd vPos (Binary32.vadd (Binary32.vsub vPos vOld)
      (Binary32.vscale (Binary32.vscale vAcc s.m_timeStep) s.m_timeStep)))
  let oldPos ← writeAt s.m_oldPos (i : Int) vTemp
  pure { s with m_pos := pos, m_oldPos := oldPos }

/-- The method `ParticleSystem::Verlet` in binary32 arithmetic. -/
def Verlet32 (N : Nat) (s : ParticleSystem Binary32) : Except Fault (ParticleSystem Binary32) :=
  forLoop 0 (NUM_PARTICLES N) verletParticle32 s

/-- The method `ParticleSystem::TimeStep` in binary32 arithmetic. -/
def TimeStep32 (N : Nat) (s : ParticleSystem Binary32) : Except Fault (ParticleSystem Binary32) := do
  let s ← AccumulateForces N s
  let s ← Verlet32 N s
  SatisfyConstraints32 N s

/-- The body of the particle loops of `Initialise` (source lines 65-83) in binary32
arithmetic. -/
def initParticle32 (N : Nat) (PARTICLE_SPACE : Binary32) (row column : Nat)
    (s : ParticleSystem Binary32) : Except Fault (ParticleSystem Binary32) := do
  let v0 : Vec3 Binary32 :=
    ⟨Binary32.mul PARTICLE_SPACE (Binary32.ofRat (column : Int) 1), ⟨0⟩,
      Binary32.mul PARTICLE_SPACE (Binary32.ofRat (row : Int) 1)⟩
  let vParticlePosition : Vec3 Binary32 :=
    ⟨Binary32.sub v0.x (Binary32.scaled 1 (-1)), v0.y, Binary32.sub v0.z (Binary32.scaled 1 (-1))⟩
  let index : Int := ((row : Int) * (N : Int)) + (column : Int)
  let pos ← writeAt s.m_pos index vParticlePosition
  let oldPos ← writeAt s.m_oldPos index vParticlePosition
  let acc ← writeAt s.m_acc index ⟨⟨0⟩, ⟨0⟩, ⟨0⟩⟩
  let s1 : ParticleSystem Binary32 := { s with m_pos := pos, m_oldPos := oldPos, m_acc := acc }
  if s1.m_constraintParticle = index then
    pure { s1 with m_constraintPosition := vParticlePosition }
  else pure s1

/-- The method `ParticleSystem::Initialise` in binary32 arithmetic. -/
def Initialise32 (N : Nat) (s : ParticleSystem Binary32) :
    Except Fault (ParticleSystem Binary32) := do
  let PARTICLE_SPACE ← Binary32.div (Binary32.scaled 1 0) (Binary32.ofRat ((N : Int) - 1) 1)
  let s1 : ParticleSystem Binary32 := { s with m_constraintParticle := centreParticle N }
  let s2 ← forLoop 0 N (fun row s =>
    forLoop 0 N (fun column s => initParticle32 N PARTICLE_SPACE row column s) s) s1
  let st ← initStructuralRows N PARTICLE_SPACE (s2.m_constraints, 0)
  let st ← initStructuralColumns N PARTICLE_SPACE st
  let diagonalLength : Binary32 :=
    Binary32.sqrt (Binary32.add (Binary32.mul PARTICLE_SPACE PARTICLE_SPACE)
      (Binary32.mul PARTICLE_SPACE PARTICLE_SPACE))
  let st ← initShear N diagonalLength st
  let st ← forLoop 0 N (fun row st =>
    forLoop 0 (N - 2) (fun column st =>
      let particleNumber : Int := ((row : Int) * (N : Int)) + (column : Int)
      pushConstraint ⟨particleNumber, particleNumber + 2,
        Binary32.mul PARTICLE_SPACE (Binary32.scaled 1 1)⟩ st) st) st
  let st ← forLoop 0 (N - 2) (fun row st =>
    forLoop 0 N (fun column st =>
      let particleNumber : Int := ((row : Int) * (N : Int)) + (column : Int)
      pushConstraint ⟨particleNumber, particleNumber + (N : Int) + (N : Int),
        Binary32.mul PARTICLE_SPACE (Binary32.scaled 1 1)⟩ st) st) st
  pure { s2 with m_constraints := st.1 }

/-- The object of the single-step scenario in binary32: grid size 4, all arrays zero,
gravity `( 0.0f, -9.8f, 0.0f )` and time step `0.01f`. -/
def scenarioState32 : ParticleSystem Binary32 where
  m_pos := List.replicate 16 ⟨⟨0⟩, ⟨0⟩, ⟨0⟩⟩
  m_oldPos := List.replicate 16 ⟨⟨0⟩, ⟨0⟩, ⟨0⟩⟩
  m_acc := List.replicate 16 ⟨⟨0⟩, ⟨0⟩, ⟨0⟩⟩
  m_constraints := List.replicate 49 ⟨0, 0, ⟨0⟩⟩
  m_constraintParticle := 0
  m_constraintPosition := ⟨⟨0⟩, ⟨0⟩, ⟨0⟩⟩
  m_gravity := ⟨⟨0⟩, Binary32.ofRat (-98) 10, ⟨0⟩⟩
  m_timeStep := Binary32.ofRat 1 100

/-- Equality of outcomes is decidable. -/
instance instDecidableEqExceptFault {α : Type} [DecidableEq α] : DecidableEq (Except Fault α)
  | .ok a, .ok b =>
    if h : a = b then isTrue (by rw [h]) else isFalse (fun h' => h (Except.ok.inj h'))
  | .error a, .error b =>
    if h : a = b then isTrue (by rw [h]) else isFalse (fun h' => h (Except.error.inj h'))
  | .ok _, .error _ => isFalse (fun h => by cases h)
  | .error _, .ok _ => isFalse (fun h => by cases h)

/-- The object of grid size 2 with the constraints of `Initialise`, the gravity and the
time step of the constructor, all four of whose particles are at rest at the point
`(0, 1, 0)`, in binary32 arithmetic; `11863283 * 2^-23` is `float( sqrt( 2 ) )`. -/
def stackedState32 : ParticleSystem Binary32 where
  m_pos := List.replicate 4 ⟨⟨0⟩, Binary32.scaled 1 0, ⟨0⟩⟩
  m_oldPos := List.replicate 4 ⟨⟨0⟩, Binary32.scaled 1 0, ⟨0⟩⟩
  m_acc := List.replicate 4 ⟨⟨0⟩, ⟨0⟩, ⟨0⟩⟩
  m_constraints := [⟨0, 1, Binary32.scaled 1 0⟩, ⟨2, 3, Binary32.scaled 1 0⟩,
    ⟨0, 2, Binary32.scaled 1 0⟩, ⟨1, 3, Binary32.scaled 1 0⟩,
    ⟨1, 2, Binary32.scaled 11863283 (-23)⟩]
  m_constraintParticle := 2
  m_constraintPosition := ⟨Binary32.scaled (-1) (-1), ⟨0⟩, Binary32.scaled 1 (-1)⟩
  m_gravity := ⟨⟨0⟩, Binary32.scaled (-1) 1, ⟨0⟩⟩
  m_timeStep := Binary32.ofRat 2 1000

/-- An object of grid size 2 in binary32 arithmetic with the constraints of `Initialise`,
zero gravity and time step 0, at rest.  Its particles are the corners of a unit square at
the height of the centre of the sphere, `y = -15099495 * 2^-25`, except that particles 0
and 2 have `x = 8388609 * 2^-98` in place of `x = 0`: particle 0 is at distance
`(1 + 2^-23) * 2^-75` from the centre of the sphere. -/
def nearCentreState32 : ParticleSystem Binary32 where
  m_pos := [⟨Binary32.scaled 8388609 (-98), Binary32.scaled (-15099495) (-25), ⟨0⟩⟩,
    ⟨Binary32.scaled 1 0, Binary32.scaled (-15099495) (-25), ⟨0⟩⟩,
    ⟨Binary32.scaled 8388609 (-98), Binary32.scaled (-15099495) (-25), Binary32.scaled 1 0⟩,
    ⟨Binary32.scaled 1 0, Binary32.scaled (-15099495) (-25), Binary32.scaled 1 0⟩]
  m_oldPos := [⟨Binary32.scaled 8388609 (-98), Binary32.scaled (-15099495) (-25), ⟨0⟩⟩,
    ⟨Binary32.scaled 1 0, Binary32.scaled (-15099495) (-25), ⟨0⟩⟩,
    ⟨Binary32.scaled 8388609 (-98), Binary32.scaled (-15099495) (-25), Binary32.scaled 1 0⟩,
    ⟨Binary32.scaled 1 0, Binary32.scaled (-15099495) (-25), Binary32.scaled 1 0⟩]
  m_acc := List.replicate 4 ⟨⟨0⟩, ⟨0⟩, ⟨0⟩⟩
  m_constraints := [⟨0, 1, Binary32.scaled 1 0⟩, ⟨2, 3, Binary32.scaled 1 0⟩,
    ⟨0, 2, Binary32.scaled 1 0⟩, ⟨1, 3, Binary32.scaled 1 0⟩,
    ⟨1, 2, Binary32.scaled 11863283 (-23)⟩]
  m_constraintParticle := 2
  m_constraintPosition := ⟨Binary32.scaled (-1) (-1), ⟨0⟩, Binary32.scaled 1 (-1)⟩
  m_gravity := ⟨⟨0⟩, ⟨0⟩, ⟨0⟩⟩
  m_timeStep := ⟨0⟩

/-- The state of the single-step scenario after `Initialise`, in binary32 arithmetic:
the 16 rest positions, with `PARTICLE_SPACE` the rounded `1/3`, and the 49 constraints. -/
def scenarioInit32 : ParticleSystem Binary32 where
  m_pos := [⟨Binary32.scaled (-1) (-1), ⟨0⟩, Binary32.scaled (-1) (-1)⟩,
    ⟨Binary32.scaled (-5592405) (-25), ⟨0⟩, Binary32.scaled (-1) (-1)⟩,
    ⟨Binary32.scaled 2796203 (-24), ⟨0⟩, Binary32.scaled (-1) (-1)⟩,
    ⟨Binary32.scaled 1 (-1), ⟨0⟩, Binary32.scaled (-1) (-1)⟩,
    ⟨Binary32.scaled (-1) (-1), ⟨0⟩, Binary32.scaled (-5592405) (-25)⟩,
    ⟨Binary32.scaled (-5592405) (-25), ⟨0⟩, Binary32.scaled (-5592405) (-25)⟩,
    ⟨Binary32.scaled 2796203 (-24), ⟨0⟩, Binary32.scaled (-5592405) (-25)⟩,
    ⟨Binary32.scaled 1 (-1), ⟨0⟩, Binary32.scaled (-5592405) (-25)⟩,
    ⟨Binary32.scaled (-1) (-1), ⟨0⟩, Binary32.scaled 2796203 (-24)⟩,
    ⟨Binary32.scaled (-5592405) (-25), ⟨0⟩, Binary32.scaled 2796203 (-24)⟩,
    ⟨Binary32.scaled 2796203 (-24), ⟨0⟩, Binary32.scaled 2796203 (-24)⟩,
    ⟨Binary32.scaled 1 (-1), ⟨0⟩, Binary32.scaled 2796203 (-24)⟩,
    ⟨Binary32.scaled (-1) (-1), ⟨0⟩, Binary32.scaled 1 (-1)⟩,
    ⟨Binary32.scaled (-5592405) (-25), ⟨0⟩, Binary32.scaled 1 (-1)⟩,
    ⟨Binary32.scaled 2796203 (-24), ⟨0⟩, Binary32.scaled 1 (-1)⟩,
    ⟨Binary32.scaled 1 (-1), ⟨0⟩, Binary32.scaled 1 (-1)⟩]
  m_oldPos := [⟨Binary32.scaled (-1) (-1), ⟨0⟩, Binary32.scaled (-1) (-1)⟩,
    ⟨Binary32.scaled (-5592405) (-25), ⟨0⟩, Binary32.scaled (-1) (-1)⟩,
    ⟨Binary32.scaled 2796203 (-24), ⟨0⟩, Binary32.scaled (-1) (-1)⟩,
    ⟨Binary32.scaled 1 (-1), ⟨0⟩, Binary32.scaled (-1) (-1)⟩,
    ⟨Binary32.scaled (-1) (-1), ⟨0⟩, Binary32.scaled (-5592405) (-25)⟩,
    ⟨Binary32.scaled (-5592405) (-25), ⟨0⟩, Binary32.scaled (-5592405) (-25)⟩,
    ⟨Binary32.scaled 2796203 (-24), ⟨0⟩, Binary32.scaled (-5592405) (-25)⟩,
    ⟨Binary32.scaled 1 (-1), ⟨0⟩, Binary32.scaled (-5592405) (-25)⟩,
    ⟨Binary32.scaled (-1) (-1), ⟨0⟩, Binary32.scaled 2796203 (-24)⟩,
    ⟨Binary32.scaled (-5592405) (-25), ⟨0⟩, Binary32.scaled 2796203 (-24)⟩,
    ⟨Binary32.scaled 2796203 (-24), ⟨0⟩, Binary32.scaled 2796203 (-24)⟩,
    ⟨Binary32.scaled 1 (-1), ⟨0⟩, Binary32.scaled 2796203 (-24)⟩,
    ⟨Binary32.scaled (-1) (-1), ⟨0⟩, Binary32.scaled 1 (-1)⟩,
    ⟨Binary32.scaled (-5592405) (-25), ⟨0⟩, Binary32.scaled 1 (-1)⟩,
    ⟨Binary32.scaled 2796203 (-24), ⟨0⟩, Binary32.scaled 1 (-1)⟩,
    ⟨Binary32.scaled 1 (-1), ⟨0⟩, Binary32.scaled 1 (-1)⟩]
  m_acc := List.replicate 16 ⟨⟨0⟩, ⟨0⟩, ⟨0⟩⟩
  m_constraints := [⟨0, 1, Binary32.scaled 11184811 (-25)⟩,
    ⟨1, 2, Binary32.scaled 11184811 (-25)⟩,
    ⟨2, 3, Binary32.scaled 11184811 (-25)⟩,
    ⟨4, 5, Binary32.scaled 11184811 (-25)⟩,
    ⟨5, 6, Binary32.scaled 11184811 (-25)⟩,
    ⟨6, 7, Binary32.scaled 11184811 (-25)⟩,
    ⟨8, 9, Binary32.scaled 11184811 (-25)⟩,
    ⟨9, 10, Binary32.scaled 11184811 (-25)⟩,
    ⟨10, 11, Binary32.scaled 11184811 (-25)⟩,
    ⟨12, 13, Binary32.scaled 11184811 (-25)⟩,
    ⟨13, 14, Binary32.scaled 11184811 (-25)⟩,
    ⟨14, 15, Binary32.scaled 11184811 (-25)⟩,
    ⟨0, 4, Binary32.scaled 11184811 (-25)⟩,
    ⟨1, 5, Binary32.scaled 11184811 (-25)⟩,
    ⟨2, 6, Binary32.scaled 11184811 (-25)⟩,
    ⟨3, 7, Binary32.scaled 11184811 (-25)⟩,
    ⟨4, 8, Binary32.scaled 11184811 (-25)⟩,
    ⟨5, 9, Binary32.scaled 11184811 (-25)⟩,
    ⟨6, 10, Binary32.scaled 11184811 (-25)⟩,
    ⟨7, 11, Binary32.scaled 11184811 (-25)⟩,
    ⟨8, 12, Binary32.scaled 11184811 (-25)⟩,
    ⟨9, 13, Binary32.scaled 11184811 (-25)⟩,
    ⟨10, 14, Binary32.scaled 11184811 (-25)⟩,
    ⟨11, 15, Binary32.scaled 11184811 (-25)⟩,
    ⟨1, 4, Binary32.scaled 988607 (-21)⟩,
    ⟨2, 5, Binary32.scaled 988607 (-21)⟩,
    ⟨3, 6, Binary32.scaled 988607 (-21)⟩,
    ⟨5, 8, Binary32.scaled 988607 (-21)⟩,
    ⟨6, 9, Binary32.scaled 988607 (-21)⟩,
    ⟨7, 10, Binary32.scaled 988607 (-21)⟩,
    ⟨9, 12, Binary32.scaled 988607 (-21)⟩,
    ⟨10, 13, Binary32.scaled 988607 (-21)⟩,
    ⟨11, 14, Binary32.scaled 988607 (-21)⟩,
    ⟨0, 2, Binary32.scaled 11184811 (-24)⟩,
    ⟨1, 3, Binary32.scaled 11184811 (-24)⟩,
    ⟨4, 6, Binary32.scaled 11184811 (-24)⟩,
    ⟨5, 7, Binary32.scaled 11184811 (-24)⟩,
    ⟨8, 10, Binary32.scaled 11184811 (-24)⟩,
    ⟨9, 11, Binary32.scaled 11184811 (-24)⟩,
    ⟨12, 14, Binary32.scaled 11184811 (-24)⟩,
    ⟨13, 15, Binary32.scaled 11184811 (-24)⟩,
    ⟨0, 8, Binary32.scaled 11184811 (-24)⟩,
    ⟨1, 9, Binary32.scaled 11184811 (-24)⟩,
    ⟨2, 10, Binary32.scaled 11184811 (-24)⟩,
    ⟨3, 11, Binary32.scaled 11184811 (-24)⟩,
    ⟨4, 12, Binary32.scaled 11184811 (-24)⟩,
    ⟨5, 13, Binary32.scaled 11184811 (-24)⟩,
    ⟨6, 14, Binary32.scaled 11184811 (-24)⟩,
    ⟨7, 15, Binary32.scaled 11184811 (-24)⟩]
  m_constraintParticle := 9
  m_constraintPosition := ⟨Binary32.scaled (-5592405) (-25), ⟨0⟩, Binary32.scaled 2796203 (-24)⟩
  m_gravity := ⟨⟨0⟩, Binary32.ofRat (-98) 10, ⟨0⟩⟩
  m_timeStep := Binary32.ofRat 1 100

/-- The position array of the single-step scenario in binary32 arithmetic in the course of
the step: stage 0 is the array after `Verlet`, stage `k` the array after the first
`7 * k` distance constraints (all 49 at stage 7). -/
def scenarioStage32 : Nat → List (Vec3 Binary32)
  | 0 =>
    [⟨Binary32.scaled (-1) (-1), Binary32.scaled (-8418135) (-33), Binary32.scaled (-1) (-1)⟩,
    ⟨Binary32.scaled (-5592405) (-25), Binary32.scaled (-8418135) (-33), Binary32.scaled (-1) (-1)⟩,
    ⟨Binary32.scaled 2796203 (-24), Binary32.scaled (-8418135) (-33), Binary32.scaled (-1) (-1)⟩,
    ⟨Binary32.scaled 1 (-1), Binary32.scaled (-8418135) (-33), Binary32.scaled (-1) (-1)⟩,
    ⟨Binary32.scaled (-1) (-1), Binary32.scaled (-8418135) (-33), Binary32.scaled (-5592405) (-25)⟩,
    ⟨Binary32.scaled (-5592405) (-25), Binary32.scaled (-8418135) (-33), Binary32.scaled (-5592405) (-25)⟩,
    ⟨Binary32.scaled 2796203 (-24), Binary32.scaled (-8418135) (-33), Binary32.scaled (-5592405) (-25)⟩,
    ⟨Binary32.scaled 1 (-1), Binary32.scaled (-8418135) (-33), Binary32.scaled (-5592405) (-25)⟩,
    ⟨Binary32.scaled (-1) (-1), Binary32.scaled (-8418135) (-33), Binary32.scaled 2796203 (-24)⟩,
    ⟨Binary32.scaled (-5592405) (-25), Binary32.scaled (-8418135) (-33), Binary32.scaled 2796203 (-24)⟩,
    ⟨Binary32.scaled 2796203 (-24), Binary32.scaled (-8418135) (-33), Binary32.scaled 2796203 (-24)⟩,
    ⟨Binary32.scaled 1 (-1), Binary32.scaled (-8418135) (-33), Binary32.scaled 2796203 (-24)⟩,
    ⟨Binary32.scaled (-1) (-1), Binary32.scaled (-8418135) (-33), Binary32.scaled 1 (-1)⟩,
    ⟨Binary32.scaled (-5592405) (-25), Binary32.scaled (-8418135) (-33), Binary32.scaled 1 (-1)⟩,
    ⟨Binary32.scaled 2796203 (-24), Binary32.scaled (-8418135) (-33), Binary32.scaled 1 (-1)⟩,
    ⟨Binary32.scaled 1 (-1), Binary32.scaled (-8418135) (-33), Binary32.scaled 1 (-1)⟩]
  | 1 =>
    [⟨Binary32.scaled (-1) (-1), Binary32.scaled (-8418135) (-33), Binary32.scaled (-1) (-1)⟩,
    ⟨Binary32.scaled (-5592405) (-25), Binary32.scaled (-8418135) (-33), Binary32.scaled (-1) (-1)⟩,
    ⟨Binary32.scaled 11184811 (-26), Binary32.scaled (-8418135) (-33), Binary32.scaled (-1) (-1)⟩,
    ⟨Binary32.scaled 1 (-1), Binary32.scaled (-8418135) (-33), Binary32.scaled (-1) (-1)⟩,
    ⟨Binary32.scaled (-1) (-1), Binary32.scaled (-8418135) (-33), Binary32.scaled (-5592405) (-25)⟩,
    ⟨Binary32.scaled (-5592405) (-25), Binary32.scaled (-8418135) (-33), Binary32.scaled (-5592405) (-25)⟩,
    ⟨Binary32.scaled 11184811 (-26), Binary32.scaled (-8418135) (-33), Binary32.scaled (-5592405) (-25)⟩,
    ⟨Binary32.scaled 1 (-1), Binary32.scaled (-8418135) (-33), Binary32.scaled (-5592405) (-25)⟩,
    ⟨Binary32.scaled (-1) (-1), Binary32.scaled (-8418135) (-33), Binary32.scaled 2796203 (-24)⟩,
    ⟨Binary32.scaled (-5592405) (-25), Binary32.scaled (-8418135) (-33), Binary32.scaled 2796203 (-24)⟩,
    ⟨Binary32.scaled 2796203 (-24), Binary32.scaled (-8418135) (-33), Binary32.scaled 2796203 (-24)⟩,
    ⟨Binary32.scaled 1 (-1), Binary32.scaled (-8418135) (-33), Binary32.scaled 2796203 (-24)⟩,
    ⟨Binary32.scaled (-1) (-1), Binary32.scaled (-8418135) (-33), Binary32.scaled 1 (-1)⟩,
    ⟨Binary32.scaled (-5592405) (-25), Binary32.scaled (-8418135) (-33), Binary32.scaled 1 (-1)⟩,
    ⟨Binary32.scaled 2796203 (-24), Binary32.scaled (-8418135) (-33), Binary32.scaled 1 (-1)⟩,
    ⟨Binary32.scaled 1 (-1), Binary32.scaled (-8418135) (-33), Binary32.scaled 1 (-1)⟩]
  | 2 =>
    [⟨Binary32.scaled (-1) (-1), Binary32.scaled (-8418135) (-33), Binary32.scaled (-1) (-1)⟩,
    ⟨Binary32.scaled (-5592405) (-25), Binary32.scaled (-8418135) (-33), Binary32.scaled (-1) (-1)⟩,
    ⟨Binary32.scaled 11184811 (-26), Binary32.scaled (-8418135) (-33), Binary32.scaled (-1) (-1)⟩,
    ⟨Binary32.scaled 1 (-1), Binary32.scaled (-8418135) (-33), Binary32.scaled (-1) (-1)⟩,
    ⟨Binary32.scaled (-1) (-1), Binary32.scaled (-8418135) (-33), Binary32.scaled (-5592405) (-25)⟩,
    ⟨Binary32.scaled (-5592405) (-25), Binary32.scaled (-8418135) (-33), Binary32.scaled (-5592405) (-25)⟩,
    ⟨Binary32.scaled 11184811 (-26), Binary32.scaled (-8418135) (-33), Binary32.scaled (-5592405) (-25)⟩,
    ⟨Binary32.scaled 1 (-1), Binary32.scaled (-8418135) (-33), Binary32.scaled (-5592405) (-25)⟩,
    ⟨Binary32.scaled (-1) (-1), Binary32.scaled (-8418135) (-33), Binary32.scaled 2796203 (-24)⟩,
    ⟨Binary32.scaled (-5592405) (-25), Binary32.scaled (-8418135) (-33), Binary32.scaled 2796203 (-24)⟩,
    ⟨Binary32.scaled 11184811 (-26), Binary32.scaled (-8418135) (-33), Binary32.scaled 2796203 (-24)⟩,
    ⟨Binary32.scaled 1 (-1), Binary32.scaled (-8418135) (-33), Binary32.scaled 2796203 (-24)⟩,
    ⟨Binary32.scaled (-1) (-1), Binary32.scaled (-8418135) (-33), Binary32.scaled 1 (-1)⟩,
    ⟨Binary32.scaled (-5592405) (-25), Binary32.scaled (-8418135) (-33), Binary32.scaled 1 (-1)⟩,
    ⟨Binary32.scaled 11184811 (-26), Binary32.scaled (-8418135) (-33), Binary32.scaled 1 (-1)⟩,
    ⟨Binary32.scaled 1 (-1), Binary32.scaled (-8418135) (-33), Binary32.scaled 1 (-1)⟩]
  | 3 =>
    [⟨Binary32.scaled (-1) (-1), Binary32.scaled (-8418135) (-33), Binary32.scaled (-1) (-1)⟩,
    ⟨Binary32.scaled (-5592405) (-25), Binary32.scaled (-8418135) (-33), Binary32.scaled (-1) (-1)⟩,
    ⟨Binary32.scaled 11184811 (-26), Binary32.scaled (-8418135) (-33), Binary32.scaled (-1) (-1)⟩,
    ⟨Binary32.scaled 1 (-1), Binary32.scaled (-8418135) (-33), Binary32.scaled (-1) (-1)⟩,
    ⟨Binary32.scaled (-1) (-1), Binary32.scaled (-8418135) (-33), Binary32.scaled (-5592405) (-25)⟩,
    ⟨Binary32.scaled (-5592405) (-25), Binary32.scaled (-8418135) (-33), Binary32.scaled (-5592405) (-25)⟩,
    ⟨Binary32.scaled 11184811 (-26), Binary32.scaled (-8418135) (-33), Binary32.scaled (-5592405) (-25)⟩,
    ⟨Binary32.scaled 1 (-1), Binary32.scaled (-8418135) (-33), Binary32.scaled (-5592405) (-25)⟩,
    ⟨Binary32.scaled (-1) (-1), Binary32.scaled (-8418135) (-33), Binary32.scaled 11184811 (-26)⟩,
    ⟨Binary32.scaled (-5592405) (-25), Binary32.scaled (-8418135) (-33), Binary32.scaled 2796203 (-24)⟩,
    ⟨Binary32.scaled 11184811 (-26), Binary32.scaled (-8418135) (-33), Binary32.scaled 2796203 (-24)⟩,
    ⟨Binary32.scaled 1 (-1), Binary32.scaled (-8418135) (-33), Binary32.scaled 2796203 (-24)⟩,
    ⟨Binary32.scaled (-1) (-1), Binary32.scaled (-8418135) (-33), Binary32.scaled 1 (-1)⟩,
    ⟨Binary32.scaled (-5592405) (-25), Binary32.scaled (-8418135) (-33), Binary32.scaled 1 (-1)⟩,
    ⟨Binary32.scaled 11184811 (-26), Binary32.scaled (-8418135) (-33), Binary32.scaled 1 (-1)⟩,
    ⟨Binary32.scaled 1 (-1), Binary32.scaled (-8418135) (-33), Binary32.scaled 1 (-1)⟩]
  | 4 =>
    [⟨Binary32.scaled (-1) (-1), Binary32.scaled (-8418135) (-33), Binary32.scaled (-1) (-1)⟩,
    ⟨Binary32.scaled (-5592405) (-25), Binary32.scaled (-8418135) (-33), Binary32.scaled (-1) (-1)⟩,
    ⟨Binary32.scaled 2796203 (-24), Binary32.scaled (-8418135) (-33), Binary32.scaled (-1) (-1)⟩,
    ⟨Binary32.scaled 1 (-1), Binary32.scaled (-8418135) (-33), Binary32.scaled (-1) (-1)⟩,
    ⟨Binary32.scaled (-1) (-1), Binary32.scaled (-8418135) (-33), Binary32.scaled (-5592405) (-25)⟩,
    ⟨Binary32.scaled (-5592405) (-25), Binary32.scaled (-8418135) (-33), Binary32.scaled (-5592405) (-25)⟩,
    ⟨Binary32.scaled 5592405 (-25), Binary32.scaled (-8418135) (-33), Binary32.scaled (-11184809) (-26)⟩,
    ⟨Binary32.scaled 1 (-1), Binary32.scaled (-8418135) (-33), Binary32.scaled (-5592405) (-25)⟩,
    ⟨Binary32.scaled (-1) (-1), Binary32.scaled (-8418135) (-33), Binary32.scaled 2796203 (-24)⟩,
    ⟨Binary32.scaled (-5592405) (-25), Binary32.scaled (-8418135) (-33), Binary32.scaled 11184811 (-26)⟩,
    ⟨Binary32.scaled 11184811 (-26), Binary32.scaled (-8418135) (-33), Binary32.scaled 11184811 (-26)⟩,
    ⟨Binary32.scaled 1 (-1), Binary32.scaled (-8418135) (-33), Binary32.scaled 11184811 (-26)⟩,
    ⟨Binary32.scaled (-1) (-1), Binary32.scaled (-8418135) (-33), Binary32.scaled 1 (-1)⟩,
    ⟨Binary32.scaled (-5592405) (-25), Binary32.scaled (-8418135) (-33), Binary32.scaled 1 (-1)⟩,
    ⟨Binary32.scaled 11184811 (-26), Binary32.scaled (-8418135) (-33), Binary32.scaled 1 (-1)⟩,
    ⟨Binary32.scaled 1 (-1), Binary32.scaled (-8418135) (-33), Binary32.scaled 1 (-1)⟩]
  | 5 =>
    [⟨Binary32.scaled (-1) (-1), Binary32.scaled (-8418135) (-33), Binary32.scaled (-1) (-1)⟩,
    ⟨Binary32.scaled (-2796203) (-24), Binary32.scaled (-8418135) (-33), Binary32.scaled (-1) (-1)⟩,
    ⟨Binary32.scaled 2796203 (-24), Binary32.scaled (-8418135) (-33), Binary32.scaled (-1) (-1)⟩,
    ⟨Binary32.scaled 1 (-1), Binary32.scaled (-8418135) (-33), Binary32.scaled (-1) (-1)⟩,
    ⟨Binary32.scaled (-1) (-1), Binary32.scaled (-8418135) (-33), Binary32.scaled (-5592405) (-25)⟩,
    ⟨Binary32.scaled (-5592405) (-25), Binary32.scaled (-8418135) (-33), Binary32.scaled (-5592405) (-25)⟩,
    ⟨Binary32.scaled 11184811 (-26), Binary32.scaled (-8418135) (-33), Binary32.scaled (-5592405) (-25)⟩,
    ⟨Binary32.scaled 1 (-1), Binary32.scaled (-8418135) (-33), Binary32.scaled (-11184811) (-26)⟩,
    ⟨Binary32.scaled (-1) (-1), Binary32.scaled (-8418135) (-33), Binary32.scaled 2796203 (-24)⟩,
    ⟨Binary32.scaled (-5592405) (-25), Binary32.scaled (-8418135) (-33), Binary32.scaled 11184811 (-26)⟩,
    ⟨Binary32.scaled 11184811 (-26), Binary32.scaled (-8418135) (-33), Binary32.scaled 11184811 (-26)⟩,
    ⟨Binary32.scaled 1 (-1), Binary32.scaled (-8418135) (-33), Binary32.scaled 5592405 (-25)⟩,
    ⟨Binary32.scaled (-1) (-1), Binary32.scaled (-8418135) (-33), Binary32.scaled 1 (-1)⟩,
    ⟨Binary32.scaled (-11184811) (-26), Binary32.scaled (-8418135) (-33), Binary32.scaled 1 (-1)⟩,
    ⟨Binary32.scaled 5592405 (-25), Binary32.scaled (-8418135) (-33), Binary32.scaled 1 (-1)⟩,
    ⟨Binary32.scaled 1 (-1), Binary32.scaled (-8418135) (-33), Binary32.scaled 1 (-1)⟩]
  | 6 =>
    [⟨Binary32.scaled (-1) (-1), Binary32.scaled (-8418135) (-33), Binary32.scaled (-1) (-1)⟩,
    ⟨Binary32.scaled (-2796203) (-24), Binary32.scaled (-8418135) (-33), Binary32.scaled (-1) (-1)⟩,
    ⟨Binary32.scaled 2796203 (-24), Binary32.scaled (-8418135) (-33), Binary32.scaled (-1) (-1)⟩,
    ⟨Binary32.scaled 1 (-1), Binary32.scaled (-8418135) (-33), Binary32.scaled (-1) (-1)⟩,
    ⟨Binary32.scaled (-1) (-1), Binary32.scaled (-8418135) (-33), Binary32.scaled (-5592405) (-25)⟩,
    ⟨Binary32.scaled (-2796203) (-24), Binary32.scaled (-8418135) (-33), Binary32.scaled (-5592405) (-25)⟩,
    ⟨Binary32.scaled 11184811 (-26), Binary32.scaled (-8418135) (-33), Binary32.scaled (-5592405) (-25)⟩,
    ⟨Binary32.scaled 1 (-1), Binary32.scaled (-8418135) (-33), Binary32.scaled (-11184811) (-26)⟩,
    ⟨Binary32.scaled (-1) (-1), Binary32.scaled (-8418135) (-33), Binary32.scaled 2796203 (-24)⟩,
    ⟨Binary32.scaled (-2796203) (-24), Binary32.scaled (-8418135) (-33), Binary32.scaled 11184811 (-26)⟩,
    ⟨Binary32.scaled 11184811 (-26), Binary32.scaled (-8418135) (-33), Binary32.scaled 11184811 (-26)⟩,
    ⟨Binary32.scaled 1 (-1), Binary32.scaled (-8418135) (-33), Binary32.scaled 5592405 (-25)⟩,
    ⟨Binary32.scaled (-1) (-1), Binary32.scaled (-8418135) (-33), Binary32.scaled 1 (-1)⟩,
    ⟨Binary32.scaled (-11184811) (-26), Binary32.scaled (-8418135) (-33), Binary32.scaled 1 (-1)⟩,
    ⟨Binary32.scaled 2796203 (-24), Binary32.scaled (-8418135) (-33), Binary32.scaled 1 (-1)⟩,
    ⟨Binary32.scaled 1 (-1), Binary32.scaled (-8418135) (-33), Binary32.scaled 1 (-1)⟩]
  | _ =>
    [⟨Binary32.scaled (-1) (-1), Binary32.scaled (-8418135) (-33), Binary32.scaled (-1) (-1)⟩,
    ⟨Binary32.scaled (-2796203) (-24), Binary32.scaled (-8418135) (-33), Binary32.scaled (-1) (-1)⟩,
    ⟨Binary32.scaled 2796203 (-24), Binary32.scaled (-8418135) (-33), Binary32.scaled (-1) (-1)⟩,
    ⟨Binary32.scaled 1 (-1), Binary32.scaled (-8418135) (-33), Binary32.scaled (-1) (-1)⟩,
    ⟨Binary32.scaled (-1) (-1), Binary32.scaled (-8418135) (-33), Binary32.scaled (-2796203) (-24)⟩,
    ⟨Binary32.scaled (-2796203) (-24), Binary32.scaled (-8418135) (-33), Binary32.scaled (-2796203) (-24)⟩,
    ⟨Binary32.scaled 11184811 (-26), Binary32.scaled (-8418135) (-33), Binary32.scaled (-2796203) (-24)⟩,
    ⟨Binary32.scaled 1 (-1), Binary32.scaled (-8418135) (-33), Binary32.scaled (-11184811) (-26)⟩,
    ⟨Binary32.scaled (-1) (-1), Binary32.scaled (-8418135) (-33), Binary32.scaled 2796203 (-24)⟩,
    ⟨Binary32.scaled (-2796203) (-24), Binary32.scaled (-8418135) (-33), Binary32.scaled 11184811 (-26)⟩,
    ⟨Binary32.scaled 11184811 (-26), Binary32.scaled (-8418135) (-33), Binary32.scaled 11184811 (-26)⟩,
    ⟨Binary32.scaled 1 (-1), Binary32.scaled (-8418135) (-33), Binary32.scaled 2796203 (-24)⟩,
    ⟨Binary32.scaled (-1) (-1), Binary32.scaled (-8418135) (-33), Binary32.scaled 1 (-1)⟩,
    ⟨Binary32.scaled (-11184811) (-26), Binary32.scaled (-8418135) (-33), Binary32.scaled 1 (-1)⟩,
    ⟨Binary32.scaled 2796203 (-24), Binary32.scaled (-8418135) (-33), Binary32.scaled 1 (-1)⟩,
    ⟨Binary32.scaled 1 (-1), Binary32.scaled (-8418135) (-33), Binary32.scaled 1 (-1)⟩]

/-- The state of the single-step scenario at stage `k` of the step. -/
def scenarioRun32 (k : Nat) : ParticleSystem Binary32 :=
  { scenarioInit32 with
    m_pos := scenarioStage32 k
    m_oldPos := scenarioInit32.m_pos
    m_acc := List.replicate 16 scenarioInit32.m_gravity }

/-! ## States of the exact model used as examples -/

/-- A well-formed object for grid size 2 with the constraints of `Initialise`, the gravity
and the time step of the constructor, all four of whose particles are at rest at the
point `(0, 1, 0)`. -/
def stackedState (sqrt : F → F) : ParticleSystem F where
  m_pos := [⟨0, 1, 0⟩, ⟨0, 1, 0⟩, ⟨0, 1, 0⟩, ⟨0, 1, 0⟩]
  m_oldPos := [⟨0, 1, 0⟩, ⟨0, 1, 0⟩, ⟨0, 1, 0⟩, ⟨0, 1, 0⟩]
  m_acc := [⟨0, 0, 0⟩, ⟨0, 0, 0⟩, ⟨0, 0, 0⟩, ⟨0, 0, 0⟩]
  m_constraints := [⟨0, 1, 1⟩, ⟨2, 3, 1⟩, ⟨0, 2, 1⟩, ⟨1, 3, 1⟩, ⟨1, 2, sqrt (1 * 1 + 1 * 1)⟩]
  m_constraintParticle := 2
  m_constraintPosition := ⟨-(1 / 2), 0, 1 / 2⟩
  m_gravity := ⟨0, -2, 0⟩
  m_timeStep := 2 / 1000

/-- A well-formed object for grid size 2 with the constraints of `Initialise`: the rest
grid (spacing 1) moved by `(1/2, -9/20, 1/4)`, at rest, with time step 0.  Particle 0 is
at distance `1/4` from the centre `(0, -9/20, 0)` of the sphere, inside the collision
radius `9/20`; the other particles are outside. -/
def pushedState (sqrt : F → F) : ParticleSystem F where
  m_pos := [⟨0, -(9 / 20), -(1 / 4)⟩, ⟨1, -(9 / 20), -(1 / 4)⟩, ⟨0, -(9 / 20), 3 / 4⟩,
    ⟨1, -(9 / 20), 3 / 4⟩]
  m_oldPos := [⟨0, -(9 / 20), -(1 / 4)⟩, ⟨1, -(9 / 20), -(1 / 4)⟩, ⟨0, -(9 / 20), 3 / 4⟩,
    ⟨1, -(9 / 20), 3 / 4⟩]
  m_acc := [⟨0, 0, 0⟩, ⟨0, 0, 0⟩, ⟨0, 0, 0⟩, ⟨0, 0, 0⟩]
  m_constraints := [⟨0, 1, 1⟩, ⟨2, 3, 1⟩, ⟨0, 2, 1⟩, ⟨1, 3, 1⟩, ⟨1, 2, sqrt (1 * 1 + 1 * 1)⟩]
  m_constraintParticle := 2
  m_constraintPosition := ⟨-(1 / 2), 0, 1 / 2⟩
  m_gravity := ⟨0, -2, 0⟩
  m_timeStep := 0

end Definitions

section Lemmas

variable {F : Type} [LinearOrderedField F]

/-! ## The fault monad, array accesses and loops -/

@[simp] theorem ok_bind {α β : Type} (a : α) (f : α → Except Fault β) :
    (Except.ok a >>= f) = f a := rfl

@[simp] theorem error_bind {α β : Type} (e : Fault) (f : α → Except Fault β) :
    ((Except.error e : Except Fault α) >>= f) = Except.error e := rfl

@[simp] theorem pure_eq_ok {α : Type} (a : α) : (pure a : Except Fault α) = Except.ok a := rfl

theorem readAt_natCast {α : Type} {xs : List α} {i : Nat} (h : i < xs.length) :
    readAt xs (i : Int) = .ok xs[i] := by
  simp [readAt, List.getElem?_eq_getElem h]

theorem writeAt_natCast {α : Type} {xs : List α} {i : Nat} (h : i < xs.length) (a : α) :
    writeAt xs (i : Int) a = .ok (xs.set i a) := by
  simp [writeAt, h]

theorem readAt_ok_iff {α : Type} {xs : List α} {i : Int} {a : α} :
    readAt xs i = .ok a ↔ 0 ≤ i ∧ xs[i.toNat]? = some a := by
  unfold readAt
  split_ifs with h
  · cases hx : xs[i.toNat]? <;> simp [h]
  · simp [h]

theorem writeAt_ok_iff {α : Type} {xs ys : List α} {i : Int} {a : α} :
    writeAt xs i a = .ok ys ↔ (0 ≤ i ∧ i.toNat < xs.length) ∧ ys = xs.set i.toNat a := by
  unfold writeAt
  split_ifs with h
  · simp [h, eq_comm]
  · simp [h]

theorem forLoop_of_le {σ : Type} {lo hi : Nat} (h : hi ≤ lo) (body : Nat → σ → Except Fault σ)
    (s : σ) : forLoop lo hi body s = .ok s := by
  simp [forLoop, Nat.sub_eq_zero_of_le h]

theorem forLoop_step {σ : Type} {lo hi : Nat} (h : lo < hi) (body : Nat → σ → Except Fault σ)
    (s : σ) : forLoop lo hi body s = body lo s >>= forLoop (lo + 1) hi body := by
  unfold forLoop
  have e : hi - lo = (hi - (lo + 1)) + 1 := by omega
  rw [e, List.range'_succ, List.foldlM_cons]

/-- Invariant rule for the counted loop: a body that succeeds and re-establishes the
invariant makes the loop succeed with the invariant at the upper bound. -/
theorem forLoop_inv {σ : Type} (Inv : Nat → σ → Prop) (lo hi : Nat)
    (body : Nat → σ → Except Fault σ) (hle : lo ≤ hi) (s : σ) (h0 : Inv lo s)
    (hstep : ∀ i s, lo ≤ i → i < hi → Inv i s → ∃ s', body i s = .ok s' ∧ Inv (i + 1) s') :
    ∃ s', forLoop lo hi body s = .ok s' ∧ Inv hi s' := by
  obtain ⟨n, rfl⟩ : ∃ n, hi = lo + n := ⟨hi - lo, by omega⟩
  clear hle
  induction n generalizing lo s with
  | zero => exact ⟨s, forLoop_of_le (by omega) body s, h0⟩
  | succ n ih =>
    obtain ⟨s1, hb, h1⟩ := hstep lo s (le_refl _) (by omega) h0
    have := ih (lo + 1) s1 h1 (fun i s hi1 hi2 hI => by
      have := hstep i s (by omega) (by omega) hI
      simpa using this)
    obtain ⟨s2, hl, h2⟩ := this
    refine ⟨s2, ?_, ?_⟩
    · rw [forLoop_step (by omega), hb, ok_bind]
      have e : lo + (n + 1) = lo + 1 + n := by omega
      rw [e]; exact hl
    · have e : lo + (n + 1) = lo + 1 + n := by omega
      rw [e]; exact h2

/-- Partial-correctness rule for the counted loop: a successful run carries the
invariant from the lower to the upper bound. -/
theorem forLoop_inv_of_ok {σ : Type} (Inv : Nat → σ → Prop) (lo hi : Nat)
    (body : Nat → σ → Except Fault σ) (hle : lo ≤ hi) (s s' : σ) (h0 : Inv lo s)
    (hstep : ∀ i s s', lo ≤ i → i < hi → Inv i s → body i s = .ok s' → Inv (i + 1) s')
    (hrun : forLoop lo hi body s = .ok s') : Inv hi s' := by
  obtain ⟨n, rfl⟩ : ∃ n, hi = lo + n := ⟨hi - lo, by omega⟩
  clear hle
  induction n generalizing lo s with
  | zero =>
    rw [forLoop_of_le (by omega)] at hrun
    cases hrun; exact h0
  | succ n ih =>
    rw [forLoop_step (by omega)] at hrun
    cases hb : body lo s with
    | error e => rw [hb] at hrun; cases hrun
    | ok s1 =>
      rw [hb, ok_bind] at hrun
      have e : lo + (n + 1) = lo + 1 + n := by omega
      rw [e] at hrun ⊢
      exact ih (lo + 1) s1 (hstep lo s s1 (le_refl _) (by omega) h0 hb)
        (fun i s s' h1 h2 hI hb => hstep i s s' (by omega) (by omega) hI hb) hrun

/-! ## The constraint loops of `Initialise` -/

theorem length_nest {β : Type} (lo hi lo' hi' : Nat) (mk : Nat → Nat → β) :
    (nest lo hi lo' hi' mk).length = (hi - lo) * (hi' - lo') := by
  unfold nest
  have : ∀ rows : List Nat,
      (rows.flatMap (fun row => (List.range' lo' (hi' - lo')).map (mk row))).length =
        rows.length * (hi' - lo') := by
    intro rows
    induction rows with
    | nil => simp
    | cons r rs ih => simp [List.flatMap_cons, ih, Nat.succ_mul, Nat.add_comm]
  rw [this]; simp

theorem mem_nest {β : Type} {lo hi lo' hi' : Nat} {mk : Nat → Nat → β} {b : β} :
    b ∈ nest lo hi lo' hi' mk ↔
      ∃ row column, lo ≤ row ∧ row < hi ∧ lo' ≤ column ∧ column < hi' ∧ b = mk row column := by
  unfold nest
  simp only [List.mem_flatMap, List.mem_map, List.mem_range'_1]
  constructor
  · rintro ⟨r, ⟨h1, h2⟩, c, ⟨h3, h4⟩, rfl⟩
    exact ⟨r, c, h1, by omega, h3, by omega, rfl⟩
  · rintro ⟨r, c, h1, h2, h3, h4, rfl⟩
    exact ⟨r, ⟨h1, by omega⟩, c, ⟨h3, by omega⟩, rfl⟩

omit [LinearOrderedField F] in
theorem pushAll_append (cs ds : List (ClothConstraint F)) (st : List (ClothConstraint F) × Nat) :
    pushAll (cs ++ ds) st = pushAll cs st >>= pushAll ds := by
  unfold pushAll
  rw [List.foldlM_append]

omit [LinearOrderedField F] in
theorem forLoop_nest_push (lo hi lo' hi' : Nat) (mk : Nat → Nat → ClothConstraint F)
    (st : List (ClothConstraint F) × Nat) :
    forLoop lo hi (fun row st =>
      forLoop lo' hi' (fun column st => pushConstraint (mk row column) st) st) st =
      pushAll (nest lo hi lo' hi' mk) st := by
  unfold forLoop nest
  generalize List.range' lo (hi - lo) = rows
  induction rows generalizing st with
  | nil => rfl
  | cons r rs ih =>
    rw [List.foldlM_cons, List.flatMap_cons, pushAll_append]
    beta_reduce
    have : (List.foldlM (fun s i => pushConstraint (mk r i) s) st (List.range' lo' (hi' - lo'))) =
        pushAll ((List.range' lo' (hi' - lo')).map (mk r)) st := by
      simp [pushAll, List.foldlM_map]
    rw [this]
    congr 1
    funext st1
    exact ih st1

omit [LinearOrderedField F] in
theorem pushAll_ok (cs : List (ClothConstraint F)) (arr : List (ClothConstraint F)) (k : Nat)
    (h : k + cs.length ≤ arr.length) :
    pushAll cs (arr, k) = .ok (arr.take k ++ cs ++ arr.drop (k + cs.length), k + cs.length) := by
  induction cs generalizing arr k with
  | nil => simp [pushAll]
  | cons c cs ih =>
    have hk : k < arr.length := by simp at h; omega
    have e : pushAll (c :: cs) (arr, k) = pushAll cs (arr.set k c, k + 1) := by
      simp [pushAll, List.foldlM_cons, pushConstraint, writeAt_natCast hk]
    rw [e, ih (arr.set k c) (k + 1) (by simp at h ⊢; omega)]
    have e1 : (arr.set k c).take (k + 1) = arr.take k ++ [c] := by
      rw [List.set_eq_take_append_cons_drop, if_pos hk, List.take_append_eq_append_take]
      have hl : (List.take k arr).length = k := by simp; omega
      simp [hl]
    have e2 : (arr.set k c).drop (k + 1 + cs.length) = arr.drop (k + (cs.length + 1)) := by
      rw [List.drop_set_of_lt _ _ (by omega)]
      congr 1; omega
    simp [e1, e2]
    omega

theorem length_constraintList (sqrt : F → F) {N : Nat} (hN : 2 ≤ N) (ps : F) :
    ((constraintList sqrt N ps).length : Int) = NUM_CONSTRAINTS N := by
  obtain ⟨m, rfl⟩ : ∃ m, N = m + 2 := ⟨N - 2, by omega⟩
  simp only [constraintList, List.length_append, length_nest, NUM_CONSTRAINTS]
  have e1 : m + 2 - 1 = m + 1 := by omega
  have e2 : m + 2 - 2 = m := by omega
  simp only [e1, e2, Nat.sub_zero]
  push_cast
  ring

omit [LinearOrderedField F] in
theorem pushAll_append_fun (cs ds : List (ClothConstraint F)) :
    pushAll (cs ++ ds) = fun st => pushAll cs st >>= pushAll ds :=
  funext fun st => pushAll_append cs ds st

theorem initConstraints_eq_pushAll (sqrt : F → F) (N : Nat) (ps : F)
    (arr : List (ClothConstraint F)) :
    initConstraints sqrt N ps arr = pushAll (constraintList sqrt N ps) (arr, 0) := by
  have h1 : ∀ st, initStructuralRows N ps st =
      pushAll (nest 0 N 0 (N - 1) (structuralRowConstraint N ps)) st :=
    fun st => forLoop_nest_push _ _ _ _ _ st
  have h2 : ∀ st, initStructuralColumns N ps st =
      pushAll (nest 0 (N - 1) 0 N (structuralColumnConstraint N ps)) st :=
    fun st => forLoop_nest_push _ _ _ _ _ st
  have h3 : ∀ (d : F) st, initShear N d st = pushAll (nest 0 (N - 1) 1 N (shearConstraint N d)) st :=
    fun d st => forLoop_nest_push _ _ _ _ _ st
  have h4 : ∀ st, initBendRows N ps st =
      pushAll (nest 0 N 0 (N - 2) (bendRowConstraint N ps)) st :=
    fun st => forLoop_nest_push _ _ _ _ _ st
  have h5 : ∀ st, initBendColumns N ps st =
      pushAll (nest 0 (N - 2) 0 N (bendColumnConstraint N ps)) st :=
    fun st => forLoop_nest_push _ _ _ _ _ st
  simp only [initConstraints, constraintList, h1, h2, h3, h4, h5, pushAll_append,
    pushAll_append_fun]

theorem initConstraints_eq (sqrt : F → F) {N : Nat} (hN : 2 ≤ N) (ps : F)
    (arr : List (ClothConstraint F)) (hlen : (arr.length : Int) = NUM_CONSTRAINTS N) :
    initConstraints sqrt N ps arr =
      .ok (constraintList sqrt N ps, (NUM_CONSTRAINTS N).toNat) := by
  have hl := length_constraintList sqrt hN ps
  have hl' : (constraintList sqrt N ps).length = arr.length := by omega
  rw [initConstraints_eq_pushAll, pushAll_ok _ _ _ (by omega)]
  simp [hl']
  omega

omit [LinearOrderedField F] in
/-- A loop nest of `Initialise` that has room in the array succeeds, keeps the size of the
array and advances `constraintIndex` by the number of its iterations. -/
theorem forLoop_nest_push_ok (lo hi lo' hi' : Nat) (mk : Nat → Nat → ClothConstraint F)
    (arr : List (ClothConstraint F)) (k : Nat)
    (h : k + (hi - lo) * (hi' - lo') ≤ arr.length) :
    ∃ arr', forLoop lo hi (fun row st =>
        forLoop lo' hi' (fun column st => pushConstraint (mk row column) st) st) (arr, k) =
          .ok (arr', k + (hi - lo) * (hi' - lo')) ∧ arr'.length = arr.length := by
  have hl := length_nest lo hi lo' hi' mk
  rw [forLoop_nest_push, pushAll_ok _ _ _ (by omega), hl]
  refine ⟨_, rfl, ?_⟩
  simp [hl]
  omega

/-! ## The particle loops of `Initialise` -/

theorem index_lt {N row column : Nat} (hr : row < N) (hc : column < N) :
    row * N + column < N * N := by
  have : (row + 1) * N ≤ N * N := Nat.mul_le_mul_right N hr
  have e : (row + 1) * N = row * N + N := by ring
  omega

theorem index_mod {N row column : Nat} (hc : column < N) : (row * N + column) % N = column := by
  rw [Nat.mul_comm, Nat.mul_add_mod, Nat.mod_eq_of_lt hc]

theorem index_div {N row column : Nat} (hc : column < N) : (row * N + column) / N = row := by
  rw [Nat.mul_comm, Nat.mul_add_div (by omega), Nat.div_eq_of_lt hc, Nat.add_zero]

theorem centreParticle_nonneg (N : Nat) : 0 ≤ centreParticle N := by
  unfold centreParticle
  rcases Nat.eq_zero_or_pos N with h | h
  · subst h; decide
  · have h1 : 0 ≤ Int.tdiv (N : Int) 2 := Int.tdiv_nonneg (by omega) (by omega)
    have h2 : 0 ≤ Int.tdiv ((N : Int) - 1) 2 := Int.tdiv_nonneg (by omega) (by omega)
    positivity

theorem initParticle_inv {N : Nat} (ps : F) (s0 s : ParticleSystem F) {row column : Nat}
    (hr : row < N) (hc : column < N) (h : InitInv N ps s0 (row * N + column) s) :
    ∃ s', initParticle N ps row column s = .ok s' ∧ InitInv N ps s0 (row * N + column + 1) s' := by
  obtain ⟨hp, ho, ha, hpt, hcs, hcp, hg, ht, hcpos⟩ := h
  have hk := index_lt hr hc
  have hidx : ((row : Int) * (N : Int) + (column : Int)) = ((row * N + column : Nat) : Int) := by
    push_cast; ring
  have hv : (⟨ps * (column : F) - 1 / 2, 0, ps * (row : F) - 1 / 2⟩ : Vec3 F) =
      gridPosition N ps (row * N + column) := by
    simp [gridPosition, index_mod hc, index_div hc]
  unfold initParticle
  simp only [hidx, writeAt_natCast (hp ▸ hk), writeAt_natCast (ho ▸ hk),
    writeAt_natCast (ha ▸ hk), ok_bind, hv, hcp]
  have hget : ∀ (xs : List (Vec3 F)) (a b : Vec3 F) (i : Nat), xs.length = N * N →
      (i < row * N + column → xs[i]? = some b) → (i = row * N + column → a = b) →
      i < row * N + column + 1 → (xs.set (row * N + column) a)[i]? = some b := by
    intro xs a b i hl h1 h2 hi
    rw [List.getElem?_set]
    split_ifs with e1 e2
    · rw [h2 e1.symm]
    · omega
    · exact h1 (by omega)
  have hnn := centreParticle_nonneg N
  split_ifs with hc1
  · refine ⟨_, rfl, ?_⟩
    refine ⟨by simp [hp], by simp [ho], by simp [ha], ?_, hcs, rfl, hg, ht, ?_⟩
    · intro i hi
      exact ⟨hget _ _ _ i hp (fun h => (hpt i h).1) (fun h => by rw [h]) hi,
        hget _ _ _ i ho (fun h => (hpt i h).2.1) (fun h => by rw [h]) hi,
        hget _ _ _ i ha (fun h => (hpt i h).2.2) (fun _ => rfl) hi⟩
    · intro _
      show gridPosition N ps (row * N + column) = gridPosition N ps (centreParticle N).toNat
      rw [hc1, Int.toNat_ofNat]
  · refine ⟨_, rfl, ?_⟩
    refine ⟨by simp [hp], by simp [ho], by simp [ha], ?_, hcs, rfl, hg, ht, ?_⟩
    · intro i hi
      exact ⟨hget _ _ _ i hp (fun h => (hpt i h).1) (fun h => by rw [h]) hi,
        hget _ _ _ i ho (fun h => (hpt i h).2.1) (fun h => by rw [h]) hi,
        hget _ _ _ i ha (fun h => (hpt i h).2.2) (fun _ => rfl) hi⟩
    · intro hlt
      apply hcpos
      have : (centreParticle N).toNat ≠ row * N + column := by
        intro e
        apply hc1
        omega
      omega

theorem initParticles_inv {N : Nat} (ps : F) (s0 : ParticleSystem F)
    (h : InitInv N ps s0 0 s0) :
    ∃ s', initParticles N ps s0 = .ok s' ∧ InitInv N ps s0 (N * N) s' := by
  unfold initParticles
  exact forLoop_inv (fun row s => InitInv N ps s0 (row * N) s) 0 N _ (Nat.zero_le N) s0
    (by simpa using h)
    (fun row s _ hr hI => by
      have := forLoop_inv (fun column s => InitInv N ps s0 (row * N + column) s) 0 N
        (fun column s => initParticle N ps row column s) (Nat.zero_le N) s (by simpa using hI)
        (fun column s _ hc hI => initParticle_inv ps s0 s hr hc hI)
      obtain ⟨s', h1, h2⟩ := this
      refine ⟨s', h1, ?_⟩
      have e : (row + 1) * N = row * N + N := by ring
      show InitInv N ps s0 ((row + 1) * N) s'
      rw [e]; exact h2)

theorem restPositions_of_getElem? {N : Nat} (ps : F) (xs : List (Vec3 F)) (hl : xs.length = N * N)
    (h : ∀ i, i < N * N → xs[i]? = some (gridPosition N ps i)) : xs = restPositions N ps := by
  apply List.ext_getElem?
  intro i
  by_cases hi : i < N * N
  · rw [h i hi]
    simp [restPositions, List.getElem?_map, List.getElem?_range hi]
  · rw [List.getElem?_eq_none (by omega), List.getElem?_eq_none (by simp [restPositions]; omega)]


/-! ## `Initialise` in closed form -/

theorem spacing_eq (N : Nat) : (spacing N : F) = 1 / ((N : F) - 1) := by
  simp [spacing]

theorem spacing_pos {N : Nat} (hN : 2 ≤ N) : (0 : F) < spacing N := by
  rw [spacing_eq]
  have : (2 : F) ≤ (N : F) := by exact_mod_cast hN
  apply div_pos one_pos
  linarith

theorem particleSpace_eq {N : Nat} (hN : 2 ≤ N) :
    (particleSpace N : Except Fault F) = .ok (spacing N) := by
  have : (2 : F) ≤ (N : F) := by exact_mod_cast hN
  have h : (N : F) - 1 ≠ 0 := by
    intro h0
    linarith
  simp [particleSpace, fdiv, h, spacing]

theorem centreParticle_eq (N : Nat) (hN : 1 ≤ N) :
    centreParticle N = (((N / 2) * N + (N - 1) / 2 : Nat) : Int) := by
  unfold centreParticle
  rw [Int.tdiv_eq_ediv (by omega) (by omega), Int.tdiv_eq_ediv (by omega) (by omega)]
  push_cast [Nat.cast_sub hN]
  rfl

theorem centreParticle_lt {N : Nat} (hN : 1 ≤ N) : (centreParticle N).toNat < N * N := by
  rw [centreParticle_eq N hN, Int.toNat_ofNat]
  exact index_lt (by omega) (by omega)

theorem InitialiseIndexed_eq (sqrt : F → F) {N : Nat} (hN : 2 ≤ N) (s : ParticleSystem F)
    (hwf : WellFormed N s) :
    InitialiseIndexed sqrt N s =
      .ok (restState sqrt N (spacing N) s.m_gravity s.m_timeStep, (NUM_CONSTRAINTS N).toNat) := by
  obtain ⟨hp, ho, ha, hc⟩ := hwf
  unfold NUM_PARTICLES at hp ho ha
  unfold InitialiseIndexed
  rw [particleSpace_eq hN, ok_bind]
  obtain ⟨s2, h2, hinv⟩ := initParticles_inv (spacing N)
    ({ s with m_constraintParticle := centreParticle N } : ParticleSystem F)
    ⟨hp, ho, ha, fun i hi => absurd hi (Nat.not_lt_zero i), rfl, rfl, rfl, rfl,
      fun hi => absurd hi (Nat.not_lt_zero _)⟩
  obtain ⟨hp2, ho2, ha2, hpt, hcs, hcp, hg, ht, hcpos⟩ := hinv
  simp only at hcs hg ht
  dsimp only
  rw [h2, ok_bind, initConstraints_eq sqrt hN _ _ (by rw [hcs]; exact hc), ok_bind]
  have e1 := restPositions_of_getElem? (spacing N) s2.m_pos hp2 (fun i hi => (hpt i hi).1)
  have e2 := restPositions_of_getElem? (spacing N) s2.m_oldPos ho2 (fun i hi => (hpt i hi).2.1)
  have e3 : s2.m_acc = List.replicate (N * N) 0 := by
    apply List.ext_getElem?
    intro i
    by_cases hi : i < N * N
    · rw [(hpt i hi).2.2]; simp [List.getElem?_replicate, hi]
    · rw [List.getElem?_eq_none (by omega), List.getElem?_eq_none (by simp; omega)]
  have e4 := hcpos (centreParticle_lt (by omega))
  cases s2
  simp only at e1 e2 e3 e4 hcp hg ht
  simp [restState, e1, e2, e3, e4, hcp, hg, ht]

theorem Initialise_eq (sqrt : F → F) {N : Nat} (hN : 2 ≤ N) (s : ParticleSystem F)
    (hwf : WellFormed N s) :
    Initialise sqrt N s = .ok (restState sqrt N (spacing N) s.m_gravity s.m_timeStep) := by
  unfold Initialise
  rw [InitialiseIndexed_eq sqrt hN s hwf]
  rfl

theorem restState_wellFormed (sqrt : F → F) {N : Nat} (hN : 2 ≤ N) (ps : F) (g : Vec3 F) (t : F) :
    WellFormed N (restState sqrt N ps g t) := by
  refine ⟨?_, ?_, ?_, ?_⟩
  · simp [restState, restPositions, NUM_PARTICLES]
  · simp [restState, restPositions, NUM_PARTICLES]
  · simp [restState, NUM_PARTICLES]
  · exact length_constraintList sqrt hN ps

theorem blankState_wellFormed {N : Nat} (hN : 2 ≤ N) :
    WellFormed N (blankState N : ParticleSystem F) := by
  have h : 0 ≤ NUM_CONSTRAINTS N := by
    rw [← length_constraintList (F := F) id hN 0]; omega
  refine ⟨?_, ?_, ?_, ?_⟩
  · simp [blankState, NUM_PARTICLES]
  · simp [blankState, NUM_PARTICLES]
  · simp [blankState, NUM_PARTICLES]
  · simp [blankState, h]

/-- Every constraint of the rest configuration joins two grid cells related by one of the
five loop nests. -/
theorem mem_constraintList (sqrt : F → F) {N : Nat} (ps : F) {c : ClothConstraint F}
    (h : c ∈ constraintList sqrt N ps) :
    ∃ r col r' col', r < N ∧ col < N ∧ r' < N ∧ col' < N ∧
      c.particleA = ((r * N + col : Nat) : Int) ∧ c.particleB = ((r' * N + col' : Nat) : Int) ∧
      ConstraintKind sqrt ps r col r' col' c.restLength := by
  simp only [constraintList, List.mem_append, mem_nest] at h
  rcases h with h | h | h | h | h
  · obtain ⟨r, col, _, h2, _, h4, rfl⟩ := h
    refine ⟨r, col, r, col + 1, h2, by omega, h2, by omega, ?_, ?_, Or.inl ⟨rfl, rfl, rfl⟩⟩
    · simp [structuralRowConstraint]
    · simp [structuralRowConstraint]; ring
  · obtain ⟨r, col, _, h2, _, h4, rfl⟩ := h
    refine ⟨r, col, r + 1, col, by omega, h4, by omega, h4, ?_, ?_,
      Or.inr (Or.inl ⟨rfl, rfl, rfl⟩)⟩
    · simp [structuralColumnConstraint]
    · simp [structuralColumnConstraint]; ring
  · obtain ⟨r, col, _, h2, h3, h4, rfl⟩ := h
    refine ⟨r, col, r + 1, col - 1, by omega, h4, by omega, by omega, ?_, ?_,
      Or.inr (Or.inr (Or.inl ⟨rfl, by omega, rfl⟩))⟩
    · simp [shearConstraint]
    · simp [shearConstraint]
      rw [Nat.cast_sub h3]; push_cast; ring
  · obtain ⟨r, col, _, h2, _, h4, rfl⟩ := h
    refine ⟨r, col, r, col + 2, h2, by omega, h2, by omega, ?_, ?_,
      Or.inr (Or.inr (Or.inr (Or.inl ⟨rfl, rfl, rfl⟩)))⟩
    · simp [bendRowConstraint]
    · simp [bendRowConstraint]; ring
  · obtain ⟨r, col, _, h2, _, h4, rfl⟩ := h
    refine ⟨r, col, r + 2, col, by omega, h4, by omega, h4, ?_, ?_,
      Or.inr (Or.inr (Or.inr (Or.inr ⟨rfl, rfl, rfl⟩)))⟩
    · simp [bendColumnConstraint]
    · simp [bendColumnConstraint]; ring

/-! ## Vectors and the exact square root -/

@[simp] theorem Vec3.add_x (a b : Vec3 F) : (a + b).x = a.x + b.x := rfl

@[simp] theorem Vec3.add_y (a b : Vec3 F) : (a + b).y = a.y + b.y := rfl

@[simp] theorem Vec3.add_z (a b : Vec3 F) : (a + b).z = a.z + b.z := rfl

@[simp] theorem Vec3.sub_x (a b : Vec3 F) : (a - b).x = a.x - b.x := rfl

@[simp] theorem Vec3.sub_y (a b : Vec3 F) : (a - b).y = a.y - b.y := rfl

@[simp] theorem Vec3.sub_z (a b : Vec3 F) : (a - b).z = a.z - b.z := rfl

@[simp] theorem Vec3.scale_x (a : Vec3 F) (k : F) : (a.scale k).x = a.x * k := rfl

@[simp] theorem Vec3.scale_y (a : Vec3 F) (k : F) : (a.scale k).y = a.y * k := rfl

@[simp] theorem Vec3.scale_z (a : Vec3 F) (k : F) : (a.scale k).z = a.z * k := rfl

@[simp] theorem Vec3.zero_x : (0 : Vec3 F).x = 0 := rfl

@[simp] theorem Vec3.zero_y : (0 : Vec3 F).y = 0 := rfl

@[simp] theorem Vec3.zero_z : (0 : Vec3 F).z = 0 := rfl

theorem Vec3.lengthSq_nonneg (a : Vec3 F) : 0 ≤ a.lengthSq := by
  unfold Vec3.lengthSq
  have h1 := mul_self_nonneg a.x
  have h2 := mul_self_nonneg a.y
  have h3 := mul_self_nonneg a.z
  linarith

theorem ExactSqrt.sqrt_mul_self {sqrt : F → F} (hs : ExactSqrt sqrt) {a : F} (ha : 0 ≤ a) :
    sqrt (a * a) = a :=
  (mul_self_inj_of_nonneg (hs.2 _) ha).1 (hs.1 _ (mul_self_nonneg a))

theorem ExactSqrt.sqrt_eq_zero {sqrt : F → F} (hs : ExactSqrt sqrt) {x : F} (hx : 0 ≤ x) :
    sqrt x = 0 ↔ x = 0 := by
  constructor
  · intro h
    have := hs.1 x hx
    rw [h] at this
    simpa using this.symm
  · intro h
    subst h
    have := hs.sqrt_mul_self (le_refl (0 : F))
    simpa using this

theorem ExactSqrt.lt_iff {sqrt : F → F} (hs : ExactSqrt sqrt) {x m : F} (hx : 0 ≤ x)
    (hm : 0 ≤ m) : sqrt x < m ↔ x < m * m := by
  have h := hs.1 x hx
  have h0 := hs.2 x
  constructor
  · intro hlt
    rw [← h]
    exact mul_self_lt_mul_self h0 hlt
  · intro hlt
    by_contra hge
    push_neg at hge
    have := mul_self_le_mul_self hm hge
    linarith

/-! ## The rest configuration -/

theorem gridPosition_index {N : Nat} (ps : F) {r c : Nat} (hc : c < N) :
    gridPosition N ps (r * N + c) = ⟨ps * (c : F) - 1 / 2, 0, ps * (r : F) - 1 / 2⟩ := by
  simp [gridPosition, index_mod hc, index_div hc]

theorem restPositions_getElem? {N : Nat} (ps : F) {i : Nat} (hi : i < N * N) :
    (restPositions N ps)[i]? = some (gridPosition N ps i) := by
  simp [restPositions, List.getElem?_map, List.getElem?_range hi]

theorem readAt_of_getElem? {α : Type} {xs : List α} {i : Nat} {a : α} (h : xs[i]? = some a) :
    readAt xs (i : Int) = .ok a := by
  simp [readAt, h]

theorem restPositions_readAt {N : Nat} (ps : F) {r c : Nat} (hr : r < N) (hc : c < N) :
    readAt (restPositions N ps) ((r * N + c : Nat) : Int) =
      .ok ⟨ps * (c : F) - 1 / 2, 0, ps * (r : F) - 1 / 2⟩ := by
  rw [readAt_of_getElem? (restPositions_getElem? ps (index_lt hr hc)), gridPosition_index ps hc]

/-- In the rest configuration the squared distance between the two ends of a constraint
is the square of its rest length, shown here in the form each loop nest produces. -/
theorem rest_lengthSq (sqrt : F → F) (ps : F) {r c r' c' : Nat} {len : F}
    (hk : ConstraintKind sqrt ps r c r' c' len) :
    ((⟨ps * (c' : F) - 1 / 2, 0, ps * (r' : F) - 1 / 2⟩ : Vec3 F) -
      ⟨ps * (c : F) - 1 / 2, 0, ps * (r : F) - 1 / 2⟩).lengthSq =
      (if r' = r + 1 ∧ c' + 1 = c then ps * ps + ps * ps else len * len) := by
  rcases hk with ⟨rfl, rfl, rfl⟩ | ⟨rfl, rfl, rfl⟩ | ⟨rfl, rfl, rfl⟩ | ⟨rfl, rfl, rfl⟩ |
    ⟨rfl, rfl, rfl⟩
  · rw [if_neg (by omega)]; simp [Vec3.lengthSq]; ring
  · rw [if_neg (by omega)]; simp [Vec3.lengthSq]; ring
  · rw [if_pos ⟨rfl, rfl⟩]; simp [Vec3.lengthSq]; ring
  · rw [if_neg (by omega)]; simp [Vec3.lengthSq]; ring
  · rw [if_neg (by omega)]; simp [Vec3.lengthSq]; ring

/-- With an exact square root, the distance between the two ends of a constraint in the
rest configuration is its rest length. -/
theorem rest_length (sqrt : F → F) (hs : ExactSqrt sqrt) {ps : F} (hps : 0 ≤ ps)
    {r c r' c' : Nat} {len : F} (hk : ConstraintKind sqrt ps r c r' c' len) :
    D3DXVec3Length sqrt ((⟨ps * (c' : F) - 1 / 2, 0, ps * (r' : F) - 1 / 2⟩ : Vec3 F) -
      ⟨ps * (c : F) - 1 / 2, 0, ps * (r : F) - 1 / 2⟩) = len := by
  unfold D3DXVec3Length
  rw [rest_lengthSq sqrt ps hk]
  have h2 : (0 : F) ≤ ps * 2 := by linarith
  rcases hk with ⟨h1, h2, rfl⟩ | ⟨h1, h2, rfl⟩ | ⟨h1, h2, rfl⟩ | ⟨h1, h2, rfl⟩ | ⟨h1, h2, rfl⟩
  · rw [if_neg (by omega)]; exact hs.sqrt_mul_self hps
  · rw [if_neg (by omega)]; exact hs.sqrt_mul_self hps
  · rw [if_pos ⟨h1, h2⟩]
  · rw [if_neg (by omega)]; exact hs.sqrt_mul_self (by linarith)
  · rw [if_neg (by omega)]; exact hs.sqrt_mul_self (by linarith)

theorem ExactSqrt.sqrt_diagonal {sqrt : F → F} (hs : ExactSqrt sqrt) {ps : F} (hps : 0 ≤ ps) :
    sqrt (ps * ps + ps * ps) = sqrt 2 * ps := by
  have h2 : sqrt 2 * sqrt 2 = 2 := hs.1 2 (by norm_num)
  have hx : (0 : F) ≤ ps * ps + ps * ps := by nlinarith [mul_self_nonneg ps]
  apply (mul_self_inj_of_nonneg (hs.2 _) (mul_nonneg (hs.2 _) hps)).1
  rw [hs.1 _ hx]
  calc ps * ps + ps * ps = (sqrt 2 * sqrt 2) * (ps * ps) := by rw [h2]; ring
    _ = sqrt 2 * ps * (sqrt 2 * ps) := by ring

/-! ## `AccumulateForces` and `Verlet` -/

omit [LinearOrderedField F] in
theorem accumulateParticle_inv {N : Nat} (s t : ParticleSystem F) {k : Nat}
    (hk : k < NUM_PARTICLES N) (h : AccInv N s k t) :
    ∃ t', accumulateParticle k t = .ok t' ∧ AccInv N s (k + 1) t' := by
  obtain ⟨g1, g2, g3⟩ := h
  have hg : t.m_gravity = s.m_gravity := by rw [← g3]
  refine ⟨{ t with m_acc := t.m_acc.set k t.m_gravity },
    by unfold accumulateParticle; rw [writeAt_natCast (by omega)]; rfl,
    by simp [g1], ?_, g3⟩
  intro i hi
  show (t.m_acc.set k t.m_gravity)[i]? = _
  rw [List.getElem?_set]
  split_ifs with e1 e2
  · rw [hg]
  · omega
  · exact g2 i (by omega)

omit [LinearOrderedField F] in
theorem AccumulateForces_eq {N : Nat} (s : ParticleSystem F)
    (ha : s.m_acc.length = NUM_PARTICLES N) :
    AccumulateForces N s =
      .ok { s with m_acc := List.replicate (NUM_PARTICLES N) s.m_gravity } := by
  unfold AccumulateForces
  obtain ⟨s', h1, h2, h3, h4⟩ := forLoop_inv (AccInv N s) 0 (NUM_PARTICLES N)
    accumulateParticle (Nat.zero_le _) s ⟨ha, fun i hi => absurd hi (Nat.not_lt_zero i), rfl⟩
    (fun k t _ hk h => accumulateParticle_inv s t hk h)
  rw [h1]
  have e : s'.m_acc = List.replicate (NUM_PARTICLES N) s.m_gravity := by
    apply List.ext_getElem?
    intro i
    by_cases hi : i < NUM_PARTICLES N
    · rw [h3 i hi]; simp [List.getElem?_replicate, hi]
    · rw [List.getElem?_eq_none (by omega), List.getElem?_eq_none (by simp; omega)]
  rw [← e, ← h4]

theorem verletParticle_inv {N : Nat} (s t : ParticleSystem F) {k : Nat}
    (hp : s.m_pos.length = NUM_PARTICLES N) (ho : s.m_oldPos.length = NUM_PARTICLES N)
    (ha : s.m_acc.length = NUM_PARTICLES N)
    (hk : k < NUM_PARTICLES N) (h : VerletInv N s k t) :
    ∃ t', verletParticle k t = .ok t' ∧ VerletInv N s (k + 1) t' := by
  obtain ⟨g1, g2, g3, g4, g5⟩ := h
  have hacc : t.m_acc = s.m_acc := by rw [← g5]
  have hdt : t.m_timeStep = s.m_timeStep := by rw [← g5]
  have r1 : readAt t.m_pos (k : Int) = .ok (s.m_pos[k]?.getD 0) := by
    apply readAt_of_getElem?
    rw [g3 k hk, if_neg (by omega), List.getElem?_eq_getElem (by omega)]; rfl
  have r2 : readAt t.m_oldPos (k : Int) = .ok (s.m_oldPos[k]?.getD 0) := by
    apply readAt_of_getElem?
    rw [g4 k, if_neg (by omega), List.getElem?_eq_getElem (by omega)]; rfl
  have r3 : readAt t.m_acc (k : Int) = .ok (s.m_acc[k]?.getD 0) := by
    apply readAt_of_getElem?
    rw [hacc, List.getElem?_eq_getElem (by omega)]; rfl
  refine ⟨{ t with
      m_pos := t.m_pos.set k (verletPosition t.m_timeStep (s.m_pos[k]?.getD 0)
        (s.m_oldPos[k]?.getD 0) (s.m_acc[k]?.getD 0)),
      m_oldPos := t.m_oldPos.set k (s.m_pos[k]?.getD 0) }, by
    unfold verletParticle
    rw [r1, ok_bind, r2, ok_bind, r3, ok_bind, writeAt_natCast (by omega), ok_bind,
      writeAt_natCast (by omega), ok_bind]
    rfl, by simp [g1], by simp [g2], ?_, ?_, g5⟩
  · intro i hi
    show (t.m_pos.set k _)[i]? = _
    rw [List.getElem?_set]
    split_ifs with e1 e2 e3 e4
    · subst e1; rw [hdt]
    · omega
    · omega
    · omega
    · rw [g3 i hi, if_pos (by omega)]
    · rw [g3 i hi, if_neg (by omega)]
  · intro i
    show (t.m_oldPos.set k _)[i]? = _
    rw [List.getElem?_set]
    split_ifs with e1 e2 e3 e4
    · subst e1; rw [List.getElem?_eq_getElem (by omega)]; rfl
    · omega
    · omega
    · omega
    · rw [g4 i, if_pos (by omega)]
    · rw [g4 i, if_neg (by omega)]

/-- `Verlet` on an object with well-sized arrays: it succeeds, the old-position array
becomes the position array, every position slot gets `verletPosition` of the particle's
own three slots, and nothing else changes. -/
theorem Verlet_spec {N : Nat} (s : ParticleSystem F) (hp : s.m_pos.length = NUM_PARTICLES N)
    (ho : s.m_oldPos.length = NUM_PARTICLES N) (ha : s.m_acc.length = NUM_PARTICLES N) :
    ∃ s', Verlet N s = .ok s' ∧ s'.m_oldPos = s.m_pos ∧
      s'.m_pos.length = NUM_PARTICLES N ∧
      (∀ i, i < NUM_PARTICLES N → ∀ p o a, s.m_pos[i]? = some p → s.m_oldPos[i]? = some o →
        s.m_acc[i]? = some a → s'.m_pos[i]? = some (verletPosition s.m_timeStep p o a)) ∧
      ({ s' with m_pos := s.m_pos, m_oldPos := s.m_oldPos } : ParticleSystem F) = s := by
  unfold Verlet
  obtain ⟨s', h1, g1, g2, g3, g4, g5⟩ := forLoop_inv (VerletInv N s) 0 (NUM_PARTICLES N)
    verletParticle (Nat.zero_le _) s
    ⟨hp, ho, fun i hi => by simp, fun i => by simp, rfl⟩
    (fun k t _ hk h => verletParticle_inv s t hp ho ha hk h)
  refine ⟨s', h1, ?_, g1, ?_, g5⟩
  · apply List.ext_getElem?
    intro i
    rw [g4 i]
    split_ifs with hi
    · rfl
    · rw [List.getElem?_eq_none (by omega), List.getElem?_eq_none (by omega)]
  · intro i hi p o a e1 e2 e3
    rw [g3 i hi, if_pos hi, e1, e2, e3]
    rfl

/-! ## The distance pass of `SatisfyConstraints` -/

theorem bind_eq_ok {α β : Type} {x : Except Fault α} {f : α → Except Fault β} {b : β} :
    (x >>= f) = .ok b ↔ ∃ a, x = .ok a ∧ f a = .ok b := by
  cases x with
  | error e => simp
  | ok a => simp

theorem getElem?_lt_length {α : Type} {xs : List α} {i : Nat} {a : α} (h : xs[i]? = some a) :
    i < xs.length := by
  by_contra hlt
  rw [List.getElem?_eq_none (by omega)] at h
  cases h

theorem writeAt_self {α : Type} {xs : List α} {i : Nat} {a : α} (h : xs[i]? = some a) :
    writeAt xs (i : Int) a = .ok xs := by
  have hlt := getElem?_lt_length h
  rw [writeAt_natCast hlt]
  congr 1
  apply List.ext_getElem?
  intro j
  rw [List.getElem?_set]
  by_cases e : i = j
  · subst e; simp [hlt, h]
  · simp [e]

/-- One distance constraint whose two slots are in bounds: the code divides by the
distance, so it faults when the distance is zero and corrects both slots otherwise. -/
theorem relaxConstraint_eq (sqrt : F → F) (c : ClothConstraint F) (pos : List (Vec3 F))
    {i j : Nat} {a b : Vec3 F} (hA : c.particleA = (i : Int)) (hB : c.particleB = (j : Int))
    (ha : pos[i]? = some a) (hb : pos[j]? = some b) :
    relaxConstraint sqrt c pos =
      if D3DXVec3Length sqrt (b - a) = 0 then .error .divByZero
      else .ok (relaxedPositions pos i j a b
        ((D3DXVec3Length sqrt (b - a) - c.restLength) / D3DXVec3Length sqrt (b - a) * (1 / 2))) := by
  have hi := getElem?_lt_length ha
  have hj := getElem?_lt_length hb
  unfold relaxConstraint
  rw [hA, hB, readAt_of_getElem? ha, ok_bind, readAt_of_getElem? hb, ok_bind]
  dsimp only
  unfold fdiv
  split_ifs with h0
  · rfl
  · rw [ok_bind, writeAt_natCast hi, ok_bind]
    have hj' : j < (pos.set i (a + (b - a).scale ((D3DXVec3Length sqrt (b - a) - c.restLength) /
        D3DXVec3Length sqrt (b - a) * (1 / 2)))).length := by simpa using hj
    rw [readAt_natCast hj', ok_bind, writeAt_natCast hj']
    unfold relaxedPositions
    rw [List.getElem?_eq_getElem hj']
    rfl

theorem relaxConstraint_length (sqrt : F → F) {c : ClothConstraint F} {pos pos' : List (Vec3 F)}
    (h : relaxConstraint sqrt c pos = .ok pos') : pos'.length = pos.length := by
  unfold relaxConstraint at h
  simp only [bind_eq_ok, writeAt_ok_iff] at h
  obtain ⟨_, _, _, _, _, _, _, ⟨_, rfl⟩, _, _, _, rfl⟩ := h
  simp

/-- A distance constraint that is satisfied exactly, with a non-zero rest length, leaves
the position array as it is. -/
theorem relaxConstraint_satisfied (sqrt : F → F) (c : ClothConstraint F) (pos : List (Vec3 F))
    {a b : Vec3 F} (ha : readAt pos c.particleA = .ok a) (hb : readAt pos c.particleB = .ok b)
    (hlen : D3DXVec3Length sqrt (b - a) = c.restLength) (h0 : c.restLength ≠ 0) :
    relaxConstraint sqrt c pos = .ok pos := by
  obtain ⟨hA0, ha'⟩ := readAt_ok_iff.1 ha
  obtain ⟨hB0, hb'⟩ := readAt_ok_iff.1 hb
  have hA : c.particleA = ((c.particleA.toNat : Nat) : Int) := (Int.toNat_of_nonneg hA0).symm
  have hB : c.particleB = ((c.particleB.toNat : Nat) : Int) := (Int.toNat_of_nonneg hB0).symm
  rw [relaxConstraint_eq sqrt c pos hA hB ha' hb', if_neg (by rw [hlen]; exact h0), hlen,
    sub_self, zero_div, zero_mul]
  have e1 : a + (b - a).scale 0 = a := by ext <;> simp
  have e2 : b - (b - a).scale 0 = b := by ext <;> simp
  have s1 : pos.set c.particleA.toNat a = pos := by
    have := writeAt_self ha'
    rw [writeAt_natCast (getElem?_lt_length ha')] at this
    exact Except.ok.inj this
  have s2 : pos.set c.particleB.toNat b = pos := by
    have := writeAt_self hb'
    rw [writeAt_natCast (getElem?_lt_length hb')] at this
    exact Except.ok.inj this
  unfold relaxedPositions
  rw [e1, s1, hb', Option.getD_some, e2, s2]

omit [LinearOrderedField F] in
theorem SameExceptPos.refl (s : ParticleSystem F) : SameExceptPos s s :=
  ⟨rfl, rfl, rfl, rfl, rfl, rfl, rfl, rfl⟩

omit [LinearOrderedField F] in
theorem SameExceptPos.trans {s t u : ParticleSystem F} (h1 : SameExceptPos s t)
    (h2 : SameExceptPos t u) : SameExceptPos s u := by
  obtain ⟨a1, a2, a3, a4, a5, a6, a7, a8⟩ := h1
  obtain ⟨b1, b2, b3, b4, b5, b6, b7, b8⟩ := h2
  exact ⟨b1.trans a1, b2.trans a2, b3.trans a3, b4.trans a4, b5.trans a5, b6.trans a6,
    b7.trans a7, b8.trans a8⟩

theorem relaxStep_frame (sqrt : F → F) {k : Nat} {t t' : ParticleSystem F}
    (h : relaxStep sqrt k t = .ok t') : SameExceptPos t t' := by
  unfold relaxStep at h
  simp only [bind_eq_ok] at h
  obtain ⟨c, _, pos, hpos, h⟩ := h
  cases h
  exact ⟨relaxConstraint_length sqrt hpos, rfl, rfl, rfl, rfl, rfl, rfl, rfl⟩

/-- The distance pass writes the position array only. -/
theorem satisfyDistances_frame (sqrt : F → F) (N : Nat) {s s' : ParticleSystem F}
    (h : satisfyDistances sqrt N s = .ok s') : SameExceptPos s s' :=
  forLoop_inv_of_ok (fun _ t => SameExceptPos s t) 0 _ (relaxStep sqrt) (Nat.zero_le _) s s'
    (SameExceptPos.refl s) (fun _ _ _ _ _ hI hb => hI.trans (relaxStep_frame sqrt hb)) h

/-- A state all of whose constraints are satisfied exactly, with non-zero rest lengths, is
left as it is by the distance pass. -/
theorem satisfyDistances_fixed (sqrt : F → F) (N : Nat) (s : ParticleSystem F)
    (hlen : s.m_constraints.length = (NUM_CONSTRAINTS N).toNat)
    (hsat : ∀ c ∈ s.m_constraints, ∃ a b, readAt s.m_pos c.particleA = .ok a ∧
      readAt s.m_pos c.particleB = .ok b ∧ D3DXVec3Length sqrt (b - a) = c.restLength ∧
      c.restLength ≠ 0) :
    satisfyDistances sqrt N s = .ok s := by
  obtain ⟨s', h1, h2⟩ := forLoop_inv (fun _ t => t = s) 0 (NUM_CONSTRAINTS N).toNat
    (relaxStep sqrt) (Nat.zero_le _) s rfl (fun k t _ hk ht => by
      subst ht
      refine ⟨t, ?_, rfl⟩
      have hk' : k < t.m_constraints.length := by omega
      obtain ⟨a, b, ha, hb, hl, h0⟩ := hsat _ (List.getElem_mem hk')
      unfold relaxStep
      rw [readAt_natCast hk', ok_bind, relaxConstraint_satisfied sqrt _ _ ha hb hl h0, ok_bind]
      rfl)
  unfold satisfyDistances
  rw [h1, h2]

/-! ## The sphere pass of `SatisfyConstraints` -/

theorem EDGE_CORRECTION_nonneg (N : Nat) : (0 : F) ≤ EDGE_CORRECTION N := by
  unfold EDGE_CORRECTION
  exact div_nonneg (by norm_num) (Nat.cast_nonneg N)

theorem sphereMinLength_pos (N : Nat) : (0 : F) < sphereMinLength N := by
  have := EDGE_CORRECTION_nonneg (F := F) N
  unfold sphereMinLength SPHERE_RADIUS
  linarith [show (0 : F) < 3 / 10 by norm_num]

/-- One particle of the sphere pass, in bounds: outside the collision radius nothing is
written; inside it the code divides by the distance from the centre, so it faults at the
centre itself and moves the particle otherwise. -/
theorem sphereParticle_eq (sqrt : F → F) (N : Nat) (pos : List (Vec3 F)) {i : Nat} {p : Vec3 F}
    (hp : pos[i]? = some p) :
    sphereParticle sqrt N i pos =
      if D3DXVec3Length sqrt (SPHERE_POSITION N - p) < sphereMinLength N then
        if D3DXVec3Length sqrt (SPHERE_POSITION N - p) = 0 then .error .divByZero
        else .ok (pos.set i (p + (SPHERE_POSITION N - p).scale
          ((D3DXVec3Length sqrt (SPHERE_POSITION N - p) - sphereMinLength N) /
            D3DXVec3Length sqrt (SPHERE_POSITION N - p))))
      else .ok pos := by
  have hi := getElem?_lt_length hp
  unfold sphereParticle
  rw [readAt_of_getElem? hp, ok_bind]
  dsimp only
  unfold fdiv
  show (if D3DXVec3Length sqrt (SPHERE_POSITION N - p) < sphereMinLength N then _ else _) = _
  split_ifs with h1 h2
  · rfl
  · rw [ok_bind, writeAt_natCast hi]
    rfl
  · rfl

/-- The geometry of the push: a particle at distance `0 < d < m` from the centre ends at
distance exactly `m`. -/
theorem sphere_push_length (sqrt : F → F) (hs : ExactSqrt sqrt) (C p : Vec3 F) {m : F}
    (hm : 0 ≤ m) (h0 : D3DXVec3Length sqrt (C - p) ≠ 0) :
    D3DXVec3Length sqrt (C - (p + (C - p).scale
      ((D3DXVec3Length sqrt (C - p) - m) / D3DXVec3Length sqrt (C - p)))) = m := by
  unfold D3DXVec3Length at h0 ⊢
  have hd := hs.1 _ (Vec3.lengthSq_nonneg (C - p))
  set d := sqrt (C - p).lengthSq with hd_def
  have key : (C - (p + (C - p).scale ((d - m) / d))).lengthSq = m * m := by
    have e : ∀ t : F, t - (t * ((d - m) / d)) = t * (m / d) := by
      intro t; field_simp; ring
    simp only [Vec3.lengthSq, Vec3.sub_x, Vec3.sub_y, Vec3.sub_z, Vec3.add_x, Vec3.add_y,
      Vec3.add_z, Vec3.scale_x, Vec3.scale_y, Vec3.scale_z]
    have ex : C.x - (p.x + (C.x - p.x) * ((d - m) / d)) = (C.x - p.x) * (m / d) := by
      rw [← e]; ring
    have ey : C.y - (p.y + (C.y - p.y) * ((d - m) / d)) = (C.y - p.y) * (m / d) := by
      rw [← e]; ring
    have ez : C.z - (p.z + (C.z - p.z) * ((d - m) / d)) = (C.z - p.z) * (m / d) := by
      rw [← e]; ring
    rw [ex, ey, ez]
    have hsq : (C.x - p.x) * (C.x - p.x) + (C.y - p.y) * (C.y - p.y) +
        (C.z - p.z) * (C.z - p.z) = d * d := by
      rw [hd]; rfl
    calc (C.x - p.x) * (m / d) * ((C.x - p.x) * (m / d)) +
          (C.y - p.y) * (m / d) * ((C.y - p.y) * (m / d)) +
          (C.z - p.z) * (m / d) * ((C.z - p.z) * (m / d))
        = ((C.x - p.x) * (C.x - p.x) + (C.y - p.y) * (C.y - p.y) +
          (C.z - p.z) * (C.z - p.z)) * ((m / d) * (m / d)) := by ring
      _ = d * d * ((m / d) * (m / d)) := by rw [hsq]
      _ = m * m := by field_simp
  rw [key]
  exact hs.sqrt_mul_self hm

/-- A successful visit of particle `i` by the sphere pass keeps the size of the array and
all other slots, and leaves particle `i` at least the collision radius away from the centre. -/
theorem sphereParticle_ok (sqrt : F → F) (hs : ExactSqrt sqrt) (N : Nat) {pos pos' : List (Vec3 F)}
    {i : Nat} (h : sphereParticle sqrt N i pos = .ok pos') :
    pos'.length = pos.length ∧ (∀ j, j ≠ i → pos'[j]? = pos[j]?) ∧
      ∃ q, pos'[i]? = some q ∧
        sphereMinLength N ≤ D3DXVec3Length sqrt (SPHERE_POSITION N - q) := by
  have hr : ∃ p, pos[i]? = some p := by
    unfold sphereParticle at h
    obtain ⟨p, hp, _⟩ := bind_eq_ok.1 h
    exact ⟨p, (readAt_ok_iff.1 hp).2⟩
  obtain ⟨p, hp⟩ := hr
  have hi := getElem?_lt_length hp
  rw [sphereParticle_eq sqrt N pos hp] at h
  split_ifs at h with h1 h2
  · cases h
    refine ⟨by simp, fun j hj => by simp [List.getElem?_set, Ne.symm hj], _,
      List.getElem?_set_self hi, ?_⟩
    rw [sphere_push_length sqrt hs _ _ (sphereMinLength_pos N).le h2]
  · cases h
    exact ⟨rfl, fun _ _ => rfl, p, hp, not_lt.1 h1⟩

theorem sphereStep_inv_of_ok (sqrt : F → F) (hs : ExactSqrt sqrt) (N : Nat)
    (s t t' : ParticleSystem F) {k : Nat} (hI : SphereInv sqrt N s k t)
    (h : sphereStep sqrt N k t = .ok t') : SphereInv sqrt N s (k + 1) t' := by
  unfold sphereStep at h
  obtain ⟨pos, hpos, h⟩ := bind_eq_ok.1 h
  cases h
  obtain ⟨hl, hother, q, hq, hdist⟩ := sphereParticle_ok sqrt hs N hpos
  refine ⟨hI.1.trans ⟨hl, rfl, rfl, rfl, rfl, rfl, rfl, rfl⟩, ?_⟩
  intro i hi
  by_cases e : i = k
  · subst e; exact ⟨q, hq, hdist⟩
  · obtain ⟨q', hq', hd'⟩ := hI.2 i (by omega)
    exact ⟨q', by show pos[i]? = _; rw [hother i e]; exact hq', hd'⟩

/-- A successful sphere pass writes the position array only and leaves the first
`NUM_PARTICLES` particles at least the collision radius away from the centre. -/
theorem satisfySphere_post (sqrt : F → F) (hs : ExactSqrt sqrt) (N : Nat)
    {s s' : ParticleSystem F} (h : satisfySphere sqrt N s = .ok s') :
    SphereInv sqrt N s (NUM_PARTICLES N) s' :=
  forLoop_inv_of_ok (SphereInv sqrt N s) 0 _ (sphereStep sqrt N) (Nat.zero_le _) s s'
    ⟨SameExceptPos.refl s, fun i hi => absurd hi (Nat.not_lt_zero i)⟩
    (fun _ t t' _ _ hI hb => sphereStep_inv_of_ok sqrt hs N s t t' hI hb) h

theorem sphereStep_frame (sqrt : F → F) (N : Nat) {i : Nat} {t t' : ParticleSystem F}
    (h : sphereStep sqrt N i t = .ok t') : SameExceptPos t t' := by
  unfold sphereStep at h
  obtain ⟨pos, hpos, h⟩ := bind_eq_ok.1 h
  cases h
  refine ⟨?_, rfl, rfl, rfl, rfl, rfl, rfl, rfl⟩
  unfold sphereParticle at hpos
  obtain ⟨p, _, hpos⟩ := bind_eq_ok.1 hpos
  dsimp only at hpos
  split_ifs at hpos
  · obtain ⟨d, _, hw⟩ := bind_eq_ok.1 hpos
    obtain ⟨_, rfl⟩ := writeAt_ok_iff.1 hw
    simp
  · cases hpos; rfl

/-- The sphere pass writes the position array only. -/
theorem satisfySphere_frame (sqrt : F → F) (N : Nat) {s s' : ParticleSystem F}
    (h : satisfySphere sqrt N s = .ok s') : SameExceptPos s s' :=
  forLoop_inv_of_ok (fun _ t => SameExceptPos s t) 0 _ (sphereStep sqrt N) (Nat.zero_le _) s s'
    (SameExceptPos.refl s) (fun _ _ _ _ _ hI hb => hI.trans (sphereStep_frame sqrt N hb)) h

/-- A state whose particles are all at least the collision radius away from the centre is
left as it is by the sphere pass. -/
theorem satisfySphere_fixed (sqrt : F → F) (N : Nat) (s : ParticleSystem F)
    (hout : ∀ i, i < NUM_PARTICLES N → ∃ p, s.m_pos[i]? = some p ∧
      ¬ D3DXVec3Length sqrt (SPHERE_POSITION N - p) < sphereMinLength N) :
    satisfySphere sqrt N s = .ok s := by
  obtain ⟨s', h1, h2⟩ := forLoop_inv (fun _ t => t = s) 0 (NUM_PARTICLES N)
    (sphereStep sqrt N) (Nat.zero_le _) s rfl (fun k t _ hk ht => by
      subst ht
      refine ⟨t, ?_, rfl⟩
      obtain ⟨p, hp, hd⟩ := hout k hk
      unfold sphereStep
      rw [sphereParticle_eq sqrt N _ hp, if_neg hd, ok_bind]
      rfl)
  unfold satisfySphere
  rw [h1, h2]

theorem SatisfyConstraints_eq (sqrt : F → F) (N : Nat) (s : ParticleSystem F) :
    SatisfyConstraints sqrt N s = satisfyDistances sqrt N s >>= satisfySphere sqrt N := by
  unfold SatisfyConstraints NUM_ITERATIONS
  rw [forLoop_step (by decide)]
  unfold iterationStep
  cases h : satisfyDistances sqrt N s >>= satisfySphere sqrt N with
  | error e => rfl
  | ok t => rw [ok_bind, forLoop_of_le (by decide)]

/-- The constraint solver writes the position array only. -/
theorem SatisfyConstraints_frame (sqrt : F → F) (N : Nat) {s s' : ParticleSystem F}
    (h : SatisfyConstraints sqrt N s = .ok s') : SameExceptPos s s' := by
  rw [SatisfyConstraints_eq] at h
  obtain ⟨t, h1, h2⟩ := bind_eq_ok.1 h
  exact (satisfyDistances_frame sqrt N h1).trans (satisfySphere_frame sqrt N h2)

/-! ## `TimeStep` -/

/-- The first two phases of `TimeStep` on a well-formed object always complete: the
accelerations become the gravity vector, the old positions the positions, and every
position slot gets `verletPosition` of its own slots. -/
theorem integrate_spec {N : Nat} (s : ParticleSystem F) (hwf : WellFormed N s) :
    ∃ s1, (AccumulateForces N s >>= Verlet N) = .ok s1 ∧ s1.m_oldPos = s.m_pos ∧
      s1.m_pos.length = NUM_PARTICLES N ∧
      s1.m_acc = List.replicate (NUM_PARTICLES N) s.m_gravity ∧
      s1.m_constraints = s.m_constraints ∧ s1.m_constraintParticle = s.m_constraintParticle ∧
      s1.m_constraintPosition = s.m_constraintPosition ∧ s1.m_gravity = s.m_gravity ∧
      s1.m_timeStep = s.m_timeStep ∧
      (∀ i, i < NUM_PARTICLES N → ∀ p o, s.m_pos[i]? = some p → s.m_oldPos[i]? = some o →
        s1.m_pos[i]? = some (verletPosition s.m_timeStep p o s.m_gravity)) := by
  obtain ⟨hp, ho, ha, _⟩ := hwf
  rw [AccumulateForces_eq s ha, ok_bind]
  obtain ⟨s1, h1, h2, h3, h4, h5⟩ := Verlet_spec (N := N)
    ({ s with m_acc := List.replicate (NUM_PARTICLES N) s.m_gravity } : ParticleSystem F)
    hp ho (by simp)
  have e := h5
  simp only [ParticleSystem.mk.injEq] at e
  obtain ⟨_, _, e3, e4, e5, e6, e7, e8⟩ := e
  refine ⟨s1, h1, h2, h3, e3, e4, e5, e6, e7, e8, ?_⟩
  · intro i hi p o e1 e2
    exact h4 i hi p o s.m_gravity e1 e2 (by simp [List.getElem?_replicate, hi])

theorem TimeStep_eq (sqrt : F → F) (N : Nat) (s : ParticleSystem F) :
    TimeStep sqrt N s = (AccumulateForces N s >>= Verlet N) >>= SatisfyConstraints sqrt N := by
  unfold TimeStep
  rw [bind_assoc]

theorem TimeStep_wellFormed (sqrt : F → F) {N : Nat} {s s' : ParticleSystem F}
    (hwf : WellFormed N s) (h : TimeStep sqrt N s = .ok s') : WellFormed N s' := by
  obtain ⟨s1, h1, h2, h3, h4, h5, _⟩ := integrate_spec s hwf
  rw [TimeStep_eq, h1, ok_bind] at h
  obtain ⟨g1, g2, g3, g4, _⟩ := SatisfyConstraints_frame sqrt N h
  obtain ⟨hp, ho, ha, hc⟩ := hwf
  refine ⟨by rw [g1, h3], by rw [g2, h2, hp], by rw [g3, h4]; simp, by rw [g4, h5]; exact hc⟩

theorem Initialise_wellFormed (sqrt : F → F) {N : Nat} (hN : 2 ≤ N) {s s' : ParticleSystem F}
    (hwf : WellFormed N s) (h : Initialise sqrt N s = .ok s') : WellFormed N s' := by
  rw [Initialise_eq sqrt hN s hwf] at h
  cases h
  exact restState_wellFormed sqrt hN _ _ _

theorem Reachable.wellFormed (sqrt : F → F) {N : Nat} (hN : 2 ≤ N) {s : ParticleSystem F}
    (h : Reachable sqrt N s) : WellFormed N s := by
  induction h with
  | construct mem s hm hc => exact Initialise_wellFormed sqrt hN (s := { mem with
      m_gravity := ⟨0, -2, 0⟩, m_timeStep := 2 / 1000 }) hm hc
  | timeStep s s' _ ht ih => exact TimeStep_wellFormed sqrt ih ht
  | setTimeStep s t _ ih => exact ih
  | initialise s s' _ hi ih => exact Initialise_wellFormed sqrt hN ih hi

theorem exactSqrt_real : ExactSqrt Real.sqrt :=
  ⟨fun _ hx => Real.mul_self_sqrt hx, Real.sqrt_nonneg⟩

theorem construct_eq (sqrt : F → F) {N : Nat} (hN : 2 ≤ N) (mem : ParticleSystem F)
    (hwf : WellFormed N mem) :
    construct sqrt N mem = .ok (restState sqrt N (spacing N) ⟨0, -2, 0⟩ (2 / 1000)) :=
  Initialise_eq sqrt hN ({ mem with m_gravity := ⟨0, -2, 0⟩, m_timeStep := 2 / 1000 }) hwf

theorem reachable_fresh (sqrt : F → F) {N : Nat} (hN : 2 ≤ N) :
    Reachable sqrt N (restState sqrt N (spacing N) ⟨0, -2, 0⟩ (2 / 1000) : ParticleSystem F) :=
  Reachable.construct (blankState N) _ (blankState_wellFormed hN)
    (construct_eq sqrt hN _ (blankState_wellFormed hN))

/-! ## The rest grid and its translates under `TimeStep` -/

theorem translatedRest_length (N : Nat) (ps : F) (t : Vec3 F) :
    (translatedRest N ps t).length = N * N := by
  simp [translatedRest, restPositions]

theorem translatedRest_readAt {N : Nat} (ps : F) (t : Vec3 F) {r c : Nat} (hr : r < N)
    (hc : c < N) :
    readAt (translatedRest N ps t) ((r * N + c : Nat) : Int) =
      .ok ((⟨ps * (c : F) - 1 / 2, 0, ps * (r : F) - 1 / 2⟩ : Vec3 F) + t) := by
  apply readAt_of_getElem?
  unfold translatedRest
  rw [List.getElem?_map, restPositions_getElem? ps (index_lt hr hc), gridPosition_index ps hc]
  rfl

theorem translatedRest_zero (N : Nat) (ps : F) : translatedRest N ps 0 = restPositions N ps := by
  unfold translatedRest
  have : (fun p : Vec3 F => p + 0) = id := by
    funext p
    ext <;> simp
  rw [this, List.map_id]

theorem constraintKind_ne_zero (sqrt : F → F) (hs : ExactSqrt sqrt) {ps : F} (hps : 0 < ps)
    {r c r' c' : Nat} {len : F} (hk : ConstraintKind sqrt ps r c r' c' len) : len ≠ 0 := by
  rcases hk with ⟨_, _, e⟩ | ⟨_, _, e⟩ | ⟨_, _, e⟩ | ⟨_, _, e⟩ | ⟨_, _, e⟩
  · rw [e]; exact hps.ne'
  · rw [e]; exact hps.ne'
  · rw [e]
    have hx : (0 : F) < ps * ps + ps * ps := by nlinarith
    intro h0
    exact hx.ne' ((hs.sqrt_eq_zero hx.le).1 h0)
  · rw [e]; exact (by linarith : (0 : F) < ps * 2).ne'
  · rw [e]; exact (by linarith : (0 : F) < ps * 2).ne'

/-- Every constraint of the rest configuration is satisfied exactly by every translate of
the rest grid. -/
theorem translatedRest_satisfied (sqrt : F → F) (hs : ExactSqrt sqrt) (N : Nat) {ps : F}
    (hps : 0 < ps) (t : Vec3 F) :
    ∀ c ∈ constraintList sqrt N ps, ∃ a b,
      readAt (translatedRest N ps t) c.particleA = .ok a ∧
      readAt (translatedRest N ps t) c.particleB = .ok b ∧
      D3DXVec3Length sqrt (b - a) = c.restLength ∧ c.restLength ≠ 0 := by
  intro c hc
  obtain ⟨r, col, r', col', h1, h2, h3, h4, hA, hB, hk⟩ := mem_constraintList sqrt _ hc
  refine ⟨_, _, by rw [hA]; exact translatedRest_readAt ps t h1 h2,
    by rw [hB]; exact translatedRest_readAt ps t h3 h4, ?_, constraintKind_ne_zero sqrt hs hps hk⟩
  rw [← rest_length sqrt hs hps.le hk]
  congr 1
  ext <;> simp

/-- A step from a translate of the rest grid at rest (old positions equal to the
positions, no displacement by gravity): the integration and the distance pass change only
the accelerations, so the step is the sphere pass on that state. -/
theorem TimeStep_still (sqrt : F → F) (hs : ExactSqrt sqrt) {N : Nat} {ps : F} (hps : 0 < ps)
    (t : Vec3 F) (s : ParticleSystem F) (hwf : WellFormed N s)
    (hcs : s.m_constraints = constraintList sqrt N ps)
    (hpos : s.m_pos = translatedRest N ps t) (hold : s.m_oldPos = s.m_pos)
    (hzero : (s.m_gravity.scale s.m_timeStep).scale s.m_timeStep = 0) :
    TimeStep sqrt N s = satisfySphere sqrt N
      { s with m_acc := List.replicate (NUM_PARTICLES N) s.m_gravity } := by
  obtain ⟨s1, h1, h2, h3, h4, h5, h6, h7, h8, h9, h10⟩ := integrate_spec s hwf
  have hp1 : s1.m_pos = s.m_pos := by
    apply List.ext_getElem?
    intro i
    by_cases hi : i < NUM_PARTICLES N
    · have hi' : i < s.m_pos.length := by rw [hwf.1]; exact hi
      have a1 : s.m_pos[i]? = some (s.m_pos[i]) := List.getElem?_eq_getElem _
      rw [h10 i hi _ _ a1 (by rw [hold]; exact a1), a1]
      congr 1
      unfold verletPosition
      rw [hzero]
      ext <;> simp
    · rw [List.getElem?_eq_none (by omega), List.getElem?_eq_none (by rw [hwf.1]; omega)]
  have e1 : s1 = { s with m_acc := List.replicate (NUM_PARTICLES N) s.m_gravity } := by
    cases s1
    cases s
    simp only at h2 h4 h5 h6 h7 h8 h9 hp1 hold
    simp only [ParticleSystem.mk.injEq]
    exact ⟨hp1, by rw [h2, hold], h4, h5, h6, h7, h8, h9⟩
  rw [TimeStep_eq, h1, ok_bind, SatisfyConstraints_eq, satisfyDistances_fixed sqrt N s1
    (by rw [h5]; have := hwf.2.2.2; omega)
    (by rw [h5, hcs, hp1, hpos]; exact translatedRest_satisfied sqrt hs N hps t), ok_bind, e1]

theorem translatedRest_getElem? {N : Nat} (ps : F) (t : Vec3 F) {i : Nat} (hi : i < N * N) :
    (translatedRest N ps t)[i]? = some (gridPosition N ps i + t) := by
  unfold translatedRest
  rw [List.getElem?_map, restPositions_getElem? ps hi]
  rfl

/-- A step from a translate of the rest grid whose old positions are another translate:
integration moves the whole grid by one vector, the distance pass then changes nothing, so
the step is the sphere pass on the moved grid. -/
theorem TimeStep_translated (sqrt : F → F) (hs : ExactSqrt sqrt) {N : Nat} {ps : F}
    (hps : 0 < ps) (t told : Vec3 F) (s : ParticleSystem F) (hwf : WellFormed N s)
    (hcs : s.m_constraints = constraintList sqrt N ps)
    (hpos : s.m_pos = translatedRest N ps t) (hold : s.m_oldPos = translatedRest N ps told) :
    TimeStep sqrt N s = satisfySphere sqrt N
      { s with
        m_pos := translatedRest N ps (verletPosition s.m_timeStep t told s.m_gravity)
        m_oldPos := s.m_pos
        m_acc := List.replicate (NUM_PARTICLES N) s.m_gravity } := by
  obtain ⟨s1, h1, h2, h3, h4, h5, h6, h7, h8, h9, h10⟩ := integrate_spec s hwf
  have hp1 : s1.m_pos = translatedRest N ps (verletPosition s.m_timeStep t told s.m_gravity) := by
    apply List.ext_getElem?
    intro i
    by_cases hi : i < NUM_PARTICLES N
    · have hi' : i < N * N := hi
      rw [h10 i hi _ _ (by rw [hpos]; exact translatedRest_getElem? ps t hi')
        (by rw [hold]; exact translatedRest_getElem? ps told hi'),
        translatedRest_getElem? ps _ hi']
      congr 1
      unfold verletPosition
      ext <;> simp <;> ring
    · rw [List.getElem?_eq_none (by omega),
        List.getElem?_eq_none (by rw [translatedRest_length]; unfold NUM_PARTICLES at hi; omega)]
  have e1 : s1 = { s with
      m_pos := translatedRest N ps (verletPosition s.m_timeStep t told s.m_gravity)
      m_oldPos := s.m_pos
      m_acc := List.replicate (NUM_PARTICLES N) s.m_gravity } := by
    cases s1
    cases s
    simp only at h2 h4 h5 h6 h7 h8 h9 hp1
    simp only [ParticleSystem.mk.injEq]
    exact ⟨hp1, h2, h4, h5, h6, h7, h8, h9⟩
  rw [TimeStep_eq, h1, ok_bind, SatisfyConstraints_eq, satisfyDistances_fixed sqrt N s1
    (by rw [h5]; have := hwf.2.2.2; omega)
    (by rw [h5, hcs, hp1]; exact translatedRest_satisfied sqrt hs N hps _), ok_bind, e1]

/-- The first step of the freshly constructed object for grid size 2: every particle moves
by `gravity * dt^2` and stays outside the collision radius of the sphere. -/
theorem TimeStep_fresh_two (sqrt : F → F) (hs : ExactSqrt sqrt) :
    TimeStep sqrt 2 (restState sqrt 2 (spacing 2) ⟨0, -2, 0⟩ (2 / 1000) : ParticleSystem F) =
      .ok (afterFirstStep sqrt 2) := by
  have hN : 2 ≤ 2 := le_refl 2
  rw [TimeStep_translated sqrt hs (spacing_pos hN) 0 0 _ (restState_wellFormed sqrt hN _ _ _) rfl
    (translatedRest_zero 2 _).symm (translatedRest_zero 2 _).symm]
  have hv : verletPosition (2 / 1000 : F) 0 0 ⟨0, -2, 0⟩ =
      ⟨0, -2 * (2 / 1000) * (2 / 1000), 0⟩ := by
    unfold verletPosition
    ext <;> simp
  have hstate : ({ restState sqrt 2 (spacing 2) ⟨0, -2, 0⟩ (2 / 1000) with
      m_pos := translatedRest 2 (spacing 2)
        (verletPosition (restState sqrt 2 (spacing 2) ⟨0, -2, 0⟩ (2 / 1000)).m_timeStep 0 0
          (restState sqrt 2 (spacing 2) ⟨0, -2, 0⟩ (2 / 1000)).m_gravity)
      m_oldPos := (restState sqrt 2 (spacing 2) ⟨0, -2, 0⟩ (2 / 1000)).m_pos
      m_acc := List.replicate (NUM_PARTICLES 2)
        (restState sqrt 2 (spacing 2) ⟨0, -2, 0⟩ (2 / 1000)).m_gravity } : ParticleSystem F) =
      afterFirstStep sqrt 2 := by
    unfold afterFirstStep
    simp only [restState, hv]
  rw [hstate]
  apply satisfySphere_fixed
  intro i hi
  have hi' : i < 2 * 2 := hi
  refine ⟨_, translatedRest_getElem? _ _ hi', ?_⟩
  unfold D3DXVec3Length
  rw [hs.lt_iff (Vec3.lengthSq_nonneg _) (sphereMinLength_pos 2).le, not_lt]
  have hsp : (spacing 2 : F) = 1 := by simp [spacing]
  simp only [Vec3.lengthSq, Vec3.sub_x, Vec3.sub_y, Vec3.sub_z, Vec3.add_x, Vec3.add_y,
    Vec3.add_z, SPHERE_POSITION, gridPosition, sphereMinLength, SPHERE_RADIUS, EDGE_CORRECTION,
    hsp]
  interval_cases i <;> norm_num

theorem rest_outside (sqrt : F → F) (hs : ExactSqrt sqrt) (N : Nat) (ps : F) (i : Nat) :
    ¬ D3DXVec3Length sqrt (SPHERE_POSITION N - gridPosition N ps i) < sphereMinLength N := by
  unfold D3DXVec3Length
  rw [hs.lt_iff (Vec3.lengthSq_nonneg _) (sphereMinLength_pos N).le]
  simp only [Vec3.lengthSq, Vec3.sub_x, Vec3.sub_y, Vec3.sub_z, SPHERE_POSITION, gridPosition,
    sphereMinLength, not_lt]
  nlinarith [mul_self_nonneg (0 - (ps * ((i % N : Nat) : F) - 1 / 2)),
    mul_self_nonneg (0 - (ps * ((i / N : Nat) : F) - 1 / 2))]

/-- With zero gravity and time step 0 the rest configuration is a fixed point of `TimeStep`. -/
theorem TimeStep_rest (sqrt : F → F) (hs : ExactSqrt sqrt) {N : Nat} (hN : 2 ≤ N) :
    TimeStep sqrt N (restState sqrt N (spacing N) 0 0 : ParticleSystem F) =
      .ok (restState sqrt N (spacing N) 0 0) := by
  rw [TimeStep_still sqrt hs (spacing_pos hN) 0 _ (restState_wellFormed sqrt hN _ _ _) rfl
    (translatedRest_zero N _).symm rfl (by ext <;> simp [restState])]
  exact satisfySphere_fixed sqrt N _ (fun i hi =>
    ⟨gridPosition N (spacing N) i, restPositions_getElem? _ hi, rest_outside sqrt hs N _ i⟩)

theorem timeSteps_rest (sqrt : F → F) (hs : ExactSqrt sqrt) {N : Nat} (hN : 2 ≤ N) (k : Nat) :
    timeSteps sqrt N k (restState sqrt N (spacing N) 0 0 : ParticleSystem F) =
      .ok (restState sqrt N (spacing N) 0 0) := by
  induction k with
  | zero => rfl
  | succ k ih =>
    unfold timeSteps
    rw [TimeStep_rest sqrt hs hN, ok_bind]
    exact ih

theorem lengthSq_eq_zero (v : Vec3 F) : v.lengthSq = 0 ↔ v = 0 := by
  constructor
  · intro h
    unfold Vec3.lengthSq at h
    have h1 := mul_self_nonneg v.x
    have h2 := mul_self_nonneg v.y
    have h3 := mul_self_nonneg v.z
    ext
    · exact mul_self_eq_zero.1 (by linarith)
    · exact mul_self_eq_zero.1 (by linarith)
    · exact mul_self_eq_zero.1 (by linarith)
  · intro h
    subst h
    simp [Vec3.lengthSq]

theorem length_eq_zero (sqrt : F → F) (hs : ExactSqrt sqrt) (a b : Vec3 F) :
    D3DXVec3Length sqrt (b - a) = 0 ↔ a = b := by
  unfold D3DXVec3Length
  rw [hs.sqrt_eq_zero (Vec3.lengthSq_nonneg _), lengthSq_eq_zero]
  constructor
  · intro h
    have hx := congrArg Vec3.x h
    have hy := congrArg Vec3.y h
    have hz := congrArg Vec3.z h
    simp only [Vec3.sub_x, Vec3.sub_y, Vec3.sub_z, Vec3.zero_x, Vec3.zero_y, Vec3.zero_z]
      at hx hy hz
    ext <;> linarith
  · intro h
    subst h
    ext <;> simp

/-! ## Lists made of blocks, and the order of the loop nests -/

/-- Indexing into the concatenation of blocks of equal length `m`. -/
theorem getElem?_flatten_blocks {α : Type} (L : List (List α)) (m : Nat)
    (hL : ∀ l ∈ L, l.length = m) (q j : Nat) (hj : j < m) :
    L.flatten[m * q + j]? = (L[q]?).bind (fun l => l[j]?) := by
  induction L generalizing q with
  | nil => simp
  | cons l ls ih =>
    have hl : l.length = m := hL l (List.mem_cons_self _ _)
    rw [List.flatten_cons]
    cases q with
    | zero =>
      rw [Nat.mul_zero, Nat.zero_add, List.getElem?_append_left (by omega)]
      simp
    | succ q =>
      have e : m * (q + 1) + j = m * q + j + l.length := by rw [hl]; ring
      rw [e, List.getElem?_append_right (by omega), Nat.add_sub_cancel,
        ih (fun l' h' => hL l' (List.mem_cons_of_mem _ h')) q]
      simp

theorem nest_eq_flatten {β : Type} (lo hi lo' hi' : Nat) (mk : Nat → Nat → β) :
    nest lo hi lo' hi' mk =
      ((List.range' lo (hi - lo)).map
        (fun row => (List.range' lo' (hi' - lo')).map (mk row))).flatten := rfl

/-- The `k`-th value a loop nest produces is the one for row `lo + k / w` and column
`lo' + k % w`, where `w` is the number of columns. -/
theorem nest_getElem? {β : Type} (lo hi lo' hi' : Nat) (mk : Nat → Nat → β) {k : Nat}
    (hk : k < (hi - lo) * (hi' - lo')) :
    (nest lo hi lo' hi' mk)[k]? =
      some (mk (lo + k / (hi' - lo')) (lo' + k % (hi' - lo'))) := by
  have hw : 0 < hi' - lo' := by
    rcases Nat.eq_zero_or_pos (hi' - lo') with h | h
    · rw [h, Nat.mul_zero] at hk; exact absurd hk (Nat.not_lt_zero k)
    · exact h
  have hq : k / (hi' - lo') < hi - lo := (Nat.div_lt_iff_lt_mul hw).2 hk
  have hr : k % (hi' - lo') < hi' - lo' := Nat.mod_lt _ hw
  rw [nest_eq_flatten]
  have e : k = (hi' - lo') * (k / (hi' - lo')) + k % (hi' - lo') := (Nat.div_add_mod _ _).symm
  conv_lhs => rw [e]
  rw [getElem?_flatten_blocks _ (hi' - lo') (by
    intro l hl
    obtain ⟨r, _, rfl⟩ := List.mem_map.1 hl
    simp) _ _ hr]
  rw [List.getElem?_map, List.getElem?_range' _ _ hq]
  simp only [Option.map_some', Option.some_bind, List.getElem?_map,
    List.getElem?_range' _ _ hr, Nat.one_mul]

/-! ## `FillIndexBuffer` -/

theorem pushIndices_append (vs ws : List Int) (st : List Int × Nat) :
    pushIndices (vs ++ ws) st = pushIndices vs st >>= pushIndices ws := by
  unfold pushIndices
  rw [List.foldlM_append]

theorem pushIndices_ok (vs : List Int) (buf : List Int) (k : Nat)
    (h : k + vs.length ≤ buf.length) :
    pushIndices vs (buf, k) =
      .ok (buf.take k ++ vs ++ buf.drop (k + vs.length), k + vs.length) := by
  induction vs generalizing buf k with
  | nil => simp [pushIndices]
  | cons v vs ih =>
    have hk : k < buf.length := by simp at h; omega
    have e : pushIndices (v :: vs) (buf, k) = pushIndices vs (buf.set k v, k + 1) := by
      simp [pushIndices, List.foldlM_cons, pushIndex, writeAt_natCast hk]
    rw [e, ih (buf.set k v) (k + 1) (by simp at h ⊢; omega)]
    have e1 : (buf.set k v).take (k + 1) = buf.take k ++ [v] := by
      rw [List.set_eq_take_append_cons_drop, if_pos hk, List.take_append_eq_append_take]
      have hl : (List.take k buf).length = k := by simp; omega
      simp [hl]
    have e2 : (buf.set k v).drop (k + 1 + vs.length) = buf.drop (k + (vs.length + 1)) := by
      rw [List.drop_set_of_lt _ _ (by omega)]
      congr 1; omega
    simp [e1, e2]
    omega

theorem fillCell_eq (N row column : Nat) (st : List Int × Nat) :
    fillCell N row column st = pushIndices (cellIndices N row column) st := by
  simp only [fillCell, pushIndices, cellIndices, List.foldlM_cons, List.foldlM_nil, bind_assoc,
    bind_pure]

theorem fillIndices_eq_pushIndices (N : Nat) (pBuffer : List Int) :
    fillIndices N pBuffer = pushIndices (indexList N) (pBuffer, 0) := by
  unfold fillIndices indexList forLoop nest
  generalize List.range' 0 (N - 1 - 0) = cells
  have inner : ∀ (row : Nat) (cols : List Nat) (st : List Int × Nat),
      List.foldlM (fun s i => fillCell N row i s) st cols =
        pushIndices ((cols.map (cellIndices N row)).flatten) st := by
    intro row cols
    induction cols with
    | nil => intro st; rfl
    | cons c cs ih =>
      intro st
      rw [List.foldlM_cons, List.map_cons, List.flatten_cons, pushIndices_append, fillCell_eq]
      congr 1
      funext st1
      exact ih st1
  generalize (pBuffer, 0) = st
  have outer : ∀ (rows : List Nat) (st : List Int × Nat),
      List.foldlM (fun s i => List.foldlM (fun s j => fillCell N i j s) s cells) st rows =
        pushIndices ((rows.flatMap (fun row => cells.map (cellIndices N row))).flatten) st := by
    intro rows
    induction rows with
    | nil => intro st; rfl
    | cons r rs ih =>
      intro st
      rw [List.foldlM_cons, List.flatMap_cons, List.flatten_append, pushIndices_append, inner]
      congr 1
      funext st1
      exact ih st1
  exact outer cells st

theorem length_indexList (N : Nat) : (indexList N).length = 6 * ((N - 1) * (N - 1)) := by
  unfold indexList nest
  have inner : ∀ (r : Nat) (cols : List Nat),
      ((cols.map (cellIndices N r)).flatten).length = 6 * cols.length := by
    intro r cols
    induction cols with
    | nil => simp
    | cons c cs ih2 =>
      rw [List.map_cons, List.flatten_cons, List.length_append, ih2]
      simp [cellIndices]
      ring
  have outer : ∀ rows cols : List Nat,
      ((rows.flatMap (fun row => cols.map (cellIndices N row))).flatten).length =
        6 * (rows.length * cols.length) := by
    intro rows cols
    induction rows with
    | nil => simp
    | cons r rs ih =>
      rw [List.flatMap_cons, List.flatten_append, List.length_append, ih, inner,
        List.length_cons]
      ring
  rw [outer]
  simp

/-- The `j`-th index of the cell with number `k` (in loop order) in the index list. -/
theorem indexList_getElem? (N : Nat) {k j : Nat} (hk : k < (N - 1) * (N - 1)) (hj : j < 6) :
    (indexList N)[6 * k + j]? = (cellIndices N (k / (N - 1)) (k % (N - 1)))[j]? := by
  unfold indexList
  rw [getElem?_flatten_blocks _ 6 (by
    intro l hl
    obtain ⟨r, c, _, _, _, _, rfl⟩ := mem_nest.1 hl
    rfl) k j hj]
  have := nest_getElem? 0 (N - 1) 0 (N - 1) (cellIndices N) (k := k) (by simpa using hk)
  simp only [Nat.sub_zero, Nat.zero_add] at this
  rw [this]
  rfl

/-- On a buffer of `NUM_INDICES` entries the loops of `FillIndexBuffer` complete, fill
the whole buffer with `indexList` and end with `currentIndex = NUM_INDICES`. -/
theorem fillIndices_eq {N : Nat} (hN : 1 ≤ N) (pBuffer : List Int)
    (hlen : (pBuffer.length : Int) = NUM_INDICES N) :
    fillIndices N pBuffer = .ok (indexList N, 6 * ((N - 1) * (N - 1))) := by
  have hl := length_indexList N
  have hn : NUM_INDICES N = ((6 * ((N - 1) * (N - 1)) : Nat) : Int) := by
    unfold NUM_INDICES
    push_cast [Nat.cast_sub hN]
    ring
  have hb : pBuffer.length = 6 * ((N - 1) * (N - 1)) := by
    rw [hn] at hlen; exact_mod_cast hlen
  rw [fillIndices_eq_pushIndices, pushIndices_ok _ _ _ (by omega)]
  simp [hl, hb]

/-! ## The order of the constraint list -/

theorem index_lt_rect {h w row column : Nat} (hr : row < h) (hc : column < w) :
    row * w + column < h * w := by
  have : (row + 1) * w ≤ h * w := Nat.mul_le_mul_right w hr
  have e : (row + 1) * w = row * w + w := by ring
  omega

theorem getElem?_append_add {α : Type} (l₁ l₂ : List α) {n : Nat} (k : Nat)
    (h : l₁.length = n) : (l₁ ++ l₂)[n + k]? = l₂[k]? := by
  subst h
  rw [List.getElem?_append_right (Nat.le_add_right _ _), Nat.add_sub_cancel_left]

/-- The value a loop nest starting at row 0 produces for the cell `(row, column)` sits at
position `row * w + (column - lo')`, where `w` is the number of columns. -/
theorem nest_getElem?_cell {β : Type} (h lo' hi' : Nat) (mk : Nat → Nat → β) {row column : Nat}
    (hr : row < h) (h1 : lo' ≤ column) (h2 : column < hi') :
    (nest 0 h lo' hi' mk)[row * (hi' - lo') + (column - lo')]? = some (mk row column) := by
  have hc : column - lo' < hi' - lo' := by omega
  rw [nest_getElem? 0 h lo' hi' mk (by rw [Nat.sub_zero]; exact index_lt_rect hr hc), index_div hc,
    index_mod hc, Nat.zero_add]
  congr 2
  omega

theorem constraintList_first (sqrt : F → F) (N : Nat) (ps : F) {row column : Nat}
    (hr : row < N) (hc : column < N - 1) :
    (constraintList sqrt N ps)[row * (N - 1) + column]? =
      some (structuralRowConstraint N ps row column) := by
  have h := nest_getElem?_cell N 0 (N - 1) (structuralRowConstraint N ps) hr (Nat.zero_le _) hc
  simp only [Nat.sub_zero] at h
  unfold constraintList
  rw [List.getElem?_append_left (by rw [length_nest]; simpa using index_lt_rect hr hc)]
  exact h

theorem constraintList_second (sqrt : F → F) (N : Nat) (ps : F) {row column : Nat}
    (hr : row < N - 1) (hc : column < N) :
    (constraintList sqrt N ps)[N * (N - 1) + (row * N + column)]? =
      some (structuralColumnConstraint N ps row column) := by
  have h := nest_getElem?_cell (N - 1) 0 N (structuralColumnConstraint N ps) hr (Nat.zero_le _) hc
  simp only [Nat.sub_zero] at h
  unfold constraintList
  rw [getElem?_append_add _ _ _ (by rw [length_nest]; simp),
    List.getElem?_append_left (by rw [length_nest]; simpa using index_lt_rect hr hc)]
  exact h

theorem constraintList_third (sqrt : F → F) (N : Nat) (ps : F) {row column : Nat}
    (hr : row < N - 1) (h1 : 1 ≤ column) (hc : column < N) :
    (constraintList sqrt N ps)[N * (N - 1) + (N * (N - 1) + (row * (N - 1) + (column - 1)))]? =
      some (shearConstraint N (sqrt (ps * ps + ps * ps)) row column) := by
  have h := nest_getElem?_cell (N - 1) 1 N
    (shearConstraint N (sqrt (ps * ps + ps * ps))) hr h1 hc
  unfold constraintList
  rw [getElem?_append_add _ _ _ (by rw [length_nest]; simp),
    getElem?_append_add _ _ _ (by rw [length_nest, Nat.mul_comm]; simp),
    List.getElem?_append_left (by
      rw [length_nest]
      simpa using index_lt_rect hr (by omega : column - 1 < N - 1))]
  exact h

theorem constraintList_fourth (sqrt : F → F) (N : Nat) (ps : F) {row column : Nat}
    (hr : row < N) (hc : column < N - 2) :
    (constraintList sqrt N ps)[N * (N - 1) + (N * (N - 1) + ((N - 1) * (N - 1) +
        (row * (N - 2) + column)))]? = some (bendRowConstraint N ps row column) := by
  have h := nest_getElem?_cell N 0 (N - 2) (bendRowConstraint N ps) hr (Nat.zero_le _) hc
  simp only [Nat.sub_zero] at h
  unfold constraintList
  rw [getElem?_append_add _ _ _ (by rw [length_nest]; simp),
    getElem?_append_add _ _ _ (by rw [length_nest, Nat.mul_comm]; simp),
    getElem?_append_add _ _ _ (by rw [length_nest]; simp),
    List.getElem?_append_left (by rw [length_nest]; simpa using index_lt_rect hr hc)]
  exact h

theorem constraintList_fifth (sqrt : F → F) (N : Nat) (ps : F) {row column : Nat}
    (hr : row < N - 2) (hc : column < N) :
    (constraintList sqrt N ps)[N * (N - 1) + (N * (N - 1) + ((N - 1) * (N - 1) +
        (N * (N - 2) + (row * N + column))))]? = some (bendColumnConstraint N ps row column) := by
  have h := nest_getElem?_cell (N - 2) 0 N (bendColumnConstraint N ps) hr (Nat.zero_le _) hc
  simp only [Nat.sub_zero] at h
  unfold constraintList
  rw [getElem?_append_add _ _ _ (by rw [length_nest]; simp),
    getElem?_append_add _ _ _ (by rw [length_nest, Nat.mul_comm]; simp),
    getElem?_append_add _ _ _ (by rw [length_nest]; simp),
    getElem?_append_add _ _ _ (by rw [length_nest]; simp)]
  exact h

theorem shearSegment_constraintList (sqrt : F → F) (N : Nat) (ps : F) :
    shearSegment N (constraintList sqrt N ps) =
      nest 0 (N - 1) 1 N (shearConstraint N (sqrt (ps * ps + ps * ps))) := by
  unfold shearSegment constraintList
  rw [← List.append_assoc, List.drop_left' (by
    rw [List.length_append, length_nest, length_nest, Nat.mul_comm (N - 1 - 0)]; simp),
    List.take_left' (by rw [length_nest]; simp)]

/-- The six indices of the cell `(row, column)` in the index list. -/
theorem indexList_cell (N : Nat) {row column j : Nat} (hr : row < N - 1) (hc : column < N - 1)
    (hj : j < 6) :
    (indexList N)[6 * (row * (N - 1) + column) + j]? = (cellIndices N row column)[j]? := by
  rw [indexList_getElem? N (index_lt hr hc) hj, index_div hc, index_mod hc]

/-! ## `FillVertexBuffer` -/

theorem readAt_getD {xs : List (Vec3 F)} {i : Int} {n : Nat} (hi : i = (n : Int))
    (hn : n < xs.length) : readAt xs i = .ok (xs[n]?.getD 0) := by
  rw [hi, readAt_natCast hn, List.getElem?_eq_getElem hn]
  rfl

theorem faceNormalSum_vertexFaces (normalize : Vec3 F → Vec3 F) (N : Nat) (pos : List (Vec3 F))
    (row column : Nat) :
    faceNormalSum normalize pos (vertexFaces N row column) =
      (fun v4 : Vec3 F => if row < N - 1 ∧ column < N - 1 then
          v4 + GetFaceNormal normalize (pos[row * N + column]?.getD 0)
            (pos[row * N + column + N]?.getD 0) (pos[row * N + column + 1]?.getD 0) else v4)
      ((fun v3 : Vec3 F => if row < N - 1 ∧ 0 < column then
          v3 + GetFaceNormal normalize (pos[row * N + column]?.getD 0)
            (pos[row * N + column - 1]?.getD 0) (pos[row * N + column + N]?.getD 0) else v3)
      ((fun v2 : Vec3 F => if 0 < row ∧ column < N - 1 then
          v2 + GetFaceNormal normalize (pos[row * N + column]?.getD 0)
            (pos[row * N + column + 1]?.getD 0) (pos[row * N + column - N]?.getD 0) else v2)
      (if 0 < row ∧ 0 < column then
          (⟨0, 0, 0⟩ : Vec3 F) + GetFaceNormal normalize (pos[row * N + column]?.getD 0)
            (pos[row * N + column - N]?.getD 0) (pos[row * N + column - 1]?.getD 0)
        else ⟨0, 0, 0⟩))) := by
  unfold faceNormalSum vertexFaces
  simp only [List.foldl_append]
  split_ifs <;> rfl

/-- One vertex of `FillVertexBuffer`: for a particle of the grid, with position array and
buffer of `N*N` entries, every subscript is in bounds and the slot `row*N+column` of the
buffer receives `clothVertex`. -/
theorem fillVertex_eq (normalize : Vec3 F → Vec3 F) {N : Nat} (ts : F) (pos : List (Vec3 F))
    (buf : List (CLOTH_VERTEX F)) {row column : Nat} (hr : row < N) (hc : column < N)
    (hpos : pos.length = N * N) (hbuf : buf.length = N * N) :
    fillVertex normalize N ts pos row column buf =
      .ok (buf.set (row * N + column) (clothVertex normalize N ts pos row column)) := by
  have hk := index_lt hr hc
  have e1 : (row + 1) * N = row * N + N := by ring
  have hup : 0 < row → N ≤ row * N + column := by
    intro h
    obtain ⟨r, rfl⟩ : ∃ r, row = r + 1 := ⟨row - 1, by omega⟩
    have : (r + 1) * N = r * N + N := by ring
    omega
  have hdown : row < N - 1 → row * N + column + N < N * N := by
    intro h
    have := index_lt (by omega : row + 1 < N) hc
    rw [e1] at this; omega
  have hp : ((column : Int) + (row : Int) * (N : Int)) = ((row * N + column : Nat) : Int) := by
    push_cast; ring
  have r0 : readAt pos ((column : Int) + (row : Int) * (N : Int)) =
      .ok (pos[row * N + column]?.getD 0) := readAt_getD hp (by omega)
  have rU : 0 < row → readAt pos ((column : Int) + (row : Int) * (N : Int) - (N : Int)) =
      .ok (pos[row * N + column - N]?.getD 0) := fun h =>
    readAt_getD (by have := hup h; rw [hp]; omega) (by omega)
  have rL : 0 < column → readAt pos ((column : Int) + (row : Int) * (N : Int) - 1) =
      .ok (pos[row * N + column - 1]?.getD 0) := fun h =>
    readAt_getD (by rw [hp]; omega) (by omega)
  have rR : column < N - 1 → readAt pos ((column : Int) + (row : Int) * (N : Int) + 1) =
      .ok (pos[row * N + column + 1]?.getD 0) := fun h =>
    readAt_getD (by rw [hp]; omega) (by
      have := index_lt hr (by omega : column + 1 < N); omega)
  have rD : row < N - 1 → readAt pos ((column : Int) + (row : Int) * (N : Int) + (N : Int)) =
      .ok (pos[row * N + column + N]?.getD 0) := fun h =>
    readAt_getD (by rw [hp]; omega) (by have := hdown h; omega)
  have c1 : ((column : Int) ≠ 0 ∧ (row : Int) ≠ 0) ↔ (0 < row ∧ 0 < column) := by omega
  have c2 : ((column : Int) ≠ (N : Int) - 1 ∧ (row : Int) ≠ 0) ↔ (0 < row ∧ column < N - 1) := by
    omega
  have c3 : ((column : Int) ≠ 0 ∧ (row : Int) ≠ (N : Int) - 1) ↔ (row < N - 1 ∧ 0 < column) := by
    omega
  have c4 : ((column : Int) ≠ (N : Int) - 1 ∧ (row : Int) ≠ (N : Int) - 1) ↔
      (row < N - 1 ∧ column < N - 1) := by omega
  have s1 : ∀ vn : Vec3 F,
      (if (column : Int) ≠ 0 ∧ (row : Int) ≠ 0 then do
          let a ← readAt pos ((column : Int) + (row : Int) * (N : Int))
          let b ← readAt pos ((column : Int) + (row : Int) * (N : Int) - (N : Int))
          let c ← readAt pos ((column : Int) + (row : Int) * (N : Int) - 1)
          pure (vn + GetFaceNormal normalize a b c)
        else pure vn : Except Fault (Vec3 F)) =
      .ok (if 0 < row ∧ 0 < column then
        vn + GetFaceNormal normalize (pos[row * N + column]?.getD 0)
          (pos[row * N + column - N]?.getD 0) (pos[row * N + column - 1]?.getD 0) else vn) := by
    intro vn
    by_cases h : 0 < row ∧ 0 < column
    · rw [if_pos (c1.2 h), if_pos h, r0, ok_bind, rU h.1, ok_bind, rL h.2, ok_bind]; rfl
    · rw [if_neg (fun h' => h (c1.1 h')), if_neg h]; rfl
  have s2 : ∀ vn : Vec3 F,
      (if (column : Int) ≠ (N : Int) - 1 ∧ (row : Int) ≠ 0 then do
          let a ← readAt pos ((column : Int) + (row : Int) * (N : Int))
          let b ← readAt pos ((column : Int) + (row : Int) * (N : Int) + 1)
          let c ← readAt pos ((column : Int) + (row : Int) * (N : Int) - (N : Int))
          pure (vn + GetFaceNormal normalize a b c)
        else pure vn : Except Fault (Vec3 F)) =
      .ok (if 0 < row ∧ column < N - 1 then
        vn + GetFaceNormal normalize (pos[row * N + column]?.getD 0)
          (pos[row * N + column + 1]?.getD 0) (pos[row * N + column - N]?.getD 0) else vn) := by
    intro vn
    by_cases h : 0 < row ∧ column < N - 1
    · rw [if_pos (c2.2 h), if_pos h, r0, ok_bind, rR h.2, ok_bind, rU h.1, ok_bind]; rfl
    · rw [if_neg (fun h' => h (c2.1 h')), if_neg h]; rfl
  have s3 : ∀ vn : Vec3 F,
      (if (column : Int) ≠ 0 ∧ (row : Int) ≠ (N : Int) - 1 then do
          let a ← readAt pos ((column : Int) + (row : Int) * (N : Int))
          let b ← readAt pos ((column : Int) + (row : Int) * (N : Int) - 1)
          let c ← readAt pos ((column : Int) + (row : Int) * (N : Int) + (N : Int))
          pure (vn + GetFaceNormal normalize a b c)
        else pure vn : Except Fault (Vec3 F)) =
      .ok (if row < N - 1 ∧ 0 < column then
        vn + GetFaceNormal normalize (pos[row * N + column]?.getD 0)
          (pos[row * N + column - 1]?.getD 0) (pos[row * N + column + N]?.getD 0) else vn) := by
    intro vn
    by_cases h : row < N - 1 ∧ 0 < column
    · rw [if_pos (c3.2 h), if_pos h, r0, ok_bind, rL h.2, ok_bind, rD h.1, ok_bind]; rfl
    · rw [if_neg (fun h' => h (c3.1 h')), if_neg h]; rfl
  have s4 : ∀ vn : Vec3 F,
      (if (column : Int) ≠ (N : Int) - 1 ∧ (row : Int) ≠ (N : Int) - 1 then do
          let a ← readAt pos ((column : Int) + (row : Int) * (N : Int))
          let b ← readAt pos ((column : Int) + (row : Int) * (N : Int) + (N : Int))
          let c ← readAt pos ((column : Int) + (row : Int) * (N : Int) + 1)
          pure (vn + GetFaceNormal normalize a b c)
        else pure vn : Except Fault (Vec3 F)) =
      .ok (if row < N - 1 ∧ column < N - 1 then
        vn + GetFaceNormal normalize (pos[row * N + column]?.getD 0)
          (pos[row * N + column + N]?.getD 0) (pos[row * N + column + 1]?.getD 0) else vn) := by
    intro vn
    by_cases h : row < N - 1 ∧ column < N - 1
    · rw [if_pos (c4.2 h), if_pos h, r0, ok_bind, rD h.1, ok_bind, rR h.2, ok_bind]; rfl
    · rw [if_neg (fun h' => h (c4.1 h')), if_neg h]; rfl
  unfold fillVertex
  dsimp only
  rw [s1, ok_bind, s2, ok_bind, s3, ok_bind, s4, ok_bind, r0, ok_bind, hp,
    writeAt_natCast (by omega)]
  unfold clothVertex
  rw [faceNormalSum_vertexFaces]

theorem textureSpace_eq {N : Nat} (hN : 2 ≤ N) :
    (textureSpace N : Except Fault F) = .ok (spacing N) :=
  particleSpace_eq hN

/-- The loops of `FillVertexBuffer` on a position array and a locked buffer of `N*N`
entries: every subscript is in bounds and slot `i` of the buffer receives the vertex of
the particle in row `i / N` and column `i % N`. -/
theorem fillVertices_eq (normalize : Vec3 F → Vec3 F) {N : Nat} (hN : 2 ≤ N)
    (s : ParticleSystem F) (pBuffer : List (CLOTH_VERTEX F))
    (hpos : s.m_pos.length = N * N) (hbuf : pBuffer.length = N * N) :
    fillVertices normalize N s pBuffer =
      .ok ((List.range (N * N)).map
        (fun i => clothVertex normalize N (spacing N) s.m_pos (i / N) (i % N))) := by
  unfold fillVertices
  rw [textureSpace_eq hN, ok_bind]
  have step : ∀ (row column : Nat) (buf : List (CLOTH_VERTEX F)), row < N → column < N →
      VertexInv normalize N (spacing N) s.m_pos (row * N + column) buf →
      ∃ buf', fillVertex normalize N (spacing N) s.m_pos row column buf = .ok buf' ∧
        VertexInv normalize N (spacing N) s.m_pos (row * N + column + 1) buf' := by
    intro row column buf hr hc hI
    obtain ⟨hl, hI⟩ := hI
    refine ⟨_, fillVertex_eq normalize (spacing N) s.m_pos buf hr hc hpos hl, by simp [hl], ?_⟩
    intro i hi
    rw [List.getElem?_set]
    by_cases e : row * N + column = i
    · subst e
      rw [if_pos rfl, if_pos (by rw [hl]; exact index_lt hr hc), index_div hc, index_mod hc]
    · rw [if_neg e]
      exact hI i (by omega)
  obtain ⟨buf, h1, h2, h3⟩ := forLoop_inv
    (fun row buf => VertexInv normalize N (spacing N) s.m_pos (row * N) buf) 0 N
    (fun row buf => forLoop 0 N (fun column buf =>
      fillVertex normalize N (spacing N) s.m_pos row column buf) buf) (Nat.zero_le N) pBuffer
    ⟨hbuf, fun i hi => absurd hi (by simp)⟩
    (fun row buf _ hr hI => by
      obtain ⟨buf', g1, g2⟩ := forLoop_inv
        (fun column buf => VertexInv normalize N (spacing N) s.m_pos (row * N + column) buf) 0 N
        (fun column buf => fillVertex normalize N (spacing N) s.m_pos row column buf)
        (Nat.zero_le N) buf (by simpa using hI)
        (fun column buf _ hc hI => step row column buf hr hc hI)
      refine ⟨buf', g1, ?_⟩
      have e : (row + 1) * N = row * N + N := by ring
      show VertexInv normalize N (spacing N) s.m_pos ((row + 1) * N) buf'
      rw [e]; exact g2)
  rw [h1]
  congr 1
  apply List.ext_getElem?
  intro i
  by_cases hi : i < N * N
  · rw [h3 i hi]
    simp [List.getElem?_map, List.getElem?_range hi]
  · rw [List.getElem?_eq_none (by omega), List.getElem?_eq_none (by simp; omega)]

theorem FillVertexBuffer_eq (normalize : Vec3 F → Vec3 F) {N : Nat} (hN : 2 ≤ N)
    (s : ParticleSystem F) (pBuffer : List (CLOTH_VERTEX F))
    (hpos : s.m_pos.length = N * N) (hbuf : pBuffer.length = N * N) :
    FillVertexBuffer normalize N s (some pBuffer) =
      .ok (HRESULT.S_OK, some ((List.range (N * N)).map
        (fun i => clothVertex normalize N (spacing N) s.m_pos (i / N) (i % N)))) := by
  unfold FillVertexBuffer
  simp only [fillVertices_eq normalize hN s pBuffer hpos hbuf, ok_bind]
  rfl

theorem vertexBuffer_getElem? (normalize : Vec3 F → Vec3 F) {N : Nat} (ts : F)
    (pos : List (Vec3 F)) {row column : Nat} (hr : row < N) (hc : column < N) :
    ((List.range (N * N)).map
      (fun i => clothVertex normalize N ts pos (i / N) (i % N)))[row * N + column]? =
      some (clothVertex normalize N ts pos row column) := by
  rw [List.getElem?_map, List.getElem?_range (index_lt hr hc)]
  simp [index_div hc, index_mod hc]

/-! ## The sphere pass, particle by particle -/

theorem sphereParticle_project (sqrt : F → F) (N : Nat) {pos pos' : List (Vec3 F)} {i : Nat}
    {p : Vec3 F} (hp : pos[i]? = some p) (h : sphereParticle sqrt N i pos = .ok pos') :
    pos' = pos.set i (sphereProject sqrt N p) := by
  rw [sphereParticle_eq sqrt N pos hp] at h
  unfold sphereProject
  split_ifs at h ⊢ with h1 h2
  · cases h; rfl
  · cases h
    have := writeAt_self hp
    rw [writeAt_natCast (getElem?_lt_length hp)] at this
    exact (Except.ok.inj this).symm

theorem sphereStep_spec_of_ok (sqrt : F → F) (N : Nat) (s t t' : ParticleSystem F) {k : Nat}
    (hI : SphereSpecInv sqrt N s k t) (h : sphereStep sqrt N k t = .ok t') :
    SphereSpecInv sqrt N s (k + 1) t' := by
  unfold sphereStep at h
  obtain ⟨pos, hpos, h⟩ := bind_eq_ok.1 h
  cases h
  have hr : ∃ p, t.m_pos[k]? = some p := by
    unfold sphereParticle at hpos
    obtain ⟨p, hp, _⟩ := bind_eq_ok.1 hpos
    exact ⟨p, (readAt_ok_iff.1 hp).2⟩
  obtain ⟨p, hp⟩ := hr
  have hk := getElem?_lt_length hp
  have hsp : s.m_pos[k]? = some p := by
    rw [← hp, hI.2 k, if_neg (by omega)]
  have e := sphereParticle_project sqrt N hp hpos
  refine ⟨hI.1.trans ⟨by rw [e]; simp, rfl, rfl, rfl, rfl, rfl, rfl, rfl⟩, ?_⟩
  intro i
  show pos[i]? = _
  rw [e, List.getElem?_set]
  by_cases hik : k = i
  · subst hik
    rw [if_pos rfl, if_pos hk, if_pos (by omega), hsp]
    rfl
  · rw [if_neg hik, hI.2 i]
    by_cases h1 : i < k
    · rw [if_pos h1, if_pos (by omega)]
    · rw [if_neg h1, if_neg (by omega)]

/-- A sphere pass that completes leaves in every slot `sphereProject` of its old content
and changes nothing else. -/
theorem satisfySphere_spec_of_ok (sqrt : F → F) (N : Nat) {s s' : ParticleSystem F}
    (hlen : s.m_pos.length = NUM_PARTICLES N) (h : satisfySphere sqrt N s = .ok s') :
    SameExceptPos s s' ∧ s'.m_pos = s.m_pos.map (sphereProject sqrt N) := by
  have hI := forLoop_inv_of_ok (SphereSpecInv sqrt N s) 0 _ (sphereStep sqrt N)
    (Nat.zero_le _) s s' ⟨SameExceptPos.refl s, fun i => by simp⟩
    (fun _ t t' _ _ hI hb => sphereStep_spec_of_ok sqrt N s t t' hI hb) h
  refine ⟨hI.1, ?_⟩
  apply List.ext_getElem?
  intro i
  rw [hI.2 i, List.getElem?_map]
  split_ifs with hi
  · rfl
  · rw [List.getElem?_eq_none (by omega)]; rfl

/-- The sphere pass completes when no particle inside the collision radius is at the
centre of the sphere. -/
theorem satisfySphere_ok (sqrt : F → F) (N : Nat) (s : ParticleSystem F)
    (hlen : s.m_pos.length = NUM_PARTICLES N)
    (hnz : ∀ p ∈ s.m_pos, D3DXVec3Length sqrt (SPHERE_POSITION N - p) < sphereMinLength N →
      D3DXVec3Length sqrt (SPHERE_POSITION N - p) ≠ 0) :
    ∃ s', satisfySphere sqrt N s = .ok s' := by
  obtain ⟨s', h, _⟩ := forLoop_inv (SphereSpecInv sqrt N s) 0 (NUM_PARTICLES N)
    (sphereStep sqrt N) (Nat.zero_le _) s ⟨SameExceptPos.refl s, fun i => by simp⟩
    (fun k t _ hk hI => by
      have hks : k < s.m_pos.length := by omega
      have hp : t.m_pos[k]? = some (s.m_pos[k]) := by
        rw [hI.2 k, if_neg (by omega), List.getElem?_eq_getElem hks]
      have hstep : ∃ pos', sphereParticle sqrt N k t.m_pos = .ok pos' := by
        rw [sphereParticle_eq sqrt N _ hp]
        split_ifs with h1 h2
        · exact absurd h2 (hnz _ (List.getElem_mem hks) h1)
        · exact ⟨_, rfl⟩
        · exact ⟨_, rfl⟩
      obtain ⟨pos', hpos'⟩ := hstep
      have hs : sphereStep sqrt N k t = .ok { t with m_pos := pos' } := by
        unfold sphereStep
        rw [hpos', ok_bind]
        rfl
      exact ⟨_, hs, sphereStep_spec_of_ok sqrt N s t _ hI hs⟩)
  exact ⟨s', h⟩

/-! ## The geometry of the two corrections -/

/-- The geometry of one distance correction: after moving both ends by the halved
correction, their distance is the rest length. -/
theorem relax_length (sqrt : F → F) (hs : ExactSqrt sqrt) (a b : Vec3 F) {r : F} (hr : 0 ≤ r)
    (h0 : D3DXVec3Length sqrt (b - a) ≠ 0) :
    D3DXVec3Length sqrt
      ((b - (b - a).scale ((D3DXVec3Length sqrt (b - a) - r) / D3DXVec3Length sqrt (b - a) *
          (1 / 2))) -
        (a + (b - a).scale ((D3DXVec3Length sqrt (b - a) - r) / D3DXVec3Length sqrt (b - a) *
          (1 / 2)))) = r := by
  unfold D3DXVec3Length at h0 ⊢
  have hd := hs.1 _ (Vec3.lengthSq_nonneg (b - a))
  set d := sqrt (b - a).lengthSq with hd_def
  have e : ∀ t : F, t - t * ((d - r) / d * (1 / 2)) - t * ((d - r) / d * (1 / 2)) = t * (r / d) := by
    intro t; field_simp; ring
  have key : ((b - (b - a).scale ((d - r) / d * (1 / 2))) -
      (a + (b - a).scale ((d - r) / d * (1 / 2)))).lengthSq = r * r := by
    simp only [Vec3.lengthSq, Vec3.sub_x, Vec3.sub_y, Vec3.sub_z, Vec3.add_x, Vec3.add_y,
      Vec3.add_z, Vec3.scale_x, Vec3.scale_y, Vec3.scale_z]
    have ex : b.x - (b.x - a.x) * ((d - r) / d * (1 / 2)) -
        (a.x + (b.x - a.x) * ((d - r) / d * (1 / 2))) = (b.x - a.x) * (r / d) := by
      rw [← e]; ring
    have ey : b.y - (b.y - a.y) * ((d - r) / d * (1 / 2)) -
        (a.y + (b.y - a.y) * ((d - r) / d * (1 / 2))) = (b.y - a.y) * (r / d) := by
      rw [← e]; ring
    have ez : b.z - (b.z - a.z) * ((d - r) / d * (1 / 2)) -
        (a.z + (b.z - a.z) * ((d - r) / d * (1 / 2))) = (b.z - a.z) * (r / d) := by
      rw [← e]; ring
    rw [ex, ey, ez]
    have hsq : (b.x - a.x) * (b.x - a.x) + (b.y - a.y) * (b.y - a.y) +
        (b.z - a.z) * (b.z - a.z) = d * d := by
      rw [hd]; rfl
    calc (b.x - a.x) * (r / d) * ((b.x - a.x) * (r / d)) +
          (b.y - a.y) * (r / d) * ((b.y - a.y) * (r / d)) +
          (b.z - a.z) * (r / d) * ((b.z - a.z) * (r / d))
        = ((b.x - a.x) * (b.x - a.x) + (b.y - a.y) * (b.y - a.y) +
          (b.z - a.z) * (b.z - a.z)) * ((r / d) * (r / d)) := by ring
      _ = d * d * ((r / d) * (r / d)) := by rw [hsq]
      _ = r * r := by field_simp
  rw [key]
  exact hs.sqrt_mul_self hr

/-- The point the sphere pass moves a particle to lies on the ray from the centre through
the old position. -/
theorem sphere_push_point (C p : Vec3 F) {d m : F} (hd : d ≠ 0) :
    p + (C - p).scale ((d - m) / d) = C + (p - C).scale (m / d) := by
  ext <;> simp <;> field_simp <;> ring


/-! ## One step from the rest configuration -/

theorem verletPosition_rest (dt : F) (g : Vec3 F) :
    verletPosition dt 0 0 g = g.scale (dt * dt) := by
  unfold verletPosition
  ext <;> simp <;> ring

theorem scale_ne_zero {g : Vec3 F} {k : F} (hg : g ≠ 0) (hk : k ≠ 0) : g.scale k ≠ 0 := by
  intro h
  apply hg
  have hx := congrArg Vec3.x h
  have hy := congrArg Vec3.y h
  have hz := congrArg Vec3.z h
  simp only [Vec3.scale_x, Vec3.scale_y, Vec3.scale_z, Vec3.zero_x, Vec3.zero_y, Vec3.zero_z,
    mul_eq_zero, or_iff_left hk] at hx hy hz
  ext <;> simp [hx, hy, hz]

/-- Integration from the rest configuration moves every particle by `gravity * dt * dt`. -/
theorem integrate_rest (sqrt : F → F) {N : Nat} (hN : 2 ≤ N) (g : Vec3 F) (dt : F) :
    (AccumulateForces N (restState sqrt N (spacing N) g dt) >>= Verlet N) =
      .ok { restState sqrt N (spacing N) g dt with
        m_pos := translatedRest N (spacing N) (g.scale (dt * dt))
        m_acc := List.replicate (NUM_PARTICLES N) g } := by
  obtain ⟨s1, h1, h2, h3, h4, h5, h6, h7, h8, h9, h10⟩ :=
    integrate_spec (restState sqrt N (spacing N) g dt) (restState_wellFormed sqrt hN _ _ _)
  have hp1 : s1.m_pos = translatedRest N (spacing N) (g.scale (dt * dt)) := by
    apply List.ext_getElem?
    intro i
    by_cases hi : i < NUM_PARTICLES N
    · have hi' : i < N * N := hi
      rw [h10 i hi _ _ (restPositions_getElem? _ hi') (restPositions_getElem? _ hi'),
        translatedRest_getElem? _ _ hi']
      congr 1
      unfold verletPosition
      ext <;> simp [restState] <;> ring
    · rw [List.getElem?_eq_none (by omega),
        List.getElem?_eq_none (by rw [translatedRest_length]; unfold NUM_PARTICLES at hi; omega)]
  rw [h1]
  congr 1
  cases s1
  simp only at h2 h4 h5 h6 h7 h8 h9 hp1
  simp only [restState, ParticleSystem.mk.injEq]
  exact ⟨hp1, h2, h4, h5, h6, h7, h8, h9⟩

/-- The distance pass changes nothing on a translate of the rest grid. -/
theorem satisfyDistances_translated (sqrt : F → F) (hs : ExactSqrt sqrt) {N : Nat}
    (hN : 2 ≤ N) (t : Vec3 F) (s : ParticleSystem F)
    (hcs : s.m_constraints = constraintList sqrt N (spacing N))
    (hlen : (s.m_constraints.length : Int) = NUM_CONSTRAINTS N)
    (hpos : s.m_pos = translatedRest N (spacing N) t) :
    satisfyDistances sqrt N s = .ok s := by
  apply satisfyDistances_fixed sqrt N s (by omega)
  rw [hcs, hpos]
  exact translatedRest_satisfied sqrt hs N (spacing_pos hN) _


/-! ## The subscripts read by `FillVertexBuffer` -/

/-- A guarded face step that completes has read its three subscripts. -/
theorem faceStep_reads (normalize : Vec3 F → Vec3 F) (pos : List (Vec3 F)) (g : Prop)
    [Decidable g] (vn : Vec3 F) (i j k : Int) {r : Vec3 F}
    (h : (if g then do
        let a ← readAt pos i
        let b ← readAt pos j
        let c ← readAt pos k
        pure (vn + GetFaceNormal normalize a b c)
      else pure vn : Except Fault (Vec3 F)) = .ok r) (hg : g) :
    ∀ m ∈ [i, j, k], ∃ p, readAt pos m = .ok p := by
  rw [if_pos hg] at h
  obtain ⟨a, ha, h⟩ := bind_eq_ok.1 h
  obtain ⟨b, hb, h⟩ := bind_eq_ok.1 h
  obtain ⟨c, hc, _⟩ := bind_eq_ok.1 h
  intro m hm
  simp only [List.mem_cons, List.mem_singleton, List.not_mem_nil, or_false] at hm
  rcases hm with rfl | rfl | rfl
  · exact ⟨a, ha⟩
  · exact ⟨b, hb⟩
  · exact ⟨c, hc⟩

/-- Every subscript listed by `vertexReads` is read by `fillVertex`: if the body completes,
each of these reads has succeeded. -/
theorem fillVertex_reads (normalize : Vec3 F → Vec3 F) (N : Nat) (ts : F) (pos : List (Vec3 F))
    (row column : Nat) (buf buf' : List (CLOTH_VERTEX F))
    (h : fillVertex normalize N ts pos row column buf = .ok buf') :
    ∀ i ∈ vertexReads N row column, ∃ p, readAt pos i = .ok p := by
  unfold fillVertex at h
  obtain ⟨v1, h1, h⟩ := bind_eq_ok.1 h
  obtain ⟨v2, h2, h⟩ := bind_eq_ok.1 h
  obtain ⟨v3, h3, h⟩ := bind_eq_ok.1 h
  obtain ⟨v4, h4, h⟩ := bind_eq_ok.1 h
  obtain ⟨p, hp, _⟩ := bind_eq_ok.1 h
  intro i hi
  unfold vertexReads at hi
  simp only [List.mem_append] at hi
  rcases hi with (((hi | hi) | hi) | hi) | hi
  · by_cases g : (column : Int) ≠ 0 ∧ (row : Int) ≠ 0
    · rw [if_pos g] at hi
      exact faceStep_reads normalize pos _ _ _ _ _ h1 g i hi
    · rw [if_neg g] at hi
      cases hi
  · by_cases g : (column : Int) ≠ (N : Int) - 1 ∧ (row : Int) ≠ 0
    · rw [if_pos g] at hi
      exact faceStep_reads normalize pos _ _ _ _ _ h2 g i hi
    · rw [if_neg g] at hi
      cases hi
  · by_cases g : (column : Int) ≠ 0 ∧ (row : Int) ≠ (N : Int) - 1
    · rw [if_pos g] at hi
      exact faceStep_reads normalize pos _ _ _ _ _ h3 g i hi
    · rw [if_neg g] at hi
      cases hi
  · by_cases g : (column : Int) ≠ (N : Int) - 1 ∧ (row : Int) ≠ (N : Int) - 1
    · rw [if_pos g] at hi
      exact faceStep_reads normalize pos _ _ _ _ _ h4 g i hi
    · rw [if_neg g] at hi
      cases hi
  · rw [List.mem_singleton] at hi
    rw [hi]
    exact ⟨p, hp⟩

/-- Under their guards, the subscripts `p`, `p-1`, `p+1`, `p-N`, `p+N` of a vertex of the
grid are subscripts of the position array. -/
theorem vertexReads_range {N : Nat} {row column : Nat} (hr : row < N) (hc : column < N) :
    ∀ i ∈ vertexReads N row column, 0 ≤ i ∧ i < (N : Int) * (N : Int) := by
  have hk := index_lt hr hc
  have hk' : ((row * N + column : Nat) : Int) < ((N * N : Nat) : Int) := by exact_mod_cast hk
  push_cast at hk'
  have hup : 0 < row → (N : Int) ≤ (row : Int) * (N : Int) := by
    intro h
    have : (1 : Int) ≤ (row : Int) := by exact_mod_cast h
    nlinarith [Int.ofNat_nonneg N]
  have hdown : row < N - 1 → (row : Int) * (N : Int) + (N : Int) ≤
      (N : Int) * (N : Int) - (N : Int) := by
    intro h
    have : (row : Int) + 2 ≤ (N : Int) := by omega
    nlinarith [Int.ofNat_nonneg N]
  have hright : column < N - 1 →
      (row : Int) * (N : Int) + (column : Int) + 1 < (N : Int) * (N : Int) := by
    intro h
    have h1 := index_lt hr (by omega : column + 1 < N)
    have h2 : ((row * N + (column + 1) : Nat) : Int) < ((N * N : Nat) : Int) := by
      exact_mod_cast h1
    push_cast at h2
    omega
  have h0 : (0 : Int) ≤ (row : Int) * (N : Int) := by positivity
  intro i hi
  unfold vertexReads at hi
  simp only [List.mem_append] at hi
  rcases hi with (((hi | hi) | hi) | hi) | hi
  · by_cases g : (column : Int) ≠ 0 ∧ (row : Int) ≠ 0
    · rw [if_pos g] at hi
      have := hup (by omega)
      simp only [List.mem_cons, List.mem_singleton, List.not_mem_nil, or_false] at hi
      rcases hi with rfl | rfl | rfl <;> constructor <;> omega
    · rw [if_neg g] at hi
      cases hi
  · by_cases g : (column : Int) ≠ (N : Int) - 1 ∧ (row : Int) ≠ 0
    · rw [if_pos g] at hi
      have := hup (by omega)
      have := hright (by omega)
      simp only [List.mem_cons, List.mem_singleton, List.not_mem_nil, or_false] at hi
      rcases hi with rfl | rfl | rfl <;> constructor <;> omega
    · rw [if_neg g] at hi
      cases hi
  · by_cases g : (column : Int) ≠ 0 ∧ (row : Int) ≠ (N : Int) - 1
    · rw [if_pos g] at hi
      have := hdown (by omega)
      simp only [List.mem_cons, List.mem_singleton, List.not_mem_nil, or_false] at hi
      rcases hi with rfl | rfl | rfl <;> constructor <;> omega
    · rw [if_neg g] at hi
      cases hi
  · by_cases g : (column : Int) ≠ (N : Int) - 1 ∧ (row : Int) ≠ (N : Int) - 1
    · rw [if_pos g] at hi
      have := hdown (by omega)
      have := hright (by omega)
      simp only [List.mem_cons, List.mem_singleton, List.not_mem_nil, or_false] at hi
      rcases hi with rfl | rfl | rfl <;> constructor <;> omega
    · rw [if_neg g] at hi
      cases hi
  · rw [List.mem_singleton] at hi
    rw [hi]
    constructor <;> omega


/-! ## Normals of the flat grid -/

theorem exactNormalize_self (sqrt : F → F) : ExactNormalize sqrt (D3DXVec3Normalize sqrt) :=
  fun _ _ => rfl

/-- Exact normalisation of a vector that points along `+y`. -/
theorem normalize_up (sqrt : F → F) (normalize : Vec3 F → Vec3 F) (hs : ExactSqrt sqrt)
    (hn : ExactNormalize sqrt normalize) {v : Vec3 F} (hx : v.x = 0) (hz : v.z = 0)
    (hy : 0 < v.y) : normalize v = ⟨0, 1, 0⟩ := by
  have hne : v ≠ 0 := by
    intro h
    rw [h] at hy
    exact lt_irrefl _ hy
  have hl : D3DXVec3Length sqrt v = v.y := by
    unfold D3DXVec3Length Vec3.lengthSq
    rw [hx, hz, mul_zero, zero_add, add_zero]
    exact hs.sqrt_mul_self hy.le
  rw [hn v hne]
  unfold D3DXVec3Normalize
  rw [hl]
  ext
  · simp [hx]
  · simp only [Vec3.scale_y]
    field_simp
  · simp [hz]

/-- Exact normalisation of a vector that points along `-y`. -/
theorem normalize_down (sqrt : F → F) (normalize : Vec3 F → Vec3 F) (hs : ExactSqrt sqrt)
    (hn : ExactNormalize sqrt normalize) {v : Vec3 F} (hx : v.x = 0) (hz : v.z = 0)
    (hy : v.y < 0) : normalize v = ⟨0, -1, 0⟩ := by
  have hne : v ≠ 0 := by
    intro h
    rw [h] at hy
    exact lt_irrefl _ hy
  have hl : D3DXVec3Length sqrt v = -v.y := by
    unfold D3DXVec3Length Vec3.lengthSq
    rw [hx, hz, mul_zero, zero_add, add_zero, ← neg_mul_neg]
    exact hs.sqrt_mul_self (by linarith)
  rw [hn v hne]
  unfold D3DXVec3Normalize
  rw [hl]
  ext
  · simp [hx]
  · simp only [Vec3.scale_y]
    rw [one_div, inv_neg, mul_neg, mul_inv_cancel₀ hy.ne]
  · simp [hz]

theorem getElem?_some_getD {xs : List (Vec3 F)} {i : Nat} (h : i < xs.length) :
    xs[i]? = some (xs[i]?.getD 0) := by
  rw [List.getElem?_eq_getElem h]
  rfl

theorem rest_getD {N : Nat} (ps : F) {r c : Nat} (hr : r < N) (hc : c < N) :
    (restPositions N ps)[r * N + c]?.getD 0 = ⟨ps * (c : F) - 1 / 2, 0, ps * (r : F) - 1 / 2⟩ := by
  rw [restPositions_getElem? ps (index_lt hr hc), gridPosition_index ps hc]
  rfl

theorem length_restPositions (N : Nat) (ps : F) : (restPositions N ps).length = N * N := by
  simp [restPositions]

/-- The indices of the faces around a vertex are subscripts of the position array. -/
theorem vertexFaces_lt {N : Nat} {row column : Nat} (hr : row < N) (hc : column < N) :
    ∀ f ∈ vertexFaces N row column, f.1 < N * N ∧ f.2.1 < N * N ∧ f.2.2 < N * N := by
  have hk := index_lt hr hc
  have e1 : (row + 1) * N = row * N + N := by ring
  have hdown : row < N - 1 → row * N + column + N < N * N := by
    intro h
    have := index_lt (by omega : row + 1 < N) hc
    rw [e1] at this; omega
  have hright : column < N - 1 → row * N + column + 1 < N * N := by
    intro h
    have := index_lt hr (by omega : column + 1 < N)
    omega
  intro f hf
  unfold vertexFaces at hf
  simp only [List.mem_append] at hf
  rcases hf with ((hf | hf) | hf) | hf
  · by_cases g : 0 < row ∧ 0 < column
    · rw [if_pos g, List.mem_singleton] at hf
      subst hf
      exact ⟨hk, by dsimp only; omega, by dsimp only; omega⟩
    · rw [if_neg g] at hf
      cases hf
  · by_cases g : 0 < row ∧ column < N - 1
    · rw [if_pos g, List.mem_singleton] at hf
      subst hf
      have := hright g.2
      exact ⟨hk, by dsimp only; omega, by dsimp only; omega⟩
    · rw [if_neg g] at hf
      cases hf
  · by_cases g : row < N - 1 ∧ 0 < column
    · rw [if_pos g, List.mem_singleton] at hf
      subst hf
      have := hdown g.1
      exact ⟨hk, by dsimp only; omega, by dsimp only; omega⟩
    · rw [if_neg g] at hf
      cases hf
  · by_cases g : row < N - 1 ∧ column < N - 1
    · rw [if_pos g, List.mem_singleton] at hf
      subst hf
      have := hdown g.1
      have := hright g.2
      exact ⟨hk, by dsimp only; omega, by dsimp only; omega⟩
    · rw [if_neg g] at hf
      cases hf

/-- On the flat grid each of the four face formulas of `FillVertexBuffer`, where its guard
holds, gives the normal `(0, 1, 0)`. -/
theorem flat_faces (sqrt : F → F) (normalize : Vec3 F → Vec3 F) (hs : ExactSqrt sqrt)
    (hn : ExactNormalize sqrt normalize) {N : Nat} {ps : F} (hps : 0 < ps) {row column : Nat}
    (hr : row < N) (hc : column < N) :
    (0 < row ∧ 0 < column →
      GetFaceNormal normalize ((restPositions N ps)[row * N + column]?.getD 0)
        ((restPositions N ps)[row * N + column - N]?.getD 0)
        ((restPositions N ps)[row * N + column - 1]?.getD 0) = ⟨0, 1, 0⟩) ∧
    (0 < row ∧ column < N - 1 →
      GetFaceNormal normalize ((restPositions N ps)[row * N + column]?.getD 0)
        ((restPositions N ps)[row * N + column + 1]?.getD 0)
        ((restPositions N ps)[row * N + column - N]?.getD 0) = ⟨0, 1, 0⟩) ∧
    (row < N - 1 ∧ 0 < column →
      GetFaceNormal normalize ((restPositions N ps)[row * N + column]?.getD 0)
        ((restPositions N ps)[row * N + column - 1]?.getD 0)
        ((restPositions N ps)[row * N + column + N]?.getD 0) = ⟨0, 1, 0⟩) ∧
    (row < N - 1 ∧ column < N - 1 →
      GetFaceNormal normalize ((restPositions N ps)[row * N + column]?.getD 0)
        ((restPositions N ps)[row * N + column + N]?.getD 0)
        ((restPositions N ps)[row * N + column + 1]?.getD 0) = ⟨0, 1, 0⟩) := by
  have hpp : 0 < ps * ps := mul_pos hps hps
  have p0 := rest_getD ps hr hc
  have pU : 0 < row → (restPositions N ps)[row * N + column - N]?.getD 0 =
      ⟨ps * (column : F) - 1 / 2, 0, ps * ((row : F) - 1) - 1 / 2⟩ := by
    intro h
    obtain ⟨r, rfl⟩ : ∃ r, row = r + 1 := ⟨row - 1, by omega⟩
    have e : (r + 1) * N + column - N = r * N + column := by
      have : (r + 1) * N = r * N + N := by ring
      omega
    rw [e, rest_getD ps (by omega : r < N) hc]
    push_cast
    simp
  have pD : row < N - 1 → (restPositions N ps)[row * N + column + N]?.getD 0 =
      ⟨ps * (column : F) - 1 / 2, 0, ps * ((row : F) + 1) - 1 / 2⟩ := by
    intro h
    have e : row * N + column + N = (row + 1) * N + column := by ring
    rw [e, rest_getD ps (by omega : row + 1 < N) hc]
    push_cast
    rfl
  have pL : 0 < column → (restPositions N ps)[row * N + column - 1]?.getD 0 =
      ⟨ps * ((column : F) - 1) - 1 / 2, 0, ps * (row : F) - 1 / 2⟩ := by
    intro h
    obtain ⟨c, rfl⟩ : ∃ c, column = c + 1 := ⟨column - 1, by omega⟩
    have e : row * N + (c + 1) - 1 = row * N + c := by omega
    rw [e, rest_getD ps hr (by omega : c < N)]
    push_cast
    simp
  have pR : column < N - 1 → (restPositions N ps)[row * N + column + 1]?.getD 0 =
      ⟨ps * ((column : F) + 1) - 1 / 2, 0, ps * (row : F) - 1 / 2⟩ := by
    intro h
    have e : row * N + column + 1 = row * N + (column + 1) := by ring
    rw [e, rest_getD ps hr (by omega : column + 1 < N)]
    push_cast
    rfl
  refine ⟨fun g => ?_, fun g => ?_, fun g => ?_, fun g => ?_⟩
  · rw [p0, pU g.1, pL g.2]
    unfold GetFaceNormal
    apply normalize_up sqrt normalize hs hn
    · simp [D3DXVec3Cross]
    · simp [D3DXVec3Cross]
    · simp only [D3DXVec3Cross, Vec3.sub_x, Vec3.sub_y, Vec3.sub_z]
      nlinarith
  · rw [p0, pR g.2, pU g.1]
    unfold GetFaceNormal
    apply normalize_up sqrt normalize hs hn
    · simp [D3DXVec3Cross]
    · simp [D3DXVec3Cross]
    · simp only [D3DXVec3Cross, Vec3.sub_x, Vec3.sub_y, Vec3.sub_z]
      nlinarith
  · rw [p0, pL g.2, pD g.1]
    unfold GetFaceNormal
    apply normalize_up sqrt normalize hs hn
    · simp [D3DXVec3Cross]
    · simp [D3DXVec3Cross]
    · simp only [D3DXVec3Cross, Vec3.sub_x, Vec3.sub_y, Vec3.sub_z]
      nlinarith
  · rw [p0, pD g.1, pR g.2]
    unfold GetFaceNormal
    apply normalize_up sqrt normalize hs hn
    · simp [D3DXVec3Cross]
    · simp [D3DXVec3Cross]
    · simp only [D3DXVec3Cross, Vec3.sub_x, Vec3.sub_y, Vec3.sub_z]
      nlinarith

/-- On the flat grid every face summed at a vertex has the normal `(0, 1, 0)`. -/
theorem flat_face_mem (sqrt : F → F) (normalize : Vec3 F → Vec3 F) (hs : ExactSqrt sqrt)
    (hn : ExactNormalize sqrt normalize) {N : Nat} {ps : F} (hps : 0 < ps) {row column : Nat}
    (hr : row < N) (hc : column < N) :
    ∀ f ∈ vertexFaces N row column,
      GetFaceNormal normalize ((restPositions N ps)[f.1]?.getD 0)
        ((restPositions N ps)[f.2.1]?.getD 0) ((restPositions N ps)[f.2.2]?.getD 0) =
        ⟨0, 1, 0⟩ := by
  obtain ⟨f1, f2, f3, f4⟩ := flat_faces sqrt normalize hs hn hps hr hc
  intro f hf
  unfold vertexFaces at hf
  simp only [List.mem_append] at hf
  rcases hf with ((hf | hf) | hf) | hf
  · by_cases g : 0 < row ∧ 0 < column
    · rw [if_pos g, List.mem_singleton] at hf
      subst hf
      exact f1 g
    · rw [if_neg g] at hf
      cases hf
  · by_cases g : 0 < row ∧ column < N - 1
    · rw [if_pos g, List.mem_singleton] at hf
      subst hf
      exact f2 g
    · rw [if_neg g] at hf
      cases hf
  · by_cases g : row < N - 1 ∧ 0 < column
    · rw [if_pos g, List.mem_singleton] at hf
      subst hf
      exact f3 g
    · rw [if_neg g] at hf
      cases hf
  · by_cases g : row < N - 1 ∧ column < N - 1
    · rw [if_pos g, List.mem_singleton] at hf
      subst hf
      exact f4 g
    · rw [if_neg g] at hf
      cases hf

/-- The sum of face normals that are all `(0, 1, 0)` is `(0, k, 0)`, `k` the number of
faces. -/
theorem faceNormalSum_up (normalize : Vec3 F → Vec3 F) (pos : List (Vec3 F))
    (faces : List (Nat × Nat × Nat))
    (h : ∀ f ∈ faces, GetFaceNormal normalize (pos[f.1]?.getD 0) (pos[f.2.1]?.getD 0)
      (pos[f.2.2]?.getD 0) = ⟨0, 1, 0⟩) :
    faceNormalSum normalize pos faces = ⟨0, (faces.length : F), 0⟩ := by
  have gen : ∀ (fs : List (Nat × Nat × Nat)) (acc : Vec3 F),
      (∀ f ∈ fs, GetFaceNormal normalize (pos[f.1]?.getD 0) (pos[f.2.1]?.getD 0)
        (pos[f.2.2]?.getD 0) = ⟨0, 1, 0⟩) →
      fs.foldl (fun acc f => acc + GetFaceNormal normalize (pos[f.1]?.getD 0)
        (pos[f.2.1]?.getD 0) (pos[f.2.2]?.getD 0)) acc = acc + ⟨0, (fs.length : F), 0⟩ := by
    intro fs
    induction fs with
    | nil =>
      intro acc _
      ext <;> simp
    | cons f fs ih =>
      intro acc hf
      rw [List.foldl_cons, ih _ (fun g hg => hf g (List.mem_cons_of_mem _ hg)),
        hf f (List.mem_cons_self _ _)]
      ext
      · simp
      · simp only [Vec3.add_y, List.length_cons, Nat.cast_add, Nat.cast_one]
        ring
      · simp
  unfold faceNormalSum
  rw [gen faces _ h]
  ext <;> simp

/-- For a grid of size at least 2 every vertex has a face. -/
theorem vertexFaces_pos {N : Nat} (hN : 2 ≤ N) {row column : Nat} (hr : row < N)
    (hc : column < N) : 0 < (vertexFaces N row column).length := by
  unfold vertexFaces
  split_ifs <;> first | (exfalso; omega) | simp

/-- On the flat grid the vertex normal `FillVertexBuffer` computes is `(0, 1, 0)`. -/
theorem flat_vertex_normal (sqrt : F → F) (normalize : Vec3 F → Vec3 F) (hs : ExactSqrt sqrt)
    (hn : ExactNormalize sqrt normalize) {N : Nat} (hN : 2 ≤ N) {ps : F} (hps : 0 < ps)
    {row column : Nat} (hr : row < N) (hc : column < N) :
    normalize (faceNormalSum normalize (restPositions N ps) (vertexFaces N row column)) =
      ⟨0, 1, 0⟩ := by
  rw [faceNormalSum_up normalize _ _ (flat_face_mem sqrt normalize hs hn hps hr hc)]
  apply normalize_up sqrt normalize hs hn rfl rfl
  have := vertexFaces_pos hN hr hc
  show (0 : F) < ((vertexFaces N row column).length : F)
  exact_mod_cast this


/-! ## The winding of the index buffer -/

theorem FillIndexBuffer_eq {N : Nat} (hN : 1 ≤ N) (pBuffer : List Int)
    (hlen : (pBuffer.length : Int) = NUM_INDICES N) :
    FillIndexBuffer N (some pBuffer) = .ok (HRESULT.S_OK, some (indexList N)) := by
  unfold FillIndexBuffer
  simp only [fillIndices_eq hN pBuffer hlen, ok_bind]
  rfl

/-- Exchanging the second and third vertex of a triangle negates the cross product formed
by `GetFaceNormal`. -/
theorem cross_swap_last (a b c : Vec3 F) :
    D3DXVec3Cross (b - a) (c - b) = (D3DXVec3Cross (c - a) (b - c)).scale (-1) := by
  ext <;> simp [D3DXVec3Cross] <;> ring

/-- Exchanging the first and third vertex of a triangle negates the cross product formed
by `GetFaceNormal`. -/
theorem cross_swap_ends (a b c : Vec3 F) :
    D3DXVec3Cross (b - a) (c - b) = (D3DXVec3Cross (b - c) (a - b)).scale (-1) := by
  ext <;> simp [D3DXVec3Cross] <;> ring

theorem scale_neg_one_ne_zero {v : Vec3 F} (h : v.scale (-1) ≠ 0) : v ≠ 0 := by
  intro h0
  apply h
  rw [h0]
  ext <;> simp

/-- Exact normalisation is odd. -/
theorem normalize_neg (sqrt : F → F) (normalize : Vec3 F → Vec3 F)
    (hn : ExactNormalize sqrt normalize) {v : Vec3 F} (hv : v.scale (-1) ≠ 0) :
    normalize (v.scale (-1)) = (normalize v).scale (-1) := by
  have hl : (v.scale (-1)).lengthSq = v.lengthSq := by
    simp only [Vec3.lengthSq, Vec3.scale_x, Vec3.scale_y, Vec3.scale_z]
    ring
  rw [hn _ hv, hn v (scale_neg_one_ne_zero hv)]
  unfold D3DXVec3Normalize D3DXVec3Length
  rw [hl]
  ext <;> simp

/-- For a triangle that is not degenerate, exchanging two vertices turns the normal of
`GetFaceNormal` into its opposite. -/
theorem GetFaceNormal_swap (sqrt : F → F) (normalize : Vec3 F → Vec3 F)
    (hn : ExactNormalize sqrt normalize) (a b c : Vec3 F)
    (h : D3DXVec3Cross (b - a) (c - b) ≠ 0) :
    GetFaceNormal normalize a b c = (GetFaceNormal normalize a c b).scale (-1) ∧
    GetFaceNormal normalize a b c = (GetFaceNormal normalize c b a).scale (-1) := by
  constructor
  · show normalize (D3DXVec3Cross (b - a) (c - b)) =
      (normalize (D3DXVec3Cross (c - a) (b - c))).scale (-1)
    have e := cross_swap_last a b c
    rw [e] at h ⊢
    exact normalize_neg sqrt normalize hn h
  · show normalize (D3DXVec3Cross (b - a) (c - b)) =
      (normalize (D3DXVec3Cross (b - c) (a - b))).scale (-1)
    have e := cross_swap_ends a b c
    rw [e] at h ⊢
    exact normalize_neg sqrt normalize hn h

/-- The two triangles `FillIndexBuffer` emits for a cell are, with two vertices exchanged,
the lower-right face of the cell's first vertex and the upper-left face of its last. -/
theorem cell_faces {N : Nat} {row column : Nat} (hr : row < N - 1) (hc : column < N - 1) :
    (row * N + column, row * N + column + N, row * N + column + 1) ∈
      vertexFaces N row column ∧
    (row * N + column + N + 1, row * N + column + 1, row * N + column + N) ∈
      vertexFaces N (row + 1) (column + 1) := by
  constructor
  · unfold vertexFaces
    simp only [List.mem_append]
    refine Or.inr ?_
    rw [if_pos ⟨hr, hc⟩]
    exact List.mem_singleton.2 rfl
  · unfold vertexFaces
    simp only [List.mem_append]
    refine Or.inl (Or.inl (Or.inl ?_))
    rw [if_pos ⟨Nat.succ_pos _, Nat.succ_pos _⟩]
    have e : (row + 1) * N = row * N + N := by ring
    have e1 : (row + 1) * N + (column + 1) = row * N + column + N + 1 := by rw [e]; ring
    have e2 : row * N + column + N + 1 - N = row * N + column + 1 := by omega
    have e3 : row * N + column + N + 1 - 1 = row * N + column + N := by omega
    rw [e1, e2, e3]
    exact List.mem_singleton.2 rfl

/-- On the flat grid `GetFaceNormal`, applied to the vertices of either triangle of a cell
in the order `FillIndexBuffer` emits them, gives `(0, -1, 0)`. -/
theorem flat_triangles (sqrt : F → F) (normalize : Vec3 F → Vec3 F) (hs : ExactSqrt sqrt)
    (hn : ExactNormalize sqrt normalize) {N : Nat} {ps : F} (hps : 0 < ps) {row column : Nat}
    (hr : row < N - 1) (hc : column < N - 1) :
    GetFaceNormal normalize ((restPositions N ps)[row * N + column]?.getD 0)
      ((restPositions N ps)[row * N + column + 1]?.getD 0)
      ((restPositions N ps)[row * N + column + N]?.getD 0) = ⟨0, -1, 0⟩ ∧
    GetFaceNormal normalize ((restPositions N ps)[row * N + column + N]?.getD 0)
      ((restPositions N ps)[row * N + column + 1]?.getD 0)
      ((restPositions N ps)[row * N + column + N + 1]?.getD 0) = ⟨0, -1, 0⟩ := by
  have hpp : 0 < ps * ps := mul_pos hps hps
  have e1 : row * N + column + 1 = row * N + (column + 1) := by ring
  have e2 : row * N + column + N = (row + 1) * N + column := by ring
  have e3 : row * N + column + N + 1 = (row + 1) * N + (column + 1) := by ring
  have p0 := rest_getD ps (by omega : row < N) (by omega : column < N)
  have p1 := rest_getD ps (by omega : row < N) (by omega : column + 1 < N)
  have p2 := rest_getD ps (by omega : row + 1 < N) (by omega : column < N)
  have p3 := rest_getD ps (by omega : row + 1 < N) (by omega : column + 1 < N)
  rw [e3, e2, e1, p0, p1, p2, p3]
  push_cast
  constructor
  · unfold GetFaceNormal
    apply normalize_down sqrt normalize hs hn
    · simp [D3DXVec3Cross]
    · simp [D3DXVec3Cross]
    · simp only [D3DXVec3Cross, Vec3.sub_x, Vec3.sub_y, Vec3.sub_z]
      nlinarith
  · unfold GetFaceNormal
    apply normalize_down sqrt normalize hs hn
    · simp [D3DXVec3Cross]
    · simp [D3DXVec3Cross]
    · simp only [D3DXVec3Cross, Vec3.sub_x, Vec3.sub_y, Vec3.sub_z]
      nlinarith

/-- On the flat grid the vertex read back from the vertex buffer at a grid index has the
normal `(0, 1, 0)`. -/
theorem flat_vertex_read (sqrt : F → F) (normalize : Vec3 F → Vec3 F) (hs : ExactSqrt sqrt)
    (hn : ExactNormalize sqrt normalize) {N : Nat} (hN : 2 ≤ N) {ps : F} (hps : 0 < ps) (ts : F)
    {row column : Nat} (hr : row < N) (hc : column < N) {m : Int}
    (hm : m = ((row * N + column : Nat) : Int)) :
    ∃ v, readAt ((List.range (N * N)).map
        (fun i => clothVertex normalize N ts (restPositions N ps) (i / N) (i % N))) m = .ok v ∧
      v.n = ⟨0, 1, 0⟩ := by
  rw [hm]
  exact ⟨_, readAt_of_getElem? (vertexBuffer_getElem? normalize ts _ hr hc),
    flat_vertex_normal sqrt normalize hs hn hN hps hr hc⟩


/-- The six entries of the index list for the cell `(row, column)` as particle numbers. -/
theorem indexList_cell_entries (N : Nat) {row column : Nat} (hr : row < N - 1)
    (hc : column < N - 1) :
    (indexList N)[6 * (row * (N - 1) + column)]? = some ((row * N + column : Nat) : Int) ∧
    (indexList N)[6 * (row * (N - 1) + column) + 1]? =
      some ((row * N + column + 1 : Nat) : Int) ∧
    (indexList N)[6 * (row * (N - 1) + column) + 2]? =
      some ((row * N + column + N : Nat) : Int) ∧
    (indexList N)[6 * (row * (N - 1) + column) + 3]? =
      some ((row * N + column + N : Nat) : Int) ∧
    (indexList N)[6 * (row * (N - 1) + column) + 4]? =
      some ((row * N + column + 1 : Nat) : Int) ∧
    (indexList N)[6 * (row * (N - 1) + column) + 5]? =
      some ((row * N + column + N + 1 : Nat) : Int) := by
  have g0 := indexList_cell N hr hc (by omega : 0 < 6)
  rw [Nat.add_zero] at g0
  refine ⟨by rw [g0]; simp [cellIndices],
    by rw [indexList_cell N hr hc (by omega : 1 < 6)]; simp [cellIndices],
    by rw [indexList_cell N hr hc (by omega : 2 < 6)]; simp [cellIndices],
    by rw [indexList_cell N hr hc (by omega : 3 < 6)]; simp [cellIndices],
    by rw [indexList_cell N hr hc (by omega : 4 < 6)]; simp [cellIndices],
    by rw [indexList_cell N hr hc (by omega : 5 < 6)]; simp [cellIndices]⟩

/-- The four corners of a cell are subscripts of the position array. -/
theorem cell_corners_lt {N : Nat} {row column : Nat} (hr : row < N - 1) (hc : column < N - 1) :
    row * N + column < N * N ∧ row * N + column + 1 < N * N ∧
    row * N + column + N < N * N ∧ row * N + column + N + 1 < N * N := by
  have h0 := index_lt (by omega : row < N) (by omega : column < N)
  have h1 := index_lt (by omega : row < N) (by omega : column + 1 < N)
  have h2 := index_lt (by omega : row + 1 < N) (by omega : column < N)
  have h3 := index_lt (by omega : row + 1 < N) (by omega : column + 1 < N)
  have e : (row + 1) * N = row * N + N := by ring
  rw [e] at h2 h3
  refine ⟨h0, by omega, by omega, by omega⟩


/-! ## The sum of the positions in the distance pass -/

theorem sumPositions_cons (p : Vec3 F) (ps : List (Vec3 F)) :
    sumPositions (p :: ps) = p + sumPositions ps := rfl

theorem sumPositions_set : ∀ (pos : List (Vec3 F)) (i : Nat) (a x : Vec3 F),
    pos[i]? = some a → sumPositions (pos.set i x) + a = sumPositions pos + x := by
  intro pos
  induction pos with
  | nil =>
    intro i a x h
    simp at h
  | cons p ps ih =>
    intro i a x h
    cases i with
    | zero =>
      have hp : p = a := by simpa using h
      subst hp
      rw [List.set_cons_zero, sumPositions_cons, sumPositions_cons]
      ext <;> simp <;> ring
    | succ i =>
      have h' : ps[i]? = some a := by simpa using h
      have e := ih i a x h'
      have ex := congrArg Vec3.x e
      have ey := congrArg Vec3.y e
      have ez := congrArg Vec3.z e
      simp only [Vec3.add_x, Vec3.add_y, Vec3.add_z] at ex ey ez
      rw [List.set_cons_succ, sumPositions_cons, sumPositions_cons]
      ext <;> simp <;> linarith

/-- The body of the distance loop, when it completes, leaves the sum of the positions as
it is: the two corrections are opposite. -/
theorem relaxConstraint_sum (sqrt : F → F) (hs : ExactSqrt sqrt) {c : ClothConstraint F}
    {pos pos' : List (Vec3 F)} (h : relaxConstraint sqrt c pos = .ok pos') :
    sumPositions pos' = sumPositions pos := by
  have h0 := h
  unfold relaxConstraint at h
  obtain ⟨a, ha, h⟩ := bind_eq_ok.1 h
  obtain ⟨b, hb, _⟩ := bind_eq_ok.1 h
  obtain ⟨hA0, ha'⟩ := readAt_ok_iff.1 ha
  obtain ⟨hB0, hb'⟩ := readAt_ok_iff.1 hb
  have hA : c.particleA = ((c.particleA.toNat : Nat) : Int) := (Int.toNat_of_nonneg hA0).symm
  have hB : c.particleB = ((c.particleB.toNat : Nat) : Int) := (Int.toNat_of_nonneg hB0).symm
  rw [relaxConstraint_eq sqrt c pos hA hB ha' hb'] at h0
  by_cases hL : D3DXVec3Length sqrt (b - a) = 0
  · rw [if_pos hL] at h0
    cases h0
  · rw [if_neg hL] at h0
    have hpos' := (Except.ok.inj h0).symm
    have hne : a ≠ b := fun e => hL ((length_eq_zero sqrt hs a b).2 e)
    have hij : c.particleA.toNat ≠ c.particleB.toNat := by
      intro e
      rw [e, hb'] at ha'
      exact hne (Option.some.inj ha').symm
    obtain ⟨k, hk⟩ : ∃ k : F, k = (D3DXVec3Length sqrt (b - a) - c.restLength) /
        D3DXVec3Length sqrt (b - a) * (1 / 2) := ⟨_, rfl⟩
    rw [← hk] at hpos'
    have h1 : (pos.set c.particleA.toNat (a + (b - a).scale k))[c.particleB.toNat]? =
        some b := by
      rw [List.getElem?_set, if_neg hij]; exact hb'
    unfold relaxedPositions at hpos'
    rw [h1] at hpos'
    have s1 := sumPositions_set pos c.particleA.toNat a (a + (b - a).scale k) ha'
    have s2 := sumPositions_set (pos.set c.particleA.toNat (a + (b - a).scale k))
      c.particleB.toNat b (b - (b - a).scale k) h1
    rw [hpos']
    have s1x := congrArg Vec3.x s1
    have s1y := congrArg Vec3.y s1
    have s1z := congrArg Vec3.z s1
    have s2x := congrArg Vec3.x s2
    have s2y := congrArg Vec3.y s2
    have s2z := congrArg Vec3.z s2
    simp only [Vec3.add_x, Vec3.add_y, Vec3.add_z, Vec3.sub_x, Vec3.sub_y, Vec3.sub_z,
      Vec3.scale_x, Vec3.scale_y, Vec3.scale_z] at s1x s1y s1z s2x s2y s2z
    ext
    · simp only [Option.getD_some]; linarith
    · simp only [Option.getD_some]; linarith
    · simp only [Option.getD_some]; linarith

/-- The distance pass, when it completes, leaves the sum of the positions as it is. -/
theorem satisfyDistances_sum (sqrt : F → F) (hs : ExactSqrt sqrt) (N : Nat)
    {s s' : ParticleSystem F} (h : satisfyDistances sqrt N s = .ok s') :
    sumPositions s'.m_pos = sumPositions s.m_pos := by
  unfold satisfyDistances at h
  refine forLoop_inv_of_ok (fun _ t => sumPositions t.m_pos = sumPositions s.m_pos) 0
    (NUM_CONSTRAINTS N).toNat (relaxStep sqrt) (Nat.zero_le _) s s' rfl ?_ h
  intro i t t' _ _ hinv hstep
  unfold relaxStep at hstep
  obtain ⟨c, _, hstep⟩ := bind_eq_ok.1 hstep
  obtain ⟨pos, hpos, hstep⟩ := bind_eq_ok.1 hstep
  have e : t' = { t with m_pos := pos } := (Except.ok.inj hstep).symm
  rw [e]
  show sumPositions pos = sumPositions s.m_pos
  rw [relaxConstraint_sum sqrt hs hpos, hinv]

/-- One iteration of the distance loop in closed form. -/
theorem relaxStep_eq (sqrt : F → F) (k : Nat) (s : ParticleSystem F) {c : ClothConstraint F}
    {i j : Nat} {a b : Vec3 F} (hc : s.m_constraints[k]? = some c)
    (hA : c.particleA = (i : Int)) (hB : c.particleB = (j : Int))
    (ha : s.m_pos[i]? = some a) (hb : s.m_pos[j]? = some b) :
    relaxStep sqrt k s =
      if D3DXVec3Length sqrt (b - a) = 0 then .error .divByZero
      else .ok { s with m_pos := (relaxedPositions s.m_pos i j a b
        ((D3DXVec3Length sqrt (b - a) - c.restLength) / D3DXVec3Length sqrt (b - a) *
          (1 / 2))) } := by
  unfold relaxStep
  rw [readAt_of_getElem? hc, ok_bind, relaxConstraint_eq sqrt c s.m_pos hA hB ha hb]
  split_ifs
  · rfl
  · rfl

/-- The length of a vector along the x axis. -/
theorem length_along_x (sqrt : F → F) (hs : ExactSqrt sqrt) {k : F} (hk : 0 ≤ k) :
    D3DXVec3Length sqrt ⟨k, 0, 0⟩ = k := by
  unfold D3DXVec3Length Vec3.lengthSq
  simp only [mul_zero, add_zero]
  exact hs.sqrt_mul_self hk

/-- The distance pass on `collapseState`: the first constraint moves particle 0 onto
particle 2, the second changes nothing, the third divides by the length 0. -/
theorem satisfyDistances_collapse (sqrt : F → F) (hs : ExactSqrt sqrt) :
    satisfyDistances sqrt 2 (collapseState sqrt : ParticleSystem F) = .error .divByZero := by
  have hn : (NUM_CONSTRAINTS 2).toNat = 5 := by decide
  have l4 : D3DXVec3Length sqrt ((⟨4, 0, 0⟩ : Vec3 F) - ⟨0, 0, 0⟩) = 4 := by
    have e : ((⟨4, 0, 0⟩ : Vec3 F) - ⟨0, 0, 0⟩) = ⟨4, 0, 0⟩ := by ext <;> simp
    rw [e]
    exact length_along_x sqrt hs (by norm_num)
  have l1 : D3DXVec3Length sqrt ((⟨5 / 2, 0, 0⟩ : Vec3 F) - ⟨3 / 2, 0, 0⟩) = 1 := by
    have e : ((⟨5 / 2, 0, 0⟩ : Vec3 F) - ⟨3 / 2, 0, 0⟩) = ⟨1, 0, 0⟩ := by
      ext <;> simp
      norm_num
    rw [e]
    exact length_along_x sqrt hs (by norm_num)
  have l0 : D3DXVec3Length sqrt ((⟨3 / 2, 0, 0⟩ : Vec3 F) - ⟨3 / 2, 0, 0⟩) = 0 :=
    (length_eq_zero sqrt hs _ _).2 rfl
  have p0 : relaxedPositions (collapseState sqrt : ParticleSystem F).m_pos 0 1 ⟨0, 0, 0⟩
      ⟨4, 0, 0⟩ (((4 : F) - 1) / 4 * (1 / 2)) =
      [⟨3 / 2, 0, 0⟩, ⟨5 / 2, 0, 0⟩, ⟨3 / 2, 0, 0⟩, ⟨5 / 2, 0, 0⟩] := by
    simp [relaxedPositions, collapseState]
    norm_num
    constructor <;> ext <;> simp <;> norm_num
  have p1 : relaxedPositions
      [(⟨3 / 2, 0, 0⟩ : Vec3 F), ⟨5 / 2, 0, 0⟩, ⟨3 / 2, 0, 0⟩, ⟨5 / 2, 0, 0⟩] 2 3
      ⟨3 / 2, 0, 0⟩ ⟨5 / 2, 0, 0⟩ (((1 : F) - 1) / 1 * (1 / 2)) =
      [⟨3 / 2, 0, 0⟩, ⟨5 / 2, 0, 0⟩, ⟨3 / 2, 0, 0⟩, ⟨5 / 2, 0, 0⟩] := by
    simp [relaxedPositions]
    constructor <;> ext <;> simp
  have e0 : relaxStep sqrt 0 (collapseState sqrt : ParticleSystem F) =
      .ok { (collapseState sqrt : ParticleSystem F) with
        m_pos := [⟨3 / 2, 0, 0⟩, ⟨5 / 2, 0, 0⟩, ⟨3 / 2, 0, 0⟩, ⟨5 / 2, 0, 0⟩] } := by
    rw [relaxStep_eq sqrt 0 (collapseState sqrt) (c := ⟨0, 1, 1⟩) (i := 0) (j := 1)
      (a := ⟨0, 0, 0⟩) (b := ⟨4, 0, 0⟩) rfl rfl rfl rfl rfl, l4,
      if_neg (by norm_num), p0]
  have e1 : relaxStep sqrt 1 ({ (collapseState sqrt : ParticleSystem F) with
        m_pos := [⟨3 / 2, 0, 0⟩, ⟨5 / 2, 0, 0⟩, ⟨3 / 2, 0, 0⟩, ⟨5 / 2, 0, 0⟩] }) =
      .ok { (collapseState sqrt : ParticleSystem F) with
        m_pos := [⟨3 / 2, 0, 0⟩, ⟨5 / 2, 0, 0⟩, ⟨3 / 2, 0, 0⟩, ⟨5 / 2, 0, 0⟩] } := by
    rw [relaxStep_eq sqrt 1 ({ (collapseState sqrt : ParticleSystem F) with
        m_pos := [⟨3 / 2, 0, 0⟩, ⟨5 / 2, 0, 0⟩, ⟨3 / 2, 0, 0⟩, ⟨5 / 2, 0, 0⟩] })
      (c := ⟨2, 3, 1⟩) (i := 2) (j := 3)
      (a := ⟨3 / 2, 0, 0⟩) (b := ⟨5 / 2, 0, 0⟩) rfl rfl rfl rfl rfl, l1,
      if_neg (by norm_num), p1]
  have e2 : relaxStep sqrt 2 ({ (collapseState sqrt : ParticleSystem F) with
        m_pos := [⟨3 / 2, 0, 0⟩, ⟨5 / 2, 0, 0⟩, ⟨3 / 2, 0, 0⟩, ⟨5 / 2, 0, 0⟩] }) =
      .error .divByZero := by
    rw [relaxStep_eq sqrt 2 ({ (collapseState sqrt : ParticleSystem F) with
        m_pos := [⟨3 / 2, 0, 0⟩, ⟨5 / 2, 0, 0⟩, ⟨3 / 2, 0, 0⟩, ⟨5 / 2, 0, 0⟩] })
      (c := ⟨0, 2, 1⟩) (i := 0) (j := 2)
      (a := ⟨3 / 2, 0, 0⟩) (b := ⟨3 / 2, 0, 0⟩) rfl rfl rfl rfl rfl, l0, if_pos rfl]
  unfold satisfyDistances
  rw [hn, forLoop_step (by decide), e0, ok_bind, forLoop_step (by decide), e1, ok_bind,
    forLoop_step (by decide), e2]
  rfl


theorem length_of_sq (sqrt : F → F) (hs : ExactSqrt sqrt) {v : Vec3 F} {k : F} (hk : 0 ≤ k)
    (h : v.lengthSq = k * k) : D3DXVec3Length sqrt v = k := by
  unfold D3DXVec3Length
  rw [h]
  exact hs.sqrt_mul_self hk

/-- An iteration of the distance loop on a constraint that is satisfied changes nothing. -/
theorem relaxStep_satisfied (sqrt : F → F) (k : Nat) (s : ParticleSystem F)
    {c : ClothConstraint F} {a b : Vec3 F} (hc : s.m_constraints[k]? = some c)
    (ha : readAt s.m_pos c.particleA = .ok a) (hb : readAt s.m_pos c.particleB = .ok b)
    (hl : D3DXVec3Length sqrt (b - a) = c.restLength) (h0 : c.restLength ≠ 0) :
    relaxStep sqrt k s = .ok s := by
  unfold relaxStep
  rw [readAt_of_getElem? hc, ok_bind, relaxConstraint_satisfied sqrt _ _ ha hb hl h0, ok_bind]
  rfl

/-- The distance pass on `shearedState` completes: four iterations change nothing, the
fifth corrects the pair `(1, 2)`, whose length is `6/5`. -/
theorem satisfyDistances_sheared (sqrt : F → F) (hs : ExactSqrt sqrt) :
    D3DXVec3Length sqrt ((⟨7 / 25, 0, 24 / 25⟩ : Vec3 F) - ⟨1, 0, 0⟩) = 6 / 5 ∧
    (6 / 5 : F) ≠ sqrt (1 * 1 + 1 * 1) ∧
    ∃ s', satisfyDistances sqrt 2 (shearedState sqrt : ParticleSystem F) = .ok s' := by
  have hn : (NUM_CONSTRAINTS 2).toNat = 5 := by decide
  have l12 : D3DXVec3Length sqrt ((⟨7 / 25, 0, 24 / 25⟩ : Vec3 F) - ⟨1, 0, 0⟩) = 6 / 5 :=
    length_of_sq sqrt hs (by norm_num) (by simp [Vec3.lengthSq]; norm_num)
  have hne : (6 / 5 : F) ≠ sqrt (1 * 1 + 1 * 1) := by
    intro h
    have h2 := hs.1 (1 * 1 + 1 * 1 : F) (by norm_num)
    rw [← h] at h2
    norm_num at h2
  have e0 : relaxStep sqrt 0 (shearedState sqrt : ParticleSystem F) = .ok (shearedState sqrt) :=
    relaxStep_satisfied sqrt 0 _ (c := ⟨0, 1, 1⟩) (a := ⟨0, 0, 0⟩) (b := ⟨1, 0, 0⟩) rfl rfl rfl
      (length_of_sq sqrt hs (by norm_num) (by simp [Vec3.lengthSq])) one_ne_zero
  have e1 : relaxStep sqrt 1 (shearedState sqrt : ParticleSystem F) = .ok (shearedState sqrt) :=
    relaxStep_satisfied sqrt 1 _ (c := ⟨2, 3, 1⟩) (a := ⟨7 / 25, 0, 24 / 25⟩)
      (b := ⟨32 / 25, 0, 24 / 25⟩) rfl rfl rfl
      (length_of_sq sqrt hs (by norm_num) (by simp [Vec3.lengthSq]; norm_num)) one_ne_zero
  have e2 : relaxStep sqrt 2 (shearedState sqrt : ParticleSystem F) = .ok (shearedState sqrt) :=
    relaxStep_satisfied sqrt 2 _ (c := ⟨0, 2, 1⟩) (a := ⟨0, 0, 0⟩)
      (b := ⟨7 / 25, 0, 24 / 25⟩) rfl rfl rfl
      (length_of_sq sqrt hs (by norm_num) (by simp [Vec3.lengthSq]; norm_num)) one_ne_zero
  have e3 : relaxStep sqrt 3 (shearedState sqrt : ParticleSystem F) = .ok (shearedState sqrt) :=
    relaxStep_satisfied sqrt 3 _ (c := ⟨1, 3, 1⟩) (a := ⟨1, 0, 0⟩)
      (b := ⟨32 / 25, 0, 24 / 25⟩) rfl rfl rfl
      (length_of_sq sqrt hs (by norm_num) (by simp [Vec3.lengthSq]; norm_num)) one_ne_zero
  refine ⟨l12, hne, ?_⟩
  unfold satisfyDistances
  rw [hn, forLoop_step (by decide), e0, ok_bind, forLoop_step (by decide), e1, ok_bind,
    forLoop_step (by decide), e2, ok_bind, forLoop_step (by decide), e3, ok_bind,
    forLoop_step (by decide),
    relaxStep_eq sqrt 4 (shearedState sqrt) (c := ⟨1, 2, sqrt (1 * 1 + 1 * 1)⟩) (i := 1)
      (j := 2) (a := ⟨1, 0, 0⟩) (b := ⟨7 / 25, 0, 24 / 25⟩) rfl rfl rfl rfl rfl, l12,
    if_neg (by norm_num), ok_bind, forLoop_of_le (le_refl 5)]
  exact ⟨_, rfl⟩

/-! ## The binary32 model: leading bit, integer square root, rounding -/

/-- The binary search of `log2Aux` keeps the leading bit of `n` between `acc` and
`acc + 2^k`. -/
theorem log2Aux_spec (k n : Nat) : ∀ acc : Nat, 2 ^ acc ≤ n → n < 2 ^ (acc + 2 ^ k) →
    2 ^ Binary32.log2Aux k n acc ≤ n ∧ n < 2 ^ (Binary32.log2Aux k n acc + 1) := by
  induction k with
  | zero =>
    intro acc h1 h2
    exact ⟨h1, h2⟩
  | succ k ih =>
    intro acc h1 h2
    unfold Binary32.log2Aux
    by_cases h : 2 ^ (acc + 2 ^ k) ≤ n
    · rw [if_pos h]
      refine ih _ h ?_
      have e : acc + 2 ^ k + 2 ^ k = acc + 2 ^ (k + 1) := by rw [pow_succ]; omega
      rw [e]
      exact h2
    · rw [if_neg h]
      exact ih _ h1 (not_le.1 h)

/-- For `0 < n < 2^1024`, `log2 n` is the position of the leading bit of `n`. -/
theorem binary32_log2_spec (n : Nat) (h0 : 0 < n) (h : n < 2 ^ 1024) :
    2 ^ Binary32.log2 n ≤ n ∧ n < 2 ^ (Binary32.log2 n + 1) := by
  unfold Binary32.log2
  refine log2Aux_spec 10 n 0 (by simpa using h0) ?_
  have e : 0 + 2 ^ 10 = 1024 := by norm_num
  rw [e]
  exact h

/-- The digit-by-digit square root keeps the root between `r` and `r + 2^b`. -/
theorem isqrtLoop_spec (X : Nat) : ∀ b r : Nat, r * r ≤ X → X < (r + 2 ^ b) * (r + 2 ^ b) →
    Binary32.isqrtLoop b X r * Binary32.isqrtLoop b X r ≤ X ∧
      X < (Binary32.isqrtLoop b X r + 1) * (Binary32.isqrtLoop b X r + 1) := by
  intro b
  induction b with
  | zero =>
    intro r h1 h2
    exact ⟨h1, by simpa using h2⟩
  | succ b ih =>
    intro r h1 h2
    unfold Binary32.isqrtLoop
    by_cases h : (r + 2 ^ b) * (r + 2 ^ b) ≤ X
    · rw [if_pos h]
      refine ih _ h ?_
      have e : r + 2 ^ b + 2 ^ b = r + 2 ^ (b + 1) := by rw [pow_succ]; omega
      rw [e]
      exact h2
    · rw [if_neg h]
      exact ih _ h1 (not_le.1 h)

/-- For `X < 2^1024`, `isqrt X` is the integer square root `⌊√X⌋`. -/
theorem binary32_isqrt_spec (X : Nat) (h : X < 2 ^ 1024) :
    Binary32.isqrt X * Binary32.isqrt X ≤ X ∧
      X < (Binary32.isqrt X + 1) * (Binary32.isqrt X + 1) := by
  unfold Binary32.isqrt
  refine isqrtLoop_spec X _ 0 (Nat.zero_le _) ?_
  rw [Nat.zero_add, ← pow_add]
  rcases Nat.eq_zero_or_pos X with h0 | h0
  · rw [h0]
    exact Nat.two_pow_pos _
  · refine lt_of_lt_of_le (binary32_log2_spec X h0 h).2 (Nat.pow_le_pow_right (by decide) ?_)
    omega

/-- The result of `roundNat p q` is within half a spacing of `p / q`: with `2^sh` the
spacing and `0 < q`, `|roundNat p q * q - p| ≤ q * 2^sh / 2`. -/
theorem roundNat_nearest (p q : Nat) (hq : 0 < q) :
    2 * (Binary32.roundNat p q * q) ≤ 2 * p + q * 2 ^ (Binary32.log2 (p / q) - 23) ∧
      2 * p ≤ 2 * (Binary32.roundNat p q * q) + q * 2 ^ (Binary32.log2 (p / q) - 23) := by
  unfold Binary32.roundNat
  simp only []
  generalize hd : q * 2 ^ (Binary32.log2 (p / q) - 23) = d
  have hp := Nat.div_add_mod p d
  have hr : p % d < d := by
    refine Nat.mod_lt _ ?_
    rw [← hd]
    exact Nat.mul_pos hq (Nat.two_pow_pos _)
  generalize hA : d * (p / d) = A at hp
  have e1 : p / d * 2 ^ (Binary32.log2 (p / q) - 23) * q = A := by
    rw [← hA, ← hd]; ring
  have e2 : (p / d + 1) * 2 ^ (Binary32.log2 (p / q) - 23) * q = A + d := by
    rw [← hA, ← hd]; ring
  split_ifs
  all_goals first
    | (rw [e1]; omega)
    | (rw [e2]; omega)

/-- The result of `roundNat p q` has at most 24 significant bits: it is a multiple
`n * 2^sh` of the spacing with `n ≤ 2^24`, for `p / q < 2^1024`. -/
theorem roundNat_bits (p q : Nat) (h : p / q < 2 ^ 1024) :
    ∃ n, n ≤ 2 ^ 24 ∧
      Binary32.roundNat p q = n * 2 ^ (Binary32.log2 (p / q) - 23) := by
  have hn : p / (q * 2 ^ (Binary32.log2 (p / q) - 23)) < 2 ^ 24 := by
    rw [← Nat.div_div_eq_div_mul, Nat.div_lt_iff_lt_mul (Nat.two_pow_pos _), ← pow_add]
    rcases Nat.eq_zero_or_pos (p / q) with h0 | h0
    · rw [h0]
      exact Nat.two_pow_pos _
    · refine lt_of_lt_of_le (binary32_log2_spec _ h0 h).2 (Nat.pow_le_pow_right (by decide) ?_)
      omega
  unfold Binary32.roundNat
  simp only []
  split_ifs
  · exact ⟨_, le_of_lt hn, rfl⟩
  · exact ⟨_, hn, rfl⟩
  · exact ⟨_, le_of_lt hn, rfl⟩
  · exact ⟨_, hn, rfl⟩

/-! ## Runs in binary32 arithmetic -/

/-- In binary32 arithmetic `a - a` is 0. -/
theorem Binary32.sub_self (a : Binary32) : Binary32.sub a a = ⟨0⟩ := by
  simp [Binary32.sub]

/-- In binary32 arithmetic the difference of two equal vectors has length 0. -/
theorem Binary32.length_vsub_self (a : Vec3 Binary32) :
    Binary32.length (Binary32.vsub a a) = ⟨0⟩ := by
  unfold Binary32.length Binary32.vsub
  simp only [Binary32.sub_self]
  decide!

/-- In binary32 arithmetic the body of the distance loop divides by zero when the two
particles of the constraint have the same position. -/
theorem relaxConstraint32_coincident (c : ClothConstraint Binary32)
    (pos : List (Vec3 Binary32)) (a : Vec3 Binary32) (ha : readAt pos c.particleA = .ok a)
    (hb : readAt pos c.particleB = .ok a) :
    relaxConstraint32 c pos = .error .divByZero := by
  unfold relaxConstraint32
  rw [ha, ok_bind, hb, ok_bind]
  simp only [Binary32.length_vsub_self]
  rfl

/-- In exact arithmetic, with a square root that maps 0 to 0, the body of the distance
loop divides by zero when the two particles of the constraint have the same position. -/
theorem relaxConstraint_coincident {F : Type} [LinearOrderedField F] (sqrt : F → F)
    (hs0 : sqrt 0 = 0) (c : ClothConstraint F) (pos : List (Vec3 F)) (a : Vec3 F)
    (ha : readAt pos c.particleA = .ok a) (hb : readAt pos c.particleB = .ok a) :
    relaxConstraint sqrt c pos = .error .divByZero := by
  have hl : D3DXVec3Length sqrt (a - a) = 0 := by
    have e : (a - a).lengthSq = 0 := by
      simp [Vec3.lengthSq]
    unfold D3DXVec3Length
    rw [e, hs0]
  unfold relaxConstraint
  rw [ha, ok_bind, hb, ok_bind]
  simp only [hl, fdiv, if_true]
  rfl

/-- Values of the binary32 model that can be compared with the bit patterns of the type
`float`: `0.3f = 0x3E99999A`, `-9.8f = 0xC11CCCCD`, `0.01f = 0x3C23D70A`,
`1.0f / 3 = 0x3EAAAAAB`, `sqrtf( 2.0f ) = 0x3FB504F3`, `0.1f + 0.2f = 0x3E99999A`, and
the square root of the least positive number `2^-149`. -/
theorem binary32_values :
    Binary32.ofRat 3 10 = Binary32.scaled 0x99999A (-25) ∧
    Binary32.ofRat (-98) 10 = Binary32.scaled (-0x9CCCCD) (-20) ∧
    Binary32.ofRat 1 100 = Binary32.scaled 0xA3D70A (-30) ∧
    Binary32.div (Binary32.scaled 1 0) (Binary32.ofRat 3 1) =
      .ok (Binary32.scaled 0xAAAAAB (-25)) ∧
    Binary32.sqrt (Binary32.scaled 1 1) = Binary32.scaled 0xB504F3 (-23) ∧
    Binary32.add (Binary32.ofRat 1 10) (Binary32.ofRat 2 10) =
      Binary32.scaled 0x99999A (-25) ∧
    Binary32.sqrt (Binary32.scaled 1 (-149)) = Binary32.scaled 0xB504F3 (-98) := by
  refine ⟨by decide!, by decide!, by decide!, by decide!, by decide!, by decide!, by decide!⟩

/-- In binary32 arithmetic the length of the difference of two distinct positions can be
0: for two particles `2^-76` apart the square of the difference rounds to 0, and the body
of the distance loop divides by zero. -/
theorem relaxConstraint32_underflow :
    relaxConstraint32 ⟨0, 1, Binary32.scaled 1 0⟩
      [(⟨⟨0⟩, ⟨0⟩, ⟨0⟩⟩ : Vec3 Binary32), ⟨Binary32.scaled 1 (-76), ⟨0⟩, ⟨0⟩⟩] =
      .error .divByZero := by
  decide!

set_option maxRecDepth 100000 in
/-- The single-step scenario in binary32 arithmetic: `Initialise`. -/
theorem scenario32_init : Initialise32 4 scenarioState32 = .ok scenarioInit32 := by
  decide!

set_option maxRecDepth 100000 in
/-- The single-step scenario in binary32 arithmetic: `AccumulateForces` and `Verlet`. -/
theorem scenario32_verlet :
    (AccumulateForces 4 scenarioInit32 >>= Verlet32 4) = .ok (scenarioRun32 0) := by
  decide!

set_option maxRecDepth 100000 in
/-- The single-step scenario in binary32 arithmetic: the distance constraints 0 to 6. -/
theorem scenario32_relax0 :
    forLoop 0 7 relaxStep32 (scenarioRun32 0) = .ok (scenarioRun32 1) := by
  decide!

set_option maxRecDepth 100000 in
/-- The single-step scenario in binary32 arithmetic: the distance constraints 7 to 13. -/
theorem scenario32_relax1 :
    forLoop 7 14 relaxStep32 (scenarioRun32 1) = .ok (scenarioRun32 2) := by
  decide!

set_option maxRecDepth 100000 in
/-- The single-step scenario in binary32 arithmetic: the distance constraints 14 to 20. -/
theorem scenario32_relax2 :
    forLoop 14 21 relaxStep32 (scenarioRun32 2) = .ok (scenarioRun32 3) := by
  decide!

set_option maxRecDepth 100000 in
/-- The single-step scenario in binary32 arithmetic: the distance constraints 21 to 27. -/
theorem scenario32_relax3 :
    forLoop 21 28 relaxStep32 (scenarioRun32 3) = .ok (scenarioRun32 4) := by
  decide!

set_option maxRecDepth 100000 in
/-- The single-step scenario in binary32 arithmetic: the distance constraints 28 to 34. -/
theorem scenario32_relax4 :
    forLoop 28 35 relaxStep32 (scenarioRun32 4) = .ok (scenarioRun32 5) := by
  decide!

set_option maxRecDepth 100000 in
/-- The single-step scenario in binary32 arithmetic: the distance constraints 35 to 41. -/
theorem scenario32_relax5 :
    forLoop 35 42 relaxStep32 (scenarioRun32 5) = .ok (scenarioRun32 6) := by
  decide!

set_option maxRecDepth 100000 in
/-- The single-step scenario in binary32 arithmetic: the distance constraints 42 to 48. -/
theorem scenario32_relax6 :
    forLoop 42 49 relaxStep32 (scenarioRun32 6) = .ok (scenarioRun32 7) := by
  decide!

set_option maxRecDepth 100000 in
/-- The single-step scenario in binary32 arithmetic: the sphere pass moves no particle. -/
theorem scenario32_sphere :
    satisfySphere32 4 (scenarioRun32 7) = .ok (scenarioRun32 7) := by
  decide!

/-- A loop can be cut in two at any point of its range. -/
theorem forLoop_split {σ : Type} {lo mid hi : Nat} (h1 : lo ≤ mid) (h2 : mid ≤ hi)
    (body : Nat → σ → Except Fault σ) (s : σ) :
    forLoop lo hi body s = forLoop lo mid body s >>= forLoop mid hi body := by
  unfold forLoop
  have e : List.range' lo (hi - lo) =
      List.range' lo (mid - lo) ++ List.range' mid (hi - mid) := by
    have h := List.range'_append_1 lo (mid - lo) (hi - mid)
    rw [show lo + (mid - lo) = mid by omega, show hi - mid + (mid - lo) = hi - lo by omega] at h
    exact h.symm
  rw [e, List.foldlM_append]

/-- The three phases of `TimeStep` in binary32 arithmetic. -/
theorem TimeStep32_eq (N : Nat) (s : ParticleSystem Binary32) :
    TimeStep32 N s = (AccumulateForces N s >>= Verlet32 N) >>= SatisfyConstraints32 N := by
  unfold TimeStep32
  rw [bind_assoc]

/-- The single iteration of `SatisfyConstraints` in binary32 arithmetic. -/
theorem SatisfyConstraints32_eq (N : Nat) (s : ParticleSystem Binary32) :
    SatisfyConstraints32 N s = satisfyDistances32 N s >>= satisfySphere32 N := by
  unfold SatisfyConstraints32 NUM_ITERATIONS
  rw [forLoop_step (by decide)]
  show (satisfyDistances32 N s >>= satisfySphere32 N) >>= _ = _
  cases satisfyDistances32 N s >>= satisfySphere32 N with
  | error e => rfl
  | ok t => rw [ok_bind, forLoop_of_le (by decide)]

/-- The single-step scenario in binary32 arithmetic: one `TimeStep` from the state after
`Initialise` completes, in the state of stage 7. -/
theorem scenario32_step : TimeStep32 4 scenarioInit32 = .ok (scenarioRun32 7) := by
  have hd : satisfyDistances32 4 (scenarioRun32 0) = .ok (scenarioRun32 7) := by
    unfold satisfyDistances32
    rw [show (NUM_CONSTRAINTS 4).toNat = 49 by decide,
      forLoop_split (show 0 ≤ 7 by decide) (show 7 ≤ 49 by decide), scenario32_relax0, ok_bind,
      forLoop_split (show 7 ≤ 14 by decide) (show 14 ≤ 49 by decide), scenario32_relax1, ok_bind,
      forLoop_split (show 14 ≤ 21 by decide) (show 21 ≤ 49 by decide), scenario32_relax2,
      ok_bind,
      forLoop_split (show 21 ≤ 28 by decide) (show 28 ≤ 49 by decide), scenario32_relax3,
      ok_bind,
      forLoop_split (show 28 ≤ 35 by decide) (show 35 ≤ 49 by decide), scenario32_relax4,
      ok_bind,
      forLoop_split (show 35 ≤ 42 by decide) (show 42 ≤ 49 by decide), scenario32_relax5,
      ok_bind, scenario32_relax6]
  rw [TimeStep32_eq, scenario32_verlet, ok_bind, SatisfyConstraints32_eq, hd, ok_bind,
    scenario32_sphere]

end Lemmas

section Claims

variable {F : Type} [LinearOrderedField F]

/-- C1: for grid size `N ≥ 2`, `Initialise` succeeds on every well-formed object (no
write leaves the constraint array), the final value of `constraintIndex` equals
`NUM_CONSTRAINTS = 2*N*(N-1) + (N-1)^2 + 2*N*(N-2)`, which is the size of the array, and
the five loop nests advance `constraintIndex` by `N*(N-1)`, `N*(N-1)`, `(N-1)^2`,
`N*(N-2)` and `N*(N-2)` in turn. -/
theorem C1_constraint_count (sqrt : F → F) {N : Nat} (hN : 2 ≤ N) (s : ParticleSystem F)
    (hwf : WellFormed N s) :
    NUM_CONSTRAINTS N = 2 * (N : Int) * ((N : Int) - 1) + ((N : Int) - 1) ^ 2 +
      2 * (N : Int) * ((N : Int) - 2) ∧
    (∃ s' constraintIndex, InitialiseIndexed sqrt N s = .ok (s', constraintIndex) ∧
      (constraintIndex : Int) = NUM_CONSTRAINTS N ∧
      s'.m_constraints.length = constraintIndex) ∧
    (∃ a1 a2 a3 a4 a5 : List (ClothConstraint F),
      initStructuralRows N (spacing N) (s.m_constraints, 0) = .ok (a1, N * (N - 1)) ∧
      initStructuralColumns N (spacing N) (a1, N * (N - 1)) =
        .ok (a2, N * (N - 1) + N * (N - 1)) ∧
      initShear N (sqrt (spacing N * spacing N + spacing N * spacing N))
        (a2, N * (N - 1) + N * (N - 1)) =
        .ok (a3, N * (N - 1) + N * (N - 1) + (N - 1) * (N - 1)) ∧
      initBendRows N (spacing N) (a3, N * (N - 1) + N * (N - 1) + (N - 1) * (N - 1)) =
        .ok (a4, N * (N - 1) + N * (N - 1) + (N - 1) * (N - 1) + N * (N - 2)) ∧
      initBendColumns N (spacing N)
        (a4, N * (N - 1) + N * (N - 1) + (N - 1) * (N - 1) + N * (N - 2)) =
        .ok (a5, N * (N - 1) + N * (N - 1) + (N - 1) * (N - 1) + N * (N - 2) + N * (N - 2)) ∧
      ((N * (N - 1) + N * (N - 1) + (N - 1) * (N - 1) + N * (N - 2) + N * (N - 2) : Nat) : Int) =
        NUM_CONSTRAINTS N) := by
  have hnc : ((N * (N - 1) + N * (N - 1) + (N - 1) * (N - 1) + N * (N - 2) + N * (N - 2) : Nat)
      : Int) = NUM_CONSTRAINTS N := by
    obtain ⟨m, rfl⟩ : ∃ m, N = m + 2 := ⟨N - 2, by omega⟩
    have e1 : m + 2 - 1 = m + 1 := by omega
    have e2 : m + 2 - 2 = m := by omega
    simp only [e1, e2, NUM_CONSTRAINTS]
    push_cast
    ring
  refine ⟨by unfold NUM_CONSTRAINTS; ring, ?_, ?_⟩
  · refine ⟨_, _, InitialiseIndexed_eq sqrt hN s hwf, ?_, ?_⟩
    · have := length_constraintList sqrt hN (spacing N)
      omega
    · have := length_constraintList sqrt hN (spacing N)
      simp only [restState]
      omega
  · have hlen : (s.m_constraints.length : Int) = NUM_CONSTRAINTS N := hwf.2.2.2
    obtain ⟨a1, h1, l1⟩ := forLoop_nest_push_ok 0 N 0 (N - 1)
      (structuralRowConstraint N (spacing N)) s.m_constraints 0 (by simp only [Nat.sub_zero]; omega)
    obtain ⟨a2, h2, l2⟩ := forLoop_nest_push_ok 0 (N - 1) 0 N
      (structuralColumnConstraint N (spacing N)) a1 (N * (N - 1))
      (by simp only [Nat.sub_zero]; rw [Nat.mul_comm (N - 1) N]; omega)
    obtain ⟨a3, h3, l3⟩ := forLoop_nest_push_ok 0 (N - 1) 1 N
      (shearConstraint N (sqrt (spacing N * spacing N + spacing N * spacing N))) a2
      (N * (N - 1) + N * (N - 1)) (by simp only [Nat.sub_zero]; omega)
    obtain ⟨a4, h4, l4⟩ := forLoop_nest_push_ok 0 N 0 (N - 2)
      (bendRowConstraint N (spacing N)) a3
      (N * (N - 1) + N * (N - 1) + (N - 1) * (N - 1)) (by simp only [Nat.sub_zero]; omega)
    obtain ⟨a5, h5, _⟩ := forLoop_nest_push_ok 0 (N - 2) 0 N
      (bendColumnConstraint N (spacing N)) a4
      (N * (N - 1) + N * (N - 1) + (N - 1) * (N - 1) + N * (N - 2))
      (by simp only [Nat.sub_zero]; rw [Nat.mul_comm (N - 2) N]; omega)
    simp only [Nat.sub_zero, zero_add] at h1 h2 h3 h4 h5
    rw [Nat.mul_comm (N - 1) N] at h2
    rw [Nat.mul_comm (N - 2) N] at h5
    exact ⟨a1, a2, a3, a4, a5, h1, h2, h3, h4, h5, hnc⟩

/-- Witness for C1 at `N = 4` over the rationals: 12 horizontal, 12 vertical, 9 diagonal
and 16 bend constraints, 49 in total. -/
theorem C1_constraint_count_witness :
    (2 ≤ 4 ∧ WellFormed 4 (blankState 4 : ParticleSystem ℚ)) ∧
    NUM_CONSTRAINTS 4 = 49 ∧
    (∃ s', InitialiseIndexed Rat.sqrt 4 (blankState 4 : ParticleSystem ℚ) = .ok (s', 49) ∧
      s'.m_constraints.length = 49) ∧
    (∃ a1 a2 a3 a4 a5 : List (ClothConstraint ℚ),
      initStructuralRows 4 (spacing 4) ((blankState 4 : ParticleSystem ℚ).m_constraints, 0) =
        .ok (a1, 12) ∧
      initStructuralColumns 4 (spacing 4) (a1, 12) = .ok (a2, 12 + 12) ∧
      initShear 4 (Rat.sqrt (spacing 4 * spacing 4 + spacing 4 * spacing 4)) (a2, 12 + 12) =
        .ok (a3, 12 + 12 + 9) ∧
      initBendRows 4 (spacing 4) (a3, 12 + 12 + 9) = .ok (a4, 12 + 12 + 9 + 8) ∧
      initBendColumns 4 (spacing 4) (a4, 12 + 12 + 9 + 8) = .ok (a5, 49)) := by
  have hwf : WellFormed 4 (blankState 4 : ParticleSystem ℚ) := blankState_wellFormed (by decide)
  obtain ⟨_, ⟨s', k, h2, h3, h4⟩, a1, a2, a3, a4, a5, g1, g2, g3, g4, g5, _⟩ :=
    C1_constraint_count Rat.sqrt (by decide : 2 ≤ 4) (blankState 4 : ParticleSystem ℚ) hwf
  have e : NUM_CONSTRAINTS 4 = 49 := by decide
  have hk : k = 49 := by rw [e] at h3; exact_mod_cast h3
  subst hk
  exact ⟨⟨by decide, hwf⟩, e, ⟨s', h2, h4⟩, a1, a2, a3, a4, a5, g1, g2, g3, g4, g5⟩

/-- C2: after `Initialise` (grid size `N ≥ 2`), for every constraint of the list,
`particleA` and `particleB` are different and both lie in `[0, N*N)`. -/
theorem C2_constraint_indices (sqrt : F → F) {N : Nat} (hN : 2 ≤ N) (s : ParticleSystem F)
    (hwf : WellFormed N s) :
    ∃ s', Initialise sqrt N s = .ok s' ∧ ∀ c ∈ s'.m_constraints,
      c.particleA ≠ c.particleB ∧ (0 ≤ c.particleA ∧ c.particleA < (N : Int) * (N : Int)) ∧
        (0 ≤ c.particleB ∧ c.particleB < (N : Int) * (N : Int)) := by
  refine ⟨_, Initialise_eq sqrt hN s hwf, ?_⟩
  intro c hc
  obtain ⟨r, col, r', col', h1, h2, h3, h4, hA, hB, hk⟩ := mem_constraintList sqrt _ hc
  have lA := index_lt h1 h2
  have lB := index_lt h3 h4
  have e1 : (r + 1) * N = r * N + N := by ring
  have e2 : (r + 2) * N = r * N + N + N := by ring
  refine ⟨?_, ⟨by omega, by rw [hA]; exact_mod_cast lA⟩, ⟨by omega, by rw [hB]; exact_mod_cast lB⟩⟩
  rw [hA, hB]
  rcases hk with ⟨rfl, rfl, _⟩ | ⟨rfl, rfl, _⟩ | ⟨rfl, h, _⟩ | ⟨rfl, rfl, _⟩ | ⟨rfl, rfl, _⟩
  · omega
  · rw [e1]; omega
  · rw [e1]; omega
  · omega
  · rw [e2]; omega

/-- Witness for C2 at `N = 2` over the rationals. -/
theorem C2_constraint_indices_witness :
    (2 ≤ 2 ∧ WellFormed 2 (blankState 2 : ParticleSystem ℚ)) ∧
    ∃ s', Initialise Rat.sqrt 2 (blankState 2 : ParticleSystem ℚ) = .ok s' ∧
      ∀ c ∈ s'.m_constraints,
        c.particleA ≠ c.particleB ∧ (0 ≤ c.particleA ∧ c.particleA < ((2 : Nat) : Int) * ((2 : Nat) : Int)) ∧
          (0 ≤ c.particleB ∧ c.particleB < ((2 : Nat) : Int) * ((2 : Nat) : Int)) :=
  ⟨⟨by decide, blankState_wellFormed (by decide)⟩,
    C2_constraint_indices Rat.sqrt (by decide) _ (blankState_wellFormed (by decide))⟩

/-- C3: after `Initialise` (grid size `N ≥ 2`, exact square root), the rest length of
every constraint is the Euclidean distance between the positions of its two particles, its
square is the squared distance, and it is the spacing `1/(N-1)`, `sqrt 2` times the
spacing or twice the spacing. -/
theorem C3_rest_length (sqrt : F → F) (hs : ExactSqrt sqrt) {N : Nat} (hN : 2 ≤ N)
    (s : ParticleSystem F) (hwf : WellFormed N s) :
    ∃ s', Initialise sqrt N s = .ok s' ∧ ∀ c ∈ s'.m_constraints,
      ∃ a b, readAt s'.m_pos c.particleA = .ok a ∧ readAt s'.m_pos c.particleB = .ok b ∧
        c.restLength = D3DXVec3Length sqrt (b - a) ∧
        c.restLength * c.restLength = (b - a).lengthSq ∧
        (c.restLength = 1 / ((N : F) - 1) ∨ c.restLength = sqrt 2 * (1 / ((N : F) - 1)) ∨
          c.restLength = 2 * (1 / ((N : F) - 1))) := by
  refine ⟨_, Initialise_eq sqrt hN s hwf, ?_⟩
  intro c hc
  obtain ⟨r, col, r', col', h1, h2, h3, h4, hA, hB, hk⟩ := mem_constraintList sqrt _ hc
  have hps : (0 : F) ≤ spacing N := (spacing_pos hN).le
  refine ⟨_, _, by rw [hA]; exact restPositions_readAt _ h1 h2,
    by rw [hB]; exact restPositions_readAt _ h3 h4, (rest_length sqrt hs hps hk).symm, ?_, ?_⟩
  · rw [rest_lengthSq sqrt _ hk]
    split_ifs with h
    · rcases hk with ⟨h1, h2, _⟩ | ⟨h1, h2, _⟩ | ⟨_, _, e⟩ | ⟨h1, h2, _⟩ | ⟨h1, h2, _⟩
      · omega
      · omega
      · rw [e]
        exact hs.1 _ (by nlinarith [mul_self_nonneg (spacing N : F)])
      · omega
      · omega
    · rfl
  · rw [← spacing_eq]
    rcases hk with ⟨_, _, e⟩ | ⟨_, _, e⟩ | ⟨_, _, e⟩ | ⟨_, _, e⟩ | ⟨_, _, e⟩
    · exact Or.inl e
    · exact Or.inl e
    · exact Or.inr (Or.inl (e.trans (hs.sqrt_diagonal hps)))
    · exact Or.inr (Or.inr (e.trans (mul_comm _ _)))
    · exact Or.inr (Or.inr (e.trans (mul_comm _ _)))

/-- C4: after `Initialise` (grid size `N ≥ 2`), the particle with index `row*N+column`
is at `(column/(N-1) - 1/2, 0, row/(N-1) - 1/2)`; its coordinates lie in `[-1/2, 1/2]`,
the first and last column and row are exactly at `-1/2` and `1/2`, its previous position
is its position and its acceleration is the zero vector. -/
theorem C4_rest_positions (sqrt : F → F) {N : Nat} (hN : 2 ≤ N) (s : ParticleSystem F)
    (hwf : WellFormed N s) :
    ∃ s', Initialise sqrt N s = .ok s' ∧ ∀ row column : Nat, row < N → column < N →
      ∃ p : Vec3 F, readAt s'.m_pos ((row : Int) * (N : Int) + (column : Int)) = .ok p ∧
        p = ⟨(column : F) / ((N : F) - 1) - 1 / 2, 0, (row : F) / ((N : F) - 1) - 1 / 2⟩ ∧
        (-(1 / 2) ≤ p.x ∧ p.x ≤ 1 / 2) ∧ p.y = 0 ∧ (-(1 / 2) ≤ p.z ∧ p.z ≤ 1 / 2) ∧
        (column = 0 → p.x = -(1 / 2)) ∧ (column + 1 = N → p.x = 1 / 2) ∧
        (row = 0 → p.z = -(1 / 2)) ∧ (row + 1 = N → p.z = 1 / 2) ∧
        readAt s'.m_oldPos ((row : Int) * (N : Int) + (column : Int)) = .ok p ∧
        readAt s'.m_acc ((row : Int) * (N : Int) + (column : Int)) = .ok ⟨0, 0, 0⟩ := by
  refine ⟨_, Initialise_eq sqrt hN s hwf, ?_⟩
  intro row column hr hc
  have hidx : ((row : Int) * (N : Int) + (column : Int)) = ((row * N + column : Nat) : Int) := by
    push_cast; ring
  have hN' : (0 : F) < (N : F) - 1 := by
    have : (2 : F) ≤ (N : F) := by exact_mod_cast hN
    linarith
  have hcol : (column : F) ≤ (N : F) - 1 := by
    have : (column : F) + 1 ≤ (N : F) := by exact_mod_cast hc
    linarith
  have hrow : (row : F) ≤ (N : F) - 1 := by
    have : (row : F) + 1 ≤ (N : F) := by exact_mod_cast hr
    linarith
  have hcol0 : (0 : F) ≤ (column : F) := Nat.cast_nonneg _
  have hrow0 : (0 : F) ≤ (row : F) := Nat.cast_nonneg _
  have hlast : ∀ k : Nat, k + 1 = N → (k : F) / ((N : F) - 1) - 1 / 2 = 1 / 2 := by
    intro k hk
    have : (k : F) = (N : F) - 1 := by
      have : (k : F) + 1 = (N : F) := by exact_mod_cast hk
      linarith
    rw [this, div_self hN'.ne']; norm_num
  have hp : (⟨spacing N * (column : F) - 1 / 2, 0, spacing N * (row : F) - 1 / 2⟩ : Vec3 F) =
      ⟨(column : F) / ((N : F) - 1) - 1 / 2, 0, (row : F) / ((N : F) - 1) - 1 / 2⟩ := by
    rw [spacing_eq]; congr 1 <;> ring
  have hread := restPositions_readAt (spacing N : F) hr hc
  rw [hp] at hread
  rw [hidx]
  refine ⟨_, hread, rfl, ⟨?_, ?_⟩, rfl, ⟨?_, ?_⟩, ?_, ?_, ?_, ?_, hread, ?_⟩
  · show -(1 / 2) ≤ (column : F) / ((N : F) - 1) - 1 / 2
    have := div_nonneg hcol0 hN'.le
    linarith
  · show (column : F) / ((N : F) - 1) - 1 / 2 ≤ 1 / 2
    have := (div_le_one hN').2 hcol
    linarith
  · show -(1 / 2) ≤ (row : F) / ((N : F) - 1) - 1 / 2
    have := div_nonneg hrow0 hN'.le
    linarith
  · show (row : F) / ((N : F) - 1) - 1 / 2 ≤ 1 / 2
    have := (div_le_one hN').2 hrow
    linarith
  · rintro rfl
    show ((0 : Nat) : F) / ((N : F) - 1) - 1 / 2 = -(1 / 2)
    simp
  · intro h
    exact hlast _ h
  · rintro rfl
    show ((0 : Nat) : F) / ((N : F) - 1) - 1 / 2 = -(1 / 2)
    simp
  · intro h
    exact hlast _ h
  · apply readAt_of_getElem?
    simp [restState, List.getElem?_replicate, index_lt hr hc]
    rfl

/-- Witness for C3 at `N = 2` over the reals with the real square root. -/
theorem C3_rest_length_witness :
    (ExactSqrt Real.sqrt ∧ 2 ≤ 2 ∧ WellFormed 2 (blankState 2 : ParticleSystem ℝ)) ∧
    ∃ s', Initialise Real.sqrt 2 (blankState 2 : ParticleSystem ℝ) = .ok s' ∧
      ∀ c ∈ s'.m_constraints,
        ∃ a b, readAt s'.m_pos c.particleA = .ok a ∧ readAt s'.m_pos c.particleB = .ok b ∧
          c.restLength = D3DXVec3Length Real.sqrt (b - a) ∧
          c.restLength * c.restLength = (b - a).lengthSq ∧
          (c.restLength = 1 / (((2 : Nat) : ℝ) - 1) ∨
            c.restLength = Real.sqrt 2 * (1 / (((2 : Nat) : ℝ) - 1)) ∨
            c.restLength = 2 * (1 / (((2 : Nat) : ℝ) - 1))) :=
  ⟨⟨exactSqrt_real, by decide, blankState_wellFormed (by decide)⟩,
    C3_rest_length Real.sqrt exactSqrt_real (by decide) _ (blankState_wellFormed (by decide))⟩

/-- Witness for C4 at `N = 2` over the rationals. -/
theorem C4_rest_positions_witness :
    (2 ≤ 2 ∧ WellFormed 2 (blankState 2 : ParticleSystem ℚ)) ∧
    ∃ s', Initialise Rat.sqrt 2 (blankState 2 : ParticleSystem ℚ) = .ok s' ∧
      ∀ row column : Nat, row < 2 → column < 2 →
      ∃ p : Vec3 ℚ, readAt s'.m_pos ((row : Int) * ((2 : Nat) : Int) + (column : Int)) = .ok p ∧
        p = ⟨(column : ℚ) / (((2 : Nat) : ℚ) - 1) - 1 / 2, 0,
          (row : ℚ) / (((2 : Nat) : ℚ) - 1) - 1 / 2⟩ ∧
        (-(1 / 2) ≤ p.x ∧ p.x ≤ 1 / 2) ∧ p.y = 0 ∧ (-(1 / 2) ≤ p.z ∧ p.z ≤ 1 / 2) ∧
        (column = 0 → p.x = -(1 / 2)) ∧ (column + 1 = 2 → p.x = 1 / 2) ∧
        (row = 0 → p.z = -(1 / 2)) ∧ (row + 1 = 2 → p.z = 1 / 2) ∧
        readAt s'.m_oldPos ((row : Int) * ((2 : Nat) : Int) + (column : Int)) = .ok p ∧
        readAt s'.m_acc ((row : Int) * ((2 : Nat) : Int) + (column : Int)) = .ok ⟨0, 0, 0⟩ :=
  ⟨⟨by decide, blankState_wellFormed (by decide)⟩,
    C4_rest_positions Rat.sqrt (by decide) _ (blankState_wellFormed (by decide))⟩

/-- C5: `Initialise` is a full reset and is idempotent.  On every reachable state `s`
(grid size `N ≥ 2`) it completes with the positions, previous positions, accelerations,
constraint list and anchor index and position of a freshly constructed object, whatever
the storage `mem` held before the construction, and applying it to its own result gives
that result again. -/
theorem C5_initialise_reset (sqrt : F → F) {N : Nat} (hN : 2 ≤ N) (s : ParticleSystem F)
    (hs : Reachable sqrt N s) (mem : ParticleSystem F) (hmem : WellFormed N mem) :
    ∃ r fresh, Initialise sqrt N s = .ok r ∧ construct sqrt N mem = .ok fresh ∧
      r.m_pos = fresh.m_pos ∧ r.m_oldPos = fresh.m_oldPos ∧ r.m_acc = fresh.m_acc ∧
      r.m_constraints = fresh.m_constraints ∧
      r.m_constraintParticle = fresh.m_constraintParticle ∧
      r.m_constraintPosition = fresh.m_constraintPosition ∧
      Initialise sqrt N r = .ok r := by
  have hwf := hs.wellFormed sqrt hN
  refine ⟨_, _, Initialise_eq sqrt hN s hwf, construct_eq sqrt hN mem hmem, rfl, rfl, rfl, rfl,
    rfl, rfl, ?_⟩
  exact Initialise_eq sqrt hN _ (restState_wellFormed sqrt hN _ _ _)

/-- Witness for C5 at `N = 2` over the rationals, on the freshly constructed object. -/
theorem C5_initialise_reset_witness :
    (2 ≤ 2 ∧ Reachable Rat.sqrt 2 (restState Rat.sqrt 2 (spacing 2) ⟨0, -2, 0⟩ (2 / 1000)
      : ParticleSystem ℚ) ∧ WellFormed 2 (blankState 2 : ParticleSystem ℚ)) ∧
    ∃ r fresh, Initialise Rat.sqrt 2 (restState Rat.sqrt 2 (spacing 2) ⟨0, -2, 0⟩ (2 / 1000)
        : ParticleSystem ℚ) = .ok r ∧
      construct Rat.sqrt 2 (blankState 2 : ParticleSystem ℚ) = .ok fresh ∧
      r.m_pos = fresh.m_pos ∧ r.m_oldPos = fresh.m_oldPos ∧ r.m_acc = fresh.m_acc ∧
      r.m_constraints = fresh.m_constraints ∧
      r.m_constraintParticle = fresh.m_constraintParticle ∧
      r.m_constraintPosition = fresh.m_constraintPosition ∧
      Initialise Rat.sqrt 2 r = .ok r :=
  ⟨⟨by decide, reachable_fresh Rat.sqrt (by decide), blankState_wellFormed (by decide)⟩,
    C5_initialise_reset Rat.sqrt (by decide) _ (reachable_fresh Rat.sqrt (by decide)) _
      (blankState_wellFormed (by decide))⟩

/-- C6: on every well-formed object the first two phases of `TimeStep` complete and leave
the old-position array equal to the position array before the step; the constraint solver
never writes the old-position array; hence after every `TimeStep` that completes, the
previous position of every particle is its position before the step. -/
theorem C6_previous_position (sqrt : F → F) {N : Nat} (s : ParticleSystem F)
    (hwf : WellFormed N s) :
    (∃ s1, (AccumulateForces N s >>= Verlet N) = .ok s1 ∧ s1.m_oldPos = s.m_pos ∧
      TimeStep sqrt N s = SatisfyConstraints sqrt N s1) ∧
    (∀ t t', SatisfyConstraints sqrt N t = .ok t' → t'.m_oldPos = t.m_oldPos) ∧
    (∀ s', TimeStep sqrt N s = .ok s' → s'.m_oldPos = s.m_pos) := by
  obtain ⟨s1, h1, h2, _⟩ := integrate_spec s hwf
  have hts : TimeStep sqrt N s = SatisfyConstraints sqrt N s1 := by
    rw [TimeStep_eq, h1, ok_bind]
  refine ⟨⟨s1, h1, h2, hts⟩, fun t t' h => (SatisfyConstraints_frame sqrt N h).2.1, ?_⟩
  intro s' h
  rw [hts] at h
  rw [(SatisfyConstraints_frame sqrt N h).2.1, h2]

/-- C7: on every well-formed object `Verlet` completes; particle `i` goes from position
`p`, previous position `o` and acceleration `a` to position `p + (p - o) + a * dt^2` and
previous position `p`; and the new slots of particle `i` are the same in any other
object that has the same time step and the same three slots for particle `i`. -/
theorem C7_verlet {N : Nat} (s : ParticleSystem F) (hwf : WellFormed N s) :
    ∃ s', Verlet N s = .ok s' ∧
      (∀ i, i < NUM_PARTICLES N → ∃ p o a, s.m_pos[i]? = some p ∧ s.m_oldPos[i]? = some o ∧
        s.m_acc[i]? = some a ∧
        s'.m_pos[i]? = some (p + (p - o) + a.scale (s.m_timeStep ^ 2)) ∧
        s'.m_oldPos[i]? = some p) ∧
      (∀ t, WellFormed N t → t.m_timeStep = s.m_timeStep → ∀ i : Nat, t.m_pos[i]? = s.m_pos[i]? →
        t.m_oldPos[i]? = s.m_oldPos[i]? → t.m_acc[i]? = s.m_acc[i]? →
        ∃ t', Verlet N t = .ok t' ∧ t'.m_pos[i]? = s'.m_pos[i]? ∧
          t'.m_oldPos[i]? = s'.m_oldPos[i]?) := by
  obtain ⟨hp, ho, ha, _⟩ := hwf
  obtain ⟨s', h1, h2, h3, h4, _⟩ := Verlet_spec s hp ho ha
  have hv : ∀ (dt : F) (p o a : Vec3 F),
      verletPosition dt p o a = p + (p - o) + a.scale (dt ^ 2) := by
    intro dt p o a
    unfold verletPosition
    ext <;> simp <;> ring
  refine ⟨s', h1, ?_, ?_⟩
  · intro i hi
    refine ⟨s.m_pos[i], s.m_oldPos[i], s.m_acc[i], List.getElem?_eq_getElem _,
      List.getElem?_eq_getElem _, List.getElem?_eq_getElem _, ?_, ?_⟩
    · rw [← hv]
      exact h4 i hi _ _ _ (List.getElem?_eq_getElem _) (List.getElem?_eq_getElem _)
        (List.getElem?_eq_getElem _)
    · rw [h2]; exact List.getElem?_eq_getElem _
  · intro t ⟨tp, tq, ta, _⟩ hdt i e1 e2 e3
    obtain ⟨t', g1, g2, g3, g4, _⟩ := Verlet_spec t tp tq ta
    refine ⟨t', g1, ?_, by rw [g2, h2, e1]⟩
    by_cases hi : i < NUM_PARTICLES N
    · have a1 : s.m_pos[i]? = some (s.m_pos[i]) := List.getElem?_eq_getElem _
      have a2 : s.m_oldPos[i]? = some (s.m_oldPos[i]) := List.getElem?_eq_getElem _
      have a3 : s.m_acc[i]? = some (s.m_acc[i]) := List.getElem?_eq_getElem _
      rw [h4 i hi _ _ _ a1 a2 a3, g4 i hi _ _ _ (e1.trans a1) (e2.trans a2) (e3.trans a3), hdt]
    · rw [List.getElem?_eq_none (by omega), List.getElem?_eq_none (by omega)]

/-- Witness for C6: the first step of the freshly constructed object for `N = 2` over the
reals.  The step completes, every particle moves by `gravity * dt^2`, and the old
positions afterwards are the rest positions the step started from. -/
theorem C6_previous_position_witness :
    (WellFormed 2 (restState Real.sqrt 2 (spacing 2) ⟨0, -2, 0⟩ (2 / 1000) : ParticleSystem ℝ) ∧
      TimeStep Real.sqrt 2 (restState Real.sqrt 2 (spacing 2) ⟨0, -2, 0⟩ (2 / 1000)
        : ParticleSystem ℝ) = .ok (afterFirstStep Real.sqrt 2)) ∧
    (afterFirstStep Real.sqrt 2 : ParticleSystem ℝ).m_oldPos =
      (restState Real.sqrt 2 (spacing 2) ⟨0, -2, 0⟩ (2 / 1000) : ParticleSystem ℝ).m_pos :=
  ⟨⟨restState_wellFormed Real.sqrt (by decide) _ _ _, TimeStep_fresh_two Real.sqrt exactSqrt_real⟩,
    (C6_previous_position Real.sqrt _ (restState_wellFormed Real.sqrt (by decide) _ _ _)).2.2 _
      (TimeStep_fresh_two Real.sqrt exactSqrt_real)⟩

/-- Witness for C7 on the freshly constructed object for `N = 2` over the rationals. -/
theorem C7_verlet_witness :
    WellFormed 2 (restState Rat.sqrt 2 (spacing 2) ⟨0, -2, 0⟩ (2 / 1000) : ParticleSystem ℚ) ∧
    ∃ s', Verlet 2 (restState Rat.sqrt 2 (spacing 2) ⟨0, -2, 0⟩ (2 / 1000)
        : ParticleSystem ℚ) = .ok s' ∧
      s'.m_oldPos = (restState Rat.sqrt 2 (spacing 2) ⟨0, -2, 0⟩ (2 / 1000)
        : ParticleSystem ℚ).m_pos := by
  have hwf := restState_wellFormed (F := ℚ) Rat.sqrt (by decide : 2 ≤ 2) (spacing 2)
    ⟨0, -2, 0⟩ (2 / 1000)
  obtain ⟨s', h1, h2, _⟩ := C7_verlet _ hwf
  refine ⟨hwf, s', h1, ?_⟩
  apply List.ext_getElem?
  intro i
  by_cases hi : i < NUM_PARTICLES 2
  · obtain ⟨p, o, a, e1, _, _, _, e5⟩ := h2 i hi
    rw [e5, e1]
  · have l1 : s'.m_oldPos.length = NUM_PARTICLES 2 := by
      have := Verlet_spec (N := 2) _ hwf.1 hwf.2.1 hwf.2.2.1
      obtain ⟨t, g1, g2, _⟩ := this
      rw [h1] at g1
      cases g1
      rw [g2]; exact hwf.1
    rw [List.getElem?_eq_none (by omega), List.getElem?_eq_none (by rw [hwf.1]; omega)]

/-- C8: rest-state stability.  Starting from the state `Initialise` produces on an object
with zero gravity and time step 0 (grid size `N ≥ 2`, exact square root), any number `k`
of `TimeStep` calls completes and leaves every position equal to its initial value. -/
theorem C8_rest_stability (sqrt : F → F) (hs : ExactSqrt sqrt) {N : Nat} (hN : 2 ≤ N)
    (s : ParticleSystem F) (hwf : WellFormed N s) (hg : s.m_gravity = 0)
    (hdt : s.m_timeStep = 0) (k : Nat) :
    ∃ s0 sk, Initialise sqrt N s = .ok s0 ∧ timeSteps sqrt N k s0 = .ok sk ∧
      sk.m_pos = s0.m_pos := by
  refine ⟨_, _, Initialise_eq sqrt hN s hwf, ?_, rfl⟩
  rw [hg, hdt]
  exact timeSteps_rest sqrt hs hN k

/-- Witness for C8 at `N = 2`, `k = 3` over the reals with the real square root. -/
theorem C8_rest_stability_witness :
    (ExactSqrt Real.sqrt ∧ 2 ≤ 2 ∧ WellFormed 2 (blankState 2 : ParticleSystem ℝ) ∧
      (blankState 2 : ParticleSystem ℝ).m_gravity = 0 ∧
      (blankState 2 : ParticleSystem ℝ).m_timeStep = 0) ∧
    ∃ s0 sk, Initialise Real.sqrt 2 (blankState 2 : ParticleSystem ℝ) = .ok s0 ∧
      timeSteps Real.sqrt 2 3 s0 = .ok sk ∧ sk.m_pos = s0.m_pos :=
  ⟨⟨exactSqrt_real, by decide, blankState_wellFormed (by decide), rfl, rfl⟩,
    C8_rest_stability Real.sqrt exactSqrt_real (by decide) _
      (blankState_wellFormed (by decide)) rfl rfl 3⟩

/-- C9, counterexample, in two parts.

(a) `stackedState` is a well-formed object with the constraints of `Initialise` whose four
particles are all at `(0, 1, 0)`.  Integration moves them by the same vector, so the first
distance constraint `(0, 1)` has length 0 and `TimeStep` divides by it: the step yields no
state, and so no state in which the particles keep their distance from the sphere.  The
same happens in binary32 arithmetic (`stackedState32`).

(b) In binary32 arithmetic the bound also fails, and by more than a rounding tolerance, on
a step that performs no division by zero.  On `nearCentreState32` the distance pass changes
nothing; particle 0 is at distance `(1 + 2^-23) * 2^-75` from the centre, the square of
which rounds to the least positive number `2^-149`, so `deltaLength` is too large by the
factor `sqrt 2`.  `TimeStep` completes and leaves particle 0 at
`(2669239 * 2^-23, -15099495 * 2^-25, 0)`, whose distance from the centre
`(0, -15099495 * 2^-25, 0)` is less than `minLength - 1/8`, where
`minLength = SPHERE_RADIUS + EDGE_CORRECTION = 15099495 * 2^-25`. -/
theorem C9_sphere_counterexample :
    (WellFormed 2 (stackedState Real.sqrt) ∧
      (stackedState Real.sqrt).m_constraints = constraintList Real.sqrt 2 (spacing 2) ∧
      TimeStep Real.sqrt 2 (stackedState Real.sqrt) = .error .divByZero ∧
      (¬ ∃ s', TimeStep Real.sqrt 2 (stackedState Real.sqrt) = .ok s') ∧
      Except.map (fun t => t.m_constraints) (Initialise32 2 stackedState32) =
        .ok stackedState32.m_constraints ∧
      TimeStep32 2 stackedState32 = .error .divByZero) ∧
    (nearCentreState32.m_constraints = stackedState32.m_constraints ∧
      EDGE_CORRECTION32 2 = .ok (Binary32.scaled 5033165 (-25)) ∧
      Binary32.add SPHERE_RADIUS32 (Binary32.scaled 5033165 (-25)) =
        Binary32.scaled 15099495 (-25) ∧
      SPHERE_POSITION32 2 = .ok ⟨⟨0⟩, Binary32.scaled (-15099495) (-25), ⟨0⟩⟩ ∧
      Except.map (fun t => t.m_pos) (TimeStep32 2 nearCentreState32) =
        .ok [⟨Binary32.scaled 2669239 (-23), Binary32.scaled (-15099495) (-25), ⟨0⟩⟩,
          ⟨Binary32.scaled 1 0, Binary32.scaled (-15099495) (-25), ⟨0⟩⟩,
          ⟨Binary32.scaled 8388609 (-98), Binary32.scaled (-15099495) (-25),
            Binary32.scaled 1 0⟩,
          ⟨Binary32.scaled 1 0, Binary32.scaled (-15099495) (-25), Binary32.scaled 1 0⟩] ∧
      Binary32.distSqUnits ⟨⟨0⟩, Binary32.scaled (-15099495) (-25), ⟨0⟩⟩
          ⟨Binary32.scaled 2669239 (-23), Binary32.scaled (-15099495) (-25), ⟨0⟩⟩ <
        ((Binary32.scaled 15099495 (-25)).units - (Binary32.scaled 1 (-3)).units) *
          ((Binary32.scaled 15099495 (-25)).units - (Binary32.scaled 1 (-3)).units)) := by
  have hwf : WellFormed 2 (stackedState Real.sqrt) := by
    refine ⟨rfl, rfl, rfl, ?_⟩
    simp [stackedState, NUM_CONSTRAINTS]
  have hsp : (spacing 2 : ℝ) = 1 := by simp [spacing]
  have hcs : (stackedState Real.sqrt).m_constraints =
      constraintList Real.sqrt 2 (spacing 2) := by
    rw [hsp]
    simp [stackedState, constraintList, nest, structuralRowConstraint,
      structuralColumnConstraint, shearConstraint, bendRowConstraint, bendColumnConstraint,
      List.range', List.flatMap]
  have herr : TimeStep Real.sqrt 2 (stackedState Real.sqrt) = .error .divByZero := by
    obtain ⟨s1, h1, _, _, _, h5, _, _, _, _, h10⟩ :=
      integrate_spec (stackedState Real.sqrt) hwf
    have q0 := h10 0 (by decide) ⟨0, 1, 0⟩ ⟨0, 1, 0⟩ rfl rfl
    have q1 := h10 1 (by decide) ⟨0, 1, 0⟩ ⟨0, 1, 0⟩ rfl rfl
    have hc : s1.m_constraints[0]? = some ⟨0, 1, 1⟩ := by rw [h5]; rfl
    have h0 : D3DXVec3Length Real.sqrt
        (verletPosition (stackedState Real.sqrt).m_timeStep ⟨0, 1, 0⟩ ⟨0, 1, 0⟩
            (stackedState Real.sqrt).m_gravity -
          verletPosition (stackedState Real.sqrt).m_timeStep ⟨0, 1, 0⟩ ⟨0, 1, 0⟩
            (stackedState Real.sqrt).m_gravity) = 0 :=
      (length_eq_zero Real.sqrt exactSqrt_real _ _).2 rfl
    have hn : (NUM_CONSTRAINTS 2).toNat = 5 := by decide
    rw [TimeStep_eq, h1, ok_bind, SatisfyConstraints_eq]
    unfold satisfyDistances
    rw [hn, forLoop_step (by decide),
      relaxStep_eq Real.sqrt 0 s1 (i := 0) (j := 1) hc rfl rfl q0 q1, if_pos h0]
    rfl
  refine ⟨⟨hwf, hcs, herr, ?_, by decide!, by decide!⟩,
    ⟨rfl, by decide!, by decide!, by decide!, by decide!, by decide!⟩⟩
  rintro ⟨s', h⟩
  rw [herr] at h
  cases h

/-- C9, amended: sphere non-penetration for the steps that complete, in exact arithmetic.
With an exact square root, whenever `TimeStep` on a well-formed object completes (it
performs no division by zero), every particle is afterwards at distance at least
`SPHERE_RADIUS + EDGE_CORRECTION` from `SPHERE_POSITION`. -/
theorem C9_sphere_outside (sqrt : F → F) (hs : ExactSqrt sqrt) {N : Nat} (s s' : ParticleSystem F)
    (hwf : WellFormed N s) (h : TimeStep sqrt N s = .ok s') :
    s'.m_pos.length = NUM_PARTICLES N ∧
    ∀ i, i < NUM_PARTICLES N → ∃ q, s'.m_pos[i]? = some q ∧
      SPHERE_RADIUS + EDGE_CORRECTION N ≤ D3DXVec3Length sqrt (SPHERE_POSITION N - q) := by
  refine ⟨(TimeStep_wellFormed sqrt hwf h).1, ?_⟩
  rw [TimeStep_eq] at h
  obtain ⟨s1, _, h1⟩ := bind_eq_ok.1 h
  rw [SatisfyConstraints_eq] at h1
  obtain ⟨s2, _, h2⟩ := bind_eq_ok.1 h1
  exact (satisfySphere_post sqrt hs N h2).2

/-- Witness for C9 (amended) over the reals: `pushedState`, whose particle 0 is inside the
collision radius.  `TimeStep` completes and the sphere pass moves particle 0 from
`(0, -9/20, -1/4)`, at distance `1/4` from the centre `(0, -9/20, 0)`, to
`(0, -9/20, -9/20)`, at distance `9/20 = SPHERE_RADIUS + EDGE_CORRECTION`. -/
theorem C9_sphere_outside_witness :
    (ExactSqrt Real.sqrt ∧ WellFormed 2 (pushedState Real.sqrt)) ∧
    ∃ s', TimeStep Real.sqrt 2 (pushedState Real.sqrt) = .ok s' ∧
      (pushedState Real.sqrt).m_pos[0]? = some ⟨0, -(9 / 20), -(1 / 4)⟩ ∧
      s'.m_pos[0]? = some ⟨0, -(9 / 20), -(9 / 20)⟩ ∧
      s'.m_pos.length = NUM_PARTICLES 2 ∧
      ∀ i, i < NUM_PARTICLES 2 → ∃ q, s'.m_pos[i]? = some q ∧
        SPHERE_RADIUS + EDGE_CORRECTION 2 ≤
          D3DXVec3Length Real.sqrt (SPHERE_POSITION 2 - q) := by
  have hwf : WellFormed 2 (pushedState Real.sqrt) := by
    refine ⟨rfl, rfl, rfl, ?_⟩
    simp [pushedState, NUM_CONSTRAINTS]
  have hcs : (pushedState Real.sqrt).m_constraints = constraintList Real.sqrt 2 1 := by
    simp [pushedState, constraintList, nest, structuralRowConstraint,
      structuralColumnConstraint, shearConstraint, bendRowConstraint, bendColumnConstraint,
      List.range', List.flatMap]
  have hpos : (pushedState Real.sqrt).m_pos =
      translatedRest 2 1 ⟨1 / 2, -(9 / 20), 1 / 4⟩ := by
    simp [pushedState, translatedRest, restPositions, gridPosition, List.range,
      List.range.loop]
    refine ⟨?_, ?_, ?_, ?_⟩ <;> ext <;> norm_num
  have hstill := TimeStep_still Real.sqrt exactSqrt_real one_pos _ _ hwf hcs hpos rfl
    (by ext <;> simp [pushedState])
  have hC : (SPHERE_POSITION 2 : Vec3 ℝ) = ⟨0, -(9 / 20), 0⟩ := by
    ext <;> simp [SPHERE_POSITION, SPHERE_RADIUS, EDGE_CORRECTION]
    norm_num
  have hm : (sphereMinLength 2 : ℝ) = 9 / 20 := by
    simp [sphereMinLength, SPHERE_RADIUS, EDGE_CORRECTION]
    norm_num
  have hne : ∀ p : Vec3 ℝ, p.z ≠ 0 →
      D3DXVec3Length Real.sqrt (SPHERE_POSITION 2 - p) ≠ 0 := by
    intro p hp h0
    have e := (length_eq_zero Real.sqrt exactSqrt_real _ _).1 h0
    rw [hC] at e
    exact hp (by rw [e])
  obtain ⟨s', hs'⟩ := satisfySphere_ok Real.sqrt 2
    ({ pushedState Real.sqrt with
      m_acc := List.replicate (NUM_PARTICLES 2) (pushedState Real.sqrt).m_gravity } :
      ParticleSystem ℝ) rfl (by
      intro p hp _
      simp only [pushedState, List.mem_cons, List.mem_singleton, List.not_mem_nil,
        or_false] at hp
      rcases hp with rfl | rfl | rfl | rfl <;> exact hne _ (by norm_num))
  have hrun : TimeStep Real.sqrt 2 (pushedState Real.sqrt) = .ok s' := by
    rw [hstill]; exact hs'
  have hlen : ({ pushedState Real.sqrt with
      m_acc := List.replicate (NUM_PARTICLES 2) (pushedState Real.sqrt).m_gravity } :
      ParticleSystem ℝ).m_pos.length = NUM_PARTICLES 2 := rfl
  obtain ⟨_, hmap⟩ := satisfySphere_spec_of_ok Real.sqrt 2 hlen hs'
  have hl : D3DXVec3Length Real.sqrt (SPHERE_POSITION 2 - (⟨0, -(9 / 20), -(1 / 4)⟩ : Vec3 ℝ)) =
      1 / 4 := by
    rw [hC]
    exact length_of_sq Real.sqrt exactSqrt_real (by norm_num)
      (by simp [Vec3.lengthSq])
  have hproj : sphereProject Real.sqrt 2 (⟨0, -(9 / 20), -(1 / 4)⟩ : Vec3 ℝ) =
      ⟨0, -(9 / 20), -(9 / 20)⟩ := by
    unfold sphereProject
    rw [hl, hm, if_pos (by norm_num), hC]
    ext <;> norm_num
  have h0 : s'.m_pos[0]? = some ⟨0, -(9 / 20), -(9 / 20)⟩ := by
    rw [hmap, List.getElem?_map]
    show Option.map _ (some (⟨0, -(9 / 20), -(1 / 4)⟩ : Vec3 ℝ)) = _
    rw [Option.map_some', hproj]
  obtain ⟨g1, g2⟩ := C9_sphere_outside Real.sqrt exactSqrt_real _ _ hwf hrun
  exact ⟨⟨exactSqrt_real, hwf⟩, s', hrun, rfl, h0, g1, g2⟩

/-- C10, counterexample: for the constraint `(0, 1)` of rest length 1 on two particles that
are both at the origin, the body of the distance loop does not skip the correction and
leave the array as it is: it divides by the length 0, in exact arithmetic and in binary32
arithmetic alike. -/
theorem C10_zero_length_counterexample :
    readAt [(⟨0, 0, 0⟩ : Vec3 ℝ), ⟨0, 0, 0⟩] 0 = .ok ⟨0, 0, 0⟩ ∧
    readAt [(⟨0, 0, 0⟩ : Vec3 ℝ), ⟨0, 0, 0⟩] 1 = .ok ⟨0, 0, 0⟩ ∧
    relaxConstraint Real.sqrt ⟨0, 1, 1⟩ [(⟨0, 0, 0⟩ : Vec3 ℝ), ⟨0, 0, 0⟩] =
      .error .divByZero ∧
    relaxConstraint Real.sqrt ⟨0, 1, 1⟩ [(⟨0, 0, 0⟩ : Vec3 ℝ), ⟨0, 0, 0⟩] ≠
      .ok [(⟨0, 0, 0⟩ : Vec3 ℝ), ⟨0, 0, 0⟩] ∧
    relaxConstraint32 ⟨0, 1, Binary32.scaled 1 0⟩
      [(⟨⟨0⟩, ⟨0⟩, ⟨0⟩⟩ : Vec3 Binary32), ⟨⟨0⟩, ⟨0⟩, ⟨0⟩⟩] = .error .divByZero := by
  have h : relaxConstraint Real.sqrt ⟨0, 1, 1⟩ [(⟨0, 0, 0⟩ : Vec3 ℝ), ⟨0, 0, 0⟩] =
      .error .divByZero := by
    simp [relaxConstraint, readAt, fdiv, D3DXVec3Length, Vec3.lengthSq]
  refine ⟨by simp [readAt], by simp [readAt], h, ?_, by decide!⟩
  rw [h]
  intro h'
  cases h'

/-- C10, amended: the distance loop has no zero-length guard.  For a constraint whose two
slots are in bounds and hold the same position, the body of the loop does not skip the
correction: it divides `deltaLength - restLength` by `deltaLength = 0`, so it returns no
position array, unchanged or otherwise.  This holds in exact arithmetic for every square
root function with `sqrt 0 = 0`, and in binary32 arithmetic. -/
theorem C10_zero_length (sqrt : F → F) (hs0 : sqrt 0 = 0) :
    (∀ (c : ClothConstraint F) (pos : List (Vec3 F)) (a : Vec3 F),
      readAt pos c.particleA = .ok a → readAt pos c.particleB = .ok a →
      relaxConstraint sqrt c pos = .error .divByZero ∧
        ∀ pos', relaxConstraint sqrt c pos ≠ .ok pos') ∧
    (∀ (c : ClothConstraint Binary32) (pos : List (Vec3 Binary32)) (a : Vec3 Binary32),
      readAt pos c.particleA = .ok a → readAt pos c.particleB = .ok a →
      relaxConstraint32 c pos = .error .divByZero ∧
        ∀ pos', relaxConstraint32 c pos ≠ .ok pos') := by
  constructor
  · intro c pos a ha hb
    have h := relaxConstraint_coincident sqrt hs0 c pos a ha hb
    refine ⟨h, fun pos' h' => ?_⟩
    rw [h] at h'
    cases h'
  · intro c pos a ha hb
    have h := relaxConstraint32_coincident c pos a ha hb
    refine ⟨h, fun pos' h' => ?_⟩
    rw [h] at h'
    cases h'

/-- Witness for C10 (amended): the constraint `(0, 1)` of rest length 1 on two particles
that are both at `(1, 2, 3)`, over the reals and in binary32. -/
theorem C10_zero_length_witness :
    Real.sqrt 0 = 0 ∧
    relaxConstraint Real.sqrt ⟨0, 1, 1⟩ [(⟨1, 2, 3⟩ : Vec3 ℝ), ⟨1, 2, 3⟩] =
      .error .divByZero ∧
    relaxConstraint32 ⟨0, 1, Binary32.scaled 1 0⟩
      [(⟨Binary32.scaled 1 0, Binary32.scaled 1 1, Binary32.scaled 3 0⟩ : Vec3 Binary32),
        ⟨Binary32.scaled 1 0, Binary32.scaled 1 1, Binary32.scaled 3 0⟩] =
      .error .divByZero :=
  ⟨Real.sqrt_zero,
    ((C10_zero_length Real.sqrt Real.sqrt_zero).1 ⟨0, 1, 1⟩ [⟨1, 2, 3⟩, ⟨1, 2, 3⟩] ⟨1, 2, 3⟩
      (by simp [readAt]) (by simp [readAt])).1,
    ((C10_zero_length Real.sqrt Real.sqrt_zero).2 ⟨0, 1, Binary32.scaled 1 0⟩
      [⟨Binary32.scaled 1 0, Binary32.scaled 1 1, Binary32.scaled 3 0⟩,
        ⟨Binary32.scaled 1 0, Binary32.scaled 1 1, Binary32.scaled 3 0⟩]
      ⟨Binary32.scaled 1 0, Binary32.scaled 1 1, Binary32.scaled 3 0⟩ rfl rfl).1⟩

/-- C12: for grid size `N ≥ 2`, on a locked buffer of `NUM_INDICES` entries
`FillIndexBuffer` completes with `S_OK`; it emits exactly `6*(N-1)^2` indices, that is
`2*(N-1)^2` triangles (the final `currentIndex`, which is the size of the buffer); every
emitted index lies in `[0, N*N)`; and every particle index in `[0, N*N)` is a vertex of at
least one emitted triangle. -/
theorem C12_index_buffer {N : Nat} (hN : 2 ≤ N) (pBuffer : List Int)
    (hlen : (pBuffer.length : Int) = NUM_INDICES N) :
    ∃ buf, FillIndexBuffer N (some pBuffer) = .ok (HRESULT.S_OK, some buf) ∧
      fillIndices N pBuffer = .ok (buf, 6 * (N - 1) ^ 2) ∧
      buf.length = 6 * (N - 1) ^ 2 ∧ buf.length = 3 * (2 * (N - 1) ^ 2) ∧
      (∀ v ∈ buf, 0 ≤ v ∧ v < (N : Int) * (N : Int)) ∧
      (∀ p : Nat, p < N * N → ∃ t, t < 2 * (N - 1) ^ 2 ∧
        (buf[3 * t]? = some (p : Int) ∨ buf[3 * t + 1]? = some (p : Int) ∨
          buf[3 * t + 2]? = some (p : Int))) := by
  have hfill := fillIndices_eq (by omega : 1 ≤ N) pBuffer hlen
  have hsq : (N - 1) ^ 2 = (N - 1) * (N - 1) := by ring
  refine ⟨indexList N, ?_, by rw [hfill, hsq], by rw [length_indexList, hsq],
    by rw [length_indexList, hsq]; ring, ?_, ?_⟩
  · unfold FillIndexBuffer
    simp only [hfill, ok_bind]
    rfl
  · intro v hv
    unfold indexList at hv
    obtain ⟨l, hl, hvl⟩ := List.mem_flatten.1 hv
    obtain ⟨row, column, _, hr, _, hc, rfl⟩ := mem_nest.1 hl
    have h1 : row * N + column < N * N := index_lt (by omega) (by omega)
    have h2 : (row + 1) * N + (column + 1) < N * N := index_lt (by omega) (by omega)
    have e : (row + 1) * N = row * N + N := by ring
    have h1' : ((row * N + column : Nat) : Int) < ((N * N : Nat) : Int) := by exact_mod_cast h1
    have h2' : (((row + 1) * N + (column + 1) : Nat) : Int) < ((N * N : Nat) : Int) := by
      exact_mod_cast h2
    rw [e] at h2'
    push_cast at h1' h2'
    have h0 : (0 : Int) ≤ (row : Int) * (N : Int) := by positivity
    simp only [cellIndices, List.mem_cons, List.mem_singleton, List.mem_nil_iff, or_false] at hvl
    rcases hvl with rfl | rfl | rfl | rfl | rfl | rfl <;> constructor <;> omega
  · intro p hp
    have hNpos : 0 < N := by omega
    have hr : p / N < N := (Nat.div_lt_iff_lt_mul hNpos).2 hp
    have hc : p % N < N := Nat.mod_lt _ hNpos
    have hpe : p = (p / N) * N + p % N := by
      have := Nat.div_add_mod p N
      rw [Nat.mul_comm] at this
      exact this.symm
    -- the cell that has the particle as a corner
    have key : ∀ (r0 c0 j : Nat), r0 < N - 1 → c0 < N - 1 → j < 6 →
        (cellIndices N r0 c0)[j]? = some (p : Int) →
        (indexList N)[6 * (r0 * (N - 1) + c0) + j]? = some (p : Int) := by
      intro r0 c0 j h1 h2 hj hcell
      rw [indexList_getElem? N (index_lt h1 h2) hj, index_div h2, index_mod h2]
      exact hcell
    have cellLt : ∀ (r0 c0 : Nat), r0 < N - 1 → c0 < N - 1 →
        r0 * (N - 1) + c0 < (N - 1) ^ 2 := by
      intro r0 c0 h1 h2
      rw [hsq]; exact index_lt h1 h2
    have hpc : (p : Int) = ((p / N : Nat) : Int) * (N : Int) + ((p % N : Nat) : Int) := by
      exact_mod_cast hpe
    by_cases h1 : p / N < N - 1
    · by_cases h2 : p % N < N - 1
      · refine ⟨2 * ((p / N) * (N - 1) + p % N), by have := cellLt _ _ h1 h2; omega, Or.inl ?_⟩
        have := key (p / N) (p % N) 0 h1 h2 (by omega) (by simp only [cellIndices, List.getElem?_cons_zero]; rw [hpc])
        rw [← this]; congr 1; ring
      · refine ⟨2 * ((p / N) * (N - 1) + (p % N - 1)),
          by have := cellLt (p / N) (p % N - 1) h1 (by omega); omega, Or.inr (Or.inl ?_)⟩
        have hcast : ((p % N - 1 : Nat) : Int) = ((p % N : Nat) : Int) - 1 := by omega
        have := key (p / N) (p % N - 1) 1 h1 (by omega) (by omega)
          (by simp only [cellIndices, List.getElem?_cons_succ, List.getElem?_cons_zero]; rw [hpc, hcast]; congr 1; ring)
        rw [← this]; congr 1; ring
    · by_cases h2 : p % N < N - 1
      · refine ⟨2 * ((p / N - 1) * (N - 1) + p % N),
          by have := cellLt (p / N - 1) (p % N) (by omega) h2; omega, Or.inr (Or.inr ?_)⟩
        have hcast : ((p / N - 1 : Nat) : Int) = ((p / N : Nat) : Int) - 1 := by omega
        have := key (p / N - 1) (p % N) 2 (by omega) h2 (by omega)
          (by simp only [cellIndices, List.getElem?_cons_succ, List.getElem?_cons_zero]; rw [hpc, hcast]; congr 1; ring)
        rw [← this]; congr 1; ring
      · refine ⟨2 * ((p / N - 1) * (N - 1) + (p % N - 1)) + 1,
          by have := cellLt (p / N - 1) (p % N - 1) (by omega) (by omega); omega,
          Or.inr (Or.inr ?_)⟩
        have hcast1 : ((p / N - 1 : Nat) : Int) = ((p / N : Nat) : Int) - 1 := by omega
        have hcast2 : ((p % N - 1 : Nat) : Int) = ((p % N : Nat) : Int) - 1 := by omega
        have := key (p / N - 1) (p % N - 1) 5 (by omega) (by omega) (by omega)
          (by simp only [cellIndices, List.getElem?_cons_succ, List.getElem?_cons_zero]; rw [hpc, hcast1, hcast2]; congr 1; ring)
        rw [← this]; congr 1; ring

/-- Witness for C12 at `N = 3`: a buffer of 24 entries. -/
theorem C12_index_buffer_witness :
    (2 ≤ 3 ∧ ((List.replicate 24 (0 : Int)).length : Int) = NUM_INDICES 3) ∧
    ∃ buf, FillIndexBuffer 3 (some (List.replicate 24 0)) = .ok (HRESULT.S_OK, some buf) ∧
      fillIndices 3 (List.replicate 24 0) = .ok (buf, 6 * (3 - 1) ^ 2) ∧
      buf.length = 6 * (3 - 1) ^ 2 ∧ buf.length = 3 * (2 * (3 - 1) ^ 2) ∧
      (∀ v ∈ buf, 0 ≤ v ∧ v < ((3 : Nat) : Int) * ((3 : Nat) : Int)) ∧
      (∀ p : Nat, p < 3 * 3 → ∃ t, t < 2 * (3 - 1) ^ 2 ∧
        (buf[3 * t]? = some (p : Int) ∨ buf[3 * t + 1]? = some (p : Int) ∨
          buf[3 * t + 2]? = some (p : Int))) :=
  ⟨⟨by decide, by decide⟩, C12_index_buffer (by decide) _ (by decide)⟩

/-- C13: for every cell `(row, column)` with `row, column < N-1`, the six indices
`FillIndexBuffer` writes at offset `6*(row*(N-1)+column)` are `f, f+1, f+N, f+N, f+1,
f+N+1` with `f = row*N+column`: triangle 1 is (top-left, top-right, bottom-left) and
triangle 2 is (bottom-left, top-right, bottom-right) of the cell. -/
theorem C13_cell_indices {N : Nat} (hN : 2 ≤ N) (pBuffer : List Int)
    (hlen : (pBuffer.length : Int) = NUM_INDICES N) :
    ∃ buf, FillIndexBuffer N (some pBuffer) = .ok (HRESULT.S_OK, some buf) ∧
      ∀ row column : Nat, row < N - 1 → column < N - 1 →
        buf[6 * (row * (N - 1) + column)]? = some ((row * N + column : Nat) : Int) ∧
        buf[6 * (row * (N - 1) + column) + 1]? = some ((row * N + (column + 1) : Nat) : Int) ∧
        buf[6 * (row * (N - 1) + column) + 2]? = some (((row + 1) * N + column : Nat) : Int) ∧
        buf[6 * (row * (N - 1) + column) + 3]? = some (((row + 1) * N + column : Nat) : Int) ∧
        buf[6 * (row * (N - 1) + column) + 4]? = some ((row * N + (column + 1) : Nat) : Int) ∧
        buf[6 * (row * (N - 1) + column) + 5]? =
          some (((row + 1) * N + (column + 1) : Nat) : Int) ∧
        ((row * N + (column + 1) : Nat) : Int) = ((row * N + column : Nat) : Int) + 1 ∧
        (((row + 1) * N + column : Nat) : Int) = ((row * N + column : Nat) : Int) + (N : Int) ∧
        (((row + 1) * N + (column + 1) : Nat) : Int) =
          ((row * N + column : Nat) : Int) + (N : Int) + 1 := by
  have hfill := fillIndices_eq (by omega : 1 ≤ N) pBuffer hlen
  refine ⟨indexList N, ?_, ?_⟩
  · unfold FillIndexBuffer
    simp only [hfill, ok_bind]
    rfl
  · intro row column hr hc
    have hk := index_lt hr hc
    have g : ∀ j, j < 6 → (indexList N)[6 * (row * (N - 1) + column) + j]? =
        (cellIndices N row column)[j]? := by
      intro j hj
      rw [indexList_getElem? N hk hj, index_div hc, index_mod hc]
    have g0 := g 0 (by omega)
    rw [Nat.add_zero] at g0
    refine ⟨by rw [g0]; simp [cellIndices], by rw [g 1 (by omega)]; simp [cellIndices]; ring,
      by rw [g 2 (by omega)]; simp [cellIndices]; ring,
      by rw [g 3 (by omega)]; simp [cellIndices]; ring,
      by rw [g 4 (by omega)]; simp [cellIndices]; ring,
      by rw [g 5 (by omega)]; simp [cellIndices]; ring,
      by push_cast; ring, by push_cast; ring, by push_cast; ring⟩

/-- Witness for C13 at `N = 3`: a buffer of 24 entries. -/
theorem C13_cell_indices_witness :
    (2 ≤ 3 ∧ ((List.replicate 24 (0 : Int)).length : Int) = NUM_INDICES 3) ∧
    ∃ buf, FillIndexBuffer 3 (some (List.replicate 24 0)) = .ok (HRESULT.S_OK, some buf) ∧
      buf[6 * (1 * (3 - 1) + 1)]? = some ((1 * 3 + 1 : Nat) : Int) ∧
      buf[6 * (1 * (3 - 1) + 1) + 1]? = some ((1 * 3 + (1 + 1) : Nat) : Int) ∧
      buf[6 * (1 * (3 - 1) + 1) + 2]? = some (((1 + 1) * 3 + 1 : Nat) : Int) ∧
      buf[6 * (1 * (3 - 1) + 1) + 3]? = some (((1 + 1) * 3 + 1 : Nat) : Int) ∧
      buf[6 * (1 * (3 - 1) + 1) + 4]? = some ((1 * 3 + (1 + 1) : Nat) : Int) ∧
      buf[6 * (1 * (3 - 1) + 1) + 5]? = some (((1 + 1) * 3 + (1 + 1) : Nat) : Int) := by
  obtain ⟨buf, h1, h2⟩ := C13_cell_indices (by decide : 2 ≤ 3) (List.replicate 24 0) (by decide)
  obtain ⟨a0, a1, a2, a3, a4, a5, _⟩ := h2 1 1 (by decide) (by decide)
  exact ⟨⟨by decide, by decide⟩, buf, h1, a0, a1, a2, a3, a4, a5⟩

/-- C15: the constraint list is generated in the fixed order horizontal structural,
vertical structural, shear, horizontal bend, vertical bend, each in row-major loop order.
With `p = row*N+column`: entry `row*(N-1)+column` is `(p, p+1)`; after these `N(N-1)`
entries, entry `row*N+column` is `(p, p+N)`; after `N(N-1)` more, entry
`row*(N-1)+(column-1)` is `(p, p+N-1)` for `column ≥ 1`; after `(N-1)^2` more, entry
`row*(N-2)+column` is `(p, p+2)`; after `N(N-2)` more, entry `row*N+column` is
`(p, p+2N)`; these are all `NUM_CONSTRAINTS` entries. -/
theorem C15_constraint_order (sqrt : F → F) {N : Nat} (hN : 2 ≤ N) (s : ParticleSystem F)
    (hwf : WellFormed N s) :
    ∃ s', Initialise sqrt N s = .ok s' ∧
      (∀ row column : Nat, row < N → column < N - 1 →
        s'.m_constraints[row * (N - 1) + column]? =
          some ⟨(row * N + column : Nat), (row * N + column : Nat) + 1, spacing N⟩) ∧
      (∀ row column : Nat, row < N - 1 → column < N →
        s'.m_constraints[N * (N - 1) + (row * N + column)]? =
          some ⟨(row * N + column : Nat), (row * N + column : Nat) + (N : Int), spacing N⟩) ∧
      (∀ row column : Nat, row < N - 1 → 1 ≤ column → column < N →
        s'.m_constraints[2 * (N * (N - 1)) + (row * (N - 1) + (column - 1))]? =
          some ⟨(row * N + column : Nat), (row * N + column : Nat) + (N : Int) - 1,
            sqrt (spacing N * spacing N + spacing N * spacing N)⟩) ∧
      (∀ row column : Nat, row < N → column < N - 2 →
        s'.m_constraints[2 * (N * (N - 1)) + (N - 1) * (N - 1) + (row * (N - 2) + column)]? =
          some ⟨(row * N + column : Nat), (row * N + column : Nat) + 2, spacing N * 2⟩) ∧
      (∀ row column : Nat, row < N - 2 → column < N →
        s'.m_constraints[2 * (N * (N - 1)) + (N - 1) * (N - 1) + N * (N - 2) +
            (row * N + column)]? =
          some ⟨(row * N + column : Nat), (row * N + column : Nat) + (N : Int) + (N : Int),
            spacing N * 2⟩) ∧
      s'.m_constraints.length =
        2 * (N * (N - 1)) + (N - 1) * (N - 1) + N * (N - 2) + N * (N - 2) := by
  refine ⟨_, Initialise_eq sqrt hN s hwf, ?_, ?_, ?_, ?_, ?_, ?_⟩
  · intro row column hr hc
    show (constraintList sqrt N (spacing N))[_]? = _
    rw [constraintList_first sqrt N _ hr hc]
    simp [structuralRowConstraint]
  · intro row column hr hc
    show (constraintList sqrt N (spacing N))[_]? = _
    rw [constraintList_second sqrt N _ hr hc]
    simp [structuralColumnConstraint]
  · intro row column hr h1 hc
    show (constraintList sqrt N (spacing N))[_]? = _
    have e : 2 * (N * (N - 1)) + (row * (N - 1) + (column - 1)) =
        N * (N - 1) + (N * (N - 1) + (row * (N - 1) + (column - 1))) := by omega
    rw [e, constraintList_third sqrt N _ hr h1 hc]
    simp [shearConstraint]
  · intro row column hr hc
    show (constraintList sqrt N (spacing N))[_]? = _
    have e : 2 * (N * (N - 1)) + (N - 1) * (N - 1) + (row * (N - 2) + column) =
        N * (N - 1) + (N * (N - 1) + ((N - 1) * (N - 1) + (row * (N - 2) + column))) := by omega
    rw [e, constraintList_fourth sqrt N _ hr hc]
    simp [bendRowConstraint]
  · intro row column hr hc
    show (constraintList sqrt N (spacing N))[_]? = _
    have e : 2 * (N * (N - 1)) + (N - 1) * (N - 1) + N * (N - 2) + (row * N + column) =
        N * (N - 1) + (N * (N - 1) + ((N - 1) * (N - 1) + (N * (N - 2) +
          (row * N + column)))) := by omega
    rw [e, constraintList_fifth sqrt N _ hr hc]
    simp [bendColumnConstraint]
  · show (constraintList sqrt N (spacing N)).length = _
    simp only [constraintList, List.length_append, length_nest, Nat.sub_zero]
    rw [Nat.mul_comm (N - 1) N, Nat.mul_comm (N - 2) N]
    have : N - 1 = N - 1 - 0 := rfl
    omega

/-- Witness for C15 at `N = 3` over the rationals. -/
theorem C15_constraint_order_witness :
    (2 ≤ 3 ∧ WellFormed 3 (blankState 3 : ParticleSystem ℚ)) ∧
    ∃ s', Initialise Rat.sqrt 3 (blankState 3 : ParticleSystem ℚ) = .ok s' ∧
      s'.m_constraints[1 * (3 - 1) + 1]? =
        some ⟨(1 * 3 + 1 : Nat), (1 * 3 + 1 : Nat) + 1, spacing 3⟩ ∧
      s'.m_constraints[3 * (3 - 1) + (1 * 3 + 1)]? =
        some ⟨(1 * 3 + 1 : Nat), (1 * 3 + 1 : Nat) + ((3 : Nat) : Int), spacing 3⟩ ∧
      s'.m_constraints[2 * (3 * (3 - 1)) + (1 * (3 - 1) + (1 - 1))]? =
        some ⟨(1 * 3 + 1 : Nat), (1 * 3 + 1 : Nat) + ((3 : Nat) : Int) - 1,
          Rat.sqrt (spacing 3 * spacing 3 + spacing 3 * spacing 3)⟩ ∧
      s'.m_constraints[2 * (3 * (3 - 1)) + (3 - 1) * (3 - 1) + (1 * (3 - 2) + 0)]? =
        some ⟨(1 * 3 + 0 : Nat), (1 * 3 + 0 : Nat) + 2, spacing 3 * 2⟩ ∧
      s'.m_constraints[2 * (3 * (3 - 1)) + (3 - 1) * (3 - 1) + 3 * (3 - 2) + (0 * 3 + 1)]? =
        some ⟨(0 * 3 + 1 : Nat), (0 * 3 + 1 : Nat) + ((3 : Nat) : Int) + ((3 : Nat) : Int),
          spacing 3 * 2⟩ ∧
      s'.m_constraints.length =
        2 * (3 * (3 - 1)) + (3 - 1) * (3 - 1) + 3 * (3 - 2) + 3 * (3 - 2) := by
  obtain ⟨s', h, h1, h2, h3, h4, h5, h6⟩ := C15_constraint_order Rat.sqrt (by decide : 2 ≤ 3)
    (blankState 3 : ParticleSystem ℚ) (blankState_wellFormed (by decide))
  exact ⟨⟨by decide, blankState_wellFormed (by decide)⟩, s', h, h1 1 1 (by decide) (by decide),
    h2 1 1 (by decide) (by decide), h3 1 1 (by decide) (by decide) (by decide),
    h4 1 0 (by decide) (by decide), h5 0 1 (by decide) (by decide), h6⟩

/-- C20: the shear constraints use the diagonal of the triangulation.  For every cell
`(row, column)` with number `k = row*(N-1)+column`, the two triangles `FillIndexBuffer`
emits share the indices `f+1` and `f+N` (`f = row*N+column`), and the `k`-th shear
constraint of `Initialise` joins exactly these two; hence the pairs of the shear
constraints are the pairs shared by the two triangles of a cell. -/
theorem C20_shear_diagonal (sqrt : F → F) {N : Nat} (hN : 2 ≤ N) (s : ParticleSystem F)
    (hwf : WellFormed N s) (pBuffer : List Int)
    (hlen : (pBuffer.length : Int) = NUM_INDICES N) :
    ∃ s' buf, Initialise sqrt N s = .ok s' ∧
      FillIndexBuffer N (some pBuffer) = .ok (HRESULT.S_OK, some buf) ∧
      (∀ row column : Nat, row < N - 1 → column < N - 1 →
        ∃ c, (shearSegment N s'.m_constraints)[row * (N - 1) + column]? = some c ∧
          c.particleA = ((row * N + column : Nat) : Int) + 1 ∧
          c.particleB = ((row * N + column : Nat) : Int) + (N : Int) ∧
          buf[6 * (row * (N - 1) + column) + 1]? = some c.particleA ∧
          buf[6 * (row * (N - 1) + column) + 4]? = some c.particleA ∧
          buf[6 * (row * (N - 1) + column) + 2]? = some c.particleB ∧
          buf[6 * (row * (N - 1) + column) + 3]? = some c.particleB) ∧
      (shearSegment N s'.m_constraints).length = (N - 1) * (N - 1) ∧
      (∀ a b : Int, (∃ c ∈ shearSegment N s'.m_constraints, c.particleA = a ∧ c.particleB = b) ↔
        ∃ k, k < (N - 1) * (N - 1) ∧ buf[6 * k + 1]? = some a ∧ buf[6 * k + 4]? = some a ∧
          buf[6 * k + 2]? = some b ∧ buf[6 * k + 3]? = some b) := by
  have hfill := fillIndices_eq (by omega : 1 ≤ N) pBuffer hlen
  have hseg := shearSegment_constraintList sqrt N (spacing N : F)
  have cellA : ∀ row column : Nat, row < N - 1 → column < N - 1 →
      (indexList N)[6 * (row * (N - 1) + column) + 1]? =
        some (((row * N + column : Nat) : Int) + 1) ∧
      (indexList N)[6 * (row * (N - 1) + column) + 4]? =
        some (((row * N + column : Nat) : Int) + 1) ∧
      (indexList N)[6 * (row * (N - 1) + column) + 2]? =
        some (((row * N + column : Nat) : Int) + (N : Int)) ∧
      (indexList N)[6 * (row * (N - 1) + column) + 3]? =
        some (((row * N + column : Nat) : Int) + (N : Int)) := by
    intro row column hr hc
    refine ⟨?_, ?_, ?_, ?_⟩
    · rw [indexList_cell N hr hc (by omega)]; simp [cellIndices]
    · rw [indexList_cell N hr hc (by omega)]; simp [cellIndices]
    · rw [indexList_cell N hr hc (by omega)]; simp [cellIndices]
    · rw [indexList_cell N hr hc (by omega)]; simp [cellIndices]
  have shear : ∀ row column : Nat, row < N - 1 → column < N - 1 →
      (shearSegment N (constraintList sqrt N (spacing N : F)))[row * (N - 1) + column]? =
        some (shearConstraint N (sqrt (spacing N * spacing N + spacing N * spacing N)) row
          (column + 1)) := by
    intro row column hr hc
    rw [hseg]
    have := nest_getElem?_cell (N - 1) 1 N
      (shearConstraint N (sqrt (spacing N * spacing N + spacing N * spacing N : F))) hr
      (by omega : 1 ≤ column + 1) (by omega : column + 1 < N)
    simpa using this
  have shA : ∀ (d : F) (row column : Nat),
      (shearConstraint N d row (column + 1)).particleA = ((row * N + column : Nat) : Int) + 1 := by
    intro d row column; simp [shearConstraint]; ring
  have shB : ∀ (d : F) (row column : Nat),
      (shearConstraint N d row (column + 1)).particleB =
        ((row * N + column : Nat) : Int) + (N : Int) := by
    intro d row column; simp [shearConstraint]; ring
  refine ⟨_, indexList N, Initialise_eq sqrt hN s hwf, ?_, ?_, ?_, ?_⟩
  · unfold FillIndexBuffer
    simp only [hfill, ok_bind]
    rfl
  · intro row column hr hc
    obtain ⟨a1, a4, a2, a3⟩ := cellA row column hr hc
    refine ⟨_, shear row column hr hc, shA _ _ _, shB _ _ _, ?_, ?_, ?_, ?_⟩
    · rw [a1, shA]
    · rw [a4, shA]
    · rw [a2, shB]
    · rw [a3, shB]
  · show (shearSegment N (constraintList sqrt N (spacing N))).length = _
    rw [hseg, length_nest]
    simp
  · intro a b
    show (∃ c ∈ shearSegment N (constraintList sqrt N (spacing N)), _) ↔ _
    rw [hseg]
    constructor
    · rintro ⟨c, hc, rfl, rfl⟩
      obtain ⟨row, column, _, hr, h1, h2, rfl⟩ := mem_nest.1 hc
      obtain ⟨col, rfl⟩ : ∃ col, column = col + 1 := ⟨column - 1, by omega⟩
      obtain ⟨a1, a4, a2, a3⟩ := cellA row col (by omega) (by omega)
      refine ⟨row * (N - 1) + col, index_lt (by omega) (by omega), ?_, ?_, ?_, ?_⟩
      · rw [a1, shA]
      · rw [a4, shA]
      · rw [a2, shB]
      · rw [a3, shB]
    · rintro ⟨k, hk, h1, _, h2, _⟩
      have hw : 0 < N - 1 := by omega
      have hr : k / (N - 1) < N - 1 := (Nat.div_lt_iff_lt_mul hw).2 hk
      have hc : k % (N - 1) < N - 1 := Nat.mod_lt _ hw
      have hke : k = (k / (N - 1)) * (N - 1) + k % (N - 1) := by
        have := Nat.div_add_mod k (N - 1)
        rw [Nat.mul_comm] at this
        exact this.symm
      obtain ⟨a1, _, a2, _⟩ := cellA _ _ hr hc
      rw [← hke, h1] at a1
      rw [← hke, h2] at a2
      refine ⟨shearConstraint N (sqrt (spacing N * spacing N + spacing N * spacing N))
        (k / (N - 1)) (k % (N - 1) + 1), mem_nest.2 ⟨_, _, Nat.zero_le _, by omega, by omega,
          by omega, rfl⟩, ?_, ?_⟩
      · rw [shA]; exact (Option.some.inj a1).symm
      · rw [shB]; exact (Option.some.inj a2).symm

/-- Witness for C20 at `N = 3` over the rationals. -/
theorem C20_shear_diagonal_witness :
    (2 ≤ 3 ∧ WellFormed 3 (blankState 3 : ParticleSystem ℚ) ∧
      ((List.replicate 24 (0 : Int)).length : Int) = NUM_INDICES 3) ∧
    ∃ s' buf, Initialise Rat.sqrt 3 (blankState 3 : ParticleSystem ℚ) = .ok s' ∧
      FillIndexBuffer 3 (some (List.replicate 24 0)) = .ok (HRESULT.S_OK, some buf) ∧
      (shearSegment 3 s'.m_constraints).length = (3 - 1) * (3 - 1) ∧
      (∀ a b : Int, (∃ c ∈ shearSegment 3 s'.m_constraints, c.particleA = a ∧ c.particleB = b) ↔
        ∃ k, k < (3 - 1) * (3 - 1) ∧ buf[6 * k + 1]? = some a ∧ buf[6 * k + 4]? = some a ∧
          buf[6 * k + 2]? = some b ∧ buf[6 * k + 3]? = some b) := by
  obtain ⟨s', buf, h1, h2, _, h4, h5⟩ := C20_shear_diagonal Rat.sqrt (by decide : 2 ≤ 3)
    (blankState 3 : ParticleSystem ℚ) (blankState_wellFormed (by decide))
    (List.replicate 24 0) (by decide)
  exact ⟨⟨by decide, blankState_wellFormed (by decide), by decide⟩, s', buf, h1, h2, h4, h5⟩

/-- C16: for every well-formed state and every grid vertex `(row, column)` (grid size
`N ≥ 2`, locked buffer of `NUM_PARTICLES` entries), the vertex `FillVertexBuffer` writes at
index `row*N+column` has the particle's current position and the texture coordinates
`u = column/(N-1)`, `v = row/(N-1)`; the texture coordinates are the same for every other
well-formed state, whatever its positions. -/
theorem C16_vertex_position_uv (normalize : Vec3 F → Vec3 F) {N : Nat} (hN : 2 ≤ N)
    (s : ParticleSystem F) (hwf : WellFormed N s) (pBuffer : List (CLOTH_VERTEX F))
    (hbuf : pBuffer.length = NUM_PARTICLES N) :
    ∃ buf, FillVertexBuffer normalize N s (some pBuffer) = .ok (HRESULT.S_OK, some buf) ∧
      (∀ row column : Nat, row < N → column < N →
        ∃ v p, buf[row * N + column]? = some v ∧ s.m_pos[row * N + column]? = some p ∧
          v.p = p ∧ v.tu = (column : F) / ((N : F) - 1) ∧ v.tv = (row : F) / ((N : F) - 1)) ∧
      (∀ t : ParticleSystem F, WellFormed N t →
        ∃ buf', FillVertexBuffer normalize N t (some pBuffer) = .ok (HRESULT.S_OK, some buf') ∧
          ∀ i : Nat, Option.map CLOTH_VERTEX.tu buf'[i]? = Option.map CLOTH_VERTEX.tu buf[i]? ∧
            Option.map CLOTH_VERTEX.tv buf'[i]? = Option.map CLOTH_VERTEX.tv buf[i]?) := by
  refine ⟨_, FillVertexBuffer_eq normalize hN s pBuffer hwf.1 hbuf, ?_, ?_⟩
  · intro row column hr hc
    have hk : row * N + column < s.m_pos.length := by rw [hwf.1]; exact index_lt hr hc
    refine ⟨_, s.m_pos[row * N + column], vertexBuffer_getElem? normalize _ _ hr hc,
      List.getElem?_eq_getElem hk, ?_, ?_, ?_⟩
    · show s.m_pos[row * N + column]?.getD 0 = _
      rw [List.getElem?_eq_getElem hk]; rfl
    · show spacing N * (column : F) = _
      rw [spacing_eq]; ring
    · show spacing N * (row : F) = _
      rw [spacing_eq]; ring
  · intro t ht
    refine ⟨_, FillVertexBuffer_eq normalize hN t pBuffer ht.1 hbuf, ?_⟩
    intro i
    simp only [List.getElem?_map, Option.map_map]
    exact ⟨rfl, rfl⟩

/-- Witness for C16 at `N = 2` over the rationals, with the identity in place of
`D3DXVec3Normalize`. -/
theorem C16_vertex_position_uv_witness :
    (2 ≤ 2 ∧ WellFormed 2 (blankState 2 : ParticleSystem ℚ) ∧
      (List.replicate 4 (⟨0, 0, 0, 0⟩ : CLOTH_VERTEX ℚ)).length = NUM_PARTICLES 2) ∧
    ∃ buf, FillVertexBuffer id 2 (blankState 2 : ParticleSystem ℚ)
        (some (List.replicate 4 ⟨0, 0, 0, 0⟩)) = .ok (HRESULT.S_OK, some buf) ∧
      ∃ v p, buf[1 * 2 + 1]? = some v ∧
        (blankState 2 : ParticleSystem ℚ).m_pos[1 * 2 + 1]? = some p ∧
        v.p = p ∧ v.tu = ((1 : Nat) : ℚ) / (((2 : Nat) : ℚ) - 1) ∧
        v.tv = ((1 : Nat) : ℚ) / (((2 : Nat) : ℚ) - 1) := by
  obtain ⟨buf, h1, h2, _⟩ := C16_vertex_position_uv (F := ℚ) id (by decide : 2 ≤ 2)
    (blankState 2) (blankState_wellFormed (by decide)) (List.replicate 4 ⟨0, 0, 0, 0⟩) rfl
  exact ⟨⟨by decide, blankState_wellFormed (by decide), rfl⟩, buf, h1,
    h2 1 1 (by decide) (by decide)⟩

/-- C17: for every grid vertex `p = row*N+column`, the normal `FillVertexBuffer` writes is
`D3DXVec3Normalize` of the sum of `GetFaceNormal` over exactly the faces that exist:
upper-left `(p, p-N, p-1)` iff `row > 0` and `column > 0`, upper-right `(p, p+1, p-N)` iff
`row > 0` and `column < N-1`, lower-left `(p, p-1, p+N)` iff `row < N-1` and `column > 0`,
lower-right `(p, p+N, p+1)` iff `row < N-1` and `column < N-1`; these are 4 faces at
interior vertices, 2 at edge vertices that are not corners and 1 at corners. -/
theorem C17_vertex_normal (normalize : Vec3 F → Vec3 F) {N : Nat} (hN : 2 ≤ N)
    (s : ParticleSystem F) (hwf : WellFormed N s) (pBuffer : List (CLOTH_VERTEX F))
    (hbuf : pBuffer.length = NUM_PARTICLES N) :
    ∃ buf, FillVertexBuffer normalize N s (some pBuffer) = .ok (HRESULT.S_OK, some buf) ∧
      ∀ row column : Nat, row < N → column < N →
        (∃ v, buf[row * N + column]? = some v ∧
          v.n = normalize (faceNormalSum normalize s.m_pos (vertexFaces N row column))) ∧
        (vertexFaces N row column =
          (if 0 < row ∧ 0 < column then
            [(row * N + column, row * N + column - N, row * N + column - 1)] else []) ++
          (if 0 < row ∧ column < N - 1 then
            [(row * N + column, row * N + column + 1, row * N + column - N)] else []) ++
          (if row < N - 1 ∧ 0 < column then
            [(row * N + column, row * N + column - 1, row * N + column + N)] else []) ++
          (if row < N - 1 ∧ column < N - 1 then
            [(row * N + column, row * N + column + N, row * N + column + 1)] else [])) ∧
        (0 < row ∧ row < N - 1 ∧ 0 < column ∧ column < N - 1 →
          (vertexFaces N row column).length = 4) ∧
        (((row = 0 ∨ row = N - 1) ∧ 0 < column ∧ column < N - 1) ∨
          ((column = 0 ∨ column = N - 1) ∧ 0 < row ∧ row < N - 1) →
          (vertexFaces N row column).length = 2) ∧
        ((row = 0 ∨ row = N - 1) ∧ (column = 0 ∨ column = N - 1) →
          (vertexFaces N row column).length = 1 ∧
          ((vertexFaces N row column).length = 1 ∨ (vertexFaces N row column).length = 2)) := by
  refine ⟨_, FillVertexBuffer_eq normalize hN s pBuffer hwf.1 hbuf, ?_⟩
  intro row column hr hc
  refine ⟨⟨_, vertexBuffer_getElem? normalize _ _ hr hc, rfl⟩, rfl, ?_, ?_, ?_⟩
  · rintro ⟨h1, h2, h3, h4⟩
    simp [vertexFaces, h1, h2, h3, h4]
  · intro h
    unfold vertexFaces
    rcases h with ⟨h1 | h1, h2, h3⟩ | ⟨h1 | h1, h2, h3⟩
    · subst h1
      rw [if_neg (by omega), if_neg (by omega), if_pos (by omega), if_pos (by omega)]; rfl
    · subst h1
      rw [if_pos (by omega), if_pos (by omega), if_neg (by omega), if_neg (by omega)]; rfl
    · subst h1
      rw [if_neg (by omega), if_pos (by omega), if_neg (by omega), if_pos (by omega)]; rfl
    · subst h1
      rw [if_pos (by omega), if_neg (by omega), if_pos (by omega), if_neg (by omega)]; rfl
  · intro h
    have : (vertexFaces N row column).length = 1 := by
      unfold vertexFaces
      rcases h with ⟨h1 | h1, h2 | h2⟩
      · subst h1; subst h2
        rw [if_neg (by omega), if_neg (by omega), if_neg (by omega), if_pos (by omega)]; rfl
      · subst h1; subst h2
        rw [if_neg (by omega), if_neg (by omega), if_pos (by omega), if_neg (by omega)]; rfl
      · subst h1; subst h2
        rw [if_neg (by omega), if_pos (by omega), if_neg (by omega), if_neg (by omega)]; rfl
      · subst h1; subst h2
        rw [if_pos (by omega), if_neg (by omega), if_neg (by omega), if_neg (by omega)]; rfl
    exact ⟨this, Or.inl this⟩

/-- Witness for C17 at `N = 3` over the rationals, with the identity in place of
`D3DXVec3Normalize`: the interior vertex `(1, 1)` has four faces. -/
theorem C17_vertex_normal_witness :
    (2 ≤ 3 ∧ WellFormed 3 (blankState 3 : ParticleSystem ℚ) ∧
      (List.replicate 9 (⟨0, 0, 0, 0⟩ : CLOTH_VERTEX ℚ)).length = NUM_PARTICLES 3) ∧
    ∃ buf, FillVertexBuffer id 3 (blankState 3 : ParticleSystem ℚ)
        (some (List.replicate 9 ⟨0, 0, 0, 0⟩)) = .ok (HRESULT.S_OK, some buf) ∧
      (∃ v, buf[1 * 3 + 1]? = some v ∧
        v.n = id (faceNormalSum id (blankState 3 : ParticleSystem ℚ).m_pos
          (vertexFaces 3 1 1))) ∧
      (vertexFaces 3 1 1).length = 4 := by
  obtain ⟨buf, h1, h2⟩ := C17_vertex_normal (F := ℚ) id (by decide : 2 ≤ 3)
    (blankState 3) (blankState_wellFormed (by decide)) (List.replicate 9 ⟨0, 0, 0, 0⟩) rfl
  obtain ⟨g1, _, g3, _⟩ := h2 1 1 (by decide) (by decide)
  exact ⟨⟨by decide, blankState_wellFormed (by decide), rfl⟩, buf, h1, g1,
    g3 ⟨by decide, by decide, by decide, by decide⟩⟩

/-- C18: one distance constraint whose two particles, at `a` and `b`, are at distance
`L > 0` (exact square root, rest length `≥ 0`).  The body of the distance loop completes;
it moves the first particle by `(b - a) * k` and the second by the opposite vector, so
the sum of the two positions is unchanged and both move along the line joining them; no
other slot changes; and afterwards the distance of the two particles is the rest length. -/
theorem C18_distance_correction (sqrt : F → F) (hs : ExactSqrt sqrt) (c : ClothConstraint F)
    (pos : List (Vec3 F)) (a b : Vec3 F) (ha : readAt pos c.particleA = .ok a)
    (hb : readAt pos c.particleB = .ok b) (hL : 0 < D3DXVec3Length sqrt (b - a))
    (hrest : 0 ≤ c.restLength) :
    ∃ pos' a' b' k, relaxConstraint sqrt c pos = .ok pos' ∧
      readAt pos' c.particleA = .ok a' ∧ readAt pos' c.particleB = .ok b' ∧
      a' = a + (b - a).scale k ∧ b' = b - (b - a).scale k ∧
      a' + b' = a + b ∧
      D3DXVec3Length sqrt (b' - a') = c.restLength ∧
      pos'.length = pos.length ∧
      (∀ j : Nat, (j : Int) ≠ c.particleA → (j : Int) ≠ c.particleB → pos'[j]? = pos[j]?) := by
  obtain ⟨hA0, ha'⟩ := readAt_ok_iff.1 ha
  obtain ⟨hB0, hb'⟩ := readAt_ok_iff.1 hb
  have hA : c.particleA = ((c.particleA.toNat : Nat) : Int) := (Int.toNat_of_nonneg hA0).symm
  have hB : c.particleB = ((c.particleB.toNat : Nat) : Int) := (Int.toNat_of_nonneg hB0).symm
  have hi := getElem?_lt_length ha'
  have hj := getElem?_lt_length hb'
  have hne : a ≠ b := fun h => hL.ne' ((length_eq_zero sqrt hs a b).2 h)
  have hij : c.particleA.toNat ≠ c.particleB.toNat := by
    intro h
    rw [h, hb'] at ha'
    exact hne (Option.some.inj ha').symm
  obtain ⟨k, hk⟩ : ∃ k : F, k = (D3DXVec3Length sqrt (b - a) - c.restLength) /
      D3DXVec3Length sqrt (b - a) * (1 / 2) := ⟨_, rfl⟩
  have h1 : (pos.set c.particleA.toNat (a + (b - a).scale k))[c.particleB.toNat]? = some b := by
    rw [List.getElem?_set, if_neg hij]; exact hb'
  refine ⟨(pos.set c.particleA.toNat (a + (b - a).scale k)).set c.particleB.toNat
      (b - (b - a).scale k), a + (b - a).scale k, b - (b - a).scale k, k, ?_, ?_, ?_, rfl, rfl,
    ?_, ?_, ?_, ?_⟩
  · rw [relaxConstraint_eq sqrt c pos hA hB ha' hb', if_neg hL.ne', ← hk]
    unfold relaxedPositions
    rw [h1]
    rfl
  · refine readAt_ok_iff.2 ⟨hA0, ?_⟩
    rw [List.getElem?_set, if_neg (Ne.symm hij), List.getElem?_set, if_pos rfl, if_pos hi]
  · refine readAt_ok_iff.2 ⟨hB0, ?_⟩
    rw [List.getElem?_set, if_pos rfl, if_pos (by simpa using hj)]
  · ext <;> simp
  · rw [hk]
    exact relax_length sqrt hs a b hrest hL.ne'
  · simp
  · intro j hjA hjB
    have n1 : c.particleA.toNat ≠ j := fun h => hjA (by rw [hA, h])
    have n2 : c.particleB.toNat ≠ j := fun h => hjB (by rw [hB, h])
    rw [List.getElem?_set, if_neg n2, List.getElem?_set, if_neg n1]

/-- Witness for C18 over the reals: the constraint `(0, 1)` of rest length 1 on two
particles at distance 2. -/
theorem C18_distance_correction_witness :
    (ExactSqrt Real.sqrt ∧
      readAt [(⟨0, 0, 0⟩ : Vec3 ℝ), ⟨2, 0, 0⟩]
        (⟨0, 1, 1⟩ : ClothConstraint ℝ).particleA = .ok ⟨0, 0, 0⟩ ∧
      readAt [(⟨0, 0, 0⟩ : Vec3 ℝ), ⟨2, 0, 0⟩]
        (⟨0, 1, 1⟩ : ClothConstraint ℝ).particleB = .ok ⟨2, 0, 0⟩ ∧
      0 < D3DXVec3Length Real.sqrt ((⟨2, 0, 0⟩ : Vec3 ℝ) - ⟨0, 0, 0⟩) ∧
      0 ≤ (⟨0, 1, 1⟩ : ClothConstraint ℝ).restLength) ∧
    ∃ pos' a' b', relaxConstraint Real.sqrt ⟨0, 1, 1⟩ [(⟨0, 0, 0⟩ : Vec3 ℝ), ⟨2, 0, 0⟩] =
        .ok pos' ∧
      readAt pos' 0 = .ok a' ∧ readAt pos' 1 = .ok b' ∧
      a' + b' = (⟨0, 0, 0⟩ : Vec3 ℝ) + ⟨2, 0, 0⟩ ∧
      D3DXVec3Length Real.sqrt (b' - a') = 1 := by
  have hlen : D3DXVec3Length Real.sqrt ((⟨2, 0, 0⟩ : Vec3 ℝ) - ⟨0, 0, 0⟩) = 2 := by
    have : ((⟨2, 0, 0⟩ : Vec3 ℝ) - ⟨0, 0, 0⟩).lengthSq = 2 * 2 := by
      simp [Vec3.lengthSq]
    unfold D3DXVec3Length
    rw [this]
    exact exactSqrt_real.sqrt_mul_self (by norm_num)
  have hL : 0 < D3DXVec3Length Real.sqrt ((⟨2, 0, 0⟩ : Vec3 ℝ) - ⟨0, 0, 0⟩) := by
    rw [hlen]; norm_num
  obtain ⟨pos', a', b', k, h1, h2, h3, _, _, h6, h7, _⟩ :=
    C18_distance_correction Real.sqrt exactSqrt_real ⟨0, 1, 1⟩ [⟨0, 0, 0⟩, ⟨2, 0, 0⟩]
      ⟨0, 0, 0⟩ ⟨2, 0, 0⟩ (by simp [readAt]) (by simp [readAt]) hL (by norm_num)
  exact ⟨⟨exactSqrt_real, by simp [readAt], by simp [readAt], hL, by norm_num⟩,
    pos', a', b', h1, h2, h3, h6, h7⟩

/-- C19, amended: in the sphere pass in exact arithmetic (exact square root), a particle at
`p` whose distance `d` from
`SPHERE_POSITION` satisfies `0 < d < SPHERE_RADIUS + EDGE_CORRECTION` is moved to the point
`SPHERE_POSITION + (p - SPHERE_POSITION) * (m / d)`, `m = SPHERE_RADIUS + EDGE_CORRECTION`,
on the ray from the centre through `p`, whose distance from the centre is exactly `m`; a
particle with `d ≥ m` is left unchanged.  The same holds for every particle in a whole
sphere pass that completes. -/
theorem C19_sphere_push (sqrt : F → F) (hs : ExactSqrt sqrt) (N : Nat) (pos : List (Vec3 F))
    (i : Nat) (p : Vec3 F) (hp : pos[i]? = some p) :
    (0 < D3DXVec3Length sqrt (SPHERE_POSITION N - p) →
      D3DXVec3Length sqrt (SPHERE_POSITION N - p) < SPHERE_RADIUS + EDGE_CORRECTION N →
      ∃ q, sphereParticle sqrt N i pos = .ok (pos.set i q) ∧
        q = SPHERE_POSITION N + (p - SPHERE_POSITION N).scale
          ((SPHERE_RADIUS + EDGE_CORRECTION N) / D3DXVec3Length sqrt (SPHERE_POSITION N - p)) ∧
        0 < (SPHERE_RADIUS + EDGE_CORRECTION N) / D3DXVec3Length sqrt (SPHERE_POSITION N - p) ∧
        D3DXVec3Length sqrt (SPHERE_POSITION N - q) = SPHERE_RADIUS + EDGE_CORRECTION N) ∧
    (SPHERE_RADIUS + EDGE_CORRECTION N ≤ D3DXVec3Length sqrt (SPHERE_POSITION N - p) →
      sphereParticle sqrt N i pos = .ok pos) ∧
    (∀ s s' : ParticleSystem F, s.m_pos = pos → pos.length = NUM_PARTICLES N →
      satisfySphere sqrt N s = .ok s' →
      (0 < D3DXVec3Length sqrt (SPHERE_POSITION N - p) →
        D3DXVec3Length sqrt (SPHERE_POSITION N - p) < SPHERE_RADIUS + EDGE_CORRECTION N →
        s'.m_pos[i]? = some (SPHERE_POSITION N + (p - SPHERE_POSITION N).scale
          ((SPHERE_RADIUS + EDGE_CORRECTION N) /
            D3DXVec3Length sqrt (SPHERE_POSITION N - p)))) ∧
      (SPHERE_RADIUS + EDGE_CORRECTION N ≤ D3DXVec3Length sqrt (SPHERE_POSITION N - p) →
        s'.m_pos[i]? = some p)) := by
  have hm : (SPHERE_RADIUS + EDGE_CORRECTION N : F) = sphereMinLength N := rfl
  refine ⟨?_, ?_, ?_⟩
  · intro h0 hlt
    refine ⟨_, ?_, rfl, div_pos (by rw [hm]; exact sphereMinLength_pos N) h0, ?_⟩
    · rw [sphereParticle_eq sqrt N pos hp, if_pos (by rw [← hm]; exact hlt), if_neg h0.ne',
        sphere_push_point _ _ h0.ne']
      rfl
    · rw [hm, ← sphere_push_point _ _ h0.ne']
      exact sphere_push_length sqrt hs _ _ (sphereMinLength_pos N).le h0.ne'
  · intro hge
    rw [sphereParticle_eq sqrt N pos hp, if_neg (by rw [← hm]; exact not_lt.2 hge)]
  · intro s s' hs1 hlen hrun
    obtain ⟨_, hpos'⟩ := satisfySphere_spec_of_ok sqrt N (by rw [hs1]; exact hlen) hrun
    have hi : s'.m_pos[i]? = some (sphereProject sqrt N p) := by
      rw [hpos', List.getElem?_map, hs1, hp]; rfl
    refine ⟨fun h0 hlt => ?_, fun hge => ?_⟩
    · rw [hi]
      unfold sphereProject
      rw [if_pos (by rw [← hm]; exact hlt), sphere_push_point _ _ h0.ne']
      rfl
    · rw [hi]
      unfold sphereProject
      rw [if_neg (by rw [← hm]; exact not_lt.2 hge)]


/-- Witness for C19 over the reals, grid size 2: the particle at `(0, -1/4, 0)` is at
distance `1/5` from the centre `(0, -9/20, 0)` of the sphere, inside the collision radius
`9/20`, and the body of the sphere loop moves it to a point at distance `9/20`. -/
theorem C19_sphere_push_witness :
    (ExactSqrt Real.sqrt ∧ ([⟨0, -(1 / 4), 0⟩] : List (Vec3 ℝ))[0]? = some ⟨0, -(1 / 4), 0⟩) ∧
    0 < D3DXVec3Length Real.sqrt (SPHERE_POSITION 2 - (⟨0, -(1 / 4), 0⟩ : Vec3 ℝ)) ∧
    D3DXVec3Length Real.sqrt (SPHERE_POSITION 2 - (⟨0, -(1 / 4), 0⟩ : Vec3 ℝ)) <
      SPHERE_RADIUS + EDGE_CORRECTION 2 ∧
    ∃ q, sphereParticle Real.sqrt 2 0 [(⟨0, -(1 / 4), 0⟩ : Vec3 ℝ)] =
        .ok ([(⟨0, -(1 / 4), 0⟩ : Vec3 ℝ)].set 0 q) ∧
      D3DXVec3Length Real.sqrt (SPHERE_POSITION 2 - q) = SPHERE_RADIUS + EDGE_CORRECTION 2 := by
  have hlen : D3DXVec3Length Real.sqrt (SPHERE_POSITION 2 - (⟨0, -(1 / 4), 0⟩ : Vec3 ℝ)) =
      1 / 5 := by
    have : (SPHERE_POSITION 2 - (⟨0, -(1 / 4), 0⟩ : Vec3 ℝ)).lengthSq = 1 / 5 * (1 / 5) := by
      simp [Vec3.lengthSq, SPHERE_POSITION, SPHERE_RADIUS, EDGE_CORRECTION]
      norm_num
    unfold D3DXVec3Length
    rw [this]
    exact exactSqrt_real.sqrt_mul_self (by norm_num)
  have h0 : 0 < D3DXVec3Length Real.sqrt (SPHERE_POSITION 2 - (⟨0, -(1 / 4), 0⟩ : Vec3 ℝ)) := by
    rw [hlen]; norm_num
  have hlt : D3DXVec3Length Real.sqrt (SPHERE_POSITION 2 - (⟨0, -(1 / 4), 0⟩ : Vec3 ℝ)) <
      SPHERE_RADIUS + EDGE_CORRECTION 2 := by
    rw [hlen]
    simp only [SPHERE_RADIUS, EDGE_CORRECTION]
    norm_num
  obtain ⟨q, h1, _, _, h4⟩ :=
    (C19_sphere_push Real.sqrt exactSqrt_real 2 [⟨0, -(1 / 4), 0⟩] 0 ⟨0, -(1 / 4), 0⟩ rfl).1
      h0 hlt
  exact ⟨⟨exactSqrt_real, rfl⟩, h0, hlt, q, h1, h4⟩

/-- C19, counterexample in binary32 arithmetic, grid size 64 as in the program.  The centre
of the sphere is `(0, -39/128, 0)` and the collision radius `minLength` is `39/128`.  The
particle at `(-0.03f, -0.11f, 0.2f)` is at a computed distance `d` with `0 < d < minLength`;
the body of the sphere loop moves it to a point whose distance from the centre is less
than `minLength`, both as `D3DXVec3Length` computes it (`10223615 * 2^-25`) and exactly
(`distSqUnits`): the particle is not placed at distance exactly `minLength`. -/
theorem C19_sphere_float_counterexample :
    SPHERE_POSITION32 64 = .ok ⟨⟨0⟩, Binary32.scaled (-39) (-7), ⟨0⟩⟩ ∧
    EDGE_CORRECTION32 64 = .ok (Binary32.scaled 5033165 (-30)) ∧
    Binary32.add SPHERE_RADIUS32 (Binary32.scaled 5033165 (-30)) = Binary32.scaled 39 (-7) ∧
    Binary32.lt ⟨0⟩ (Binary32.length (Binary32.vsub ⟨⟨0⟩, Binary32.scaled (-39) (-7), ⟨0⟩⟩
      ⟨Binary32.ofRat (-3) 100, Binary32.ofRat (-11) 100, Binary32.ofRat 2 10⟩)) = true ∧
    Binary32.lt (Binary32.length (Binary32.vsub ⟨⟨0⟩, Binary32.scaled (-39) (-7), ⟨0⟩⟩
      ⟨Binary32.ofRat (-3) 100, Binary32.ofRat (-11) 100, Binary32.ofRat 2 10⟩))
      (Binary32.scaled 39 (-7)) = true ∧
    sphereParticle32 64 0
        [⟨Binary32.ofRat (-3) 100, Binary32.ofRat (-11) 100, Binary32.ofRat 2 10⟩] =
      .ok [⟨Binary32.scaled (-4370325) (-27), Binary32.scaled (-6266437) (-26),
        Binary32.scaled 14567751 (-26)⟩] ∧
    Binary32.length (Binary32.vsub ⟨⟨0⟩, Binary32.scaled (-39) (-7), ⟨0⟩⟩
      ⟨Binary32.scaled (-4370325) (-27), Binary32.scaled (-6266437) (-26),
        Binary32.scaled 14567751 (-26)⟩) = Binary32.scaled 10223615 (-25) ∧
    Binary32.lt (Binary32.scaled 10223615 (-25)) (Binary32.scaled 39 (-7)) = true ∧
    Binary32.distSqUnits ⟨⟨0⟩, Binary32.scaled (-39) (-7), ⟨0⟩⟩
      ⟨Binary32.scaled (-4370325) (-27), Binary32.scaled (-6266437) (-26),
        Binary32.scaled 14567751 (-26)⟩ <
      (Binary32.scaled 39 (-7)).units * (Binary32.scaled 39 (-7)).units := by
  refine ⟨by decide!, by decide!, by decide!, by decide!, by decide!, by decide!, by decide!,
    by decide!, by decide!⟩

/-- C11, counterexample: the time step `-1` is not rejected.  `SetTimeStep` stores it in
the well-formed object `blankState 2`, and the `Initialise` that follows raises no error:
it returns a well-formed simulator state whose time step is `-1`. -/
theorem C11_invalid_config_counterexample :
    ((-1 : ℝ) ≤ 0 ∧ WellFormed 2 (blankState 2 : ParticleSystem ℝ)) ∧
    (∃ s', Initialise Real.sqrt 2 (SetTimeStep (blankState 2 : ParticleSystem ℝ) (-1)) = .ok s' ∧
      s'.m_timeStep = -1 ∧ WellFormed 2 s') ∧
    ¬ ∃ e, Initialise Real.sqrt 2 (SetTimeStep (blankState 2 : ParticleSystem ℝ) (-1)) =
      .error e := by
  have hwf : WellFormed 2 (SetTimeStep (blankState 2 : ParticleSystem ℝ) (-1)) :=
    blankState_wellFormed (by decide)
  have h := Initialise_eq Real.sqrt (by decide : 2 ≤ 2) _ hwf
  refine ⟨⟨by norm_num, blankState_wellFormed (by decide)⟩,
    ⟨_, h, rfl, restState_wellFormed Real.sqrt (by decide) _ _ _⟩, ?_⟩
  rintro ⟨e, he⟩
  rw [h] at he
  cases he

/-- C11, amended: no time step is rejected.  `SetTimeStep` stores any value `dt`, also
`dt ≤ 0`, and for a grid dimension of at least 2 the `Initialise` that follows completes
without an error and produces the rest state whose time step is `dt`. -/
theorem C11_time_step_unchecked (sqrt : F → F) {N : Nat} (hN : 2 ≤ N) (s : ParticleSystem F)
    (hwf : WellFormed N s) (dt : F) :
    (SetTimeStep s dt).m_timeStep = dt ∧
    Initialise sqrt N (SetTimeStep s dt) =
      .ok (restState sqrt N (spacing N) s.m_gravity dt) ∧
    (restState sqrt N (spacing N) s.m_gravity dt).m_timeStep = dt ∧
    ∀ e, Initialise sqrt N (SetTimeStep s dt) ≠ .error e := by
  have h := Initialise_eq sqrt hN (SetTimeStep s dt) hwf
  refine ⟨rfl, h, rfl, ?_⟩
  intro e he
  rw [h] at he
  cases he

/-- Witness for C11 (amended): grid size 2 and the time step 0. -/
theorem C11_time_step_unchecked_witness :
    (2 ≤ 2 ∧ WellFormed 2 (blankState 2 : ParticleSystem ℚ) ∧ (0 : ℚ) ≤ 0) ∧
    Initialise (fun x => x) 2 (SetTimeStep (blankState 2 : ParticleSystem ℚ) 0) =
      .ok (restState (fun x => x) 2 (spacing 2) (blankState 2 : ParticleSystem ℚ).m_gravity 0) :=
  ⟨⟨le_refl 2, blankState_wellFormed (by decide), le_refl 0⟩,
    (C11_time_step_unchecked (fun x => x) (le_refl 2) (blankState 2)
      (blankState_wellFormed (by decide)) 0).2.1⟩


/-- C14, amended: a single step from rest in exact arithmetic (exact square root, grid size
at least 2).  `Initialise`
completes in a state `s0` with the gravity `g` and time step `dt` of the object.  In the
step that follows, integration moves every particle, none excepted, from its rest position
`p` to `p + g * (dt * dt)`, and the distance pass leaves that translated grid as it is.
The step completes unless a moved particle sits exactly on the centre of the sphere, and
in the state it returns every particle whose moved position is not inside the collision
radius is at `p + g * (dt * dt)`.  The displacement `g * (dt * dt)` is a multiple of `g`
and is non-zero when `g` and `dt` are. -/
theorem C14_single_step (sqrt : F → F) (hs : ExactSqrt sqrt) {N : Nat} (hN : 2 ≤ N)
    (s : ParticleSystem F) (hwf : WellFormed N s) :
    ∃ s0, Initialise sqrt N s = .ok s0 ∧
      s0.m_gravity = s.m_gravity ∧ s0.m_timeStep = s.m_timeStep ∧
      (∃ sI, (AccumulateForces N s0 >>= Verlet N) = .ok sI ∧
        (∀ i, i < NUM_PARTICLES N → ∃ p, s0.m_pos[i]? = some p ∧
          sI.m_pos[i]? = some (p + s.m_gravity.scale (s.m_timeStep * s.m_timeStep))) ∧
        satisfyDistances sqrt N sI = .ok sI) ∧
      (∀ s1, TimeStep sqrt N s0 = .ok s1 → ∀ i, i < NUM_PARTICLES N →
        ∃ p, s0.m_pos[i]? = some p ∧
          (¬ D3DXVec3Length sqrt (SPHERE_POSITION N -
              (p + s.m_gravity.scale (s.m_timeStep * s.m_timeStep))) <
            SPHERE_RADIUS + EDGE_CORRECTION N →
          s1.m_pos[i]? = some (p + s.m_gravity.scale (s.m_timeStep * s.m_timeStep)))) ∧
      ((∀ i, i < NUM_PARTICLES N → ∀ p, s0.m_pos[i]? = some p →
          p + s.m_gravity.scale (s.m_timeStep * s.m_timeStep) ≠ SPHERE_POSITION N) →
        ∃ s1, TimeStep sqrt N s0 = .ok s1) ∧
      (s.m_gravity ≠ 0 → s.m_timeStep ≠ 0 →
        s.m_gravity.scale (s.m_timeStep * s.m_timeStep) ≠ 0) := by
  obtain ⟨g, hg⟩ : ∃ g, g = s.m_gravity := ⟨_, rfl⟩
  obtain ⟨dt, hdt⟩ : ∃ dt, dt = s.m_timeStep := ⟨_, rfl⟩
  rw [← hg, ← hdt]
  have hI := integrate_rest sqrt hN g dt
  have hD := satisfyDistances_translated sqrt hs hN (g.scale (dt * dt))
    { restState sqrt N (spacing N) g dt with
      m_pos := translatedRest N (spacing N) (g.scale (dt * dt))
      m_acc := List.replicate (NUM_PARTICLES N) g } rfl
    (restState_wellFormed sqrt hN (spacing N) g dt).2.2.2 rfl
  have hT : TimeStep sqrt N (restState sqrt N (spacing N) g dt) =
      satisfySphere sqrt N { restState sqrt N (spacing N) g dt with
        m_pos := translatedRest N (spacing N) (g.scale (dt * dt))
        m_acc := List.replicate (NUM_PARTICLES N) g } := by
    rw [TimeStep_eq, hI, ok_bind, SatisfyConstraints_eq, hD, ok_bind]
  have hlen : ({ restState sqrt N (spacing N) g dt with
      m_pos := translatedRest N (spacing N) (g.scale (dt * dt))
      m_acc := List.replicate (NUM_PARTICLES N) g } : ParticleSystem F).m_pos.length =
      NUM_PARTICLES N := translatedRest_length N _ _
  refine ⟨restState sqrt N (spacing N) g dt, ?_, rfl, rfl, ⟨_, hI, ?_, hD⟩, ?_, ?_, ?_⟩
  · rw [Initialise_eq sqrt hN s hwf, hg, hdt]
  · intro i hi
    exact ⟨_, restPositions_getElem? _ hi, translatedRest_getElem? _ _ hi⟩
  · intro s1 h1 i hi
    refine ⟨_, restPositions_getElem? _ hi, fun hout => ?_⟩
    rw [hT] at h1
    obtain ⟨_, hpos⟩ := satisfySphere_spec_of_ok sqrt N hlen h1
    rw [hpos, List.getElem?_map]
    have : ({ restState sqrt N (spacing N) g dt with
        m_pos := translatedRest N (spacing N) (g.scale (dt * dt))
        m_acc := List.replicate (NUM_PARTICLES N) g } : ParticleSystem F).m_pos[i]? =
        some (gridPosition N (spacing N) i + g.scale (dt * dt)) :=
      translatedRest_getElem? _ _ hi
    rw [this, Option.map_some']
    unfold sphereProject
    rw [if_neg (show ¬ _ < sphereMinLength N from hout)]
  · intro hne
    rw [hT]
    apply satisfySphere_ok sqrt N _ hlen
    intro p hp _ h0
    obtain ⟨i, hpi⟩ := List.mem_iff_getElem?.1 hp
    have hi := getElem?_lt_length hpi
    have hi' : i < N * N := by
      have := translatedRest_length N (spacing N) (g.scale (dt * dt))
      have h2 : i < (translatedRest N (spacing N) (g.scale (dt * dt))).length := hi
      omega
    have hpe : p = gridPosition N (spacing N) i + g.scale (dt * dt) := by
      have h3 : (translatedRest N (spacing N) (g.scale (dt * dt)))[i]? = some p := hpi
      rw [translatedRest_getElem? _ _ hi'] at h3
      exact (Option.some.inj h3).symm
    apply hne i hi' _ (restPositions_getElem? _ hi')
    rw [← hpe]
    exact (length_eq_zero sqrt hs p (SPHERE_POSITION N)).1 h0
  · intro h1 h2
    exact scale_ne_zero h1 (mul_ne_zero h2 h2)

/-- Witness for C14 over the reals: grid size 4, gravity `(0, -9.8, 0)`, time step `0.01`.
The step completes and each of the 16 particles ends at its rest position moved by
`(0, -0.00098, 0)`. -/
theorem C14_single_step_witness :
    (ExactSqrt Real.sqrt ∧ 2 ≤ 4 ∧ WellFormed 4 (scenarioState : ParticleSystem ℝ)) ∧
    ∃ s0 s1, Initialise Real.sqrt 4 (scenarioState : ParticleSystem ℝ) = .ok s0 ∧
      TimeStep Real.sqrt 4 s0 = .ok s1 ∧
      ∀ i, i < 16 → ∃ p, s0.m_pos[i]? = some p ∧
        s1.m_pos[i]? = some (p + ⟨0, -(98 / 100000), 0⟩) := by
  have hwf : WellFormed 4 (scenarioState : ParticleSystem ℝ) :=
    blankState_wellFormed (by decide)
  obtain ⟨s0, h0, _, _, _, hstep, hrun, _⟩ :=
    C14_single_step Real.sqrt exactSqrt_real (by decide : 2 ≤ 4) scenarioState hwf
  have hd : (scenarioState : ParticleSystem ℝ).m_gravity.scale
      ((scenarioState : ParticleSystem ℝ).m_timeStep *
        (scenarioState : ParticleSystem ℝ).m_timeStep) = ⟨0, -(98 / 100000), 0⟩ := by
    ext <;> simp [scenarioState]
    norm_num
  rw [hd] at hstep hrun
  have hs0 : s0 = restState Real.sqrt 4 (spacing 4) (scenarioState : ParticleSystem ℝ).m_gravity
      (scenarioState : ParticleSystem ℝ).m_timeStep := by
    rw [Initialise_eq Real.sqrt (by decide : 2 ≤ 4) scenarioState hwf] at h0
    exact (Except.ok.inj h0).symm
  have hsp : (spacing 4 : ℝ) = 1 / 3 := by
    rw [spacing_eq]; norm_num
  have hout : ∀ i, i < 16 → ¬ D3DXVec3Length Real.sqrt (SPHERE_POSITION 4 -
      (gridPosition 4 (spacing 4 : ℝ) i + ⟨0, -(98 / 100000), 0⟩)) <
      SPHERE_RADIUS + EDGE_CORRECTION 4 := by
    intro i hi
    have hm : (SPHERE_RADIUS + EDGE_CORRECTION 4 : ℝ) = sphereMinLength 4 := rfl
    rw [hm]
    unfold D3DXVec3Length
    rw [exactSqrt_real.lt_iff (Vec3.lengthSq_nonneg _) (sphereMinLength_pos 4).le, not_lt]
    simp only [Vec3.lengthSq, Vec3.sub_x, Vec3.sub_y, Vec3.sub_z, Vec3.add_x, Vec3.add_y,
      Vec3.add_z, SPHERE_POSITION, gridPosition, sphereMinLength, SPHERE_RADIUS,
      EDGE_CORRECTION, hsp]
    interval_cases i <;> norm_num
  have hget : ∀ i, i < 16 → ∀ p, s0.m_pos[i]? = some p → p = gridPosition 4 (spacing 4) i := by
    intro i hi p hp
    rw [hs0] at hp
    have h3 : (restPositions 4 (spacing 4 : ℝ))[i]? = some p := hp
    rw [restPositions_getElem? _ (by omega : i < 4 * 4)] at h3
    exact (Option.some.inj h3).symm
  obtain ⟨s1, h1⟩ := hrun (by
    intro i hi p hp hc
    have hi' : i < 16 := hi
    apply hout i hi'
    rw [← hget i hi' p hp, hc]
    have : D3DXVec3Length Real.sqrt (SPHERE_POSITION 4 - SPHERE_POSITION 4 : Vec3 ℝ) = 0 :=
      (length_eq_zero Real.sqrt exactSqrt_real _ _).2 rfl
    rw [this]
    exact sphereMinLength_pos 4)
  refine ⟨⟨exactSqrt_real, by decide, hwf⟩, s0, s1, h0, h1, ?_⟩
  intro i hi
  obtain ⟨p, hp, himp⟩ := hstep s1 h1 i hi
  refine ⟨p, hp, himp ?_⟩
  rw [hget i hi p hp]
  exact hout i hi

/-- C14, counterexample in binary32 arithmetic: the scenario of the claim, grid size 4,
gravity `( 0.0f, -9.8f, 0.0f )`, time step `0.01f`.  `Initialise` and one `TimeStep`
complete.  No particle is inside the collision radius `3/8` of the sphere afterwards, yet
the particles 1, 4, 5, 6, 7, 9, 10 and 13 have moved in `x` or `z`, where gravity has no
component: particle 1 from `x = -5592405 * 2^-25` to `x = -2796203 * 2^-24`.  The grid of
`Initialise` is not evenly spaced in binary32 (`PARTICLE_SPACE` is the rounded `1/3`), so
the distance pass applies corrections. -/
theorem C14_single_step_float_counterexample :
    ∃ s0 s1 : ParticleSystem Binary32,
      Initialise32 4 scenarioState32 = .ok s0 ∧ TimeStep32 4 s0 = .ok s1 ∧
      s0.m_pos[1]? = some ⟨Binary32.scaled (-5592405) (-25), ⟨0⟩, Binary32.scaled (-1) (-1)⟩ ∧
      s1.m_pos[1]? = some ⟨Binary32.scaled (-2796203) (-24), Binary32.scaled (-8418135) (-33),
        Binary32.scaled (-1) (-1)⟩ ∧
      List.zipWith (fun (p q : Vec3 Binary32) => decide (p.x ≠ q.x ∨ p.z ≠ q.z))
          s0.m_pos s1.m_pos =
        [false, true, false, false, true, true, true, true, false, true, true, false, false,
          true, false, false] ∧
      s1.m_pos.map (fun q => Binary32.lt
          (Binary32.length (Binary32.vsub ⟨⟨0⟩, Binary32.scaled (-3) (-3), ⟨0⟩⟩ q))
          (Binary32.scaled 3 (-3))) = List.replicate 16 false ∧
      SPHERE_POSITION32 4 = .ok ⟨⟨0⟩, Binary32.scaled (-3) (-3), ⟨0⟩⟩ ∧
      EDGE_CORRECTION32 4 = .ok (Binary32.scaled 5033165 (-26)) ∧
      Binary32.add SPHERE_RADIUS32 (Binary32.scaled 5033165 (-26)) = Binary32.scaled 3 (-3) :=
  ⟨scenarioInit32, scenarioRun32 7, scenario32_init, scenario32_step, by decide!, by decide!,
    by decide!, by decide!, by decide!, by decide!, by decide!⟩

/-- C22: for every well-formed state, `AccumulateForces` completes and overwrites the
whole acceleration array with the gravity vector; the rest of `TimeStep` does not touch
that array, so in the state a step returns every particle's acceleration is the gravity
vector; and the step does not depend on the accelerations before it: replacing them by
any other array of the same size gives the same outcome. -/
theorem C22_acceleration_overwritten (sqrt : F → F) {N : Nat} (s : ParticleSystem F)
    (hwf : WellFormed N s) :
    AccumulateForces N s =
      .ok { s with m_acc := List.replicate (NUM_PARTICLES N) s.m_gravity } ∧
    (∀ s', TimeStep sqrt N s = .ok s' →
      s'.m_acc = List.replicate (NUM_PARTICLES N) s.m_gravity ∧
      s'.m_acc.length = NUM_PARTICLES N ∧
      ∀ i, i < NUM_PARTICLES N → s'.m_acc[i]? = some s.m_gravity) ∧
    (∀ acc : List (Vec3 F), acc.length = NUM_PARTICLES N →
      TimeStep sqrt N { s with m_acc := acc } = TimeStep sqrt N s) := by
  refine ⟨AccumulateForces_eq s hwf.2.2.1, ?_, ?_⟩
  · intro s' h
    obtain ⟨s1, h1, _, _, h4, _⟩ := integrate_spec s hwf
    rw [TimeStep_eq, h1, ok_bind] at h
    have hacc : s'.m_acc = List.replicate (NUM_PARTICLES N) s.m_gravity := by
      rw [(SatisfyConstraints_frame sqrt N h).2.2.1, h4]
    refine ⟨hacc, by rw [hacc, List.length_replicate], ?_⟩
    intro i hi
    rw [hacc, List.getElem?_replicate, if_pos hi]
  · intro acc hacc
    rw [TimeStep_eq, TimeStep_eq, AccumulateForces_eq s hwf.2.2.1,
      AccumulateForces_eq { s with m_acc := acc } hacc]

/-- Witness for C22 over the reals, grid size 2: the rest state with gravity `(0, -2, 0)`
whose accelerations are all `(1, 1, 1)` before the step; the step completes and leaves
every acceleration at `(0, -2, 0)`. -/
theorem C22_acceleration_overwritten_witness :
    WellFormed 2 ({ restState Real.sqrt 2 (spacing 2) ⟨0, -2, 0⟩ (2 / 1000) with
      m_acc := List.replicate 4 ⟨1, 1, 1⟩ } : ParticleSystem ℝ) ∧
    ∃ s', TimeStep Real.sqrt 2 ({ restState Real.sqrt 2 (spacing 2) ⟨0, -2, 0⟩ (2 / 1000) with
        m_acc := List.replicate 4 ⟨1, 1, 1⟩ } : ParticleSystem ℝ) = .ok s' ∧
      s'.m_acc = List.replicate 4 ⟨0, -2, 0⟩ := by
  have hwf0 : WellFormed 2 (restState Real.sqrt 2 (spacing 2) ⟨0, -2, 0⟩ (2 / 1000) :
      ParticleSystem ℝ) := restState_wellFormed Real.sqrt (le_refl 2) _ _ _
  have hwf : WellFormed 2 ({ restState Real.sqrt 2 (spacing 2) ⟨0, -2, 0⟩ (2 / 1000) with
      m_acc := List.replicate 4 ⟨1, 1, 1⟩ } : ParticleSystem ℝ) :=
    ⟨hwf0.1, hwf0.2.1, rfl, hwf0.2.2.2⟩
  have hrun : TimeStep Real.sqrt 2 ({ restState Real.sqrt 2 (spacing 2) ⟨0, -2, 0⟩ (2 / 1000)
      with m_acc := List.replicate 4 ⟨1, 1, 1⟩ } : ParticleSystem ℝ) =
      .ok (afterFirstStep Real.sqrt 2) := by
    have h := (C22_acceleration_overwritten Real.sqrt
      (restState Real.sqrt 2 (spacing 2) ⟨0, -2, 0⟩ (2 / 1000)) hwf0).2.2
      (List.replicate 4 ⟨1, 1, 1⟩) rfl
    rw [h]
    exact TimeStep_fresh_two Real.sqrt exactSqrt_real
  exact ⟨hwf, _, hrun,
    ((C22_acceleration_overwritten Real.sqrt _ hwf).2.1 _ hrun).1⟩

/-- C23: `TimeStep` changes only the position, previous-position and acceleration arrays.
For every well-formed state in which it completes, the constraint list (indices and rest
lengths), the anchor index `m_constraintParticle`, the anchor position
`m_constraintPosition`, the gravity vector and the stored time step are the same after
the step as before, and the three arrays keep their sizes. -/
theorem C23_time_step_frame (sqrt : F → F) {N : Nat} (s s' : ParticleSystem F)
    (hwf : WellFormed N s) (h : TimeStep sqrt N s = .ok s') :
    s'.m_constraints = s.m_constraints ∧
    s'.m_constraintParticle = s.m_constraintParticle ∧
    s'.m_constraintPosition = s.m_constraintPosition ∧
    s'.m_gravity = s.m_gravity ∧ s'.m_timeStep = s.m_timeStep ∧
    s' = { s with m_pos := s'.m_pos, m_oldPos := s'.m_oldPos, m_acc := s'.m_acc } ∧
    WellFormed N s' := by
  obtain ⟨s1, h1, _, _, _, h5, h6, h7, h8, h9, _⟩ := integrate_spec s hwf
  have hwf' := TimeStep_wellFormed sqrt hwf h
  rw [TimeStep_eq, h1, ok_bind] at h
  obtain ⟨_, _, _, f4, f5, f6, f7, f8⟩ := SatisfyConstraints_frame sqrt N h
  have e4 := f4.trans h5
  have e5 := f5.trans h6
  have e6 := f6.trans h7
  have e7 := f7.trans h8
  have e8 := f8.trans h9
  refine ⟨e4, e5, e6, e7, e8, ?_, hwf'⟩
  cases s'
  cases s
  simp only at e4 e5 e6 e7 e8
  simp only [ParticleSystem.mk.injEq]
  exact ⟨trivial, trivial, trivial, e4, e5, e6, e7, e8⟩

/-- Witness for C23 over the reals: the first step of the freshly constructed object of
grid size 2, which completes. -/
theorem C23_time_step_frame_witness :
    (WellFormed 2 (restState Real.sqrt 2 (spacing 2) ⟨0, -2, 0⟩ (2 / 1000) : ParticleSystem ℝ) ∧
      TimeStep Real.sqrt 2 (restState Real.sqrt 2 (spacing 2) ⟨0, -2, 0⟩ (2 / 1000)) =
        .ok (afterFirstStep Real.sqrt 2)) ∧
    (afterFirstStep Real.sqrt 2).m_constraints =
      (restState Real.sqrt 2 (spacing 2) ⟨0, -2, 0⟩ (2 / 1000) : ParticleSystem ℝ).m_constraints ∧
    (afterFirstStep Real.sqrt 2).m_gravity = (⟨0, -2, 0⟩ : Vec3 ℝ) ∧
    (afterFirstStep Real.sqrt 2).m_timeStep = (2 / 1000 : ℝ) := by
  have hwf := restState_wellFormed Real.sqrt (le_refl 2) (spacing 2 : ℝ) ⟨0, -2, 0⟩ (2 / 1000)
  have hrun := TimeStep_fresh_two Real.sqrt exactSqrt_real
  have h := C23_time_step_frame Real.sqrt _ _ hwf hrun
  exact ⟨⟨hwf, hrun⟩, h.1, h.2.2.2.1, h.2.2.2.2.1⟩


/-- C26: for every row and column in `[0, N)`, every subscript of the position array that
`FillVertexBuffer` evaluates for that vertex (`p`, `p-1`, `p+1`, `p-N`, `p+N` under their
boundary guards) lies in `[0, N*N)`.  Hence on a position array of `N*N` entries each of
these reads succeeds, the loop body completes, and when it completes on any array it has
performed all of these reads; for `N ≥ 2` the whole of `FillVertexBuffer` completes with
`S_OK`, so the out-of-range branch of the subscripts is never taken. -/
theorem C26_vertex_reads_in_range (normalize : Vec3 F → Vec3 F) {N : Nat} (row column : Nat)
    (hr : row < N) (hc : column < N) :
    (∀ i ∈ vertexReads N row column, 0 ≤ i ∧ i < (N : Int) * (N : Int)) ∧
    (∀ pos : List (Vec3 F), pos.length = NUM_PARTICLES N →
      ∀ i ∈ vertexReads N row column, ∃ p, readAt pos i = .ok p) ∧
    (∀ (ts : F) (pos : List (Vec3 F)) (buf : List (CLOTH_VERTEX F)),
      pos.length = NUM_PARTICLES N → buf.length = NUM_PARTICLES N →
      ∃ buf', fillVertex normalize N ts pos row column buf = .ok buf') ∧
    (∀ (ts : F) (pos : List (Vec3 F)) (buf buf' : List (CLOTH_VERTEX F)),
      fillVertex normalize N ts pos row column buf = .ok buf' →
      ∀ i ∈ vertexReads N row column, ∃ p, readAt pos i = .ok p) ∧
    (2 ≤ N → ∀ (s : ParticleSystem F) (pBuffer : List (CLOTH_VERTEX F)),
      s.m_pos.length = NUM_PARTICLES N → pBuffer.length = NUM_PARTICLES N →
      ∃ buf, FillVertexBuffer normalize N s (some pBuffer) = .ok (HRESULT.S_OK, some buf)) := by
  refine ⟨vertexReads_range hr hc, ?_, ?_, ?_, ?_⟩
  · intro pos hpos i hi
    obtain ⟨h0, h1⟩ := vertexReads_range hr hc i hi
    have hlt : i.toNat < pos.length := by
      rw [hpos]
      unfold NUM_PARTICLES
      have : ((i.toNat : Nat) : Int) < ((N * N : Nat) : Int) := by
        rw [Int.toNat_of_nonneg h0]; push_cast; exact h1
      exact_mod_cast this
    exact ⟨_, readAt_getD (Int.toNat_of_nonneg h0).symm hlt⟩
  · intro ts pos buf hpos hbuf
    exact ⟨_, fillVertex_eq normalize ts pos buf hr hc hpos hbuf⟩
  · intro ts pos buf buf' h
    exact fillVertex_reads normalize N ts pos row column buf buf' h
  · intro hN s pBuffer hpos hbuf
    exact ⟨_, FillVertexBuffer_eq normalize hN s pBuffer hpos hbuf⟩

/-- Witness for C26: the interior vertex `(1, 1)` of the grid of size 3, whose thirteen
reads are the subscripts `4, 1, 3, 4, 5, 1, 4, 3, 7, 4, 7, 5, 4`. -/
theorem C26_vertex_reads_in_range_witness :
    (1 < 3 ∧ vertexReads 3 1 1 = [4, 1, 3, 4, 5, 1, 4, 3, 7, 4, 7, 5, 4]) ∧
    ∀ i ∈ vertexReads 3 1 1, 0 ≤ i ∧ i < (3 : Int) * (3 : Int) :=
  ⟨⟨by decide, by decide⟩,
    (C26_vertex_reads_in_range (F := ℚ) id 1 1 (by decide) (by decide)).1⟩


/-- C24: on the flat grid produced by `Initialise` (grid size at least 2, exact square
root and exact `D3DXVec3Normalize`), `FillVertexBuffer` completes and the normal it writes
for every vertex, interior, edge or corner, is exactly `(0, 1, 0)`; and each face formula
that applies at a vertex (each face of `vertexFaces`) yields `(0, 1, 0)` on that grid. -/
theorem C24_flat_normals (sqrt : F → F) (normalize : Vec3 F → Vec3 F) (hs : ExactSqrt sqrt)
    (hn : ExactNormalize sqrt normalize) {N : Nat} (hN : 2 ≤ N) (s : ParticleSystem F)
    (hwf : WellFormed N s) (pBuffer : List (CLOTH_VERTEX F))
    (hbuf : pBuffer.length = NUM_PARTICLES N) :
    ∃ s' buf, Initialise sqrt N s = .ok s' ∧
      FillVertexBuffer normalize N s' (some pBuffer) = .ok (HRESULT.S_OK, some buf) ∧
      ∀ row column : Nat, row < N → column < N →
        (∃ v, buf[row * N + column]? = some v ∧ v.n = ⟨0, 1, 0⟩) ∧
        (∀ f ∈ vertexFaces N row column, ∃ a b c, s'.m_pos[f.1]? = some a ∧
          s'.m_pos[f.2.1]? = some b ∧ s'.m_pos[f.2.2]? = some c ∧
          GetFaceNormal normalize a b c = ⟨0, 1, 0⟩) := by
  have hlen : (restState sqrt N (spacing N) s.m_gravity s.m_timeStep).m_pos.length = N * N :=
    length_restPositions N _
  refine ⟨_, _, Initialise_eq sqrt hN s hwf,
    FillVertexBuffer_eq normalize hN _ pBuffer hlen hbuf, ?_⟩
  intro row column hr hc
  refine ⟨⟨_, vertexBuffer_getElem? normalize _ _ hr hc, ?_⟩, ?_⟩
  · exact flat_vertex_normal sqrt normalize hs hn hN (spacing_pos hN) hr hc
  · intro f hf
    obtain ⟨l1, l2, l3⟩ := vertexFaces_lt hr hc f hf
    exact ⟨_, _, _, getElem?_some_getD (by rw [hlen]; exact l1),
      getElem?_some_getD (by rw [hlen]; exact l2), getElem?_some_getD (by rw [hlen]; exact l3),
      flat_face_mem sqrt normalize hs hn (spacing_pos hN) hr hc f hf⟩

/-- Witness for C24 over the reals, grid size 2, with the exact `D3DXVec3Normalize`: the
four vertices, all corners, get the normal `(0, 1, 0)`. -/
theorem C24_flat_normals_witness :
    (ExactSqrt Real.sqrt ∧ ExactNormalize Real.sqrt (D3DXVec3Normalize Real.sqrt) ∧ 2 ≤ 2 ∧
      WellFormed 2 (blankState 2 : ParticleSystem ℝ) ∧
      (List.replicate 4 (⟨0, 0, 0, 0⟩ : CLOTH_VERTEX ℝ)).length = NUM_PARTICLES 2) ∧
    ∃ s' buf, Initialise Real.sqrt 2 (blankState 2 : ParticleSystem ℝ) = .ok s' ∧
      FillVertexBuffer (D3DXVec3Normalize Real.sqrt) 2 s'
        (some (List.replicate 4 ⟨0, 0, 0, 0⟩)) = .ok (HRESULT.S_OK, some buf) ∧
      ∀ i, i < 4 → ∃ v, buf[i]? = some v ∧ v.n = ⟨0, 1, 0⟩ := by
  obtain ⟨s', buf, h1, h2, h3⟩ := C24_flat_normals Real.sqrt (D3DXVec3Normalize Real.sqrt)
    exactSqrt_real (exactNormalize_self Real.sqrt) (le_refl 2) (blankState 2)
    (blankState_wellFormed (le_refl 2)) (List.replicate 4 ⟨0, 0, 0, 0⟩) rfl
  refine ⟨⟨exactSqrt_real, exactNormalize_self Real.sqrt, le_refl 2,
    blankState_wellFormed (le_refl 2), rfl⟩, s', buf, h1, h2, ?_⟩
  intro i hi
  have h := (h3 (i / 2) (i % 2) (by omega) (Nat.mod_lt _ (by decide))).1
  rwa [Nat.div_add_mod' i 2] at h


/-- C21, counterexample: on the flat grid that `Initialise` produces for grid size 2
(exact square root and normalisation), the first triangle `FillIndexBuffer` emits has the
indices `0, 1, 2`; `GetFaceNormal` applied to the positions of these particles in that
order is `(0, -1, 0)`, while the vertex normal `FillVertexBuffer` writes for vertex 0 is
`(0, 1, 0)`: the two are opposite, not equal. -/
theorem C21_winding_counterexample :
    ∃ s' ibuf vbuf a b c v,
      Initialise Real.sqrt 2 (blankState 2 : ParticleSystem ℝ) = .ok s' ∧
      FillIndexBuffer 2 (some (List.replicate 6 0)) = .ok (HRESULT.S_OK, some ibuf) ∧
      FillVertexBuffer (D3DXVec3Normalize Real.sqrt) 2 s'
        (some (List.replicate 4 ⟨0, 0, 0, 0⟩)) = .ok (HRESULT.S_OK, some vbuf) ∧
      ibuf[0]? = some 0 ∧ ibuf[1]? = some 1 ∧ ibuf[2]? = some 2 ∧
      s'.m_pos[0]? = some a ∧ s'.m_pos[1]? = some b ∧ s'.m_pos[2]? = some c ∧
      vbuf[0]? = some v ∧
      GetFaceNormal (D3DXVec3Normalize Real.sqrt) a b c = ⟨0, -1, 0⟩ ∧
      v.n = ⟨0, 1, 0⟩ ∧
      GetFaceNormal (D3DXVec3Normalize Real.sqrt) a b c ≠ v.n := by
  have hN : 2 ≤ 2 := le_refl 2
  have hn := exactNormalize_self Real.sqrt
  have hps : (0 : ℝ) < spacing 2 := spacing_pos hN
  have hlen : (restState Real.sqrt 2 (spacing 2) (blankState 2 : ParticleSystem ℝ).m_gravity
      (blankState 2 : ParticleSystem ℝ).m_timeStep).m_pos.length = 2 * 2 :=
    length_restPositions 2 _
  obtain ⟨g0, g1, g2, _⟩ := indexList_cell_entries 2 (by decide : 0 < 2 - 1)
    (by decide : 0 < 2 - 1)
  have ht := (flat_triangles Real.sqrt _ exactSqrt_real hn hps (by decide : 0 < 2 - 1)
    (by decide : 0 < 2 - 1)).1
  have hv := flat_vertex_normal Real.sqrt _ exactSqrt_real hn hN hps (by decide : 0 < 2)
    (by decide : 0 < 2)
  refine ⟨_, _, _, _, _, _, _, Initialise_eq Real.sqrt hN _ (blankState_wellFormed hN),
    FillIndexBuffer_eq (by decide) _ (by decide),
    FillVertexBuffer_eq _ hN _ _ hlen rfl, g0, g1, g2,
    getElem?_some_getD (by rw [hlen]; decide), getElem?_some_getD (by rw [hlen]; decide),
    getElem?_some_getD (by rw [hlen]; decide),
    vertexBuffer_getElem? _ _ _ (by decide : 0 < 2) (by decide : 0 < 2), ht, hv, ?_⟩
  intro h
  have h' : GetFaceNormal (D3DXVec3Normalize Real.sqrt)
      ((restPositions 2 (spacing 2 : ℝ))[0 * 2 + 0]?.getD 0)
      ((restPositions 2 (spacing 2 : ℝ))[0 * 2 + 0 + 1]?.getD 0)
      ((restPositions 2 (spacing 2 : ℝ))[0 * 2 + 0 + 2]?.getD 0) = ⟨0, 1, 0⟩ := h.trans hv
  rw [ht] at h'
  have hy := congrArg Vec3.y h'
  norm_num at hy

/-- C21, amended: the winding of the index buffer is opposite to that of the normal
computation.  For every cell, triangle 1 `(i, j, k)` has the vertices of the lower-right
face `(i, k, j)` summed at vertex `i`, and triangle 2 `(k, j, l)` those of the upper-left
face `(l, j, k)` summed at vertex `l`, each with two vertices exchanged; such an exchange
negates the cross product formed by `GetFaceNormal`, and, for exact normalisation of a
triangle that is not degenerate, the normal it returns.  On the flat grid produced by
`Initialise`, `GetFaceNormal` applied to the positions of the vertices of every emitted
triangle in emitted order is `(0, -1, 0)`, the opposite of the vertex normal `(0, 1, 0)`
written for each of the triangle's vertices. -/
theorem C21_winding_opposite (sqrt : F → F) (normalize : Vec3 F → Vec3 F) (hs : ExactSqrt sqrt)
    (hn : ExactNormalize sqrt normalize) {N : Nat} (hN : 2 ≤ N) (s : ParticleSystem F)
    (hwf : WellFormed N s) (pIB : List Int) (hIB : (pIB.length : Int) = NUM_INDICES N)
    (pVB : List (CLOTH_VERTEX F)) (hVB : pVB.length = NUM_PARTICLES N) :
    ∃ s' ibuf vbuf, Initialise sqrt N s = .ok s' ∧
      FillIndexBuffer N (some pIB) = .ok (HRESULT.S_OK, some ibuf) ∧
      FillVertexBuffer normalize N s' (some pVB) = .ok (HRESULT.S_OK, some vbuf) ∧
      (∀ row column : Nat, row < N - 1 → column < N - 1 →
        ∃ i j k l : Nat,
          ibuf[6 * (row * (N - 1) + column)]? = some (i : Int) ∧
          ibuf[6 * (row * (N - 1) + column) + 1]? = some (j : Int) ∧
          ibuf[6 * (row * (N - 1) + column) + 2]? = some (k : Int) ∧
          ibuf[6 * (row * (N - 1) + column) + 3]? = some (k : Int) ∧
          ibuf[6 * (row * (N - 1) + column) + 4]? = some (j : Int) ∧
          ibuf[6 * (row * (N - 1) + column) + 5]? = some (l : Int) ∧
          (i, k, j) ∈ vertexFaces N row column ∧
          (l, j, k) ∈ vertexFaces N (row + 1) (column + 1)) ∧
      (∀ a b c : Vec3 F,
        D3DXVec3Cross (b - a) (c - b) = (D3DXVec3Cross (c - a) (b - c)).scale (-1) ∧
        D3DXVec3Cross (b - a) (c - b) = (D3DXVec3Cross (b - c) (a - b)).scale (-1) ∧
        (D3DXVec3Cross (b - a) (c - b) ≠ 0 →
          GetFaceNormal normalize a b c = (GetFaceNormal normalize a c b).scale (-1) ∧
          GetFaceNormal normalize a b c = (GetFaceNormal normalize c b a).scale (-1))) ∧
      (∀ t, t < 2 * (N - 1) ^ 2 → ∃ i j k a b c,
        ibuf[3 * t]? = some i ∧ ibuf[3 * t + 1]? = some j ∧ ibuf[3 * t + 2]? = some k ∧
        readAt s'.m_pos i = .ok a ∧ readAt s'.m_pos j = .ok b ∧ readAt s'.m_pos k = .ok c ∧
        GetFaceNormal normalize a b c = ⟨0, -1, 0⟩ ∧
        ∀ m ∈ [i, j, k], ∃ v, readAt vbuf m = .ok v ∧ v.n = ⟨0, 1, 0⟩) := by
  have hps : (0 : F) < spacing N := spacing_pos hN
  have hlen : (restState sqrt N (spacing N) s.m_gravity s.m_timeStep).m_pos.length = N * N :=
    length_restPositions N _
  refine ⟨_, _, _, Initialise_eq sqrt hN s hwf, FillIndexBuffer_eq (by omega) pIB hIB,
    FillVertexBuffer_eq normalize hN _ pVB hlen hVB, ?_, ?_, ?_⟩
  · intro row column hr hc
    obtain ⟨g0, g1, g2, g3, g4, g5⟩ := indexList_cell_entries N hr hc
    obtain ⟨m1, m2⟩ := cell_faces hr hc
    exact ⟨_, _, _, _, g0, g1, g2, g3, g4, g5, m1, m2⟩
  · intro a b c
    exact ⟨cross_swap_last a b c, cross_swap_ends a b c,
      GetFaceNormal_swap sqrt normalize hn a b c⟩
  · intro t ht
    have hN1 : 0 < N - 1 := by omega
    have hsq : (N - 1) ^ 2 = (N - 1) * (N - 1) := by ring
    rw [hsq] at ht
    obtain ⟨cell, e, he, rfl⟩ : ∃ cell e, e < 2 ∧ t = 2 * cell + e :=
      ⟨t / 2, t % 2, Nat.mod_lt _ (by decide), (Nat.div_add_mod t 2).symm⟩
    have hcell : cell < (N - 1) * (N - 1) := by omega
    have hr : cell / (N - 1) < N - 1 := Nat.div_lt_of_lt_mul hcell
    have hc : cell % (N - 1) < N - 1 := Nat.mod_lt _ hN1
    have hce : cell / (N - 1) * (N - 1) + cell % (N - 1) = cell := by
      rw [Nat.mul_comm]
      exact Nat.div_add_mod cell (N - 1)
    obtain ⟨g0, g1, g2, g3, g4, g5⟩ := indexList_cell_entries N hr hc
    rw [hce] at g0 g1 g2 g3 g4 g5
    obtain ⟨b0, b1, b2, b3⟩ := cell_corners_lt hr hc
    obtain ⟨t1, t2⟩ := flat_triangles sqrt normalize hs hn hps hr hc
    have hr0 : cell / (N - 1) < N := by omega
    have hr1 : cell / (N - 1) + 1 < N := by omega
    have hc0 : cell % (N - 1) < N := by omega
    have hc1 : cell % (N - 1) + 1 < N := by omega
    have e1 : cell / (N - 1) * N + cell % (N - 1) + 1 =
        cell / (N - 1) * N + (cell % (N - 1) + 1) := by ring
    have e2 : cell / (N - 1) * N + cell % (N - 1) + N =
        (cell / (N - 1) + 1) * N + cell % (N - 1) := by ring
    have e3 : cell / (N - 1) * N + cell % (N - 1) + N + 1 =
        (cell / (N - 1) + 1) * N + (cell % (N - 1) + 1) := by ring
    have v0 := fun m hm => flat_vertex_read sqrt normalize hs hn hN hps (spacing N) hr0 hc0
      (m := m) hm
    have v1 := fun m hm => flat_vertex_read sqrt normalize hs hn hN hps (spacing N) hr0 hc1
      (m := m) hm
    have v2 := fun m hm => flat_vertex_read sqrt normalize hs hn hN hps (spacing N) hr1 hc0
      (m := m) hm
    have v3 := fun m hm => flat_vertex_read sqrt normalize hs hn hN hps (spacing N) hr1 hc1
      (m := m) hm
    have he' : e = 0 ∨ e = 1 := by omega
    rcases he' with rfl | rfl
    · refine ⟨_, _, _, _, _, _,
        by rw [show 3 * (2 * cell + 0) = 6 * cell by ring]; exact g0,
        by rw [show 3 * (2 * cell + 0) + 1 = 6 * cell + 1 by ring]; exact g1,
        by rw [show 3 * (2 * cell + 0) + 2 = 6 * cell + 2 by ring]; exact g2,
        readAt_getD rfl (by rw [hlen]; exact b0), readAt_getD rfl (by rw [hlen]; exact b1),
        readAt_getD rfl (by rw [hlen]; exact b2), t1, ?_⟩
      intro m hm
      simp only [List.mem_cons, List.mem_singleton, List.not_mem_nil, or_false] at hm
      rcases hm with rfl | rfl | rfl
      · exact v0 _ rfl
      · exact v1 _ (by rw [e1])
      · exact v2 _ (by rw [e2])
    · refine ⟨_, _, _, _, _, _,
        by rw [show 3 * (2 * cell + 1) = 6 * cell + 3 by ring]; exact g3,
        by rw [show 3 * (2 * cell + 1) + 1 = 6 * cell + 4 by ring]; exact g4,
        by rw [show 3 * (2 * cell + 1) + 2 = 6 * cell + 5 by ring]; exact g5,
        readAt_getD rfl (by rw [hlen]; exact b2), readAt_getD rfl (by rw [hlen]; exact b1),
        readAt_getD rfl (by rw [hlen]; exact b3), t2, ?_⟩
      intro m hm
      simp only [List.mem_cons, List.mem_singleton, List.not_mem_nil, or_false] at hm
      rcases hm with rfl | rfl | rfl
      · exact v2 _ (by rw [e2])
      · exact v1 _ (by rw [e1])
      · exact v3 _ (by rw [e3])

/-- Witness for C21 (amended) over the reals, grid size 2: both emitted triangles have the
normal `(0, -1, 0)` in emitted order. -/
theorem C21_winding_opposite_witness :
    (ExactSqrt Real.sqrt ∧ ExactNormalize Real.sqrt (D3DXVec3Normalize Real.sqrt) ∧ 2 ≤ 2 ∧
      WellFormed 2 (blankState 2 : ParticleSystem ℝ) ∧
      ((List.replicate 6 (0 : Int)).length : Int) = NUM_INDICES 2 ∧
      (List.replicate 4 (⟨0, 0, 0, 0⟩ : CLOTH_VERTEX ℝ)).length = NUM_PARTICLES 2) ∧
    ∃ s' ibuf, Initialise Real.sqrt 2 (blankState 2 : ParticleSystem ℝ) = .ok s' ∧
      FillIndexBuffer 2 (some (List.replicate 6 0)) = .ok (HRESULT.S_OK, some ibuf) ∧
      ∀ t, t < 2 → ∃ i j k a b c,
        ibuf[3 * t]? = some i ∧ ibuf[3 * t + 1]? = some j ∧ ibuf[3 * t + 2]? = some k ∧
        readAt s'.m_pos i = .ok a ∧ readAt s'.m_pos j = .ok b ∧ readAt s'.m_pos k = .ok c ∧
        GetFaceNormal (D3DXVec3Normalize Real.sqrt) a b c = ⟨0, -1, 0⟩ := by
  obtain ⟨s', ibuf, vbuf, h1, h2, _, _, _, h5⟩ :=
    C21_winding_opposite Real.sqrt (D3DXVec3Normalize Real.sqrt) exactSqrt_real
      (exactNormalize_self Real.sqrt) (le_refl 2) (blankState 2)
      (blankState_wellFormed (le_refl 2)) (List.replicate 6 0) (by decide)
      (List.replicate 4 ⟨0, 0, 0, 0⟩) rfl
  refine ⟨⟨exactSqrt_real, exactNormalize_self Real.sqrt, le_refl 2,
    blankState_wellFormed (le_refl 2), by decide, rfl⟩, s', ibuf, h1, h2, ?_⟩
  intro t ht
  obtain ⟨i, j, k, a, b, c, e1, e2, e3, e4, e5, e6, e7, _⟩ := h5 t (by simpa using ht)
  exact ⟨i, j, k, a, b, c, e1, e2, e3, e4, e5, e6, e7⟩


/-- C25, counterexample: in `collapseState`, a well-formed object with the constraints of
`Initialise` for grid size 2, no constrained pair has length 0; yet the distance pass
moves particle 0 onto particle 2 and then divides by the length 0 of the pair `(0, 2)`,
so it yields no state whose positions have the sum they had before. -/
theorem C25_centre_of_mass_counterexample :
    WellFormed 2 (collapseState Real.sqrt) ∧
    (collapseState Real.sqrt).m_constraints = constraintList Real.sqrt 2 (spacing 2) ∧
    (∀ c ∈ (collapseState Real.sqrt).m_constraints, ∃ a b,
      readAt (collapseState Real.sqrt).m_pos c.particleA = .ok a ∧
      readAt (collapseState Real.sqrt).m_pos c.particleB = .ok b ∧
      D3DXVec3Length Real.sqrt (b - a) ≠ 0) ∧
    satisfyDistances Real.sqrt 2 (collapseState Real.sqrt) = .error .divByZero ∧
    ¬ ∃ s', satisfyDistances Real.sqrt 2 (collapseState Real.sqrt) = .ok s' ∧
      sumPositions s'.m_pos = sumPositions (collapseState Real.sqrt).m_pos := by
  have hwf : WellFormed 2 (collapseState Real.sqrt) := by
    refine ⟨rfl, rfl, rfl, ?_⟩
    simp [collapseState, NUM_CONSTRAINTS]
  have hsp : (spacing 2 : ℝ) = 1 := by simp [spacing]
  have hcs : (collapseState Real.sqrt).m_constraints =
      constraintList Real.sqrt 2 (spacing 2) := by
    rw [hsp]
    simp [collapseState, constraintList, nest, structuralRowConstraint,
      structuralColumnConstraint, shearConstraint, bendRowConstraint, bendColumnConstraint,
      List.range', List.flatMap]
  have herr := satisfyDistances_collapse Real.sqrt exactSqrt_real
  have hne : ∀ {a b : Vec3 ℝ}, a.x ≠ b.x → D3DXVec3Length Real.sqrt (b - a) ≠ 0 :=
    fun h h0 => h (congrArg Vec3.x ((length_eq_zero Real.sqrt exactSqrt_real _ _).1 h0))
  refine ⟨hwf, hcs, ?_, herr, ?_⟩
  · intro c hc
    simp only [collapseState, List.mem_cons, List.mem_singleton, List.not_mem_nil,
      or_false] at hc
    rcases hc with rfl | rfl | rfl | rfl | rfl
    · exact ⟨⟨0, 0, 0⟩, ⟨4, 0, 0⟩, rfl, rfl, hne (by norm_num)⟩
    · exact ⟨⟨3 / 2, 0, 0⟩, ⟨5 / 2, 0, 0⟩, rfl, rfl, hne (by norm_num)⟩
    · exact ⟨⟨0, 0, 0⟩, ⟨3 / 2, 0, 0⟩, rfl, rfl, hne (by norm_num)⟩
    · exact ⟨⟨4, 0, 0⟩, ⟨5 / 2, 0, 0⟩, rfl, rfl, hne (by norm_num)⟩
    · exact ⟨⟨4, 0, 0⟩, ⟨3 / 2, 0, 0⟩, rfl, rfl, hne (by norm_num)⟩
  · rintro ⟨s', h, _⟩
    rw [herr] at h
    cases h

/-- C25, amended: the distance pass conserves the centre of mass whenever it completes.
With an exact square root, for every state on which the pass over all distance
constraints performs no division by zero (no constrained pair has length 0 at the moment
it is processed) the sum of all particle positions after the pass, before the sphere
pass, equals the sum before it; and the correction of a single constraint whose pair has
non-zero length completes and conserves that sum. -/
theorem C25_centre_of_mass (sqrt : F → F) (hs : ExactSqrt sqrt) (N : Nat)
    (s : ParticleSystem F) :
    (∀ s', satisfyDistances sqrt N s = .ok s' →
      sumPositions s'.m_pos = sumPositions s.m_pos ∧ s'.m_pos.length = s.m_pos.length) ∧
    (∀ (c : ClothConstraint F) (pos : List (Vec3 F)) (a b : Vec3 F),
      readAt pos c.particleA = .ok a → readAt pos c.particleB = .ok b →
      D3DXVec3Length sqrt (b - a) ≠ 0 →
      ∃ pos', relaxConstraint sqrt c pos = .ok pos' ∧
        sumPositions pos' = sumPositions pos) := by
  refine ⟨fun s' h => ⟨satisfyDistances_sum sqrt hs N h, (satisfyDistances_frame sqrt N h).1⟩,
    ?_⟩
  intro c pos a b ha hb hL
  obtain ⟨hA0, ha'⟩ := readAt_ok_iff.1 ha
  obtain ⟨hB0, hb'⟩ := readAt_ok_iff.1 hb
  have hA : c.particleA = ((c.particleA.toNat : Nat) : Int) := (Int.toNat_of_nonneg hA0).symm
  have hB : c.particleB = ((c.particleB.toNat : Nat) : Int) := (Int.toNat_of_nonneg hB0).symm
  have h := relaxConstraint_eq sqrt c pos hA hB ha' hb'
  rw [if_neg hL] at h
  exact ⟨_, h, relaxConstraint_sum sqrt hs h⟩

/-- Witness for C25 (amended) over the reals: on `shearedState` the distance pass
completes, correcting the pair `(1, 2)` of length `6/5` towards the rest length `√2`, and
the sum of the positions is the same afterwards. -/
theorem C25_centre_of_mass_witness :
    (ExactSqrt Real.sqrt ∧ WellFormed 2 (shearedState Real.sqrt) ∧
      D3DXVec3Length Real.sqrt ((⟨7 / 25, 0, 24 / 25⟩ : Vec3 ℝ) - ⟨1, 0, 0⟩) = 6 / 5 ∧
      (6 / 5 : ℝ) ≠ Real.sqrt (1 * 1 + 1 * 1)) ∧
    ∃ s', satisfyDistances Real.sqrt 2 (shearedState Real.sqrt) = .ok s' ∧
      sumPositions s'.m_pos = sumPositions (shearedState Real.sqrt).m_pos := by
  have hwf : WellFormed 2 (shearedState Real.sqrt) := by
    refine ⟨rfl, rfl, rfl, ?_⟩
    simp [shearedState, NUM_CONSTRAINTS]
  obtain ⟨h1, h2, s', h3⟩ := satisfyDistances_sheared Real.sqrt exactSqrt_real
  exact ⟨⟨exactSqrt_real, hwf, h1, h2⟩, s', h3,
    ((C25_centre_of_mass Real.sqrt exactSqrt_real 2 (shearedState Real.sqrt)).1 s' h3).1⟩

end Claims

end Cloth
